import Mathlib

/-!
# Distribution of a corner-point grid: index sets, presence maps and renumbered tables

A shallow embedding of `CpGridData::distributeGlobalGrid` and its helper functors
(`src/opm/grid/cpgrid/CpGridData.cpp`).

Conventions of the embedding.

* A C++ `int` is an `Int`.  The counters of the source (`count`, `i_`) and the presence
  indicators are not reduced modulo `2^32`: the source would need more than `2^31` entities or
  incidences before a counter leaves the `int` range, and theorems that depend on the range say
  so through an explicit hypothesis.
* A `std::vector<T>` is a `List T`; `v[i]` with an `int` index is `vecAt v i`, the assignment
  `v[i] = x` is `vecSet v i x`.  An index outside the vector is undefined behaviour in the
  source; the model reads the default value there and makes a write a no-op.
* A `std::set<int>` is a `List Int` kept in increasing order without repetition.
* A `SparseTable<T>` is a `List (List T)`, one inner list per row.
-/

namespace Dune.cpgrid

/-! ## Basic data -/

/-- The value `std::numeric_limits<int>::max()`, used as the mark of a non-existent entity. -/
def INT_MAX : Int := 2147483647

/-- The predicate `std::bind2nd(std::less<int>(), std::numeric_limits<int>::max())` of line
178: the entry of an indicator vector stands for an entity that exists. -/
def isExistent (v : Int) : Bool :=
  decide (v < INT_MAX)

/-- Modelled from the spec: the attribute of an index of the cell index set (the enumeration
`AttributeSet` is declared outside the given sources); the distribution code uses the two
values `owner` and `copy`. -/
inductive AttributeSet where
  | owner
  | copy
  deriving DecidableEq, Repr

/-- The partition types of Dune that the distribution code assigns. -/
inductive PartitionType where
  | InteriorEntity
  | BorderEntity
  | OverlapEntity
  | FrontEntity
  deriving DecidableEq, Repr

/-- An entry of the `ParallelIndexSet`: the global index, the local index and the attribute
(`i->global()`, `i->local()`, `i->local().attribute()`); the three names are
reserved words of Lean, hence the underscores. -/
structure IndexPair where
  global_ : Int
  local_ : Int
  attribute_ : AttributeSet
  deriving DecidableEq, Repr

/-- An `EntityRep<codim>`: an index together with an orientation flag. -/
structure EntityRep where
  index : Int
  orientation : Bool
  deriving DecidableEq, Repr

instance : Inhabited EntityRep := ⟨⟨0, true⟩⟩

/-- The read `v[i]` with an `int` index. -/
def vecAt {α : Type} [Inhabited α] (v : List α) (i : Int) : α :=
  if i < 0 then default else v.getD i.toNat default

/-- The write `v[i] = x` with an `int` index. -/
def vecSet {α : Type} (v : List α) (i : Int) (x : α) : List α :=
  if i < 0 then v else v.set i.toNat x

/-- The call `v.resize(n)` on a vector of `int`: new entries are value-initialised. -/
def resize (v : List Int) (n : Int) : List Int :=
  v.take n.toNat ++ List.replicate (n.toNat - v.length) 0

/-- The call `s.insert(x)` on a `std::set<int>`. -/
def setInsert (x : Int) : List Int → List Int
  | [] => [x]
  | y :: ys => if x < y then x :: y :: ys else if x = y then y :: ys else y :: setInsert x ys

/-- The call `s.insert(first, last)` on a `std::set<int>`. -/
def setInsertRange (s : List Int) (xs : List Int) : List Int :=
  xs.foldl (fun acc x => setInsert x acc) s

/-! ## `CellCounter` and the build loop of the cell index set (lines 539-612) -/

/-- The local functor `CellCounter` of `distributeGlobalGrid`. -/
structure CellCounter where
  myrank : Int
  count : Int
  neighbors : List Int
  indexset : List IndexPair
  global2local : List Int
  deriving Repr

/-- The call `CellCounter::operator()(int i, int rank)`: a cell that is not shared. -/
def CellCounter.call (cc : CellCounter) (i : Int) (rank : Int) : CellCounter :=
  if rank = cc.myrank then
    { cc with
      global2local := cc.global2local ++ [cc.count]
      indexset := cc.indexset ++ [⟨i, cc.count, AttributeSet.owner⟩]
      count := cc.count + 1 }
  else
    { cc with global2local := cc.global2local ++ [INT_MAX] }

/-- The call `CellCounter::operator()(int i, const std::set<int>& ov, int rank)`: a cell that is
present on more than one process. -/
def CellCounter.callShared (cc : CellCounter) (i : Int) (ov : List Int) (rank : Int) :
    CellCounter :=
  if rank = cc.myrank then
    { cc with
      global2local := cc.global2local ++ [cc.count]
      indexset := cc.indexset ++ [⟨i, cc.count, AttributeSet.owner⟩]
      count := cc.count + 1
      neighbors := setInsertRange cc.neighbors ov }
  else if cc.myrank ∈ ov then
    { cc with
      global2local := cc.global2local ++ [cc.count]
      indexset := cc.indexset ++ [⟨i, cc.count, AttributeSet.copy⟩]
      count := cc.count + 1
      neighbors :=
        setInsertRange
          (setInsertRange cc.neighbors (ov.takeWhile (fun r => r != cc.myrank)))
          ((ov.dropWhile (fun r => r != cc.myrank)).drop 1) }
  else
    { cc with global2local := cc.global2local ++ [INT_MAX] }

/-- The loop of lines 603-611: `i` walks `overlap`, `ci` walks `cell_part` in step. -/
def buildLoop : CellCounter → Int → List (List Int) → List Int → CellCounter
  | cc, _, [], _ => cc
  | cc, _, _ :: _, [] => cc
  | cc, i, ov :: os, rank :: cs =>
    buildLoop (if ov.length ≠ 0 then cc.callShared i ov rank else cc.call i rank) (i + 1) os cs

/-- The functor `cell_counter` after the build loop (lines 595-612). -/
def cell_counter (cell_part : List Int) (overlap : List (List Int)) (my_rank : Int) :
    CellCounter :=
  buildLoop ⟨my_rank, 0, [], [], []⟩ 0 overlap cell_part

/-- The frozen `cell_indexset_`.  `endResize` orders the entries by global index; the loop adds
them in increasing global index, so the order of insertion is the order of the set. -/
def cell_indexset (cell_part : List Int) (overlap : List (List Int)) (my_rank : Int) :
    List IndexPair :=
  (cell_counter cell_part overlap my_rank).indexset

/-! ## The global grid read by the distribution -/

/-- The members of the global `CpGridData` (`view_data`) that `distributeGlobalGrid` reads.  The
payloads (geometry of faces and points, face tags, face normals) are not interpreted by the
distribution; their types are parameters.  `geomVector1` and `geomVector3` stand for
`geometry_.geomVector<1>()` and `geometry_.geomVector<3>()`. -/
structure CpGridData (G1 G3 Tag PointType : Type) where
  cell_to_face_ : List (List EntityRep)
  face_to_cell_ : List (List EntityRep)
  face_to_point_ : List (List Int)
  cell_to_point_ : List (List Int)
  geomVector1 : List G1
  geomVector3 : List G3
  face_tag_ : List Tag
  face_normals_ : List PointType
  unique_boundary_ids_ : List Int
  global_cell_ : List Int

variable {G1 G3 Tag PointType : Type}

/-! ## Existing faces and points (lines 663-698) -/

/-- The statement `--v[i]`. -/
def decrAt (v : List Int) (i : Int) : List Int :=
  vecSet v i (vecAt v i - 1)

/-- The inner loop of lines 686-691: every point of one face is decremented.  The source
asserts `*p >= 0`; a negative entry is outside the vector and leaves it unchanged here. -/
def markPoints (point_indicator : List Int) (row : List Int) : List Int :=
  row.foldl decrAt point_indicator

/-- The loop of lines 680-692 over the faces of one cell; the state is the pair
`(face_indicator, point_indicator)`. -/
def markFaces (view_data : CpGridData G1 G3 Tag PointType) (ind : List Int × List Int)
    (row : List EntityRep) : List Int × List Int :=
  row.foldl
    (fun st f => (decrAt st.1 f.index, markPoints st.2 (vecAt view_data.face_to_point_ f.index)))
    ind

/-- The loop of lines 667-693 over the cells of the index set, started from indicators that
hold `INT_MAX` everywhere. -/
def markExistent (view_data : CpGridData G1 G3 Tag PointType) (ixs : List IndexPair) :
    List Int × List Int :=
  ixs.foldl
    (fun st e => markFaces view_data st (vecAt view_data.cell_to_face_ e.global_))
    (List.replicate view_data.geomVector1.length INT_MAX,
     List.replicate view_data.geomVector3.length INT_MAX)

/-- The functor `AssignAndIncrement`: its only member is the counter `i_`. -/
structure AssignAndIncrement where
  i_ : Int
  deriving Repr

/-- The call `AssignAndIncrement::operator()(int& val)`: the new value of `val` and the functor
after the call. -/
def AssignAndIncrement.call (a : AssignAndIncrement) (val : Int) : Int × AssignAndIncrement :=
  if val < INT_MAX then (a.i_, ⟨a.i_ + 1⟩) else (val, a)

/-- The call `std::for_each(first, last, f)` with an `AssignAndIncrement` functor `f`. -/
def forEachAssign : AssignAndIncrement → List Int → List Int
  | _, [] => []
  | a, v :: vs => (a.call v).1 :: forEachAssign (a.call v).2 vs

/-- Lines 697-698: `std::for_each(v.begin(), v.end(), AssignAndIncrement())`. -/
def renumber (indicator : List Int) : List Int :=
  forEachAssign ⟨0⟩ indicator

/-- The `face_indicator` of `distributeGlobalGrid` after line 697. -/
def face_indicator (view_data : CpGridData G1 G3 Tag PointType) (ixs : List IndexPair) :
    List Int :=
  renumber (markExistent view_data ixs).1

/-- The `point_indicator` of `distributeGlobalGrid` after line 698. -/
def point_indicator (view_data : CpGridData G1 G3 Tag PointType) (ixs : List IndexPair) :
    List Int :=
  renumber (markExistent view_data ixs).2

/-! ## Global ids (lines 172-189 and 700-713) -/

/-- The loop of lines 182-187; `pos` is `i - ibegin`. -/
def setupLoop (id : Int → Int) : Int → List Int → List Int → List Int
  | _, [], ids => ids
  | pos, v :: vs, ids =>
    setupLoop id (pos + 1) vs (if v < INT_MAX then vecSet ids v (id pos) else ids)

/-- The function `setupAndCountGlobalIds<codim>`: the returned count and the vector `ids` after
the call.  `id pos` stands for `idSet.id(EntityRep<codim>(pos, true))`; the id set of the global
grid is declared outside the given sources. -/
def setupAndCountGlobalIds (indicator : List Int) (ids : List Int) (id : Int → Int) :
    Int × List Int :=
  let count : Int := indicator.countP isExistent
  (count, setupLoop id 0 indicator (resize ids count))

/-- Lines 706-711: the vector `map2GlobalCellId`. -/
def map2GlobalCellId (id : Int → Int) (ixs : List IndexPair) : List Int :=
  ixs.foldl (fun m e => vecSet m e.local_ (id e.global_)) (List.replicate ixs.length 0)

/-! ## Local topology (lines 725-813) -/

/-- Lines 738-741: the new row of `cell_to_face_` built from a row of the global table. -/
def newCellToFaceRow (face_indicator : List Int) (row : List EntityRep) : List EntityRep :=
  row.map (fun face => ⟨vecAt face_indicator face.index, face.orientation⟩)

/-- Lines 744-745: the eight entries written to `cell_to_point_[i->local()]`. -/
def newCellToPointRow (point_indicator : List Int) (row : List Int) : List Int :=
  (List.range 8).map (fun j : Nat => vecAt point_indicator (vecAt row (Int.ofNat j)))

/-- The loop of lines 728-746; the state is the pair `(cell_to_face_, cell_to_point_)`. -/
def extractCellTables (view_data : CpGridData G1 G3 Tag PointType)
    (face_indicator point_indicator : List Int) (ixs : List IndexPair) :
    List (List EntityRep) × List (List Int) :=
  ixs.foldl
    (fun t e =>
      (t.1 ++ [newCellToFaceRow face_indicator (vecAt view_data.cell_to_face_ e.global_)],
       vecSet t.2 e.local_
         (newCellToPointRow point_indicator (vecAt view_data.cell_to_point_ e.global_))))
    ([], List.replicate ixs.length (List.replicate 8 0))

/-- Lines 759-762: the vector `cell_indicator`. -/
def cell_indicator (view_data : CpGridData G1 G3 Tag PointType) (ixs : List IndexPair) :
    List Int :=
  ixs.foldl (fun ci e => vecSet ci e.global_ e.local_)
    (List.replicate view_data.cell_to_face_.length INT_MAX)

/-- The loop shape shared by lines 764-787, 798-813, 824-831, 861-871 and 881-887: the indicator
is walked from `begin`, and for every entry below `INT_MAX` the value built from the position
`f - begin` is appended. -/
def appendExisting {β : Type} (g : Int → β) : Int → List Int → List β
  | _, [] => []
  | pos, v :: vs =>
    if v < INT_MAX then g pos :: appendExisting g (pos + 1) vs
    else appendExisting g (pos + 1) vs

/-- Lines 775-784: the new row of `face_to_cell_` built from a row of the global table. -/
def newFaceToCellRow (cell_indicator : List Int) (old_row : List EntityRep) : List EntityRep :=
  old_row.map (fun cell => ⟨vecAt cell_indicator cell.index, cell.orientation⟩)

/-- Lines 764-787: the local `face_to_cell_`. -/
def extractFaceToCell (view_data : CpGridData G1 G3 Tag PointType)
    (face_indicator cell_indicator : List Int) : List (List EntityRep) :=
  appendExisting (fun pos => newFaceToCellRow cell_indicator (vecAt view_data.face_to_cell_ pos))
    0 face_indicator

/-- Lines 798-813: the local `face_to_point_`. -/
def extractFaceToPoint (view_data : CpGridData G1 G3 Tag PointType)
    (face_indicator point_indicator : List Int) : List (List Int) :=
  appendExisting
    (fun pos => (vecAt view_data.face_to_point_ pos).map (fun point => vecAt point_indicator point))
    0 face_indicator

/-! ## Payload vectors (lines 817-888) -/

/-- Lines 824-831: the point geometries that exist. -/
def extractPointGeometry [Inhabited G3] (view_data : CpGridData G1 G3 Tag PointType)
    (point_indicator : List Int) : List G3 :=
  appendExisting (fun pos => vecAt view_data.geomVector3 pos) 0 point_indicator

/-- The state of the loop of lines 861-871: `face_geom`, `tmp_face_tag`, `tmp_face_normals` and
the offset of the iterators `ft` and `fn`, which move together. -/
structure FacePayload (G1 Tag PointType : Type) where
  face_geom : List G1
  tmp_face_tag : List Tag
  tmp_face_normals : List PointType
  ft : Int

/-- The loop of lines 861-871; `pos` is `fi - begin`. -/
def copyFacePayload [Inhabited G1] [Inhabited Tag] [Inhabited PointType]
    (view_data : CpGridData G1 G3 Tag PointType) :
    Int → List Int → FacePayload G1 Tag PointType → FacePayload G1 Tag PointType
  | _, [], st => st
  | pos, v :: vs, st =>
    copyFacePayload view_data (pos + 1) vs
      (if v < INT_MAX then
        { face_geom := st.face_geom ++ [vecAt view_data.geomVector1 pos]
          tmp_face_tag := vecSet st.tmp_face_tag st.ft (vecAt view_data.face_tag_ pos)
          tmp_face_normals := vecSet st.tmp_face_normals st.ft (vecAt view_data.face_normals_ pos)
          ft := st.ft + 1 }
      else st)

/-- Lines 850-873: the face payload of the local grid; `noExistingFaces` sizes the two temporary
vectors. -/
def extractFacePayload [Inhabited G1] [Inhabited Tag] [Inhabited PointType]
    (view_data : CpGridData G1 G3 Tag PointType) (face_indicator : List Int)
    (noExistingFaces : Int) : FacePayload G1 Tag PointType :=
  copyFacePayload view_data 0 face_indicator
    { face_geom := []
      tmp_face_tag := List.replicate noExistingFaces.toNat default
      tmp_face_normals := List.replicate noExistingFaces.toNat default
      ft := 0 }

/-- Lines 876-888: the local `unique_boundary_ids_`; the iterator `id` advances in step with `f`,
so `*id` is the entry of the global vector at the position `f - begin`. -/
def extractUniqueBoundaryIds (view_data : CpGridData G1 G3 Tag PointType)
    (face_indicator : List Int) : List Int :=
  if view_data.unique_boundary_ids_.length ≠ 0 then
    appendExisting (fun pos => vecAt view_data.unique_boundary_ids_ pos) 0 face_indicator
  else []

/-- Lines 837 and 846: the local `global_cell_`. -/
def extractGlobalCell (view_data : CpGridData G1 G3 Tag PointType) (ixs : List IndexPair) :
    List Int :=
  ixs.foldl (fun gc e => vecSet gc e.local_ (vecAt view_data.global_cell_ e.global_))
    (resize [] ixs.length)

/-- The global indices that the index set of rank `my_rank` holds with attribute `owner`. -/
def ownerSet (cell_part : List Int) (overlap : List (List Int)) (my_rank : Int) : List Int :=
  ((cell_indexset cell_part overlap my_rank).filter
    (fun e => decide (e.attribute_ = AttributeSet.owner))).map IndexPair.global_

/-! ## `distributeGlobalGrid` (lines 518-888) -/

/-- The members of `*this` that `distributeGlobalGrid` sets up to line 888, together with the
local variables of the function that later steps and the claims refer to. -/
structure DistributedGrid (G1 G3 Tag PointType : Type) where
  cell_indexset_ : List IndexPair
  global2local : List Int
  face_indicator : List Int
  point_indicator : List Int
  noExistingFaces : Int
  noExistingPoints : Int
  map2GlobalCellId : List Int
  map2GlobalFaceId : List Int
  map2GlobalPointId : List Int
  cell_to_face_ : List (List EntityRep)
  cell_to_point_ : List (List Int)
  cell_indicator : List Int
  face_to_cell_ : List (List EntityRep)
  face_to_point_ : List (List Int)
  point_geom : List G3
  global_cell_ : List Int
  face_geom : List G1
  face_tag_ : List Tag
  face_normals_ : List PointType
  unique_boundary_ids_ : List Int

/-- The function `CpGridData::distributeGlobalGrid` up to line 888.  `overlap` is the vector
that `addOverlapLayer` has filled (line 537; the function is outside the given sources), and
`idCell`, `idFace`, `idPoint` stand for `view_data.local_id_set_->id` on the three
codimensions.  The containers of `*this` are empty when the function is entered. -/
def distributeGlobalGrid [Inhabited G1] [Inhabited G3] [Inhabited Tag] [Inhabited PointType]
    (view_data : CpGridData G1 G3 Tag PointType) (cell_part : List Int)
    (overlap : List (List Int)) (my_rank : Int) (idCell idFace idPoint : Int → Int) :
    DistributedGrid G1 G3 Tag PointType :=
  let cc := cell_counter cell_part overlap my_rank
  let ixs := cell_indexset cell_part overlap my_rank
  let fi := face_indicator view_data ixs
  let pi := point_indicator view_data ixs
  let faceIds := setupAndCountGlobalIds fi [] idFace
  let pointIds := setupAndCountGlobalIds pi [] idPoint
  let cellTables := extractCellTables view_data fi pi ixs
  let ci := cell_indicator view_data ixs
  let payload := extractFacePayload view_data fi faceIds.1
  { cell_indexset_ := ixs
    global2local := cc.global2local
    face_indicator := fi
    point_indicator := pi
    noExistingFaces := faceIds.1
    noExistingPoints := pointIds.1
    map2GlobalCellId := map2GlobalCellId idCell ixs
    map2GlobalFaceId := faceIds.2
    map2GlobalPointId := pointIds.2
    cell_to_face_ := cellTables.1
    cell_to_point_ := cellTables.2
    cell_indicator := ci
    face_to_cell_ := extractFaceToCell view_data fi ci
    face_to_point_ := extractFaceToPoint view_data fi pi
    point_geom := extractPointGeometry view_data pi
    global_cell_ := extractGlobalCell view_data ixs
    face_geom := payload.face_geom
    face_tag_ := payload.tmp_face_tag
    face_normals_ := payload.tmp_face_normals
    unique_boundary_ids_ := extractUniqueBoundaryIds view_data fi }

/-! ## Partition types of cells and points (lines 889-923) -/

/-- A `char` that is value-initialised holds `0`, which is `InteriorEntity` in the enumeration of
Dune. -/
instance : Inhabited PartitionType := ⟨PartitionType.InteriorEntity⟩

/-- The two vectors of the `PartitionTypeIndicator` that `distributeGlobalGrid` fills. -/
structure PartitionTypeIndicator where
  cell_indicator_ : List PartitionType
  point_indicator_ : List PartitionType
  deriving Repr

/-- Lines 890-897: the vector `cell_indicator_` is resized to the size of the index set and the
entry at `i->local()` is set from the attribute of `i`. -/
def partitionCellIndicator (ixs : List IndexPair) : List PartitionType :=
  ixs.foldl
    (fun ci e =>
      vecSet ci e.local_
        (if e.attribute_ = AttributeSet.owner then PartitionType.InteriorEntity
         else PartitionType.OverlapEntity))
    (List.replicate ixs.length default)

/-- Lines 912-921: the three statements that follow the read of `old_type`, for the point `*p`
and the type `new_type` of the face. -/
def updatePoint (new_type : PartitionType) (point_indicator_ : List PartitionType) (p : Int) :
    List PartitionType :=
  let old_type := vecAt point_indicator_ p
  let s1 :=
    if old_type = PartitionType.InteriorEntity then
      (if new_type ≠ PartitionType.OverlapEntity then vecSet point_indicator_ p new_type
       else point_indicator_)
    else point_indicator_
  let s2 := if old_type = PartitionType.OverlapEntity then vecSet s1 p new_type else s1
  if old_type = PartitionType.FrontEntity ∧ new_type = PartitionType.BorderEntity then
    vecSet s2 p new_type
  else s2

/-- Lines 913-921 read on the entry `point_indicator_[*p]` alone: the value of the entry after
the three statements, from its value `old_type` before them. -/
def pointRule (old_type new_type : PartitionType) : PartitionType :=
  let v1 :=
    if old_type = PartitionType.InteriorEntity then
      (if new_type ≠ PartitionType.OverlapEntity then new_type else old_type)
    else old_type
  let v2 := if old_type = PartitionType.OverlapEntity then new_type else v1
  if old_type = PartitionType.FrontEntity ∧ new_type = PartitionType.BorderEntity then new_type
  else v2

/-- The loop of lines 906-923 from face `i` on.  `getFacePartitionType` stands for
`partition_type_indicator_->getFacePartitionType`, which is declared outside the given sources
and does not read `point_indicator_`. -/
def classifyPoints (getFacePartitionType : Int → PartitionType) :
    Int → List (List Int) → List PartitionType → List PartitionType
  | _, [], point_indicator_ => point_indicator_
  | i, row :: rows, point_indicator_ =>
    classifyPoints getFacePartitionType (i + 1) rows
      (row.foldl (updatePoint (getFacePartitionType i)) point_indicator_)

/-- Lines 889-923: the partition types of the cells and of the points of the grid that lines
518-888 have set up.  Line 904 resizes `point_indicator_` to the number of local points and
fills it with `OverlapEntity`. -/
def computePartitionTypes (D : DistributedGrid G1 G3 Tag PointType)
    (getFacePartitionType : Int → PartitionType) : PartitionTypeIndicator :=
  { cell_indicator_ := partitionCellIndicator D.cell_indexset_
    point_indicator_ :=
      classifyPoints getFacePartitionType 0 D.face_to_point_
        (List.replicate D.point_geom.length PartitionType.OverlapEntity) }

/-! ## Remote indices of the cells (lines 613-661) -/

/-- A `RemoteIndex`: the attribute that the index has on the remote process and the entry of
the local index set that it points to. -/
structure RemoteIndex where
  attribute_ : AttributeSet
  localIndexPair : IndexPair
  deriving DecidableEq, Repr

/-- Lines 632-634, 642-644 and 650-652: `modifiers.find(rank)`, the assertion that the rank is
found, and the insertion through the modifier.  The map `modifiers` holds, for every rank, the
remote indices inserted so far, in the order of insertion; `none` stands for the failure of
the assertion. -/
def insertRemote (modifiers : List (Int × List RemoteIndex)) (rank : Int) (ri : RemoteIndex) :
    Option (List (Int × List RemoteIndex)) :=
  if rank ∈ modifiers.map Prod.fst then
    some (modifiers.map (fun kv => if kv.1 = rank then (kv.1, kv.2 ++ [ri]) else kv))
  else none

/-- Lines 630-654: the insertions that the body of the loop makes for the entry `i` of the index
set, in order, each with the rank whose modifier is looked up.  `mine` splits the overlap set
into the ranks before it and the ranks after it. -/
def entryInserts (cell_part : List Int) (overlap : List (List Int)) (my_rank : Int)
    (e : IndexPair) : List (Int × RemoteIndex) :=
  if e.attribute_ ≠ AttributeSet.owner then
    [(vecAt cell_part e.global_, ⟨AttributeSet.owner, e⟩)]
  else
    ((vecAt overlap e.global_).takeWhile (fun r => r != my_rank)
      ++ ((vecAt overlap e.global_).dropWhile (fun r => r != my_rank)).drop 1).map
      (fun r => (r, ⟨AttributeSet.copy, e⟩))

/-- A sequence of insertions, stopped by the first assertion that fails. -/
def insertRemotes :
    List (Int × List RemoteIndex) → List (Int × RemoteIndex) →
      Option (List (Int × List RemoteIndex))
  | modifiers, [] => some modifiers
  | modifiers, x :: xs =>
    match insertRemote modifiers x.1 x.2 with
    | none => none
    | some m => insertRemotes m xs

/-- Lines 617-661: the remote index lists of the cells, per rank.  With neighbours the map of
modifiers gets one entry per neighbour (lines 623-625) and the index set is walked (lines
627-655); without neighbours line 660 asks for the modifier of rank 0, which sets up an empty
list for that rank. -/
def setupRemoteIndices (cell_part : List Int) (overlap : List (List Int)) (my_rank : Int) :
    Option (List (Int × List RemoteIndex)) :=
  if (cell_counter cell_part overlap my_rank).neighbors.length ≠ 0 then
    insertRemotes ((cell_counter cell_part overlap my_rank).neighbors.map (fun n => (n, [])))
      ((cell_indexset cell_part overlap my_rank).flatMap
        (entryInserts cell_part overlap my_rank))
  else some [(0, [])]

/-! ## Communication interfaces of the points (lines 281-513) -/

/-- The set `AllSet<PartitionType>` of Dune: `contains` is always true. -/
def AllSet (_ : PartitionType) : Bool :=
  true

/-- The set `Converter::Interior`, an `EnumItem` of Dune: `contains(t)` is `t == InteriorEntity`. -/
def Converter.Interior (t : PartitionType) : Bool :=
  decide (t = PartitionType.InteriorEntity)

/-- The set `Converter::Border`. -/
def Converter.Border (t : PartitionType) : Bool :=
  decide (t = PartitionType.BorderEntity)

/-- The set `Converter::Overlap`. -/
def Converter.Overlap (t : PartitionType) : Bool :=
  decide (t = PartitionType.OverlapEntity)

/-- The set `Converter::Front`. -/
def Converter.Front (t : PartitionType) : Bool :=
  decide (t = PartitionType.FrontEntity)

/-- The set `Converter::InteriorBorder`, a `Combine` of Dune: the union of the two sets. -/
def Converter.InteriorBorder (t : PartitionType) : Bool :=
  Converter.Interior t || Converter.Border t

/-- The set `Converter::OverlapFront`. -/
def Converter.OverlapFront (t : PartitionType) : Bool :=
  Converter.Overlap t || Converter.Front t

/-- The element `i` of `Converter::SourceTuple` (lines 344-345). -/
def Converter.SourceTuple : Nat → PartitionType → Bool
  | 0 => Converter.InteriorBorder
  | 1 => Converter.InteriorBorder
  | 2 => Converter.Overlap
  | 3 => Converter.Overlap
  | _ => AllSet

/-- The element `i` of `Converter::DestinationTuple` (lines 346-347). -/
def Converter.DestinationTuple : Nat → PartitionType → Bool
  | 0 => Converter.InteriorBorder
  | 1 => AllSet
  | 2 => Converter.OverlapFront
  | 3 => AllSet
  | _ => AllSet

/-- The class `InterfaceInformation` of Dune: the indices added so far and the capacity of the
array that holds them. -/
structure InterfaceInformation where
  indices_ : List Int
  maxSize_ : Nat
  deriving DecidableEq, Repr

/-- A default-constructed `InterfaceInformation` has no index and no capacity. -/
instance : Inhabited InterfaceInformation := ⟨⟨[], 0⟩⟩

/-- The call `InterfaceInformation::reserve(size)`: a new array of the given capacity. -/
def InterfaceInformation.reserve (info : InterfaceInformation) (size : Nat) :
    InterfaceInformation :=
  { indices_ := info.indices_, maxSize_ := size }

/-- The call `InterfaceInformation::add(index)`: the array grows by 100 entries when it is
full, then the index is appended. -/
def InterfaceInformation.add (info : InterfaceInformation) (index : Int) :
    InterfaceInformation :=
  { indices_ := info.indices_ ++ [index]
    maxSize_ :=
      if info.indices_.length = info.maxSize_ then info.maxSize_ + 100 else info.maxSize_ }

/-- The call `InterfaceIncrementor::operator()` (lines 302-306): `++t`. -/
def InterfaceIncrementor (t : Nat) (_ : Int) : Nat :=
  t + 1

/-- The call `InterfaceAdder::operator()` (lines 311-314): `info.add(index)`. -/
def InterfaceAdder (info : InterfaceInformation) (index : Int) : InterfaceInformation :=
  info.add index

/-- Insertion of a new key into a `std::map<int,V>`, whose keys are kept increasing. -/
def mapInsertSorted {V : Type} (rank : Int) (v : V) : List (Int × V) → List (Int × V)
  | [] => [(rank, v)]
  | kv :: m => if rank < kv.1 then (rank, v) :: kv :: m else kv :: mapInsertSorted rank v m

/-- The access `map_[rank]` followed by the update `f` of the mapped value: `operator[]` of
`std::map` inserts a value-initialised entry when the key is absent. -/
def mapUpdate {V : Type} [Inhabited V] (f : V → V) (rank : Int) (m : List (Int × V)) :
    List (Int × V) :=
  if rank ∈ m.map Prod.fst then m.map (fun kv => if kv.1 = rank then (kv.1, f kv.2) else kv)
  else mapInsertSorted rank (f default) m

/-- The call `InterfaceFunctor::operator()(rank, index, mine, other)` (lines 287-293); `func` is
the member of type `Functor`, `fromSet` and `toSet` are the `contains` of the members `from`
and `to`.  The member `first` of a mapped pair is the send side, `second` the receive side. -/
def InterfaceFunctor.call {T : Type} [Inhabited T] (func : T → Int → T)
    (fromSet toSet : PartitionType → Bool) (map_ : List (Int × (T × T))) (rank : Int)
    (index : Int) (mine other : PartitionType) : List (Int × (T × T)) :=
  let m1 :=
    if fromSet mine && toSet other then mapUpdate (fun pr => (func pr.1 index, pr.2)) rank map_
    else map_
  if fromSet other && toSet mine then mapUpdate (fun pr => (pr.1, func pr.2 index)) rank m1
  else m1

/-- A `std::tuple` of five values of one type, as `cell_interfaces_`, `point_interfaces_` and the
five size maps are. -/
structure InterfaceTuple (M : Type) where
  get0 : M
  get1 : M
  get2 : M
  get3 : M
  get4 : M
  deriving Repr

/-- The access `std::get<i>(t)`. -/
def InterfaceTuple.get {M : Type} (t : InterfaceTuple M) : Nat → M
  | 0 => t.get0
  | 1 => t.get1
  | 2 => t.get2
  | 3 => t.get3
  | _ => t.get4

/-- The call `InterfaceTupleFunctor::operator()` (lines 324-331) on a tuple of `SizeFunctor<i>`
or of `AddFunctor<i>`: functor `i` works on map `i` with the sets `i` of the two tuples of
`Converter` (lines 394-426). -/
def InterfaceTupleFunctor.call {T : Type} [Inhabited T] (func : T → Int → T)
    (t : InterfaceTuple (List (Int × (T × T)))) (rank : Int) (index : Int)
    (mine other : PartitionType) : InterfaceTuple (List (Int × (T × T))) :=
  { get0 := InterfaceFunctor.call func (Converter.SourceTuple 0) (Converter.DestinationTuple 0)
      t.get0 rank index mine other
    get1 := InterfaceFunctor.call func (Converter.SourceTuple 1) (Converter.DestinationTuple 1)
      t.get1 rank index mine other
    get2 := InterfaceFunctor.call func (Converter.SourceTuple 2) (Converter.DestinationTuple 2)
      t.get2 rank index mine other
    get3 := InterfaceFunctor.call func (Converter.SourceTuple 3) (Converter.DestinationTuple 3)
      t.get3 rank index mine other
    get4 := InterfaceFunctor.call func (Converter.SourceTuple 4) (Converter.DestinationTuple 4)
      t.get4 rank index mine other }

/-- The function `iterate_over_attributes` (lines 456-470) from the entry `i - begin` of
`attributes` on.  A `std::map<int,char>` is the list of its pairs in increasing order of the
rank; `my_attribute_iter` moves in step with `i`, so it points to the entry `i - begin` of the
vector `my_attributes`. -/
def iterate_over_attributes {S : Type}
    (func : S → Int → Int → PartitionType → PartitionType → S)
    (my_attributes : List PartitionType) :
    Int → List (List (Int × PartitionType)) → S → S
  | _, [], s => s
  | i, m :: attributes, s =>
    iterate_over_attributes func my_attributes (i + 1) attributes
      (m.foldl (fun s kv => func s kv.1 i (vecAt my_attributes i) kv.2) s)

/-- The function `reserve<i>` (lines 356-371) on the size map `i` and the interface map `i`. -/
def reserveInterface (sizeMap : List (Int × (Nat × Nat)))
    (interfaceMap : List (Int × (InterfaceInformation × InterfaceInformation))) :
    List (Int × (InterfaceInformation × InterfaceInformation)) :=
  sizeMap.foldl
    (fun im kv => mapUpdate (fun pr => (pr.1.reserve kv.2.1, pr.2.reserve kv.2.2)) kv.1 im)
    interfaceMap

/-- The function `reserve` (lines 378-388). -/
def reserve (sizes : InterfaceTuple (List (Int × (Nat × Nat))))
    (interfaces : InterfaceTuple (List (Int × (InterfaceInformation × InterfaceInformation)))) :
    InterfaceTuple (List (Int × (InterfaceInformation × InterfaceInformation))) :=
  { get0 := reserveInterface sizes.get0 interfaces.get0
    get1 := reserveInterface sizes.get1 interfaces.get1
    get2 := reserveInterface sizes.get2 interfaces.get2
    get3 := reserveInterface sizes.get3 interfaces.get3
    get4 := reserveInterface sizes.get4 interfaces.get4 }

/-- Lines 487-498 of `createInterfaces`: the vector `sizes` after the sizing pass. -/
def interfaceSizes (attributes : List (List (Int × PartitionType)))
    (partition_type_iterator : List PartitionType) :
    InterfaceTuple (List (Int × (Nat × Nat))) :=
  iterate_over_attributes (InterfaceTupleFunctor.call InterfaceIncrementor)
    partition_type_iterator 0 attributes ⟨[], [], [], [], []⟩

/-- The function `createInterfaces` (lines 480-513): the tuple `interfaces` after the call. -/
def createInterfaces (attributes : List (List (Int × PartitionType)))
    (partition_type_iterator : List PartitionType)
    (interfaces : InterfaceTuple (List (Int × (InterfaceInformation × InterfaceInformation)))) :
    InterfaceTuple (List (Int × (InterfaceInformation × InterfaceInformation))) :=
  iterate_over_attributes (InterfaceTupleFunctor.call InterfaceAdder)
    partition_type_iterator 0 attributes
    (reserve (interfaceSizes attributes partition_type_iterator) interfaces)

/-- Line 983: the point interfaces, built into the tuple `point_interfaces_`, whose maps are
empty before the call. -/
def point_interfaces (point_attributes : List (List (Int × PartitionType)))
    (point_indicator_ : List PartitionType) :
    InterfaceTuple (List (Int × (InterfaceInformation × InterfaceInformation))) :=
  createInterfaces point_attributes point_indicator_ ⟨[], [], [], [], []⟩

/-! ## Exchange of the attributes (lines 206-278 and 974-982) -/

/-- The function `getIndex(const int* i)` of lines 218-221: the entry the pointer is at. -/
def getIndex (i : Int) : Int :=
  i

/-- The function template `getIndex(T i)` of lines 223-227, for an iterator over `EntityRep`. -/
def getIndexT (i : EntityRep) : Int :=
  i.index

/-- The call `insert(rank_attr)` of a `std::map<int,char>`: a pair whose key is in the map
already is not inserted. -/
def mapInsert {V : Type} (kv : Int × V) (m : List (Int × V)) : List (Int × V) :=
  if kv.1 ∈ m.map Prod.fst then m else mapInsertSorted kv.1 kv.2 m

/-- The struct `AttributeDataHandle<T>` of lines 229-278, without the member `vals_`, which is
the state that `scatter` updates.  `E` is the type of the entries of a row of `c2e_`;
`getPartitionType f` is the call `getPartitionType(indicator_, *f, grid_)` and `getIndex f` the
call `getIndex(f)` of the overload that `T` selects.  The `char` of a `DataType` is kept as the
partition type it is converted from. -/
structure AttributeDataHandle (E : Type) where
  rank_ : Int
  getPartitionType : E → PartitionType
  getIndex : E → Int
  c2e_ : List (List E)

/-- The member `fixedsize()` (lines 241-244). -/
def AttributeDataHandle.fixedsize {E : Type} (_ : AttributeDataHandle E) : Bool :=
  true

/-- The member `size(i)` (lines 245-248). -/
def AttributeDataHandle.size {E : Type} (h : AttributeDataHandle E) (i : Nat) : Nat :=
  (vecAt h.c2e_ (Int.ofNat i)).length

/-- The member `gather(buffer, i)` (lines 250-259).  A message buffer is the list of the items
written and not yet read: `write` appends an item, `read` takes the first one. -/
def AttributeDataHandle.gather {E : Type} (h : AttributeDataHandle E)
    (buffer : List (Int × PartitionType)) (i : Nat) : List (Int × PartitionType) :=
  (vecAt h.c2e_ (Int.ofNat i)).foldl
    (fun b f => b ++ [(h.rank_, h.getPartitionType f)]) buffer

/-- The loop of `scatter` (lines 265-271) from the iterator position whose remaining row is the
first argument; `s` is a `std::size_t` of 64 bits, decremented in every round.  The result is
`none` when `read` meets an empty buffer. -/
def AttributeDataHandle.scatterLoop {E : Type} (h : AttributeDataHandle E) :
    List E → Nat → List (List (Int × PartitionType)) → List (Int × PartitionType) →
      Option (List (List (Int × PartitionType)) × List (Int × PartitionType))
  | [], _, vals_, buffer => some (vals_, buffer)
  | _ :: _, _, _, [] => none
  | f :: row, s, vals_, rank_attr :: buffer =>
    h.scatterLoop row ((s + 2 ^ 64 - 1) % 2 ^ 64)
      (vecSet vals_ (h.getIndex f) (mapInsert rank_attr (vecAt vals_ (h.getIndex f)))) buffer

/-- The member `scatter(buffer, i, s)` (lines 262-272): the new `vals_` and the new buffer. -/
def AttributeDataHandle.scatter {E : Type} (h : AttributeDataHandle E)
    (vals_ : List (List (Int × PartitionType))) (buffer : List (Int × PartitionType))
    (i : Nat) (s : Nat) :
    Option (List (List (Int × PartitionType)) × List (Int × PartitionType)) :=
  h.scatterLoop (vecAt h.c2e_ (Int.ofNat i)) s vals_ buffer

/-- Lines 975-977: the handle `point_handle` of rank `rank`; `getPointPartitionType i` stands
for `partition_type_indicator_->getPartitionType(Entity<3>(*this, i, true))` (lines 212-216). -/
def point_handle (rank : Int) (getPointPartitionType : Int → PartitionType)
    (D : DistributedGrid G1 G3 Tag PointType) : AttributeDataHandle Int :=
  { rank_ := rank
    getPartitionType := getPointPartitionType
    getIndex := getIndex
    c2e_ := D.cell_to_point_ }

/-! ## Interfaces of the cells and the exchange of the point attributes (lines 925-984) -/

/-- The set `AllSet<AttributeSet>` of Dune: `contains` is always true. -/
def AllSetAttribute (_ : AttributeSet) : Bool :=
  true

/-- The set `EnumItem<AttributeSet, item>` of Dune: `contains(a)` is `a == item`. -/
def EnumItem (item : AttributeSet) (a : AttributeSet) : Bool :=
  decide (a = item)

/-- The call `InterfaceInformation::size()` of Dune, read at lines 952-953: the number of
indices added. -/
def InterfaceInformation.size (info : InterfaceInformation) : Nat :=
  info.indices_.length

/-- Modelled from the spec: the call `build(cell_remote_indices_, sourceFlags, destFlags)` on
an `Interface` of Dune (lines 926-936); the class is outside the given sources.  The spec has
an interface as "per-rank pair (send-set, receive-set) of local indices; built by filtering a
(mine, remote) pair against per-category predicates", in the order of the remote index list:
an index is sent when the local attribute is a source flag and the remote one a destination
flag, and received in the mirrored case.  A rank with nothing to send and nothing to receive
gets no entry. -/
def buildInterface (sourceFlags destFlags : AttributeSet → Bool)
    (remoteIndices : List (Int × List RemoteIndex)) :
    List (Int × (InterfaceInformation × InterfaceInformation)) :=
  (remoteIndices.map (fun kv =>
    let send := (kv.2.filter (fun ri =>
      sourceFlags ri.localIndexPair.attribute_ && destFlags ri.attribute_)).map
        (fun ri => ri.localIndexPair.local_)
    let receive := (kv.2.filter (fun ri =>
      destFlags ri.localIndexPair.attribute_ && sourceFlags ri.attribute_)).map
        (fun ri => ri.localIndexPair.local_)
    (kv.1, ((⟨send, send.length⟩ : InterfaceInformation),
            (⟨receive, receive.length⟩ : InterfaceInformation))))).filter
    (fun kv => decide (kv.2.1.size ≠ 0) || decide (kv.2.2.size ≠ 0))

/-- Lines 925-936: the tuple `cell_interfaces_`.  The element 0 (`InteriorBorder` to
`InteriorBorder`) is not built for the cells. -/
def cell_interfaces (remoteIndices : List (Int × List RemoteIndex)) :
    InterfaceTuple (List (Int × (InterfaceInformation × InterfaceInformation))) :=
  { get0 := []
    get1 := buildInterface (EnumItem AttributeSet.owner) AllSetAttribute remoteIndices
    get2 := buildInterface (EnumItem AttributeSet.copy) (EnumItem AttributeSet.copy)
      remoteIndices
    get3 := buildInterface (EnumItem AttributeSet.copy) AllSetAttribute remoteIndices
    get4 := buildInterface AllSetAttribute AllSetAttribute remoteIndices }

/-- Lines 940 and 617-661: the map `all_all_cell_interface.interfaces()` of a rank; `none` when
an assertion of the remote index set-up fails. -/
def all_all_cell_interface (cell_part : List Int) (overlap : List (List Int)) (rank : Int) :
    Option (List (Int × (InterfaceInformation × InterfaceInformation))) :=
  (setupRemoteIndices cell_part overlap rank).map (fun remote => (cell_interfaces remote).get4)

/-- Lines 948-954: the variable `max_entries` after the loop over the interface map. -/
def max_entries (interfaces : List (Int × (InterfaceInformation × InterfaceInformation))) :
    Nat :=
  interfaces.foldl (fun m pair => max (max m pair.2.1.size) pair.2.2.size) 0

/-- Line 957: the third argument of the constructor of the communicator,
`max_entries*8*sizeof(int)`, a product of `std::size_t` values of 64 bits; `sizeofInt` is
`sizeof(int)`. -/
def max_buffer_size (interfaces : List (Int × (InterfaceInformation × InterfaceInformation)))
    (sizeofInt : Nat) : Nat :=
  (max_entries interfaces * 8 * sizeofInt) % 2 ^ 64

/-- Modelled from the spec: the sending side of `comm.forward(point_handle)` (line 981) for one
peer; the communicator of Dune is outside the given sources.  "For each local cell in the send
side of the interface, emit (rank, attribute) for every point incident to that cell": `gather`
is called for the indices of the send list in their order, into one message. -/
def gatherAll {E : Type} (h : AttributeDataHandle E) (indices : List Int) :
    List (Int × PartitionType) :=
  indices.foldl (fun buffer i => h.gather buffer i.toNat) []

/-- Modelled from the spec: the receiving side of `comm.forward(point_handle)` for one peer.
"The peer, for each matching local cell on its receive side, consumes the same number of
(rank, attribute) tuples it expects": `scatter` is called for the indices of the receive list
in their order on the message of the peer, with `size(i)` as the number of items. -/
def scatterAll {E : Type} (h : AttributeDataHandle E) :
    List Int → List (List (Int × PartitionType)) → List (Int × PartitionType) →
      Option (List (List (Int × PartitionType)) × List (Int × PartitionType))
  | [], vals_, buffer => some (vals_, buffer)
  | i :: indices, vals_, buffer =>
    match h.scatter vals_ buffer i.toNat (h.size i.toNat) with
    | none => none
    | some st => scatterAll h indices st.1 st.2

/-- Modelled from the spec: the call `comm.forward(point_handle)` seen from one rank, as one
round over the entries of the interface map in the order of the ranks.  `received r` is the
message that rank `r` has gathered for this rank, `none` when rank `r` did not get that far. -/
def forward {E : Type} (h : AttributeDataHandle E)
    (received : Int → Option (List (Int × PartitionType))) :
    List (Int × (InterfaceInformation × InterfaceInformation)) →
      List (List (Int × PartitionType)) → Option (List (List (Int × PartitionType)))
  | [], vals_ => some vals_
  | kv :: interfaces, vals_ =>
    match received kv.1 with
    | none => none
    | some message =>
      match scatterAll h kv.2.2.indices_ vals_ message with
      | none => none
      | some st => forward h received interfaces st.1

/-- Whether every entry of the rows of the local `cell_to_point_` that belong to the cells
`indices` is the index of a local point.  Line 745 fills a row with entries of
`point_indicator`, which is `INT_MAX` for a point of the cell that lies on none of its faces;
`gather` reads the partition type of the entry (line 256) and `scatter` indexes `vals_` with it
(line 270), both without a check, so the exchange is defined only when the entries are in
range. -/
def rowsInRange (D : DistributedGrid G1 G3 Tag PointType) (indices : List Int) : Bool :=
  indices.all (fun i =>
    (vecAt D.cell_to_point_ (Int.ofNat i.toNat)).all (fun f =>
      decide (0 ≤ f) && decide (f < D.noExistingPoints)))

/-- The message that rank `r` gathers for rank `my_rank` in the round of line 981: the tuples
of the cells of its send list for `my_rank` in its `all_all_cell_interface`.
`getPointPartitionType r i` stands for the partition type that the indicator of rank `r`
returns for its local point `i` (lines 212-216).  The result is `none` when an assertion of
the set-up fails on rank `r` or when a row of a cell of the send list holds an entry that is
not a local point, which line 256 would read out of range. -/
def messageFor [Inhabited G1] [Inhabited G3] [Inhabited Tag] [Inhabited PointType]
    (view_data : CpGridData G1 G3 Tag PointType) (cell_part : List Int)
    (overlap : List (List Int)) (idCell idFace idPoint : Int → Int)
    (getPointPartitionType : Int → Int → PartitionType) (my_rank r : Int) :
    Option (List (Int × PartitionType)) :=
  match all_all_cell_interface cell_part overlap r with
  | none => none
  | some interfaces =>
    let D := distributeGlobalGrid view_data cell_part overlap r idCell idFace idPoint
    if rowsInRange D ((List.lookup my_rank interfaces).getD default).1.indices_ then
      some (gatherAll (point_handle r (getPointPartitionType r) D)
        ((List.lookup my_rank interfaces).getD default).1.indices_)
    else none

/-- Lines 974-982: the vector `point_attributes` of rank `my_rank` before the call of
`createInterfaces`, when every rank runs `distributeGlobalGrid` on the same global grid,
partition and overlap.  The round of line 981 takes place when the interface map has an
entry; `none` stands for a failed assertion, a message that is too short, or a row of a cell
of a receive list that holds an entry that is not a local point, with which line 270 would
index `vals_` out of range. -/
def point_attributes [Inhabited G1] [Inhabited G3] [Inhabited Tag] [Inhabited PointType]
    (view_data : CpGridData G1 G3 Tag PointType) (cell_part : List Int)
    (overlap : List (List Int)) (idCell idFace idPoint : Int → Int)
    (getPointPartitionType : Int → Int → PartitionType) (my_rank : Int) :
    Option (List (List (Int × PartitionType))) :=
  match all_all_cell_interface cell_part overlap my_rank with
  | none => none
  | some interfaces =>
    let D := distributeGlobalGrid view_data cell_part overlap my_rank idCell idFace idPoint
    let vals_ : List (List (Int × PartitionType)) := List.replicate D.noExistingPoints.toNat []
    if interfaces.length ≠ 0 then
      if interfaces.all (fun kv => rowsInRange D kv.2.2.indices_) then
        forward (point_handle my_rank (getPointPartitionType my_rank) D)
          (messageFor view_data cell_part overlap idCell idFace idPoint getPointPartitionType
            my_rank)
          interfaces vals_
      else none
    else some vals_

/-! ## Unique boundary ids (lines 108-130) -/

/-- The function `CpGridData::computeUniqueBoundaryIds` (lines 108-130): the new
`unique_boundary_ids_`.  The state of the loop is the pair of `count` and `ids`; the row of the
face `EntityRep<1>(i, true)` is row `i` of `face_to_cell_`, and `ids[i] = ++count` writes the
incremented counter. -/
def computeUniqueBoundaryIds (face_to_cell_ : List (List EntityRep)) : List Int :=
  let num_faces := face_to_cell_.length
  ((List.range num_faces).foldl
    (fun (st : Int × List Int) (i : Nat) =>
      if (vecAt face_to_cell_ (Int.ofNat i)).length = 1 then
        (st.1 + 1, vecSet st.2 (Int.ofNat i) (st.1 + 1))
      else st)
    (0, List.replicate num_faces 0)).2

/-! ## Capacities of the local tables (lines 717-728 and 748-756) -/

/-- Lines 717-723: the value of `data_size` that line 728 hands to `cell_to_face_.reserve`: the
loop walks the cell index set and adds `c2f.rowSize(i->global())`. -/
def cellToFaceDataSize (view_data : CpGridData G1 G3 Tag PointType) (ixs : List IndexPair) :
    Int :=
  ixs.foldl
    (fun data_size e => data_size + ((vecAt view_data.cell_to_face_ e.global_).length : Int)) 0

/-- Lines 750-754: the value of `data_size` that line 756 hands to `face_to_cell_.reserve`: the
loop walks the renumbered `face_indicator` and adds `f2c.rowSize(*f)` for every entry `*f`
below `INT_MAX`. -/
def faceToCellDataSize (view_data : CpGridData G1 G3 Tag PointType)
    (face_indicator : List Int) : Int :=
  face_indicator.foldl
    (fun data_size f =>
      if f < INT_MAX then data_size + ((vecAt view_data.face_to_cell_ f).length : Int)
      else data_size)
    0

/-! ## Storage of `MimeticIPAnisoRelpermEvaluator` (MimeticIPAnisoRelpermEvaluator.hpp) -/

/-- The row sizes of the two tables `second_term_` and `n_` of the evaluator.  The tables are
of the class `SparseTable`, declared outside the given sources; `allocate(first, last)` gives
row `i` the size that the range holds at position `i`. -/
structure MatrixStorage where
  second_term_ : List Int
  n_ : List Int
  deriving DecidableEq, Repr

/-- The function `reserveMatrices(sz)` (lines 151-167) of the evaluator with the template
parameter `dim`: the sizes `sz[i] * sz[i]` are handed to `second_term_.allocate`, the sizes
`sz[i] * dim` to `n_.allocate`. -/
def MimeticIPAnisoRelpermEvaluator.reserveMatrices (dim : Int) (sz : List Int) :
    MatrixStorage :=
  { second_term_ := sz.map (fun x => x * x)
    n_ := sz.map (fun x => x * dim) }

/-- A matrix view `SharedFortranMatrix(rows, cols, data)` or `ImmutableFortranMatrix(rows,
cols, data)` (the classes are declared outside the given sources): the shape laid over the
storage that starts at `data`. -/
structure FortranMatrixView where
  numRows : Int
  numCols : Int
  deriving DecidableEq, Repr

/-- The number of entries of the storage that a view covers, which `zero` clears. -/
def FortranMatrixView.numEntries (m : FortranMatrixView) : Int :=
  m.numRows * m.numCols

/-- Line 220 of `buildMatrix`: the view `second_term(nf, nf, &second_term_[ci][0])`. -/
def MimeticIPAnisoRelpermEvaluator.buildMatrix_second_term (nf : Int) : FortranMatrixView :=
  ⟨nf, nf⟩

/-- Line 221 of `buildMatrix`: the view `n(nf, nf, &n_[ci][0])`. -/
def MimeticIPAnisoRelpermEvaluator.buildMatrix_n (nf : Int) : FortranMatrixView :=
  ⟨nf, nf⟩

/-- Line 323 of `getInverseMatrix`: the view `n(nf, dim, &n_[ci][0])`. -/
def MimeticIPAnisoRelpermEvaluator.getInverseMatrix_n (dim nf : Int) : FortranMatrixView :=
  ⟨nf, dim⟩

/-- Line 324 of `getInverseMatrix`: the view `t2(nf, nf, &second_term_[ci][0])`. -/
def MimeticIPAnisoRelpermEvaluator.getInverseMatrix_t2 (nf : Int) : FortranMatrixView :=
  ⟨nf, nf⟩

/-! ## The overlap map (line 537) -/

/-- The global indices of the cells, in increasing order. -/
def cellIds (cell_part : List Int) : List Int :=
  (List.range cell_part.length).map (fun c : Nat => Int.ofNat c)

/-- Modelled from the spec: two cells are face-neighbours when a row of the global
`face_to_cell_` holds both ("global cell adjacency (via shared faces)"); the function
`addOverlapLayer` that walks the adjacency is outside the given sources. -/
def faceNeighbors (view_data : CpGridData G1 G3 Tag PointType) (c d : Int) : Bool :=
  view_data.face_to_cell_.any (fun row =>
    row.any (fun x => decide (x.index = c)) && row.any (fun x => decide (x.index = d)))

/-- Modelled from the spec: the cells that are visible to rank `r` after `k` rounds of "a cell
already known to be visible to rank r makes its face-neighbors visible to r too"; before the
first round the cells that `r` owns are visible to it. -/
def visibleCells (view_data : CpGridData G1 G3 Tag PointType) (cell_part : List Int) (r : Int) :
    Nat → List Int
  | 0 => (cellIds cell_part).filter (fun c => decide (vecAt cell_part c = r))
  | k + 1 =>
    (cellIds cell_part).filter (fun c =>
      decide (c ∈ visibleCells view_data cell_part r k)
        || (visibleCells view_data cell_part r k).any (fun d => faceNeighbors view_data d c))

/-- Modelled from the spec: the vector `overlap` after the call `addOverlapLayer(grid,
cell_part, overlap, my_rank, overlap_layers, false)` of line 537: "for every cell, the set of
ranks (besides its owner) that must keep a ghost copy, after `k` rounds".  The ranks are those
of `cell_part`; a `std::set<int>` is the increasing list of its elements. -/
def addOverlapLayer (view_data : CpGridData G1 G3 Tag PointType) (cell_part : List Int)
    (overlap_layers : Nat) : List (List Int) :=
  (cellIds cell_part).map (fun c =>
    (setInsertRange [] cell_part).filter (fun r =>
      decide (r ≠ vecAt cell_part c)
        && decide (c ∈ visibleCells view_data cell_part r overlap_layers)))

/-! ## An example grid -/

/-- The two-cell line mesh of the scenarios: cells 0 and 1 share face 1, face 0 bounds cell 0
and face 2 bounds cell 1; every face has four points, every cell eight.  The payloads are
numbers that tell the entities apart. -/
def twoCellGrid : CpGridData Nat Nat Nat Nat where
  cell_to_face_ := [[⟨0, false⟩, ⟨1, true⟩], [⟨1, false⟩, ⟨2, true⟩]]
  face_to_cell_ := [[⟨0, true⟩], [⟨0, true⟩, ⟨1, false⟩], [⟨1, true⟩]]
  face_to_point_ := [[0, 1, 2, 3], [4, 5, 6, 7], [8, 9, 10, 11]]
  cell_to_point_ := [[0, 1, 2, 3, 4, 5, 6, 7], [4, 5, 6, 7, 8, 9, 10, 11]]
  geomVector1 := [100, 101, 102]
  geomVector3 := [200, 201, 202, 203, 204, 205, 206, 207, 208, 209, 210, 211]
  face_tag_ := [0, 1, 0]
  face_normals_ := [7, 8, 9]
  unique_boundary_ids_ := [1, 0, 2]
  global_cell_ := [40, 41]

/-- An example handle on rank 1 over two cells with two points each; the point 1 is shared. -/
def examplePointHandle : AttributeDataHandle Int where
  rank_ := 1
  getPartitionType := fun p => if p = 1 then PartitionType.BorderEntity
    else PartitionType.OverlapEntity
  getIndex := getIndex
  c2e_ := [[0, 1], [1, 2]]

/-- A mesh of one cell with a single face: the points 4 to 7 of the cell are on no face. -/
def oneFaceGrid : CpGridData Nat Nat Nat Nat where
  cell_to_face_ := [[⟨0, true⟩]]
  face_to_cell_ := [[⟨0, true⟩]]
  face_to_point_ := [[0, 1, 2, 3]]
  cell_to_point_ := [[0, 1, 2, 3, 4, 5, 6, 7]]
  geomVector1 := [100]
  geomVector3 := [200, 201, 202, 203, 204, 205, 206, 207]
  face_tag_ := [0]
  face_normals_ := [7]
  unique_boundary_ids_ := [1]
  global_cell_ := [40]

/-- A line of three cells: the faces 1 and 2 lie between the cells, the faces 0 and 3 bound the
line; every face has four points, every cell eight. -/
def threeCellGrid : CpGridData Nat Nat Nat Nat where
  cell_to_face_ := [[⟨0, false⟩, ⟨1, true⟩], [⟨1, false⟩, ⟨2, true⟩], [⟨2, false⟩, ⟨3, true⟩]]
  face_to_cell_ := [[⟨0, true⟩], [⟨0, true⟩, ⟨1, false⟩], [⟨1, true⟩, ⟨2, false⟩], [⟨2, true⟩]]
  face_to_point_ := [[0, 1, 2, 3], [4, 5, 6, 7], [8, 9, 10, 11], [12, 13, 14, 15]]
  cell_to_point_ := [[0, 1, 2, 3, 4, 5, 6, 7], [4, 5, 6, 7, 8, 9, 10, 11],
    [8, 9, 10, 11, 12, 13, 14, 15]]
  geomVector1 := [100, 101, 102, 103]
  geomVector3 := [200, 201, 202, 203, 204, 205, 206, 207, 208, 209, 210, 211, 212, 213, 214,
    215]
  face_tag_ := [0, 1, 1, 0]
  face_normals_ := [7, 8, 9, 10]
  unique_boundary_ids_ := [1, 0, 0, 2]
  global_cell_ := [40, 41, 42]

/-- The partition type that the examples let every rank report for its points: `BorderEntity`
on rank 1, `OverlapEntity` for the local point 0 of every other rank, `InteriorEntity`
else. -/
def examplePointTypes (r i : Int) : PartitionType :=
  if r = 1 then PartitionType.BorderEntity
  else if i = 0 then PartitionType.OverlapEntity
  else PartitionType.InteriorEntity

/-- Two cells that share their single face; the points 4 to 7 of cell 0 and the points 8 to 11
of cell 1 are on no face. -/
def twoOneFaceGrid : CpGridData Nat Nat Nat Nat where
  cell_to_face_ := [[⟨0, true⟩], [⟨0, false⟩]]
  face_to_cell_ := [[⟨0, true⟩, ⟨1, false⟩]]
  face_to_point_ := [[0, 1, 2, 3]]
  cell_to_point_ := [[0, 1, 2, 3, 4, 5, 6, 7], [0, 1, 2, 3, 8, 9, 10, 11]]
  geomVector1 := [100]
  geomVector3 := [200, 201, 202, 203, 204, 205, 206, 207, 208, 209, 210, 211]
  face_tag_ := [0]
  face_normals_ := [7]
  unique_boundary_ids_ := [0]
  global_cell_ := [40, 41]

/-! ## Auxiliary functions used in the proofs -/

/-- The attribute under which rank `p` holds a cell with overlap set `ov` and owner `rank`, if
it holds the cell at all: the case analysis shared by the two call operators of `CellCounter`. -/
def heldAs (p : Int) (ov : List Int) (rank : Int) : Option AttributeSet :=
  if rank = p then some AttributeSet.owner
  else if p ∈ ov then some AttributeSet.copy
  else none

/-- The entries that the build loop appends to the index set when it starts at global index `i`
with counter `c`. -/
def entriesFrom (p : Int) : Int → Int → List (List Int) → List Int → List IndexPair
  | _, _, [], _ => []
  | _, _, _ :: _, [] => []
  | i, c, ov :: os, rank :: cs =>
    match heldAs p ov rank with
    | some a => ⟨i, c, a⟩ :: entriesFrom p (i + 1) (c + 1) os cs
    | none => entriesFrom p (i + 1) c os cs

/-- The entries that the build loop appends to `global2local` when it starts with counter `c`. -/
def g2lFrom (p : Int) : Int → List (List Int) → List Int → List Int
  | _, [], _ => []
  | _, _ :: _, [] => []
  | c, ov :: os, rank :: cs =>
    match heldAs p ov rank with
    | some _ => c :: g2lFrom p (c + 1) os cs
    | none => INT_MAX :: g2lFrom p c os cs

/-- The number of existing entries among the first `k` entries of an indicator vector. -/
def rankOf (indicator : List Int) (k : Nat) : Nat :=
  (indicator.take k).countP isExistent

/-- The pairs `(*i, i - ibegin)` of the existing entries that the loop of lines 182-187 meets,
in the order of the loop. -/
def existingPairs : Int → List Int → List (Int × Int)
  | _, [] => []
  | pos, v :: vs =>
    if v < INT_MAX then (v, pos) :: existingPairs (pos + 1) vs
    else existingPairs (pos + 1) vs

/-- The face indices met by the decrement pass of lines 671-693, in the order of the pass. -/
def touchedFaces (view_data : CpGridData G1 G3 Tag PointType) (ixs : List IndexPair) :
    List Int :=
  ixs.flatMap (fun e => (vecAt view_data.cell_to_face_ e.global_).map EntityRep.index)

/-- The point indices met by the decrement pass of lines 671-693, in the order of the pass. -/
def touchedPoints (view_data : CpGridData G1 G3 Tag PointType) (ixs : List IndexPair) :
    List Int :=
  ixs.flatMap (fun e =>
    (vecAt view_data.cell_to_face_ e.global_).flatMap
      (fun f => vecAt view_data.face_to_point_ f.index))

/-- The faces of a face-to-point table from face `i` on, each with its partition type, in the
order in which the loop of lines 906-923 visits them. -/
def faceVisits (getFacePartitionType : Int → PartitionType) :
    Int → List (List Int) → List (PartitionType × List Int)
  | _, [] => []
  | i, row :: rows => (getFacePartitionType i, row) :: faceVisits getFacePartitionType (i + 1) rows

/-- The point pass over a sequence of visits, each a face type with the points of the face. -/
def classifyVisits (visits : List (PartitionType × List Int))
    (point_indicator_ : List PartitionType) : List PartitionType :=
  visits.foldl (fun v x => x.2.foldl (updatePoint x.1) v) point_indicator_

/-- The face types that a sequence of visits applies to the point `j`, in order. -/
def typesAt (visits : List (PartitionType × List Int)) (j : Int) : List PartitionType :=
  visits.flatMap (fun x => List.replicate (x.2.count j) x.1)

/-- The calls `func(rank, index, mine, other)` that `iterate_over_attributes` makes from the
entry `i` on, in order. -/
def attributeCalls (my_attributes : List PartitionType) :
    Int → List (List (Int × PartitionType)) →
      List (Int × Int × PartitionType × PartitionType)
  | _, [] => []
  | i, m :: attributes =>
    m.map (fun kv => (kv.1, i, vecAt my_attributes i, kv.2))
      ++ attributeCalls my_attributes (i + 1) attributes

/-- The send list of a rank in an interface map. -/
def sendList (m : List (Int × (InterfaceInformation × InterfaceInformation))) (rank : Int) :
    List Int :=
  ((List.lookup rank m).getD default).1.indices_

/-- The receive list of a rank in an interface map. -/
def receiveList (m : List (Int × (InterfaceInformation × InterfaceInformation))) (rank : Int) :
    List Int :=
  ((List.lookup rank m).getD default).2.indices_

/-- The indices that a sequence of calls appends to the send side of a rank, for an interface
with the sets `fromSet` and `toSet`. -/
def sentIndices (fromSet toSet : PartitionType → Bool) (rank : Int)
    (calls : List (Int × Int × PartitionType × PartitionType)) : List Int :=
  (calls.filter
    (fun c => decide (c.1 = rank) && (fromSet c.2.2.1 && toSet c.2.2.2))).map (fun c => c.2.1)

/-- The indices that a sequence of calls appends to the receive side of a rank, for an
interface with the sets `fromSet` and `toSet`. -/
def receivedIndices (fromSet toSet : PartitionType → Bool) (rank : Int)
    (calls : List (Int × Int × PartitionType × PartitionType)) : List Int :=
  (calls.filter
    (fun c => decide (c.1 = rank) && (fromSet c.2.2.2 && toSet c.2.2.1))).map (fun c => c.2.1)

/-- The inserts of one call of `scatter`: `pairs` holds the entities of the row, each with the
tuple read for it. -/
def insertTuples {E : Type} (h : AttributeDataHandle E)
    (vals_ : List (List (Int × PartitionType))) (pairs : List (E × (Int × PartitionType))) :
    List (List (Int × PartitionType)) :=
  pairs.foldl
    (fun v p => vecSet v (h.getIndex p.1) (mapInsert p.2 (vecAt v (h.getIndex p.1)))) vals_

/-- The tuples of `pairs` that were read for the entity of index `e`, in the order read. -/
def receivedFor {E : Type} (h : AttributeDataHandle E)
    (pairs : List (E × (Int × PartitionType))) (e : Int) : List (Int × PartitionType) :=
  (pairs.filter (fun p => decide (h.getIndex p.1 = e))).map Prod.snd

/-- Whether the walk of lines 627-655 on rank `r` inserts a remote index for the entry `e` of
its index set under the rank `s`: for a copy when `s` is the owner of the cell, for an owned
cell when `s` is another rank of its overlap set. -/
def sharedWith (cell_part : List Int) (overlap : List (List Int)) (r s : Int)
    (e : IndexPair) : Bool :=
  if e.attribute_ ≠ AttributeSet.owner then decide (vecAt cell_part e.global_ = s)
  else decide (s ∈ vecAt overlap e.global_) && decide (s ≠ r)

/-- The global cells for which rank `r` holds a remote index under rank `s`, in the order of
its index set. -/
def sharedGlobals (cell_part : List Int) (overlap : List (List Int)) (r s : Int) : List Int :=
  ((cell_indexset cell_part overlap r).filter (sharedWith cell_part overlap r s)).map
    IndexPair.global_

/-- The local indices of the cells for which rank `r` holds a remote index under rank `s`. -/
def sharedLocals (cell_part : List Int) (overlap : List (List Int)) (r s : Int) : List Int :=
  ((cell_indexset cell_part overlap r).filter (sharedWith cell_part overlap r s)).map
    IndexPair.local_

/-- The interface map of all remote indices of rank `r`, written with `sharedLocals`. -/
def interfaceOf (cell_part : List Int) (overlap : List (List Int)) (r : Int) :
    List (Int × (InterfaceInformation × InterfaceInformation)) :=
  ((cell_counter cell_part overlap r).neighbors.map (fun n =>
    (n, ((⟨sharedLocals cell_part overlap r n,
            (sharedLocals cell_part overlap r n).length⟩ : InterfaceInformation),
         (⟨sharedLocals cell_part overlap r n,
            (sharedLocals cell_part overlap r n).length⟩ : InterfaceInformation))))).filter
    (fun kv => decide (kv.2.1.size ≠ 0) || decide (kv.2.2.size ≠ 0))

/-- The tuples that a rank with the point indicator `pa` reads for the global cell `g` from the
rank `b`, whose point indicator is `pb` and whose points have the types `gpb`, each paired
with the local point it is inserted for. -/
def cellPairs (view_data : CpGridData G1 G3 Tag PointType) (pa pb : List Int)
    (gpb : Int → PartitionType) (b : Int) (g : Int) : List (Int × (Int × PartitionType)) :=
  (newCellToPointRow pa (vecAt view_data.cell_to_point_ g)).zip
    ((newCellToPointRow pb (vecAt view_data.cell_to_point_ g)).map (fun f => (b, gpb f)))

/-- The position of a partition type in the order Overlap < Interior < Front < Border. -/
def typeOrder : PartitionType → Nat
  | PartitionType.OverlapEntity => 0
  | PartitionType.InteriorEntity => 1
  | PartitionType.FrontEntity => 2
  | PartitionType.BorderEntity => 3

/-- The greater of two partition types in the order Overlap < Interior < Front < Border: the
binary maximum that the closed form of the point classification speaks of. -/
def maxType (a b : PartitionType) : PartitionType :=
  if typeOrder a ≤ typeOrder b then b else a

/-- The condition of line 289 under which `InterfaceFunctor` adds the index to the send side of
the rank, for the type `mine` of the entity here and the type `other` recorded for the rank. -/
def sendCondition (fromSet toSet : PartitionType → Bool) (mine other : PartitionType) : Bool :=
  fromSet mine && toSet other

/-- The condition of line 291 under which `InterfaceFunctor` adds the index to the receive side
of the rank. -/
def receiveCondition (fromSet toSet : PartitionType → Bool) (mine other : PartitionType) :
    Bool :=
  fromSet other && toSet mine

/-- A sequence of calls `scatter(buffer, i, s)` on one handle: every call comes with its index
`i`, its count `s` and the buffer it reads from; `none` when a call meets an empty buffer. -/
def scatterCalls {E : Type} (h : AttributeDataHandle E) :
    List (Nat × Nat × List (Int × PartitionType)) → List (List (Int × PartitionType)) →
      Option (List (List (Int × PartitionType)))
  | [], vals_ => some vals_
  | c :: calls, vals_ =>
    match h.scatter vals_ c.2.2 c.1 c.2.1 with
    | none => none
    | some st => scatterCalls h calls st.1

/-- The number of faces with exactly one cell among the first `k` faces. -/
def boundaryCount (face_to_cell_ : List (List EntityRep)) (k : Nat) : Nat :=
  (face_to_cell_.take k).countP (fun row => decide (row.length = 1))

/-- The ids that the loop of `computeUniqueBoundaryIds` writes for a sequence of faces when the
counter holds `count` before the first of them. -/
def boundaryIdsFrom : Int → List (List EntityRep) → List Int
  | _, [] => []
  | count, row :: rows =>
    if row.length = 1 then (count + 1) :: boundaryIdsFrom (count + 1) rows
    else 0 :: boundaryIdsFrom count rows

/-! ## Reading and writing vectors -/

theorem vecSet_length {α : Type} (v : List α) (i : Int) (x : α) :
    (vecSet v i x).length = v.length := by
  unfold vecSet
  split <;> simp

theorem vecAt_natCast {α : Type} [Inhabited α] (v : List α) (k : Nat) :
    vecAt v (k : Int) = v.getD k default := by
  unfold vecAt
  have h : ¬ ((k : Int) < 0) := by omega
  simp [h]

theorem vecAt_of_getElem? {α : Type} [Inhabited α] {v : List α} {k : Nat} {x : α}
    (h : v[k]? = some x) : vecAt v (k : Int) = x := by
  rw [vecAt_natCast, List.getD_eq_getElem?_getD, h]
  rfl

theorem vecAt_toNat {α : Type} [Inhabited α] (v : List α) {i : Int} (h0 : 0 ≤ i) :
    vecAt v i = v.getD i.toNat default := by
  unfold vecAt
  have h : ¬ (i < 0) := by omega
  simp [h]

theorem getElem?_of_range {α : Type} (v : List α) {i : Int} (h0 : 0 ≤ i)
    (h1 : i < (v.length : Int)) : ∃ x, v[i.toNat]? = some x := by
  have h : i.toNat < v.length := by omega
  exact ⟨v[i.toNat], List.getElem?_eq_getElem h⟩

theorem vecAt_vecSet {α : Type} [Inhabited α] (v : List α) (i j : Int) (x : α) :
    vecAt (vecSet v i x) j
      = if i = j ∧ 0 ≤ i ∧ i < (v.length : Int) then x else vecAt v j := by
  unfold vecAt vecSet
  by_cases hi : i < 0
  · have h : ¬ (i = j ∧ 0 ≤ i ∧ i < (v.length : Int)) := by omega
    simp [hi, h]
  · by_cases hj : j < 0
    · have h : ¬ (i = j ∧ 0 ≤ i ∧ i < (v.length : Int)) := by omega
      simp [hi, hj, h]
    · simp only [hi, hj, if_false, List.getD_eq_getElem?_getD, List.getElem?_set]
      by_cases hij : i = j
      · subst hij
        by_cases hlen : i < (v.length : Int)
        · have h1 : i.toNat < v.length := by omega
          have h2 : 0 ≤ i := by omega
          simp [h1, h2, hlen]
        · have h1 : ¬ i.toNat < v.length := by omega
          have h3 : v[i.toNat]? = none := List.getElem?_eq_none (by omega)
          simp [h1, hlen, h3]
      · have h1 : ¬ (i.toNat = j.toNat) := by omega
        simp [h1, hij]

theorem vecAt_replicate {α : Type} [Inhabited α] (n : Nat) (a : α) {i : Int} (h0 : 0 ≤ i)
    (h1 : i < (n : Int)) : vecAt (List.replicate n a) i = a := by
  rw [vecAt_toNat _ h0, List.getD_eq_getElem?_getD, List.getElem?_replicate]
  have h : i.toNat < n := by omega
  simp [h]

/-! ## The build loop of the cell index set -/

theorem step_myrank (cc : CellCounter) (i : Int) (ov : List Int) (rank : Int) :
    (if ov.length ≠ 0 then cc.callShared i ov rank else cc.call i rank).myrank = cc.myrank := by
  unfold CellCounter.callShared CellCounter.call
  split <;> split <;> try split
  all_goals rfl

theorem step_some (cc : CellCounter) (i : Int) (ov : List Int) (rank : Int) (a : AttributeSet)
    (h : heldAs cc.myrank ov rank = some a) :
    (if ov.length ≠ 0 then cc.callShared i ov rank else cc.call i rank).indexset
        = cc.indexset ++ [⟨i, cc.count, a⟩]
      ∧ (if ov.length ≠ 0 then cc.callShared i ov rank else cc.call i rank).count = cc.count + 1
      ∧ (if ov.length ≠ 0 then cc.callShared i ov rank else cc.call i rank).global2local
        = cc.global2local ++ [cc.count] := by
  unfold heldAs at h
  unfold CellCounter.callShared CellCounter.call
  by_cases hr : rank = cc.myrank
  · simp only [hr, if_true] at h
    cases h
    by_cases hl : ov.length ≠ 0 <;> simp [hr, hl]
  · simp only [hr, if_false] at h
    by_cases hm : cc.myrank ∈ ov
    · simp only [hm, if_true] at h
      cases h
      have hl : ov.length ≠ 0 := by
        intro h0
        have : ov = [] := List.length_eq_zero.mp h0
        rw [this] at hm
        cases hm
      simp [hr, hl, hm]
    · simp [hm] at h

theorem step_none (cc : CellCounter) (i : Int) (ov : List Int) (rank : Int)
    (h : heldAs cc.myrank ov rank = none) :
    (if ov.length ≠ 0 then cc.callShared i ov rank else cc.call i rank).indexset = cc.indexset
      ∧ (if ov.length ≠ 0 then cc.callShared i ov rank else cc.call i rank).count = cc.count
      ∧ (if ov.length ≠ 0 then cc.callShared i ov rank else cc.call i rank).global2local
        = cc.global2local ++ [INT_MAX] := by
  unfold heldAs at h
  unfold CellCounter.callShared CellCounter.call
  by_cases hr : rank = cc.myrank
  · simp [hr] at h
  · by_cases hm : cc.myrank ∈ ov
    · simp [hr, hm] at h
    · by_cases hl : ov.length ≠ 0 <;> simp [hr, hl, hm]

theorem buildLoop_eq (os : List (List Int)) :
    ∀ (cs : List Int) (cc : CellCounter) (i : Int),
      (buildLoop cc i os cs).myrank = cc.myrank
      ∧ (buildLoop cc i os cs).indexset
          = cc.indexset ++ entriesFrom cc.myrank i cc.count os cs
      ∧ (buildLoop cc i os cs).global2local
          = cc.global2local ++ g2lFrom cc.myrank cc.count os cs
      ∧ (buildLoop cc i os cs).count
          = cc.count + ((entriesFrom cc.myrank i cc.count os cs).length : Int) := by
  induction os with
  | nil => intro cs cc i; simp [buildLoop, entriesFrom, g2lFrom]
  | cons ov os ih =>
    intro cs cc i
    cases cs with
    | nil => simp [buildLoop, entriesFrom, g2lFrom]
    | cons rank cs =>
      have hstep := ih cs (if ov.length ≠ 0 then cc.callShared i ov rank else cc.call i rank)
        (i + 1)
      rw [step_myrank] at hstep
      simp only [buildLoop, entriesFrom, g2lFrom]
      cases hh : heldAs cc.myrank ov rank with
      | none =>
        obtain ⟨h1, h2, h3⟩ := step_none cc i ov rank hh
        rw [h1, h2, h3] at hstep
        simpa using hstep
      | some a =>
        obtain ⟨h1, h2, h3⟩ := step_some cc i ov rank a hh
        rw [h1, h2, h3] at hstep
        obtain ⟨e1, e2, e3, e4⟩ := hstep
        refine ⟨e1, ?_, ?_, ?_⟩
        · simpa using e2
        · simpa using e3
        · rw [e4]
          simp only [List.length_cons]
          push_cast
          ring

theorem cell_indexset_eq (cell_part : List Int) (overlap : List (List Int)) (p : Int) :
    cell_indexset cell_part overlap p = entriesFrom p 0 0 overlap cell_part := by
  unfold cell_indexset cell_counter
  have h := (buildLoop_eq overlap cell_part ⟨p, 0, [], [], []⟩ 0).2.1
  simpa using h

theorem global2local_eq (cell_part : List Int) (overlap : List (List Int)) (p : Int) :
    (cell_counter cell_part overlap p).global2local = g2lFrom p 0 overlap cell_part := by
  unfold cell_counter
  have h := (buildLoop_eq overlap cell_part ⟨p, 0, [], [], []⟩ 0).2.2.1
  simpa using h

theorem entriesFrom_mem (p : Int) (os : List (List Int)) :
    ∀ (cs : List Int) (i c : Int) (e : IndexPair), e ∈ entriesFrom p i c os cs →
      ∃ (k : Nat) (ov : List Int) (r : Int), os[k]? = some ov ∧ cs[k]? = some r
        ∧ e.global_ = i + k ∧ heldAs p ov r = some e.attribute_ := by
  induction os with
  | nil => intro cs i c e h; simp [entriesFrom] at h
  | cons ov os ih =>
    intro cs i c e h
    cases cs with
    | nil => simp [entriesFrom] at h
    | cons rank cs =>
      simp only [entriesFrom] at h
      cases hh : heldAs p ov rank with
      | none =>
        rw [hh] at h
        obtain ⟨k, ov1, r1, h1, h2, h3, h4⟩ := ih cs (i + 1) c e h
        refine ⟨k + 1, ov1, r1, by simpa using h1, by simpa using h2, ?_, h4⟩
        rw [h3]; push_cast; ring
      | some a =>
        rw [hh] at h
        rcases List.mem_cons.mp h with h0 | h0
        · subst h0
          exact ⟨0, ov, rank, by simp, by simp, by simp, hh⟩
        · obtain ⟨k, ov1, r1, h1, h2, h3, h4⟩ := ih cs (i + 1) (c + 1) e h0
          refine ⟨k + 1, ov1, r1, by simpa using h1, by simpa using h2, ?_, h4⟩
          rw [h3]; push_cast; ring

theorem entriesFrom_exists (p : Int) (os : List (List Int)) :
    ∀ (cs : List Int) (i c : Int) (k : Nat) (ov : List Int) (r : Int) (a : AttributeSet),
      os[k]? = some ov → cs[k]? = some r → heldAs p ov r = some a →
      ∃ e ∈ entriesFrom p i c os cs, e.global_ = i + k ∧ e.attribute_ = a := by
  induction os with
  | nil => intro cs i c k ov r a h; simp at h
  | cons ov0 os ih =>
    intro cs i c k ov r a h1 h2 h3
    cases cs with
    | nil => simp at h2
    | cons rank cs =>
      simp only [entriesFrom]
      cases k with
      | zero =>
        simp only [List.getElem?_cons_zero, Option.some.injEq] at h1 h2
        subst h1; subst h2
        rw [h3]
        exact ⟨⟨i, c, a⟩, by simp, by simp, rfl⟩
      | succ k =>
        simp only [List.getElem?_cons_succ] at h1 h2
        cases hh : heldAs p ov0 rank with
        | none =>
          obtain ⟨e, he, hg, ha⟩ := ih cs (i + 1) c k ov r a h1 h2 h3
          exact ⟨e, he, by rw [hg]; push_cast; ring, ha⟩
        | some a0 =>
          obtain ⟨e, he, hg, ha⟩ := ih cs (i + 1) (c + 1) k ov r a h1 h2 h3
          exact ⟨e, List.mem_cons_of_mem _ he, by rw [hg]; push_cast; ring, ha⟩

theorem entriesFrom_local (p : Int) (os : List (List Int)) :
    ∀ (cs : List Int) (i c : Int) (j : Nat) (e : IndexPair),
      (entriesFrom p i c os cs)[j]? = some e → e.local_ = c + j := by
  induction os with
  | nil => intro cs i c j e h; simp [entriesFrom] at h
  | cons ov os ih =>
    intro cs i c j e h
    cases cs with
    | nil => simp [entriesFrom] at h
    | cons rank cs =>
      simp only [entriesFrom] at h
      cases hh : heldAs p ov rank with
      | none =>
        rw [hh] at h
        exact ih cs (i + 1) c j e h
      | some a =>
        rw [hh] at h
        cases j with
        | zero =>
          simp only [List.getElem?_cons_zero, Option.some.injEq] at h
          subst h
          simp
        | succ j =>
          simp only [List.getElem?_cons_succ] at h
          rw [ih cs (i + 1) (c + 1) j e h]
          push_cast; ring

theorem entriesFrom_pairwise (p : Int) (os : List (List Int)) :
    ∀ (cs : List Int) (i c : Int),
      List.Pairwise (fun a b : IndexPair => a.global_ < b.global_ ∧ a.local_ < b.local_)
        (entriesFrom p i c os cs)
      ∧ ∀ e ∈ entriesFrom p i c os cs, i ≤ e.global_ ∧ c ≤ e.local_ := by
  induction os with
  | nil => intro cs i c; simp [entriesFrom]
  | cons ov os ih =>
    intro cs i c
    cases cs with
    | nil => simp [entriesFrom]
    | cons rank cs =>
      simp only [entriesFrom]
      cases hh : heldAs p ov rank with
      | none =>
        obtain ⟨h1, h2⟩ := ih cs (i + 1) c
        refine ⟨h1, fun e he => ?_⟩
        have := h2 e he
        omega
      | some a =>
        obtain ⟨h1, h2⟩ := ih cs (i + 1) (c + 1)
        constructor
        · refine List.Pairwise.cons (fun e he => ?_) h1
          have := h2 e he
          constructor <;> simp <;> omega
        · intro e he
          rcases List.mem_cons.mp he with h0 | h0
          · subst h0; simp
          · have := h2 e h0
            omega

theorem heldAs_owner (p : Int) (ov : List Int) (r : Int) :
    heldAs p ov r = some AttributeSet.owner ↔ r = p := by
  unfold heldAs
  by_cases h : r = p
  · simp [h]
  · by_cases hm : p ∈ ov <;> simp [h, hm]

theorem heldAs_copy (p : Int) (ov : List Int) (r : Int) :
    heldAs p ov r = some AttributeSet.copy ↔ r ≠ p ∧ p ∈ ov := by
  unfold heldAs
  by_cases h : r = p
  · simp [h]
  · by_cases hm : p ∈ ov <;> simp [h, hm]

theorem heldAs_isSome (p : Int) (ov : List Int) (r : Int) :
    (∃ a, heldAs p ov r = some a) ↔ (r = p ∨ p ∈ ov) := by
  unfold heldAs
  by_cases h : r = p
  · simp [h]
  · by_cases hm : p ∈ ov <;> simp [h, hm]

theorem cell_indexset_entry (cell_part : List Int) (overlap : List (List Int)) (p : Int)
    (e : IndexPair) (he : e ∈ cell_indexset cell_part overlap p) :
    0 ≤ e.global_ ∧ e.global_ < (cell_part.length : Int) ∧ e.global_ < (overlap.length : Int)
      ∧ heldAs p (vecAt overlap e.global_) (vecAt cell_part e.global_) = some e.attribute_ := by
  rw [cell_indexset_eq] at he
  obtain ⟨k, ov, r, h1, h2, h3, h4⟩ := entriesFrom_mem p overlap cell_part 0 0 e he
  have hk1 : k < overlap.length := (List.getElem?_eq_some.mp h1).1
  have hk2 : k < cell_part.length := (List.getElem?_eq_some.mp h2).1
  have hg : e.global_ = (k : Int) := by omega
  rw [hg, vecAt_of_getElem? h1, vecAt_of_getElem? h2]
  exact ⟨by omega, by omega, by omega, h4⟩

theorem cell_indexset_has (cell_part : List Int) (overlap : List (List Int)) (p g : Int)
    (a : AttributeSet) (h0 : 0 ≤ g) (hc : g < (cell_part.length : Int))
    (ho : g < (overlap.length : Int))
    (h : heldAs p (vecAt overlap g) (vecAt cell_part g) = some a) :
    ∃ e ∈ cell_indexset cell_part overlap p, e.global_ = g ∧ e.attribute_ = a := by
  obtain ⟨ov, hov⟩ := getElem?_of_range overlap h0 ho
  obtain ⟨r, hr⟩ := getElem?_of_range cell_part h0 hc
  have hg : ((g.toNat : Nat) : Int) = g := by omega
  rw [← hg, vecAt_of_getElem? hov, vecAt_of_getElem? hr] at h
  rw [cell_indexset_eq]
  obtain ⟨e, he, h1, h2⟩ := entriesFrom_exists p overlap cell_part 0 0 g.toNat ov r a hov hr h
  exact ⟨e, he, by omega, h2⟩

theorem pairwise_cases {α : Type} {R : α → α → Prop} {l : List α} (h : l.Pairwise R) :
    ∀ a ∈ l, ∀ b ∈ l, a = b ∨ R a b ∨ R b a := by
  induction h with
  | nil => intro a ha; cases ha
  | cons hx _ ih =>
    intro a ha b hb
    rcases List.mem_cons.mp ha with h1 | h1 <;> rcases List.mem_cons.mp hb with h2 | h2
    · left; rw [h1, h2]
    · right; left; rw [h1]; exact hx b h2
    · right; right; rw [h2]; exact hx a h1
    · exact ih a h1 b h2

theorem cell_indexset_pairwise (cell_part : List Int) (overlap : List (List Int)) (p : Int) :
    List.Pairwise (fun a b : IndexPair => a.global_ < b.global_ ∧ a.local_ < b.local_)
      (cell_indexset cell_part overlap p) := by
  rw [cell_indexset_eq]
  exact (entriesFrom_pairwise p overlap cell_part 0 0).1

theorem cell_indexset_local (cell_part : List Int) (overlap : List (List Int)) (p : Int)
    (j : Nat) (e : IndexPair) (h : (cell_indexset cell_part overlap p)[j]? = some e) :
    e.local_ = (j : Int) := by
  rw [cell_indexset_eq] at h
  have := entriesFrom_local p overlap cell_part 0 0 j e h
  omega

theorem cell_indexset_unique (cell_part : List Int) (overlap : List (List Int)) (p : Int)
    (a b : IndexPair) (ha : a ∈ cell_indexset cell_part overlap p)
    (hb : b ∈ cell_indexset cell_part overlap p) (h : a.global_ = b.global_) : a = b := by
  rcases pairwise_cases (cell_indexset_pairwise cell_part overlap p) a ha b hb with h1 | h1 | h1
  · exact h1
  · omega
  · omega

theorem mem_ownerSet (cell_part : List Int) (overlap : List (List Int)) (p g : Int) :
    g ∈ ownerSet cell_part overlap p
      ↔ ∃ e ∈ cell_indexset cell_part overlap p,
          e.global_ = g ∧ e.attribute_ = AttributeSet.owner := by
  unfold ownerSet
  simp only [List.mem_map, List.mem_filter, decide_eq_true_eq]
  constructor
  · rintro ⟨e, ⟨h1, h2⟩, h3⟩
    exact ⟨e, h1, h3, h2⟩
  · rintro ⟨e, h1, h3, h2⟩
    exact ⟨e, ⟨h1, h2⟩, h3⟩

theorem mem_ownerSet_iff (cell_part : List Int) (overlap : List (List Int)) (p g : Int)
    (h0 : 0 ≤ g) (hc : g < (cell_part.length : Int)) (ho : g < (overlap.length : Int)) :
    g ∈ ownerSet cell_part overlap p ↔ vecAt cell_part g = p := by
  rw [mem_ownerSet]
  constructor
  · rintro ⟨e, he, hg, ha⟩
    have h := (cell_indexset_entry cell_part overlap p e he).2.2.2
    rw [ha, hg] at h
    exact (heldAs_owner _ _ _).mp h
  · intro h
    exact cell_indexset_has cell_part overlap p g AttributeSet.owner h0 hc ho
      ((heldAs_owner _ _ _).mpr h)

/-! ## Claims on the cell index set -/

/-- Claim C1.  For every partition assignment, overlap map and own rank `p`, a global cell `g`
is added to the cell index set of `p` iff `cell_part[g] = p` or `p` is a member of `overlap[g]`;
an added cell has attribute `owner` iff `cell_part[g] = p` and attribute `copy` otherwise. -/
theorem cell_indexset_membership (cell_part : List Int) (overlap : List (List Int)) (p g : Int)
    (h0 : 0 ≤ g) (hc : g < (cell_part.length : Int)) (ho : g < (overlap.length : Int)) :
    ((∃ e ∈ cell_indexset cell_part overlap p, e.global_ = g)
        ↔ (vecAt cell_part g = p ∨ p ∈ vecAt overlap g))
      ∧ ∀ e ∈ cell_indexset cell_part overlap p, e.global_ = g →
          (e.attribute_ = AttributeSet.owner ↔ vecAt cell_part g = p)
          ∧ (e.attribute_ = AttributeSet.copy ↔ vecAt cell_part g ≠ p) := by
  constructor
  · constructor
    · rintro ⟨e, he, hg⟩
      have h := (cell_indexset_entry cell_part overlap p e he).2.2.2
      rw [hg] at h
      exact (heldAs_isSome _ _ _).mp ⟨_, h⟩
    · intro h
      obtain ⟨a, ha⟩ := (heldAs_isSome p (vecAt overlap g) (vecAt cell_part g)).mpr h
      obtain ⟨e, he, hg, _⟩ := cell_indexset_has cell_part overlap p g a h0 hc ho ha
      exact ⟨e, he, hg⟩
  · intro e he hg
    have h := (cell_indexset_entry cell_part overlap p e he).2.2.2
    rw [hg] at h
    constructor
    · constructor
      · intro ha
        rw [ha] at h
        exact (heldAs_owner _ _ _).mp h
      · intro hr
        have h2 := (heldAs_owner p (vecAt overlap g) (vecAt cell_part g)).mpr hr
        rw [h2] at h
        exact (Option.some.inj h).symm
    · constructor
      · intro ha
        rw [ha] at h
        exact ((heldAs_copy _ _ _).mp h).1
      · intro hr
        cases hattr : e.attribute_ with
        | copy => rfl
        | owner =>
          rw [hattr] at h
          exact absurd ((heldAs_owner _ _ _).mp h) hr

/-- Witness of claim C1: two cells, cell 0 owned by rank 0, cell 1 owned by rank 1 and in the
overlap of rank 0; the statement is read on rank 0 at the global cell 1. -/
theorem cell_indexset_membership_witness :
    ((∃ e ∈ cell_indexset [0, 1] [[1], [0]] 0, e.global_ = 1)
        ↔ (vecAt [0, 1] (1 : Int) = (0 : Int) ∨ (0 : Int) ∈ vecAt [[1], [0]] (1 : Int)))
      ∧ ∀ e ∈ cell_indexset [0, 1] [[1], [0]] 0, e.global_ = 1 →
          (e.attribute_ = AttributeSet.owner ↔ vecAt [0, 1] (1 : Int) = (0 : Int))
          ∧ (e.attribute_ = AttributeSet.copy ↔ vecAt [0, 1] (1 : Int) ≠ (0 : Int)) :=
  cell_indexset_membership [0, 1] [[1], [0]] 0 1 (by decide) (by decide) (by decide)

/-- Claim C2.  For a partition assignment with entries in `[0, P)` and every overlap map, the
index sets built on the ranks `0..P-1` give every global cell `g` exactly one rank that holds
it as `owner`, namely `cell_part[g]`; the owner sets of two different ranks share no cell, and
their union is the set of all global cells. -/
theorem owner_exactly_once (P : Int) (cell_part : List Int) (overlap : List (List Int))
    (hlen : overlap.length = cell_part.length) (hP : ∀ r ∈ cell_part, 0 ≤ r ∧ r < P) :
    (∀ g : Int, 0 ≤ g → g < (cell_part.length : Int) →
        (∃! p : Int, (0 ≤ p ∧ p < P) ∧ g ∈ ownerSet cell_part overlap p)
        ∧ (0 ≤ vecAt cell_part g ∧ vecAt cell_part g < P)
        ∧ g ∈ ownerSet cell_part overlap (vecAt cell_part g))
      ∧ (∀ p q : Int, p ≠ q →
          ∀ g : Int, ¬ (g ∈ ownerSet cell_part overlap p ∧ g ∈ ownerSet cell_part overlap q))
      ∧ (∀ p g : Int, g ∈ ownerSet cell_part overlap p →
          0 ≤ g ∧ g < (cell_part.length : Int)) := by
  have hrange : ∀ p g : Int, g ∈ ownerSet cell_part overlap p →
      0 ≤ g ∧ g < (cell_part.length : Int) ∧ g < (overlap.length : Int) := by
    intro p g hg
    obtain ⟨e, he, h1, _⟩ := (mem_ownerSet _ _ _ _).mp hg
    have := cell_indexset_entry cell_part overlap p e he
    rw [h1] at this
    exact ⟨this.1, this.2.1, this.2.2.1⟩
  refine ⟨?_, ?_, ?_⟩
  · intro g h0 hc
    have ho : g < (overlap.length : Int) := by omega
    have hin : 0 ≤ vecAt cell_part g ∧ vecAt cell_part g < P := by
      obtain ⟨r, hr⟩ := getElem?_of_range cell_part h0 hc
      have hg : ((g.toNat : Nat) : Int) = g := by omega
      have hv : vecAt cell_part g = r := by
        rw [← hg]; exact vecAt_of_getElem? hr
      rw [hv]
      exact hP r (List.mem_iff_getElem?.mpr ⟨_, hr⟩)
    have hown : g ∈ ownerSet cell_part overlap (vecAt cell_part g) :=
      (mem_ownerSet_iff cell_part overlap _ g h0 hc ho).mpr rfl
    refine ⟨⟨vecAt cell_part g, ⟨hin, hown⟩, ?_⟩, hin, hown⟩
    rintro q ⟨_, hq⟩
    exact ((mem_ownerSet_iff cell_part overlap q g h0 hc ho).mp hq).symm
  · rintro p q hpq g ⟨h1, h2⟩
    obtain ⟨h0, hc, ho⟩ := hrange p g h1
    have e1 := (mem_ownerSet_iff cell_part overlap p g h0 hc ho).mp h1
    have e2 := (mem_ownerSet_iff cell_part overlap q g h0 hc ho).mp h2
    exact hpq (e1.symm.trans e2)
  · intro p g hg
    obtain ⟨h0, hc, _⟩ := hrange p g hg
    exact ⟨h0, hc⟩

/-- Witness of claim C2: three cells on two ranks with one layer of overlap. -/
theorem owner_exactly_once_witness :
    (∀ g : Int, 0 ≤ g → g < (([0, 1, 1] : List Int).length : Int) →
        (∃! p : Int, (0 ≤ p ∧ p < 2) ∧ g ∈ ownerSet [0, 1, 1] [[1], [0], []] p)
        ∧ ((0 : Int) ≤ vecAt [0, 1, 1] g ∧ vecAt [0, 1, 1] g < (2 : Int))
        ∧ g ∈ ownerSet [0, 1, 1] [[1], [0], []] (vecAt [0, 1, 1] g))
      ∧ (∀ p q : Int, p ≠ q →
          ∀ g : Int, ¬ (g ∈ ownerSet [0, 1, 1] [[1], [0], []] p
            ∧ g ∈ ownerSet [0, 1, 1] [[1], [0], []] q))
      ∧ (∀ p g : Int, g ∈ ownerSet [0, 1, 1] [[1], [0], []] p →
          0 ≤ g ∧ g < (([0, 1, 1] : List Int).length : Int)) :=
  owner_exactly_once 2 [0, 1, 1] [[1], [0], []] (by decide) (by decide)

/-- Claim C3.  The renumbering of the cells is dense and keeps the order: the local indices of
the `N` cells of the index set are `0, 1, ..., N-1`, and of two cells of the index set the one
with the smaller global index has the smaller local index. -/
theorem cell_renumbering_dense_monotone (cell_part : List Int) (overlap : List (List Int))
    (p : Int) :
    (cell_indexset cell_part overlap p).map IndexPair.local_
        = (List.range (cell_indexset cell_part overlap p).length).map Int.ofNat
      ∧ ∀ a ∈ cell_indexset cell_part overlap p, ∀ b ∈ cell_indexset cell_part overlap p,
          a.global_ < b.global_ → a.local_ < b.local_ := by
  constructor
  · apply List.ext_getElem?
    intro j
    rw [List.getElem?_map, List.getElem?_map]
    cases h : (cell_indexset cell_part overlap p)[j]? with
    | none =>
      have hj : (cell_indexset cell_part overlap p).length ≤ j := List.getElem?_eq_none_iff.mp h
      rw [List.getElem?_eq_none (by simpa using hj)]
      rfl
    | some e =>
      have hj : j < (cell_indexset cell_part overlap p).length := (List.getElem?_eq_some.mp h).1
      rw [List.getElem?_range hj]
      simp only [Option.map_some']
      rw [cell_indexset_local cell_part overlap p j e h]
      rfl
  · intro a ha b hb hab
    rcases pairwise_cases (cell_indexset_pairwise cell_part overlap p) a ha b hb with h1 | h1 | h1
    · subst h1; omega
    · exact h1.2
    · omega

/-! ## The decrement pass -/

theorem decrAt_length (v : List Int) (i : Int) : (decrAt v i).length = v.length := by
  unfold decrAt
  exact vecSet_length _ _ _

theorem foldl_decrAt_length (xs : List Int) :
    ∀ v : List Int, (xs.foldl decrAt v).length = v.length := by
  induction xs with
  | nil => intro v; rfl
  | cons x xs ih => intro v; rw [List.foldl_cons, ih, decrAt_length]

theorem vecAt_foldl_decrAt (xs : List Int) :
    ∀ (v : List Int) (j : Int), 0 ≤ j → j < (v.length : Int) →
      vecAt (xs.foldl decrAt v) j = vecAt v j - (xs.count j : Int) := by
  induction xs with
  | nil => intro v j _ _; simp
  | cons x xs ih =>
    intro v j h0 h1
    rw [List.foldl_cons, ih (decrAt v x) j h0 (by rw [decrAt_length]; exact h1)]
    unfold decrAt
    rw [vecAt_vecSet, List.count_cons]
    by_cases hx : x = j
    · subst hx
      simp [h0, h1]
      ring
    · have h2 : ¬ (x = j ∧ 0 ≤ x ∧ x < (v.length : Int)) := fun h => hx h.1
      simp [hx, h2]

theorem marked_iff_mem (xs : List Int) (n : Nat) (j : Int) (h0 : 0 ≤ j) (h1 : j < (n : Int)) :
    vecAt (xs.foldl decrAt (List.replicate n INT_MAX)) j < INT_MAX ↔ j ∈ xs := by
  rw [vecAt_foldl_decrAt xs _ j h0 (by simpa using h1), vecAt_replicate n INT_MAX h0 h1,
    ← List.count_pos_iff]
  omega

theorem markFaces_eq (view_data : CpGridData G1 G3 Tag PointType) (row : List EntityRep) :
    ∀ st : List Int × List Int,
      markFaces view_data st row
        = ((row.map EntityRep.index).foldl decrAt st.1,
           (row.flatMap (fun f => vecAt view_data.face_to_point_ f.index)).foldl decrAt st.2) := by
  induction row with
  | nil => intro st; rfl
  | cons f row ih =>
    intro st
    have h := ih (decrAt st.1 f.index, markPoints st.2 (vecAt view_data.face_to_point_ f.index))
    unfold markFaces at h ⊢
    rw [List.foldl_cons, h]
    simp [markPoints, List.flatMap_cons, List.foldl_append]

theorem markExistent_from (view_data : CpGridData G1 G3 Tag PointType) (ixs : List IndexPair) :
    ∀ st : List Int × List Int,
      ixs.foldl (fun st e => markFaces view_data st (vecAt view_data.cell_to_face_ e.global_)) st
        = ((touchedFaces view_data ixs).foldl decrAt st.1,
           (touchedPoints view_data ixs).foldl decrAt st.2) := by
  induction ixs with
  | nil => intro st; rfl
  | cons e ixs ih =>
    intro st
    rw [List.foldl_cons, ih, markFaces_eq]
    simp [touchedFaces, touchedPoints, List.flatMap_cons, List.foldl_append]

theorem markExistent_eq (view_data : CpGridData G1 G3 Tag PointType) (ixs : List IndexPair) :
    markExistent view_data ixs
      = ((touchedFaces view_data ixs).foldl decrAt
            (List.replicate view_data.geomVector1.length INT_MAX),
         (touchedPoints view_data ixs).foldl decrAt
            (List.replicate view_data.geomVector3.length INT_MAX)) := by
  unfold markExistent
  rw [markExistent_from]

theorem markExistent_length (view_data : CpGridData G1 G3 Tag PointType)
    (ixs : List IndexPair) :
    (markExistent view_data ixs).1.length = view_data.geomVector1.length
      ∧ (markExistent view_data ixs).2.length = view_data.geomVector3.length := by
  rw [markExistent_eq]
  simp [foldl_decrAt_length]

theorem mem_touchedFaces (view_data : CpGridData G1 G3 Tag PointType) (ixs : List IndexPair)
    (f : Int) :
    f ∈ touchedFaces view_data ixs
      ↔ ∃ e ∈ ixs, ∃ fe ∈ vecAt view_data.cell_to_face_ e.global_, fe.index = f := by
  unfold touchedFaces
  simp [List.mem_flatMap, List.mem_map]

theorem mem_touchedPoints (view_data : CpGridData G1 G3 Tag PointType) (ixs : List IndexPair)
    (q : Int) :
    q ∈ touchedPoints view_data ixs
      ↔ ∃ e ∈ ixs, ∃ fe ∈ vecAt view_data.cell_to_face_ e.global_,
          q ∈ vecAt view_data.face_to_point_ fe.index := by
  unfold touchedPoints
  simp [List.mem_flatMap]

theorem face_marked_iff (view_data : CpGridData G1 G3 Tag PointType) (ixs : List IndexPair)
    (f : Int) (h0 : 0 ≤ f) (h1 : f < (view_data.geomVector1.length : Int)) :
    vecAt (markExistent view_data ixs).1 f < INT_MAX
      ↔ ∃ e ∈ ixs, ∃ fe ∈ vecAt view_data.cell_to_face_ e.global_, fe.index = f := by
  rw [markExistent_eq, ← mem_touchedFaces]
  exact marked_iff_mem _ _ f h0 h1

theorem point_marked_iff (view_data : CpGridData G1 G3 Tag PointType) (ixs : List IndexPair)
    (q : Int) (h0 : 0 ≤ q) (h1 : q < (view_data.geomVector3.length : Int)) :
    vecAt (markExistent view_data ixs).2 q < INT_MAX
      ↔ ∃ e ∈ ixs, ∃ fe ∈ vecAt view_data.cell_to_face_ e.global_,
          q ∈ vecAt view_data.face_to_point_ fe.index := by
  rw [markExistent_eq, ← mem_touchedPoints]
  exact marked_iff_mem _ _ q h0 h1

/-! ## Claim on the presence marking -/

/-- Claim C4.  After the decrement pass a global face `f` has an entry of `face_indicator`
below `INT_MAX` iff `f` occurs in the global cell-to-face row of at least one cell of the index
set, and a global point `q` has an entry of `point_indicator` below `INT_MAX` iff `q` occurs in
the global face-to-point row of at least one such face. -/
theorem presence_marking (view_data : CpGridData G1 G3 Tag PointType) (ixs : List IndexPair)
    (f q : Int) (hf0 : 0 ≤ f) (hf1 : f < (view_data.geomVector1.length : Int))
    (hq0 : 0 ≤ q) (hq1 : q < (view_data.geomVector3.length : Int)) :
    (vecAt (markExistent view_data ixs).1 f < INT_MAX
        ↔ ∃ e ∈ ixs, ∃ fe ∈ vecAt view_data.cell_to_face_ e.global_, fe.index = f)
      ∧ (vecAt (markExistent view_data ixs).2 q < INT_MAX
        ↔ ∃ e ∈ ixs, ∃ fe ∈ vecAt view_data.cell_to_face_ e.global_,
            q ∈ vecAt view_data.face_to_point_ fe.index) :=
  ⟨face_marked_iff view_data ixs f hf0 hf1, point_marked_iff view_data ixs q hq0 hq1⟩

/-- Witness of claim C4: the two-cell grid on rank 1 without overlap, read at the shared face 1
and at point 4. -/
theorem presence_marking_witness :
    (vecAt (markExistent twoCellGrid (cell_indexset [0, 1] [[], []] 1)).1 (1 : Int) < INT_MAX
        ↔ ∃ e ∈ cell_indexset [0, 1] [[], []] 1,
            ∃ fe ∈ vecAt twoCellGrid.cell_to_face_ e.global_, fe.index = 1)
      ∧ (vecAt (markExistent twoCellGrid (cell_indexset [0, 1] [[], []] 1)).2 (4 : Int) < INT_MAX
        ↔ ∃ e ∈ cell_indexset [0, 1] [[], []] 1,
            ∃ fe ∈ vecAt twoCellGrid.cell_to_face_ e.global_,
              (4 : Int) ∈ vecAt twoCellGrid.face_to_point_ fe.index) :=
  presence_marking twoCellGrid (cell_indexset [0, 1] [[], []] 1) 1 4
    (by decide) (by decide) (by decide) (by decide)

/-! ## Renumbering of an indicator vector -/

theorem isExistent_iff (v : Int) : isExistent v = true ↔ v < INT_MAX := by
  unfold isExistent
  simp

theorem rankOf_zero (ind : List Int) : rankOf ind 0 = 0 := by
  simp [rankOf]

theorem rankOf_cons_succ (v : Int) (vs : List Int) (k : Nat) :
    rankOf (v :: vs) (k + 1) = rankOf vs k + if v < INT_MAX then 1 else 0 := by
  unfold rankOf
  rw [List.take_succ_cons, List.countP_cons]
  simp [isExistent_iff]

theorem rankOf_le (ind : List Int) (k : Nat) : rankOf ind k ≤ k := by
  unfold rankOf
  have h1 := List.countP_le_length isExistent (l := ind.take k)
  have h2 : (ind.take k).length ≤ k := by simp
  omega

theorem rankOf_mono (ind : List Int) {m n : Nat} (h : m ≤ n) : rankOf ind m ≤ rankOf ind n :=
  List.Sublist.countP_le _ (List.take_sublist_take_left ind h)

theorem rankOf_succ (ind : List Int) (k : Nat) (v : Int) (h : ind[k]? = some v) :
    rankOf ind (k + 1) = rankOf ind k + if v < INT_MAX then 1 else 0 := by
  unfold rankOf
  rw [List.take_succ, h, List.countP_append]
  by_cases hv : v < INT_MAX
  · simp [hv, List.countP_cons, isExistent_iff]
  · simp [hv, List.countP_cons, isExistent_iff]

theorem rankOf_le_total (ind : List Int) (k : Nat) :
    rankOf ind k ≤ ind.countP isExistent :=
  List.Sublist.countP_le _ (List.take_sublist k ind)

theorem rankOf_lt_total (ind : List Int) (k : Nat) (v : Int) (h : ind[k]? = some v)
    (hv : v < INT_MAX) : rankOf ind k < ind.countP isExistent := by
  have h1 := rankOf_succ ind k v h
  have h2 := rankOf_le_total ind (k + 1)
  simp only [hv, if_true] at h1
  omega

theorem forEachAssign_length (ind : List Int) :
    ∀ a : AssignAndIncrement, (forEachAssign a ind).length = ind.length := by
  induction ind with
  | nil => intro a; rfl
  | cons v vs ih => intro a; simp [forEachAssign, ih]

theorem forEachAssign_getElem? (ind : List Int) :
    ∀ (a : AssignAndIncrement) (k : Nat) (v : Int), ind[k]? = some v →
      (forEachAssign a ind)[k]?
        = some (if v < INT_MAX then a.i_ + (rankOf ind k : Int) else v) := by
  induction ind with
  | nil => intro a k v h; simp at h
  | cons v0 vs ih =>
    intro a k v h
    cases k with
    | zero =>
      simp only [List.getElem?_cons_zero, Option.some.injEq] at h
      subst h
      simp only [forEachAssign, List.getElem?_cons_zero, rankOf_zero, AssignAndIncrement.call]
      by_cases hv : v0 < INT_MAX <;> simp [hv]
    | succ k =>
      simp only [List.getElem?_cons_succ] at h
      simp only [forEachAssign, List.getElem?_cons_succ]
      rw [ih _ k v h, rankOf_cons_succ]
      unfold AssignAndIncrement.call
      by_cases hv : v < INT_MAX <;> by_cases hv0 : v0 < INT_MAX <;> simp [hv, hv0]
      · ring

theorem renumber_length (ind : List Int) : (renumber ind).length = ind.length :=
  forEachAssign_length ind _

theorem renumber_getElem? (ind : List Int) (k : Nat) (v : Int) (h : ind[k]? = some v) :
    (renumber ind)[k]? = some (if v < INT_MAX then (rankOf ind k : Int) else v) := by
  unfold renumber
  rw [forEachAssign_getElem? ind _ k v h]
  simp

theorem forEachAssign_zip (ind : List Int) :
    ∀ a : AssignAndIncrement,
      (((ind.zip (forEachAssign a ind)).filter (fun x => isExistent x.1)).map Prod.snd)
        = (List.range (ind.countP isExistent)).map (fun n : Nat => a.i_ + (n : Int)) := by
  induction ind with
  | nil => intro a; simp [forEachAssign]
  | cons v vs ih =>
    intro a
    simp only [forEachAssign, List.zip_cons_cons, List.filter_cons]
    by_cases hv : v < INT_MAX
    · have h1 : isExistent v = true := (isExistent_iff v).mpr hv
      rw [List.countP_cons_of_pos _ _ h1, List.range_succ_eq_map]
      simp only [h1, if_true, List.map_cons, List.map_map]
      rw [ih]
      simp only [AssignAndIncrement.call, hv, if_true]
      congr 1
      · simp
      · apply List.map_congr_left
        intro n _
        simp only [Function.comp, Nat.succ_eq_add_one]
        push_cast
        ring
    · have h1 : ¬ isExistent v = true := fun h => hv ((isExistent_iff v).mp h)
      have h2 : isExistent v = false := by simpa using h1
      rw [List.countP_cons_of_neg _ _ h1]
      simp only [h2, Bool.false_eq_true, if_false]
      rw [ih]
      simp [AssignAndIncrement.call, hv]

/-! ## Claim on `AssignAndIncrement` -/

/-- Claim C5.  The pass of `AssignAndIncrement` over an indicator vector keeps the length,
leaves every entry that is not below `INT_MAX` (the sentinel) as it is, and overwrites the
entries below `INT_MAX`, in the order of their positions, with `0, 1, ..., M-1`, where `M` is
their number; so of two surviving positions `a < b` the first gets the smaller new id. -/
theorem assignAndIncrement_compaction (indicator : List Int) :
    (renumber indicator).length = indicator.length
      ∧ (∀ (k : Nat) (v : Int), indicator[k]? = some v → ¬ v < INT_MAX →
          (renumber indicator)[k]? = some v)
      ∧ (∀ (k : Nat) (v : Int), indicator[k]? = some v → v < INT_MAX →
          (renumber indicator)[k]? = some ((rankOf indicator k : Nat) : Int))
      ∧ ((indicator.zip (renumber indicator)).filter (fun x => isExistent x.1)).map Prod.snd
          = (List.range (indicator.countP isExistent)).map Int.ofNat
      ∧ (∀ (a b : Nat) (va vb : Int), a < b → indicator[a]? = some va →
          indicator[b]? = some vb → va < INT_MAX → vb < INT_MAX →
          vecAt (renumber indicator) (a : Int) < vecAt (renumber indicator) (b : Int)) := by
  refine ⟨renumber_length indicator, ?_, ?_, ?_, ?_⟩
  · intro k v h hv
    rw [renumber_getElem? indicator k v h]
    simp [hv]
  · intro k v h hv
    rw [renumber_getElem? indicator k v h]
    simp [hv]
  · unfold renumber
    rw [forEachAssign_zip]
    apply List.map_congr_left
    intro n _
    simp
  · intro a b va vb hab ha hb hva hvb
    have h1 := renumber_getElem? indicator a va ha
    have h2 := renumber_getElem? indicator b vb hb
    simp only [hva, hvb, if_true] at h1 h2
    rw [vecAt_of_getElem? h1, vecAt_of_getElem? h2]
    have h3 := rankOf_succ indicator a va ha
    simp only [hva, if_true] at h3
    have h4 : rankOf indicator (a + 1) ≤ rankOf indicator b := rankOf_mono indicator hab
    omega

/-! ## Renumbered indicators whose length fits an `int` -/

theorem renumber_existent (ind : List Int) (hb : (ind.length : Int) ≤ INT_MAX) (k : Nat)
    (v : Int) (h : ind[k]? = some v) :
    ∃ w, (renumber ind)[k]? = some w ∧ (w < INT_MAX ↔ v < INT_MAX)
      ∧ (v < INT_MAX → w = (rankOf ind k : Int)) := by
  refine ⟨_, renumber_getElem? ind k v h, ?_, ?_⟩
  · have hk : k < ind.length := (List.getElem?_eq_some.mp h).1
    have hr := rankOf_le ind k
    by_cases hv : v < INT_MAX
    · simp only [hv, if_true, iff_true]
      omega
    · simp [hv]
  · intro hv
    simp [hv]

theorem renumber_map_isExistent (ind : List Int) (hb : (ind.length : Int) ≤ INT_MAX) :
    (renumber ind).map isExistent = ind.map isExistent := by
  apply List.ext_getElem?
  intro k
  rw [List.getElem?_map, List.getElem?_map]
  cases h : ind[k]? with
  | none =>
    have hk : ind.length ≤ k := List.getElem?_eq_none_iff.mp h
    rw [List.getElem?_eq_none (by rw [renumber_length]; exact hk)]
  | some v =>
    obtain ⟨w, hw, hiff, _⟩ := renumber_existent ind hb k v h
    rw [hw]
    simp only [Option.map_some', Option.some.injEq]
    rw [Bool.eq_iff_iff, isExistent_iff, isExistent_iff]
    exact hiff

theorem countP_of_map_eq {α : Type} (p : α → Bool) (l1 l2 : List α)
    (h : l1.map p = l2.map p) : l1.countP p = l2.countP p := by
  have e : ∀ l : List α, l.countP p = (l.map p).countP id := by
    intro l
    rw [List.countP_map]
    rfl
  rw [e l1, e l2, h]

theorem rankOf_renumber (ind : List Int) (hb : (ind.length : Int) ≤ INT_MAX) (k : Nat) :
    rankOf (renumber ind) k = rankOf ind k := by
  unfold rankOf
  apply countP_of_map_eq
  rw [List.map_take, List.map_take, renumber_map_isExistent ind hb]

theorem countP_renumber (ind : List Int) (hb : (ind.length : Int) ≤ INT_MAX) :
    (renumber ind).countP isExistent = ind.countP isExistent :=
  countP_of_map_eq _ _ _ (renumber_map_isExistent ind hb)

theorem renumbered_entry (ind : List Int) (hb : (ind.length : Int) ≤ INT_MAX) (f : Int)
    (h0 : 0 ≤ f) (h1 : f < (ind.length : Int)) (hr : vecAt (renumber ind) f < INT_MAX) :
    vecAt (renumber ind) f = (rankOf (renumber ind) f.toNat : Int)
      ∧ 0 ≤ vecAt (renumber ind) f
      ∧ vecAt (renumber ind) f < ((renumber ind).countP isExistent : Int)
      ∧ vecAt ind f < INT_MAX := by
  obtain ⟨v, hv⟩ := getElem?_of_range ind h0 h1
  obtain ⟨w, hw, hiff, hval⟩ := renumber_existent ind hb f.toNat v hv
  have hf : ((f.toNat : Nat) : Int) = f := by omega
  have e1 : vecAt (renumber ind) f = w := by
    rw [← hf]; exact vecAt_of_getElem? hw
  have e2 : vecAt ind f = v := by
    rw [← hf]; exact vecAt_of_getElem? hv
  rw [e1] at hr ⊢
  have hvlt : v < INT_MAX := hiff.mp hr
  have hwv := hval hvlt
  have hlt := rankOf_lt_total ind f.toNat v hv hvlt
  rw [rankOf_renumber ind hb, countP_renumber ind hb, e2]
  refine ⟨hwv, by omega, by omega, hvlt⟩

theorem renumbered_of_marked (ind : List Int) (hb : (ind.length : Int) ≤ INT_MAX) (f : Int)
    (h0 : 0 ≤ f) (h1 : f < (ind.length : Int)) (hm : vecAt ind f < INT_MAX) :
    vecAt (renumber ind) f < INT_MAX := by
  obtain ⟨v, hv⟩ := getElem?_of_range ind h0 h1
  obtain ⟨w, hw, hiff, _⟩ := renumber_existent ind hb f.toNat v hv
  have hf : ((f.toNat : Nat) : Int) = f := by omega
  have e1 : vecAt (renumber ind) f = w := by
    rw [← hf]; exact vecAt_of_getElem? hw
  have e2 : vecAt ind f = v := by
    rw [← hf]; exact vecAt_of_getElem? hv
  rw [e1]
  rw [e2] at hm
  exact hiff.mpr hm

/-! ## Loops that append one value per existing entry -/

theorem appendExisting_length {β : Type} (g : Int → β) (L : List Int) :
    ∀ pos : Int, (appendExisting g pos L).length = L.countP isExistent := by
  induction L with
  | nil => intro pos; rfl
  | cons v vs ih =>
    intro pos
    unfold appendExisting
    by_cases hv : v < INT_MAX
    · have h1 : isExistent v = true := (isExistent_iff v).mpr hv
      simp [hv, ih, List.countP_cons_of_pos _ _ h1]
    · have h1 : ¬ isExistent v = true := fun h => hv ((isExistent_iff v).mp h)
      simp [hv, ih, List.countP_cons_of_neg _ _ h1]

theorem appendExisting_getElem? {β : Type} (g : Int → β) (L : List Int) :
    ∀ (pos : Int) (k : Nat) (v : Int), L[k]? = some v → v < INT_MAX →
      (appendExisting g pos L)[rankOf L k]? = some (g (pos + k)) := by
  induction L with
  | nil => intro pos k v h; simp at h
  | cons v0 vs ih =>
    intro pos k v h hv
    cases k with
    | zero =>
      simp only [List.getElem?_cons_zero, Option.some.injEq] at h
      subst h
      unfold appendExisting
      simp [hv, rankOf_zero]
    | succ k =>
      simp only [List.getElem?_cons_succ] at h
      have hi := ih (pos + 1) k v h hv
      have e : pos + 1 + (k : Int) = pos + ((k + 1 : Nat) : Int) := by push_cast; ring
      rw [e] at hi
      unfold appendExisting
      rw [rankOf_cons_succ]
      by_cases hv0 : v0 < INT_MAX
      · simp only [hv0, if_true, List.getElem?_cons_succ]
        exact hi
      · simp only [hv0, if_false, Nat.add_zero]
        exact hi

theorem appendExisting_renumber {β : Type} (g : Int → β) (ind : List Int)
    (hb : (ind.length : Int) ≤ INT_MAX) (f : Int) (h0 : 0 ≤ f) (h1 : f < (ind.length : Int))
    (hr : vecAt (renumber ind) f < INT_MAX) :
    (appendExisting g 0 (renumber ind))[(vecAt (renumber ind) f).toNat]? = some (g f) := by
  obtain ⟨e1, _, _, _⟩ := renumbered_entry ind hb f h0 h1 hr
  have hlen : f < ((renumber ind).length : Int) := by rw [renumber_length]; exact h1
  obtain ⟨w, hw⟩ := getElem?_of_range (renumber ind) h0 hlen
  have hf : ((f.toNat : Nat) : Int) = f := by omega
  have e2 : vecAt (renumber ind) f = w := by
    rw [← hf]; exact vecAt_of_getElem? hw
  have h := appendExisting_getElem? g (renumber ind) 0 f.toNat w hw (by rw [← e2]; exact hr)
  rw [e1]
  simp only [Int.toNat_ofNat]
  rw [h]
  congr 2
  omega

/-! ## Loops that write one entry per element of a list -/

theorem foldl_vecSet_length {α β : Type} (key : α → Int) (val : α → β) (xs : List α) :
    ∀ init : List β,
      (xs.foldl (fun m e => vecSet m (key e) (val e)) init).length = init.length := by
  induction xs with
  | nil => intro init; rfl
  | cons x xs ih => intro init; rw [List.foldl_cons, ih, vecSet_length]

theorem foldl_vecSet_untouched {α β : Type} [Inhabited β] (key : α → Int) (val : α → β)
    (xs : List α) (j : Int) (hj : ∀ y ∈ xs, key y ≠ j) :
    ∀ init : List β,
      vecAt (xs.foldl (fun m e => vecSet m (key e) (val e)) init) j = vecAt init j := by
  induction xs with
  | nil => intro init; rfl
  | cons x xs ih =>
    intro init
    rw [List.foldl_cons, ih (fun y hy => hj y (List.mem_cons_of_mem _ hy)), vecAt_vecSet]
    have h : ¬ (key x = j ∧ 0 ≤ key x ∧ key x < (init.length : Int)) :=
      fun h => hj x (List.mem_cons_self _ _) h.1
    simp [h]

theorem foldl_vecSet_hit {α β : Type} [Inhabited β] (key : α → Int) (val : α → β)
    (xs : List α) (hp : xs.Pairwise (fun a b => key a ≠ key b)) :
    ∀ (init : List β) (x : α), x ∈ xs → 0 ≤ key x → key x < (init.length : Int) →
      vecAt (xs.foldl (fun m e => vecSet m (key e) (val e)) init) (key x) = val x := by
  induction xs with
  | nil => intro init x hx; cases hx
  | cons x0 xs ih =>
    intro init x hx h0 h1
    rw [List.foldl_cons]
    rw [List.pairwise_cons] at hp
    rcases List.mem_cons.mp hx with h | h
    · subst h
      rw [foldl_vecSet_untouched key val xs (key x) (fun y hy => (hp.1 y hy).symm), vecAt_vecSet]
      simp [h0, h1]
    · exact ih hp.2 _ x h h0 (by rw [vecSet_length]; exact h1)

/-! ## Position of an entry in the cell index set -/

theorem vecAt_mem_or_default {α : Type} [Inhabited α] (v : List α) (i : Int) :
    vecAt v i ∈ v ∨ vecAt v i = default := by
  unfold vecAt
  by_cases hi : i < 0
  · right; simp [hi]
  · simp only [hi, if_false, List.getD_eq_getElem?_getD]
    cases h : v[i.toNat]? with
    | none => right; rfl
    | some x => left; exact List.getElem?_mem h

theorem cell_indexset_at (cell_part : List Int) (overlap : List (List Int)) (p : Int)
    (e : IndexPair) (he : e ∈ cell_indexset cell_part overlap p) :
    0 ≤ e.local_ ∧ e.local_ < ((cell_indexset cell_part overlap p).length : Int)
      ∧ (cell_indexset cell_part overlap p)[e.local_.toNat]? = some e := by
  obtain ⟨j, hj⟩ := List.mem_iff_getElem?.mp he
  have hl := cell_indexset_local cell_part overlap p j e hj
  have hlt : j < (cell_indexset cell_part overlap p).length := (List.getElem?_eq_some.mp hj).1
  rw [hl]
  refine ⟨by omega, by omega, ?_⟩
  simpa using hj

theorem cell_indexset_local_ne (cell_part : List Int) (overlap : List (List Int)) (p : Int) :
    (cell_indexset cell_part overlap p).Pairwise (fun a b => a.local_ ≠ b.local_) :=
  (cell_indexset_pairwise cell_part overlap p).imp (fun h => by omega)

theorem cell_indexset_global_ne (cell_part : List Int) (overlap : List (List Int)) (p : Int) :
    (cell_indexset cell_part overlap p).Pairwise (fun a b => a.global_ ≠ b.global_) :=
  (cell_indexset_pairwise cell_part overlap p).imp (fun h => by omega)

/-! ## The local cell tables -/

theorem extractCellTables_from (view_data : CpGridData G1 G3 Tag PointType)
    (fi pi : List Int) (ixs : List IndexPair) :
    ∀ t : List (List EntityRep) × List (List Int),
      ixs.foldl
        (fun t e =>
          (t.1 ++ [newCellToFaceRow fi (vecAt view_data.cell_to_face_ e.global_)],
           vecSet t.2 e.local_
             (newCellToPointRow pi (vecAt view_data.cell_to_point_ e.global_)))) t
        = (t.1 ++ ixs.map (fun e => newCellToFaceRow fi (vecAt view_data.cell_to_face_ e.global_)),
           ixs.foldl
             (fun m e => vecSet m e.local_
               (newCellToPointRow pi (vecAt view_data.cell_to_point_ e.global_))) t.2) := by
  induction ixs with
  | nil => intro t; simp
  | cons e ixs ih => intro t; rw [List.foldl_cons, ih]; simp

theorem extractCellTables_eq (view_data : CpGridData G1 G3 Tag PointType)
    (fi pi : List Int) (ixs : List IndexPair) :
    extractCellTables view_data fi pi ixs
      = (ixs.map (fun e => newCellToFaceRow fi (vecAt view_data.cell_to_face_ e.global_)),
         ixs.foldl
           (fun m e => vecSet m e.local_
             (newCellToPointRow pi (vecAt view_data.cell_to_point_ e.global_)))
           (List.replicate ixs.length (List.replicate 8 0))) := by
  unfold extractCellTables
  rw [extractCellTables_from]
  simp

theorem vecAt_newCellToPointRow (pi row : List Int) (j : Int) (h0 : 0 ≤ j) (h1 : j < 8) :
    vecAt (newCellToPointRow pi row) j = vecAt pi (vecAt row j) := by
  unfold newCellToPointRow
  have hj : j.toNat < 8 := by omega
  have hc : ((j.toNat : Nat) : Int) = j := by omega
  rw [vecAt_toNat _ h0, List.getD_eq_getElem?_getD, List.getElem?_map,
    List.getElem?_range hj]
  simp only [Option.map_some', Option.getD_some, Int.ofNat_eq_coe]
  rw [hc]

theorem face_of_local_cell_exists (view_data : CpGridData G1 G3 Tag PointType)
    (ixs : List IndexPair)
    (hfaces : ∀ row ∈ view_data.cell_to_face_, ∀ fe ∈ row,
      0 ≤ fe.index ∧ fe.index < (view_data.geomVector1.length : Int))
    (hb : (view_data.geomVector1.length : Int) ≤ INT_MAX)
    (e : IndexPair) (he : e ∈ ixs) (face : EntityRep)
    (hface : face ∈ vecAt view_data.cell_to_face_ e.global_) :
    0 ≤ vecAt (face_indicator view_data ixs) face.index
      ∧ vecAt (face_indicator view_data ixs) face.index
          < ((face_indicator view_data ixs).countP isExistent : Int)
      ∧ vecAt (face_indicator view_data ixs) face.index < INT_MAX := by
  have hrow : vecAt view_data.cell_to_face_ e.global_ ∈ view_data.cell_to_face_ := by
    rcases vecAt_mem_or_default view_data.cell_to_face_ e.global_ with h | h
    · exact h
    · rw [h] at hface; cases hface
  obtain ⟨h0, h1⟩ := hfaces _ hrow face hface
  have hlen := (markExistent_length view_data ixs).1
  have hm : vecAt (markExistent view_data ixs).1 face.index < INT_MAX :=
    (face_marked_iff view_data ixs face.index h0 h1).mpr ⟨e, he, face, hface, rfl⟩
  have hr := renumbered_of_marked (markExistent view_data ixs).1 (by rw [hlen]; exact hb)
    face.index h0 (by rw [hlen]; exact h1) hm
  obtain ⟨_, e2, e3, _⟩ := renumbered_entry (markExistent view_data ixs).1
    (by rw [hlen]; exact hb) face.index h0 (by rw [hlen]; exact h1) hr
  exact ⟨e2, e3, hr⟩

theorem noExistingFaces_eq [Inhabited G1] [Inhabited G3] [Inhabited Tag] [Inhabited PointType]
    (view_data : CpGridData G1 G3 Tag PointType) (cell_part : List Int)
    (overlap : List (List Int)) (p : Int) (idCell idFace idPoint : Int → Int) :
    (distributeGlobalGrid view_data cell_part overlap p idCell idFace idPoint).noExistingFaces
      = (((face_indicator view_data (cell_indexset cell_part overlap p)).countP isExistent : Nat)
          : Int) :=
  rfl

theorem noExistingPoints_eq [Inhabited G1] [Inhabited G3] [Inhabited Tag] [Inhabited PointType]
    (view_data : CpGridData G1 G3 Tag PointType) (cell_part : List Int)
    (overlap : List (List Int)) (p : Int) (idCell idFace idPoint : Int → Int) :
    (distributeGlobalGrid view_data cell_part overlap p idCell idFace idPoint).noExistingPoints
      = (((point_indicator view_data (cell_indexset cell_part overlap p)).countP isExistent : Nat)
          : Int) :=
  rfl

/-! ## Claim on the local cell tables -/

/-- Claim C6.  For every cell of the index set, with local index `l` and global index `g`:
row `l` of the local cell-to-face table has the length of the global row `g`; its `j`-th entry
has the index `face_indicator[index of the global entry j]` and the orientation of the global
entry `j`; every index in the row is a local face id, at least `0`, below the number of
existing faces and different from `INT_MAX`; and the local `cell_to_point_[l][j]` is
`point_indicator[cell_to_point_[g][j]]` of the global grid for `j = 0..7`.  The global face
indices are taken inside the face vector, whose length fits an `int`. -/
theorem local_cell_tables [Inhabited G1] [Inhabited G3] [Inhabited Tag] [Inhabited PointType]
    (view_data : CpGridData G1 G3 Tag PointType) (cell_part : List Int)
    (overlap : List (List Int)) (p : Int) (idCell idFace idPoint : Int → Int)
    (hfaces : ∀ row ∈ view_data.cell_to_face_, ∀ fe ∈ row,
      0 ≤ fe.index ∧ fe.index < (view_data.geomVector1.length : Int))
    (hb : (view_data.geomVector1.length : Int) ≤ INT_MAX)
    (e : IndexPair)
    (he : e ∈ (distributeGlobalGrid view_data cell_part overlap p
      idCell idFace idPoint).cell_indexset_) :
    let D := distributeGlobalGrid view_data cell_part overlap p idCell idFace idPoint
    (vecAt D.cell_to_face_ e.local_).length
        = (vecAt view_data.cell_to_face_ e.global_).length
      ∧ (∀ (j : Nat) (face : EntityRep),
          (vecAt view_data.cell_to_face_ e.global_)[j]? = some face →
          (vecAt D.cell_to_face_ e.local_)[j]?
            = some ⟨vecAt D.face_indicator face.index, face.orientation⟩)
      ∧ (∀ fe ∈ vecAt D.cell_to_face_ e.local_,
          0 ≤ fe.index ∧ fe.index < D.noExistingFaces ∧ fe.index ≠ INT_MAX)
      ∧ (∀ j : Int, 0 ≤ j → j < 8 →
          vecAt (vecAt D.cell_to_point_ e.local_) j
            = vecAt D.point_indicator (vecAt (vecAt view_data.cell_to_point_ e.global_) j)) := by
  intro D
  have he1 : e ∈ cell_indexset cell_part overlap p := he
  obtain ⟨hl0, hl1, hat⟩ := cell_indexset_at cell_part overlap p e he1
  have hc : ((e.local_.toNat : Nat) : Int) = e.local_ := by omega
  have hrow : vecAt D.cell_to_face_ e.local_
      = newCellToFaceRow D.face_indicator (vecAt view_data.cell_to_face_ e.global_) := by
    show vecAt (extractCellTables view_data _ _ (cell_indexset cell_part overlap p)).1 e.local_
      = _
    rw [extractCellTables_eq, ← hc]
    apply vecAt_of_getElem?
    rw [List.getElem?_map, hat]
    rfl
  have hpt : vecAt D.cell_to_point_ e.local_
      = newCellToPointRow D.point_indicator (vecAt view_data.cell_to_point_ e.global_) := by
    show vecAt (extractCellTables view_data _ _ (cell_indexset cell_part overlap p)).2 e.local_
      = _
    rw [extractCellTables_eq]
    exact foldl_vecSet_hit IndexPair.local_
      (fun e => newCellToPointRow (point_indicator view_data (cell_indexset cell_part overlap p))
        (vecAt view_data.cell_to_point_ e.global_))
      _ (cell_indexset_local_ne cell_part overlap p) _ e he1 hl0 (by simpa using hl1)
  refine ⟨?_, ?_, ?_, ?_⟩
  · rw [hrow]
    simp [newCellToFaceRow]
  · intro j face hj
    rw [hrow]
    simp [newCellToFaceRow, List.getElem?_map, hj]
  · intro fe hfe
    rw [hrow] at hfe
    unfold newCellToFaceRow at hfe
    obtain ⟨face, hface, hfe2⟩ := List.mem_map.mp hfe
    obtain ⟨h1, h2, h3⟩ := face_of_local_cell_exists view_data
      (cell_indexset cell_part overlap p) hfaces hb e he1 face hface
    rw [noExistingFaces_eq, ← hfe2]
    exact ⟨h1, h2, ne_of_lt h3⟩
  · intro j h0 h1
    rw [hpt]
    exact vecAt_newCellToPointRow _ _ j h0 h1

/-- Witness of claim C6: the two-cell grid on rank 0 with one layer of overlap, read at the
copy of cell 1. -/
theorem local_cell_tables_witness :
    let D := distributeGlobalGrid twoCellGrid [0, 1] [[1], [0]] 0 id id id
    let e : IndexPair := ⟨1, 1, AttributeSet.copy⟩
    (vecAt D.cell_to_face_ e.local_).length
        = (vecAt twoCellGrid.cell_to_face_ e.global_).length
      ∧ (∀ (j : Nat) (face : EntityRep),
          (vecAt twoCellGrid.cell_to_face_ e.global_)[j]? = some face →
          (vecAt D.cell_to_face_ e.local_)[j]?
            = some ⟨vecAt D.face_indicator face.index, face.orientation⟩)
      ∧ (∀ fe ∈ vecAt D.cell_to_face_ e.local_,
          0 ≤ fe.index ∧ fe.index < D.noExistingFaces ∧ fe.index ≠ INT_MAX)
      ∧ (∀ j : Int, 0 ≤ j → j < 8 →
          vecAt (vecAt D.cell_to_point_ e.local_) j
            = vecAt D.point_indicator (vecAt (vecAt twoCellGrid.cell_to_point_ e.global_) j)) :=
  local_cell_tables twoCellGrid [0, 1] [[1], [0]] 0 id id id (by decide) (by decide)
    ⟨1, 1, AttributeSet.copy⟩ (by decide)

/-! ## The local face-to-cell table -/

theorem cell_indicator_length (view_data : CpGridData G1 G3 Tag PointType)
    (ixs : List IndexPair) :
    (cell_indicator view_data ixs).length = view_data.cell_to_face_.length := by
  unfold cell_indicator
  rw [foldl_vecSet_length IndexPair.global_ IndexPair.local_]
  simp

theorem cell_indicator_present (view_data : CpGridData G1 G3 Tag PointType)
    (cell_part : List Int) (overlap : List (List Int)) (p : Int)
    (hlen : cell_part.length = view_data.cell_to_face_.length)
    (e : IndexPair) (he : e ∈ cell_indexset cell_part overlap p) :
    vecAt (cell_indicator view_data (cell_indexset cell_part overlap p)) e.global_
      = e.local_ := by
  obtain ⟨h0, h1, _, _⟩ := cell_indexset_entry cell_part overlap p e he
  unfold cell_indicator
  exact foldl_vecSet_hit IndexPair.global_ IndexPair.local_ _
    (cell_indexset_global_ne cell_part overlap p) _ e he h0 (by simp; omega)

theorem cell_indicator_absent (view_data : CpGridData G1 G3 Tag PointType)
    (ixs : List IndexPair) (c : Int) (h0 : 0 ≤ c)
    (h1 : c < (view_data.cell_to_face_.length : Int)) (habs : ∀ e ∈ ixs, e.global_ ≠ c) :
    vecAt (cell_indicator view_data ixs) c = INT_MAX := by
  unfold cell_indicator
  rw [foldl_vecSet_untouched IndexPair.global_ IndexPair.local_ ixs c habs]
  exact vecAt_replicate _ _ h0 h1

theorem face_indicator_length (view_data : CpGridData G1 G3 Tag PointType)
    (ixs : List IndexPair) :
    (face_indicator view_data ixs).length = view_data.geomVector1.length := by
  unfold face_indicator
  rw [renumber_length, (markExistent_length view_data ixs).1]

theorem point_indicator_length (view_data : CpGridData G1 G3 Tag PointType)
    (ixs : List IndexPair) :
    (point_indicator view_data ixs).length = view_data.geomVector3.length := by
  unfold point_indicator
  rw [renumber_length, (markExistent_length view_data ixs).2]

theorem face_row_at {β : Type} [Inhabited β] (view_data : CpGridData G1 G3 Tag PointType)
    (ixs : List IndexPair) (g : Int → β)
    (hb : (view_data.geomVector1.length : Int) ≤ INT_MAX) (f : Int) (h0 : 0 ≤ f)
    (h1 : f < (view_data.geomVector1.length : Int))
    (hr : vecAt (face_indicator view_data ixs) f < INT_MAX) :
    vecAt (appendExisting g 0 (face_indicator view_data ixs))
      (vecAt (face_indicator view_data ixs) f) = g f := by
  have hlen := (markExistent_length view_data ixs).1
  obtain ⟨_, hnn, _, _⟩ := renumbered_entry (markExistent view_data ixs).1
    (by rw [hlen]; exact hb) f h0 (by rw [hlen]; exact h1) hr
  have h := appendExisting_renumber g (markExistent view_data ixs).1
    (by rw [hlen]; exact hb) f h0 (by rw [hlen]; exact h1) hr
  have hc : (((vecAt (face_indicator view_data ixs) f).toNat : Nat) : Int)
      = vecAt (face_indicator view_data ixs) f := Int.toNat_of_nonneg hnn
  rw [← hc]
  exact vecAt_of_getElem? h

theorem point_row_at {β : Type} [Inhabited β] (view_data : CpGridData G1 G3 Tag PointType)
    (ixs : List IndexPair) (g : Int → β)
    (hb : (view_data.geomVector3.length : Int) ≤ INT_MAX) (q : Int) (h0 : 0 ≤ q)
    (h1 : q < (view_data.geomVector3.length : Int))
    (hr : vecAt (point_indicator view_data ixs) q < INT_MAX) :
    vecAt (appendExisting g 0 (point_indicator view_data ixs))
      (vecAt (point_indicator view_data ixs) q) = g q := by
  have hlen := (markExistent_length view_data ixs).2
  obtain ⟨_, hnn, _, _⟩ := renumbered_entry (markExistent view_data ixs).2
    (by rw [hlen]; exact hb) q h0 (by rw [hlen]; exact h1) hr
  have h := appendExisting_renumber g (markExistent view_data ixs).2
    (by rw [hlen]; exact hb) q h0 (by rw [hlen]; exact h1) hr
  have hc : (((vecAt (point_indicator view_data ixs) q).toNat : Nat) : Int)
      = vecAt (point_indicator view_data ixs) q := Int.toNat_of_nonneg hnn
  rw [← hc]
  exact vecAt_of_getElem? h

theorem face_to_cell_row [Inhabited G1] [Inhabited G3] [Inhabited Tag] [Inhabited PointType]
    (view_data : CpGridData G1 G3 Tag PointType) (cell_part : List Int)
    (overlap : List (List Int)) (p : Int) (idCell idFace idPoint : Int → Int)
    (hb : (view_data.geomVector1.length : Int) ≤ INT_MAX) (f : Int) (h0 : 0 ≤ f)
    (h1 : f < (view_data.geomVector1.length : Int))
    (hr : vecAt (face_indicator view_data (cell_indexset cell_part overlap p)) f < INT_MAX) :
    vecAt (distributeGlobalGrid view_data cell_part overlap p idCell idFace idPoint).face_to_cell_
        (vecAt (face_indicator view_data (cell_indexset cell_part overlap p)) f)
      = newFaceToCellRow (cell_indicator view_data (cell_indexset cell_part overlap p))
          (vecAt view_data.face_to_cell_ f) :=
  face_row_at view_data (cell_indexset cell_part overlap p)
    (fun pos => newFaceToCellRow (cell_indicator view_data (cell_indexset cell_part overlap p))
      (vecAt view_data.face_to_cell_ pos)) hb f h0 h1 hr

/-- Claim C7.  For every retained global face `f` the local face-to-cell row of `f` has as many
entries as the global row of `f`, in the same order; the entry of a global cell that is in the
index set holds the local index of that cell, the entry of a global cell that is absent holds
`INT_MAX`, and in both cases the entry keeps the orientation of the global entry.  The global
grid has one partition entry per cell, cell indices inside the cell table and a number of
faces that fits an `int`. -/
theorem local_face_to_cell [Inhabited G1] [Inhabited G3] [Inhabited Tag] [Inhabited PointType]
    (view_data : CpGridData G1 G3 Tag PointType) (cell_part : List Int)
    (overlap : List (List Int)) (p : Int) (idCell idFace idPoint : Int → Int)
    (hb : (view_data.geomVector1.length : Int) ≤ INT_MAX)
    (hlen : cell_part.length = view_data.cell_to_face_.length)
    (hcells : ∀ row ∈ view_data.face_to_cell_, ∀ c ∈ row,
      0 ≤ c.index ∧ c.index < (view_data.cell_to_face_.length : Int))
    (f : Int) (hf0 : 0 ≤ f) (hf1 : f < (view_data.geomVector1.length : Int))
    (hret : vecAt (distributeGlobalGrid view_data cell_part overlap p
      idCell idFace idPoint).face_indicator f < INT_MAX) :
    let D := distributeGlobalGrid view_data cell_part overlap p idCell idFace idPoint
    (vecAt D.face_to_cell_ (vecAt D.face_indicator f)).length
        = (vecAt view_data.face_to_cell_ f).length
      ∧ ∀ (j : Nat) (cell : EntityRep), (vecAt view_data.face_to_cell_ f)[j]? = some cell →
          ∃ c : EntityRep, (vecAt D.face_to_cell_ (vecAt D.face_indicator f))[j]? = some c
            ∧ c.orientation = cell.orientation
            ∧ (∀ e ∈ D.cell_indexset_, e.global_ = cell.index → c.index = e.local_)
            ∧ ((∀ e ∈ D.cell_indexset_, e.global_ ≠ cell.index) → c.index = INT_MAX) := by
  intro D
  have hrow : vecAt D.face_to_cell_ (vecAt D.face_indicator f)
      = newFaceToCellRow (cell_indicator view_data (cell_indexset cell_part overlap p))
          (vecAt view_data.face_to_cell_ f) :=
    face_to_cell_row view_data cell_part overlap p idCell idFace idPoint hb f hf0 hf1 hret
  rw [hrow]
  constructor
  · simp [newFaceToCellRow]
  · intro j cell hj
    refine ⟨⟨vecAt (cell_indicator view_data (cell_indexset cell_part overlap p)) cell.index,
      cell.orientation⟩, ?_, rfl, ?_, ?_⟩
    · simp [newFaceToCellRow, List.getElem?_map, hj]
    · intro e he hg
      have he1 : e ∈ cell_indexset cell_part overlap p := he
      show vecAt _ cell.index = e.local_
      rw [← hg]
      exact cell_indicator_present view_data cell_part overlap p hlen e he1
    · intro habs
      have hmem : cell ∈ vecAt view_data.face_to_cell_ f := List.getElem?_mem hj
      have hrowmem : vecAt view_data.face_to_cell_ f ∈ view_data.face_to_cell_ := by
        rcases vecAt_mem_or_default view_data.face_to_cell_ f with h | h
        · exact h
        · rw [h] at hmem; cases hmem
      obtain ⟨c0, c1⟩ := hcells _ hrowmem cell hmem
      exact cell_indicator_absent view_data _ cell.index c0 c1 habs

/-- Witness of claim C7: the two-cell grid on rank 1 without overlap, read at the shared
face 1, whose neighbour cell 0 is absent on rank 1. -/
theorem local_face_to_cell_witness :
    let D := distributeGlobalGrid twoCellGrid [0, 1] [[], []] 1 id id id
    (vecAt D.face_to_cell_ (vecAt D.face_indicator (1 : Int))).length
        = (vecAt twoCellGrid.face_to_cell_ (1 : Int)).length
      ∧ ∀ (j : Nat) (cell : EntityRep), (vecAt twoCellGrid.face_to_cell_ (1 : Int))[j]? = some cell →
          ∃ c : EntityRep, (vecAt D.face_to_cell_ (vecAt D.face_indicator (1 : Int)))[j]? = some c
            ∧ c.orientation = cell.orientation
            ∧ (∀ e ∈ D.cell_indexset_, e.global_ = cell.index → c.index = e.local_)
            ∧ ((∀ e ∈ D.cell_indexset_, e.global_ ≠ cell.index) → c.index = INT_MAX) :=
  local_face_to_cell twoCellGrid [0, 1] [[], []] 1 id id id (by decide) (by decide) (by decide)
    1 (by decide) (by decide) (by decide)

theorem cell_entry_cases (view_data : CpGridData G1 G3 Tag PointType)
    (cell_part : List Int) (overlap : List (List Int)) (p : Int)
    (hlen : cell_part.length = view_data.cell_to_face_.length) (c : Int) (h0 : 0 ≤ c)
    (h1 : c < (view_data.cell_to_face_.length : Int)) :
    (∃ e ∈ cell_indexset cell_part overlap p, e.global_ = c
        ∧ vecAt (cell_indicator view_data (cell_indexset cell_part overlap p)) c = e.local_
        ∧ 0 ≤ e.local_ ∧ e.local_ < ((cell_indexset cell_part overlap p).length : Int))
      ∨ ((∀ e ∈ cell_indexset cell_part overlap p, e.global_ ≠ c)
        ∧ vecAt (cell_indicator view_data (cell_indexset cell_part overlap p)) c = INT_MAX) := by
  by_cases h : ∃ e ∈ cell_indexset cell_part overlap p, e.global_ = c
  · obtain ⟨e, he, hg⟩ := h
    left
    obtain ⟨l0, l1, _⟩ := cell_indexset_at cell_part overlap p e he
    refine ⟨e, he, hg, ?_, l0, l1⟩
    rw [← hg]
    exact cell_indicator_present view_data cell_part overlap p hlen e he
  · right
    have habs : ∀ e ∈ cell_indexset cell_part overlap p, e.global_ ≠ c :=
      fun e he hg => h ⟨e, he, hg⟩
    exact ⟨habs, cell_indicator_absent view_data _ c h0 h1 habs⟩

theorem entriesFrom_length_le (p : Int) (os : List (List Int)) :
    ∀ (cs : List Int) (i c : Int), (entriesFrom p i c os cs).length ≤ cs.length := by
  induction os with
  | nil => intro cs i c; simp [entriesFrom]
  | cons ov os ih =>
    intro cs i c
    cases cs with
    | nil => simp [entriesFrom]
    | cons rank cs =>
      simp only [entriesFrom]
      cases heldAs p ov rank with
      | none =>
        have := ih cs (i + 1) c
        simp only [List.length_cons]
        omega
      | some a =>
        have := ih cs (i + 1) (c + 1)
        simp only [List.length_cons]
        omega

theorem cell_indexset_length_le (cell_part : List Int) (overlap : List (List Int)) (p : Int) :
    (cell_indexset cell_part overlap p).length ≤ cell_part.length := by
  rw [cell_indexset_eq]
  exact entriesFrom_length_le p overlap cell_part 0 0

/-- Claim C8.  In a global grid whose face-to-cell rows have one or two entries and in which a
face listed in the cell-to-face row of a cell lists that cell in its face-to-cell row, the
local face-to-cell row of every retained face has one of three shapes: two local cells; a
single local cell and no sentinel; or two entries of which one is a local cell and the other
is `INT_MAX` with the orientation of the global entry.  A local cell index is never
`INT_MAX`, so no retained face has only sentinel neighbours.  The grid has one partition entry
per cell, cell indices inside the cell table, and numbers of faces and cells that fit an
`int`. -/
theorem retained_face_shapes [Inhabited G1] [Inhabited G3] [Inhabited Tag] [Inhabited PointType]
    (view_data : CpGridData G1 G3 Tag PointType) (cell_part : List Int)
    (overlap : List (List Int)) (p : Int) (idCell idFace idPoint : Int → Int)
    (hb : (view_data.geomVector1.length : Int) ≤ INT_MAX)
    (hbc : (view_data.cell_to_face_.length : Int) ≤ INT_MAX)
    (hlen : cell_part.length = view_data.cell_to_face_.length)
    (hcells : ∀ row ∈ view_data.face_to_cell_, ∀ c ∈ row,
      0 ≤ c.index ∧ c.index < (view_data.cell_to_face_.length : Int))
    (h12 : ∀ row ∈ view_data.face_to_cell_, row.length = 1 ∨ row.length = 2)
    (hcons : ∀ c : Nat, c < view_data.cell_to_face_.length →
      ∀ fe ∈ vecAt view_data.cell_to_face_ (c : Int),
        ∃ ce ∈ vecAt view_data.face_to_cell_ fe.index, ce.index = (c : Int))
    (f : Int) (hf0 : 0 ≤ f) (hf1 : f < (view_data.geomVector1.length : Int))
    (hret : vecAt (distributeGlobalGrid view_data cell_part overlap p
      idCell idFace idPoint).face_indicator f < INT_MAX) :
    let D := distributeGlobalGrid view_data cell_part overlap p idCell idFace idPoint
    let row := vecAt D.face_to_cell_ (vecAt D.face_indicator f)
    let N : Int := (D.cell_indexset_.length : Int)
    ((∃ a b : EntityRep, row = [a, b] ∧ (0 ≤ a.index ∧ a.index < N)
          ∧ (0 ≤ b.index ∧ b.index < N))
        ∨ (∃ a : EntityRep, row = [a] ∧ (0 ≤ a.index ∧ a.index < N))
        ∨ (∃ a b : EntityRep, row = [a, b]
            ∧ (((0 ≤ a.index ∧ a.index < N) ∧ b.index = INT_MAX
                ∧ b.orientation = (vecAt (vecAt view_data.face_to_cell_ f) 1).orientation)
              ∨ (a.index = INT_MAX
                ∧ a.orientation = (vecAt (vecAt view_data.face_to_cell_ f) 0).orientation
                ∧ (0 ≤ b.index ∧ b.index < N)))))
      ∧ (∃ c ∈ row, 0 ≤ c.index ∧ c.index < N)
      ∧ N ≤ INT_MAX := by
  intro D row N
  have hNle : N ≤ INT_MAX := by
    have h := cell_indexset_length_le cell_part overlap p
    have hN : N = ((cell_indexset cell_part overlap p).length : Int) := rfl
    rw [hN]
    omega
  have hrow : row
      = newFaceToCellRow (cell_indicator view_data (cell_indexset cell_part overlap p))
          (vecAt view_data.face_to_cell_ f) :=
    face_to_cell_row view_data cell_part overlap p idCell idFace idPoint hb f hf0 hf1 hret
  -- the face is reached from a cell of the index set, which its global row lists
  have hlenI := (markExistent_length view_data (cell_indexset cell_part overlap p)).1
  obtain ⟨_, _, _, hmarked⟩ := renumbered_entry
    (markExistent view_data (cell_indexset cell_part overlap p)).1
    (by rw [hlenI]; exact hb) f hf0 (by rw [hlenI]; exact hf1) hret
  obtain ⟨e, he, fe, hfe, hfeq⟩ :=
    (face_marked_iff view_data (cell_indexset cell_part overlap p) f hf0 hf1).mp hmarked
  obtain ⟨g0, g1, _, _⟩ := cell_indexset_entry cell_part overlap p e he
  have hgc : ((e.global_.toNat : Nat) : Int) = e.global_ := by omega
  have hfe2 : fe ∈ vecAt view_data.cell_to_face_ ((e.global_.toNat : Nat) : Int) := by
    rw [hgc]; exact hfe
  obtain ⟨ce, hce, hceq⟩ := hcons e.global_.toNat (by omega) fe hfe2
  rw [hfeq] at hce
  rw [hgc] at hceq
  have horig : vecAt view_data.face_to_cell_ f ∈ view_data.face_to_cell_ := by
    rcases vecAt_mem_or_default view_data.face_to_cell_ f with h | h
    · exact h
    · rw [h] at hce; cases hce
  have hcase : ∀ c ∈ vecAt view_data.face_to_cell_ f,
      (0 ≤ vecAt (cell_indicator view_data (cell_indexset cell_part overlap p)) c.index
          ∧ vecAt (cell_indicator view_data (cell_indexset cell_part overlap p)) c.index < N)
        ∨ ((∀ e ∈ cell_indexset cell_part overlap p, e.global_ ≠ c.index)
          ∧ vecAt (cell_indicator view_data (cell_indexset cell_part overlap p)) c.index
              = INT_MAX) := by
    intro c hc
    obtain ⟨c0, c1⟩ := hcells _ horig c hc
    rcases cell_entry_cases view_data cell_part overlap p hlen c.index c0 c1 with h | h
    · obtain ⟨e1, _, _, hv, l0, l1⟩ := h
      left
      rw [hv]
      exact ⟨l0, l1⟩
    · right; exact h
  have hcereal : 0 ≤ vecAt (cell_indicator view_data (cell_indexset cell_part overlap p)) ce.index
      ∧ vecAt (cell_indicator view_data (cell_indexset cell_part overlap p)) ce.index < N := by
    rcases hcase ce hce with h | h
    · exact h
    · exact absurd hceq (h.1 e he).symm
  refine ⟨?_, ?_, hNle⟩
  · rcases h12 _ horig with h1 | h2
    · -- one entry: the domain boundary
      obtain ⟨x, hx⟩ := List.length_eq_one.mp h1
      right; left
      rw [hx] at hce
      have hcx : ce = x := by simpa using hce
      refine ⟨⟨vecAt (cell_indicator view_data (cell_indexset cell_part overlap p)) x.index,
        x.orientation⟩, ?_, ?_⟩
      · rw [hrow, hx]; rfl
      · rw [← hcx]; exact hcereal
    · obtain ⟨x, y, hxy⟩ := List.length_eq_two.mp h2
      have hrow2 : row
          = [⟨vecAt (cell_indicator view_data (cell_indexset cell_part overlap p)) x.index,
                x.orientation⟩,
             ⟨vecAt (cell_indicator view_data (cell_indexset cell_part overlap p)) y.index,
                y.orientation⟩] := by
        rw [hrow, hxy]; rfl
      have hx := hcase x (by rw [hxy]; simp)
      have hy := hcase y (by rw [hxy]; simp)
      have h0 : vecAt (vecAt view_data.face_to_cell_ f) 0 = x := by rw [hxy]; rfl
      have h1 : vecAt (vecAt view_data.face_to_cell_ f) 1 = y := by rw [hxy]; rfl
      rcases hx with hx | hx <;> rcases hy with hy | hy
      · left
        exact ⟨_, _, hrow2, hx, hy⟩
      · right; right
        exact ⟨_, _, hrow2, Or.inl ⟨hx, hy.2, by rw [h1]⟩⟩
      · right; right
        exact ⟨_, _, hrow2, Or.inr ⟨hx.2, by rw [h0], hy⟩⟩
      · exfalso
        rw [hxy] at hce
        rcases List.mem_cons.mp hce with h | h
        · rw [h] at hceq
          exact hx.1 e he hceq.symm
        · have hcy : ce = y := by simpa using h
          rw [hcy] at hceq
          exact hy.1 e he hceq.symm
  · refine ⟨⟨vecAt (cell_indicator view_data (cell_indexset cell_part overlap p)) ce.index,
      ce.orientation⟩, ?_, hcereal⟩
    rw [hrow]
    unfold newFaceToCellRow
    exact List.mem_map.mpr ⟨ce, hce, rfl⟩

/-- Witness of claim C8: the two-cell grid on rank 1 without overlap; the shared face 1 is a
partition cut there. -/
theorem retained_face_shapes_witness :
    let D := distributeGlobalGrid twoCellGrid [0, 1] [[], []] 1 id id id
    let row := vecAt D.face_to_cell_ (vecAt D.face_indicator (1 : Int))
    let N : Int := (D.cell_indexset_.length : Int)
    ((∃ a b : EntityRep, row = [a, b] ∧ (0 ≤ a.index ∧ a.index < N)
          ∧ (0 ≤ b.index ∧ b.index < N))
        ∨ (∃ a : EntityRep, row = [a] ∧ (0 ≤ a.index ∧ a.index < N))
        ∨ (∃ a b : EntityRep, row = [a, b]
            ∧ (((0 ≤ a.index ∧ a.index < N) ∧ b.index = INT_MAX
                ∧ b.orientation
                  = (vecAt (vecAt twoCellGrid.face_to_cell_ (1 : Int)) 1).orientation)
              ∨ (a.index = INT_MAX
                ∧ a.orientation
                  = (vecAt (vecAt twoCellGrid.face_to_cell_ (1 : Int)) 0).orientation
                ∧ (0 ≤ b.index ∧ b.index < N)))))
      ∧ (∃ c ∈ row, 0 ≤ c.index ∧ c.index < N)
      ∧ N ≤ INT_MAX :=
  retained_face_shapes twoCellGrid [0, 1] [[], []] 1 id id id (by decide) (by decide)
    (by decide) (by decide) (by decide) (by decide) 1 (by decide) (by decide) (by decide)

/-! ## Global ids -/

theorem g2lFrom_entry (p : Int) (os : List (List Int)) :
    ∀ (cs : List Int) (i c : Int) (e : IndexPair), e ∈ entriesFrom p i c os cs →
      ∃ k : Nat, e.global_ = i + k ∧ (g2lFrom p c os cs)[k]? = some e.local_ := by
  induction os with
  | nil => intro cs i c e h; simp [entriesFrom] at h
  | cons ov os ih =>
    intro cs i c e h
    cases cs with
    | nil => simp [entriesFrom] at h
    | cons rank cs =>
      simp only [entriesFrom] at h
      simp only [g2lFrom]
      cases hh : heldAs p ov rank with
      | none =>
        rw [hh] at h
        obtain ⟨k, h1, h2⟩ := ih cs (i + 1) c e h
        exact ⟨k + 1, by rw [h1]; push_cast; ring, by simpa using h2⟩
      | some a =>
        rw [hh] at h
        rcases List.mem_cons.mp h with h0 | h0
        · subst h0
          exact ⟨0, by simp, by simp⟩
        · obtain ⟨k, h1, h2⟩ := ih cs (i + 1) (c + 1) e h0
          exact ⟨k + 1, by rw [h1]; push_cast; ring, by simpa using h2⟩

theorem global2local_entry (cell_part : List Int) (overlap : List (List Int)) (p : Int)
    (e : IndexPair) (he : e ∈ cell_indexset cell_part overlap p) :
    vecAt (cell_counter cell_part overlap p).global2local e.global_ = e.local_ := by
  rw [cell_indexset_eq] at he
  obtain ⟨k, h1, h2⟩ := g2lFrom_entry p overlap cell_part 0 0 e he
  rw [global2local_eq]
  have hk : e.global_ = (k : Int) := by omega
  rw [hk]
  exact vecAt_of_getElem? h2

theorem map2GlobalCellId_entry (idCell : Int → Int) (cell_part : List Int)
    (overlap : List (List Int)) (p : Int) (e : IndexPair)
    (he : e ∈ cell_indexset cell_part overlap p) :
    vecAt (map2GlobalCellId idCell (cell_indexset cell_part overlap p)) e.local_
      = idCell e.global_ := by
  obtain ⟨l0, l1, _⟩ := cell_indexset_at cell_part overlap p e he
  unfold map2GlobalCellId
  exact foldl_vecSet_hit IndexPair.local_ (fun e => idCell e.global_) _
    (cell_indexset_local_ne cell_part overlap p) _ e he l0 (by simpa using l1)

theorem resize_length (v : List Int) (n : Nat) : (resize v (n : Int)).length = n := by
  unfold resize
  simp only [Int.toNat_ofNat, List.length_append, List.length_take, List.length_replicate]
  omega

theorem setupLoop_eq (id : Int → Int) (L : List Int) :
    ∀ (pos : Int) (ids : List Int),
      setupLoop id pos L ids
        = (existingPairs pos L).foldl (fun m x => vecSet m x.1 (id x.2)) ids := by
  induction L with
  | nil => intro pos ids; rfl
  | cons v vs ih =>
    intro pos ids
    unfold setupLoop existingPairs
    by_cases hv : v < INT_MAX
    · simp only [hv, if_true, List.foldl_cons]
      exact ih _ _
    · simp only [hv, if_false]
      exact ih _ _

theorem mem_existingPairs (L : List Int) :
    ∀ (pos : Int) (x : Int × Int), x ∈ existingPairs pos L
      ↔ ∃ k : Nat, L[k]? = some x.1 ∧ x.1 < INT_MAX ∧ x.2 = pos + k := by
  induction L with
  | nil => intro pos x; simp [existingPairs]
  | cons v vs ih =>
    intro pos x
    have shift : (∃ k : Nat, (v :: vs)[k]? = some x.1 ∧ x.1 < INT_MAX ∧ x.2 = pos + k)
        ↔ ((v = x.1 ∧ x.1 < INT_MAX ∧ x.2 = pos)
          ∨ ∃ k : Nat, vs[k]? = some x.1 ∧ x.1 < INT_MAX ∧ x.2 = pos + 1 + k) := by
      constructor
      · rintro ⟨k, h1, h2, h3⟩
        cases k with
        | zero =>
          left
          simp only [List.getElem?_cons_zero, Option.some.injEq] at h1
          exact ⟨h1, h2, by simpa using h3⟩
        | succ k =>
          right
          simp only [List.getElem?_cons_succ] at h1
          exact ⟨k, h1, h2, by rw [h3]; push_cast; ring⟩
      · rintro (⟨h1, h2, h3⟩ | ⟨k, h1, h2, h3⟩)
        · exact ⟨0, by simp [h1], h2, by simp [h3]⟩
        · exact ⟨k + 1, by simpa using h1, h2, by rw [h3]; push_cast; ring⟩
    rw [shift]
    unfold existingPairs
    by_cases hv : v < INT_MAX
    · simp only [hv, if_true, List.mem_cons, ih]
      constructor
      · rintro (h | h)
        · left
          rw [h]
          exact ⟨rfl, hv, rfl⟩
        · right; exact h
      · rintro (⟨h1, _, h3⟩ | h)
        · left
          exact Prod.ext h1.symm h3
        · right; exact h
    · simp only [hv, if_false, ih]
      constructor
      · intro h; right; exact h
      · rintro (⟨h1, h2, _⟩ | h)
        · rw [← h1] at h2
          exact absurd h2 hv
        · exact h

theorem existingPairs_pairwise (L : List Int)
    (hinj : ∀ (a b : Nat) (va vb : Int), a < b → L[a]? = some va → L[b]? = some vb →
      va < INT_MAX → vb < INT_MAX → va ≠ vb) :
    ∀ pos : Int, (existingPairs pos L).Pairwise (fun x y => x.1 ≠ y.1) := by
  induction L with
  | nil => intro pos; simp [existingPairs]
  | cons v vs ih =>
    intro pos
    have htail : ∀ (a b : Nat) (va vb : Int), a < b → vs[a]? = some va → vs[b]? = some vb →
        va < INT_MAX → vb < INT_MAX → va ≠ vb := by
      intro a b va vb hab ha hb hva hvb
      exact hinj (a + 1) (b + 1) va vb (by omega) (by simpa using ha) (by simpa using hb)
        hva hvb
    unfold existingPairs
    by_cases hv : v < INT_MAX
    · simp only [hv, if_true]
      refine List.Pairwise.cons (fun x hx => ?_) (ih htail _)
      obtain ⟨k, h1, h2, _⟩ := (mem_existingPairs vs _ x).mp hx
      exact hinj 0 (k + 1) v x.1 (by omega) (by simp) (by simpa using h1) hv h2
    · simp only [hv, if_false]
      exact ih htail _

theorem renumber_injective (ind : List Int) (hb : (ind.length : Int) ≤ INT_MAX) :
    ∀ (a b : Nat) (va vb : Int), a < b → (renumber ind)[a]? = some va →
      (renumber ind)[b]? = some vb → va < INT_MAX → vb < INT_MAX → va < vb := by
  intro a b va vb hab ha hb2 hva hvb
  have hla : a < ind.length := by
    rw [← renumber_length ind]; exact (List.getElem?_eq_some.mp ha).1
  have hlb : b < ind.length := by
    rw [← renumber_length ind]; exact (List.getElem?_eq_some.mp hb2).1
  obtain ⟨wa, hwa, hia, hra⟩ := renumber_existent ind hb a _ (List.getElem?_eq_getElem hla)
  obtain ⟨wb, hwb, hib, hrb⟩ := renumber_existent ind hb b _ (List.getElem?_eq_getElem hlb)
  rw [ha] at hwa
  rw [hb2] at hwb
  have ea : va = wa := Option.some.inj hwa
  have eb : vb = wb := Option.some.inj hwb
  subst ea; subst eb
  have h1 := hra (hia.mp hva)
  have h2 := hrb (hib.mp hvb)
  have h3 := rankOf_succ ind a _ (List.getElem?_eq_getElem hla)
  simp only [hia.mp hva, if_true] at h3
  have h4 : rankOf ind (a + 1) ≤ rankOf ind b := rankOf_mono ind hab
  omega

theorem rankOf_surjective (ind : List Int) :
    ∀ n : Nat, n < ind.countP isExistent →
      ∃ (k : Nat) (v : Int), ind[k]? = some v ∧ v < INT_MAX ∧ rankOf ind k = n := by
  induction ind with
  | nil => intro n h; simp at h
  | cons v vs ih =>
    intro n h
    by_cases hv : v < INT_MAX
    · have h1 : isExistent v = true := (isExistent_iff v).mpr hv
      rw [List.countP_cons_of_pos _ _ h1] at h
      cases n with
      | zero => exact ⟨0, v, by simp, hv, rankOf_zero _⟩
      | succ n =>
        obtain ⟨k, w, hk, hw, hr⟩ := ih n (by omega)
        refine ⟨k + 1, w, by simpa using hk, hw, ?_⟩
        rw [rankOf_cons_succ, hr]
        simp [hv]
    · have h1 : ¬ isExistent v = true := fun h => hv ((isExistent_iff v).mp h)
      rw [List.countP_cons_of_neg _ _ h1] at h
      obtain ⟨k, w, hk, hw, hr⟩ := ih n h
      refine ⟨k + 1, w, by simpa using hk, hw, ?_⟩
      rw [rankOf_cons_succ, hr]
      simp [hv]

theorem setupAndCountGlobalIds_renumber (ind ids0 : List Int) (id : Int → Int)
    (hb : (ind.length : Int) ≤ INT_MAX) :
    (setupAndCountGlobalIds (renumber ind) ids0 id).1
        = (((renumber ind).countP isExistent : Nat) : Int)
      ∧ (setupAndCountGlobalIds (renumber ind) ids0 id).2.length
        = (renumber ind).countP isExistent
      ∧ (∀ i : Int, 0 ≤ i → i < (ind.length : Int) → vecAt (renumber ind) i < INT_MAX →
          vecAt (setupAndCountGlobalIds (renumber ind) ids0 id).2 (vecAt (renumber ind) i)
            = id i)
      ∧ (∀ l : Int, 0 ≤ l → l < (((renumber ind).countP isExistent : Nat) : Int) →
          ∃ i : Int, (0 ≤ i ∧ i < (ind.length : Int) ∧ vecAt (renumber ind) i < INT_MAX
              ∧ vecAt (renumber ind) i = l)
            ∧ ∀ i2 : Int, (0 ≤ i2 ∧ i2 < (ind.length : Int)
              ∧ vecAt (renumber ind) i2 < INT_MAX ∧ vecAt (renumber ind) i2 = l) → i2 = i) := by
  have hlen : (setupAndCountGlobalIds (renumber ind) ids0 id).2.length
      = (renumber ind).countP isExistent := by
    unfold setupAndCountGlobalIds
    simp only []
    rw [setupLoop_eq, foldl_vecSet_length Prod.fst (fun x => id x.2), resize_length]
  have hval : ∀ (i : Int), 0 ≤ i → i < (ind.length : Int) →
      ∃ w, (renumber ind)[i.toNat]? = some w ∧ vecAt (renumber ind) i = w := by
    intro i h0 h1
    have hl : i < ((renumber ind).length : Int) := by rw [renumber_length]; exact h1
    obtain ⟨w, hw⟩ := getElem?_of_range (renumber ind) h0 hl
    have hf : ((i.toNat : Nat) : Int) = i := by omega
    exact ⟨w, hw, by rw [← hf]; exact vecAt_of_getElem? hw⟩
  refine ⟨rfl, hlen, ?_, ?_⟩
  · intro i h0 h1 hr
    obtain ⟨_, hnn, hlt, _⟩ := renumbered_entry ind hb i h0 h1 hr
    obtain ⟨w, hw, hv⟩ := hval i h0 h1
    have hmem : (vecAt (renumber ind) i, i) ∈ existingPairs 0 (renumber ind) := by
      rw [mem_existingPairs]
      refine ⟨i.toNat, ?_, hr, ?_⟩
      · rw [hw, hv]
      · show i = 0 + ((i.toNat : Nat) : Int)
        omega
    have hpw : (existingPairs 0 (renumber ind)).Pairwise (fun x y => x.1 ≠ y.1) :=
      existingPairs_pairwise (renumber ind)
        (fun a b va vb hab ha hb2 hva hvb =>
          ne_of_lt (renumber_injective ind hb a b va vb hab ha hb2 hva hvb)) 0
    unfold setupAndCountGlobalIds
    simp only []
    rw [setupLoop_eq]
    exact foldl_vecSet_hit Prod.fst (fun x => id x.2) _ hpw _ (vecAt (renumber ind) i, i) hmem
      hnn (by rw [resize_length]; exact hlt)
  · intro l l0 l1
    rw [countP_renumber ind hb] at l1
    obtain ⟨k, v, hk, hv, hrk⟩ := rankOf_surjective ind l.toNat (by omega)
    have hkl : k < ind.length := (List.getElem?_eq_some.mp hk).1
    obtain ⟨w, hw, hiff, hwv⟩ := renumber_existent ind hb k v hk
    have hwl : w = l := by rw [hwv hv, hrk]; omega
    have hRk : vecAt (renumber ind) (k : Int) = l := by
      rw [vecAt_of_getElem? hw]; exact hwl
    refine ⟨(k : Int), ⟨by omega, by omega, by rw [hRk, ← hwl]; exact hiff.mpr hv, hRk⟩, ?_⟩
    rintro i2 ⟨a0, a1, a2, a3⟩
    obtain ⟨w2, hw2, hv2⟩ := hval i2 a0 a1
    rw [hv2] at a2 a3
    have hwlt : w < INT_MAX := hiff.mpr hv
    rcases Nat.lt_trichotomy i2.toNat k with h | h | h
    · have := renumber_injective ind hb i2.toNat k w2 w h hw2 hw a2 hwlt
      omega
    · omega
    · have := renumber_injective ind hb k i2.toNat w w2 h hw hw2 hwlt a2
      omega

/-! ## Claim on the global ids -/

/-- Claim C9.  For every cell of the index set, with local index `l` and global index `g`, the
cell id table holds `id(g)` at position `l` and `global2local` sends `g` to `l`.  For faces and
for points the table set up by `setupAndCountGlobalIds` has as many entries as there are
existing entities, holds `id(i)` at the position `indicator[i]` of every surviving global
entity `i`, and every position of the table is the new index of exactly one surviving entity.
So with an injective id function the way from a local index to the global id and back through
the global entity that carries this id ends at the same local index.  The numbers of faces and
points fit an `int`. -/
theorem global_id_round_trip [Inhabited G1] [Inhabited G3] [Inhabited Tag] [Inhabited PointType]
    (view_data : CpGridData G1 G3 Tag PointType) (cell_part : List Int)
    (overlap : List (List Int)) (p : Int) (idCell idFace idPoint : Int → Int)
    (hbF : (view_data.geomVector1.length : Int) ≤ INT_MAX)
    (hbP : (view_data.geomVector3.length : Int) ≤ INT_MAX) :
    let D := distributeGlobalGrid view_data cell_part overlap p idCell idFace idPoint
    (∀ e ∈ D.cell_indexset_,
        vecAt D.map2GlobalCellId e.local_ = idCell e.global_
        ∧ vecAt D.global2local e.global_ = e.local_
        ∧ (Function.Injective idCell → ∀ g : Int,
            idCell g = vecAt D.map2GlobalCellId e.local_ → vecAt D.global2local g = e.local_))
      ∧ (D.map2GlobalFaceId.length : Int) = D.noExistingFaces
      ∧ (∀ f : Int, 0 ≤ f → f < (view_data.geomVector1.length : Int) →
          vecAt D.face_indicator f < INT_MAX →
          vecAt D.map2GlobalFaceId (vecAt D.face_indicator f) = idFace f)
      ∧ (∀ l : Int, 0 ≤ l → l < D.noExistingFaces →
          (∃! f : Int, 0 ≤ f ∧ f < (view_data.geomVector1.length : Int)
            ∧ vecAt D.face_indicator f < INT_MAX ∧ vecAt D.face_indicator f = l)
          ∧ (Function.Injective idFace → ∀ f : Int,
              0 ≤ f → f < (view_data.geomVector1.length : Int) →
              idFace f = vecAt D.map2GlobalFaceId l → vecAt D.face_indicator f = l))
      ∧ (D.map2GlobalPointId.length : Int) = D.noExistingPoints
      ∧ (∀ q : Int, 0 ≤ q → q < (view_data.geomVector3.length : Int) →
          vecAt D.point_indicator q < INT_MAX →
          vecAt D.map2GlobalPointId (vecAt D.point_indicator q) = idPoint q)
      ∧ (∀ l : Int, 0 ≤ l → l < D.noExistingPoints →
          (∃! q : Int, 0 ≤ q ∧ q < (view_data.geomVector3.length : Int)
            ∧ vecAt D.point_indicator q < INT_MAX ∧ vecAt D.point_indicator q = l)
          ∧ (Function.Injective idPoint → ∀ q : Int,
              0 ≤ q → q < (view_data.geomVector3.length : Int) →
              idPoint q = vecAt D.map2GlobalPointId l → vecAt D.point_indicator q = l)) := by
  intro D
  have hlenF := (markExistent_length view_data (cell_indexset cell_part overlap p)).1
  have hlenP := (markExistent_length view_data (cell_indexset cell_part overlap p)).2
  obtain ⟨_, f2, f3, f4⟩ := setupAndCountGlobalIds_renumber
    (markExistent view_data (cell_indexset cell_part overlap p)).1 [] idFace
    (by rw [hlenF]; exact hbF)
  obtain ⟨_, p2, p3, p4⟩ := setupAndCountGlobalIds_renumber
    (markExistent view_data (cell_indexset cell_part overlap p)).2 [] idPoint
    (by rw [hlenP]; exact hbP)
  rw [hlenF] at f3 f4
  rw [hlenP] at p3 p4
  refine ⟨?_, ?_, f3, ?_, ?_, p3, ?_⟩
  · intro e he
    have he1 : e ∈ cell_indexset cell_part overlap p := he
    have h1 : vecAt D.map2GlobalCellId e.local_ = idCell e.global_ :=
      map2GlobalCellId_entry idCell cell_part overlap p e he1
    have h2 : vecAt D.global2local e.global_ = e.local_ :=
      global2local_entry cell_part overlap p e he1
    refine ⟨h1, h2, ?_⟩
    intro hinj g hg
    rw [h1] at hg
    rw [hinj hg]
    exact h2
  · rw [noExistingFaces_eq]
    exact congrArg Int.ofNat f2
  · intro l l0 l1
    obtain ⟨f, hf, huniq⟩ := f4 l l0 l1
    refine ⟨⟨f, hf, huniq⟩, ?_⟩
    intro hinj f' h0 h1 hid
    have e1 := f3 f hf.1 hf.2.1 hf.2.2.1
    rw [hf.2.2.2] at e1
    have e2 : idFace f' = idFace f := hid.trans e1
    rw [hinj e2]
    exact hf.2.2.2
  · rw [noExistingPoints_eq]
    exact congrArg Int.ofNat p2
  · intro l l0 l1
    obtain ⟨q, hq, huniq⟩ := p4 l l0 l1
    refine ⟨⟨q, hq, huniq⟩, ?_⟩
    intro hinj q' h0 h1 hid
    have e1 := p3 q hq.1 hq.2.1 hq.2.2.1
    rw [hq.2.2.2] at e1
    have e2 : idPoint q' = idPoint q := hid.trans e1
    rw [hinj e2]
    exact hq.2.2.2

/-- Witness of claim C9: the two-cell grid on rank 0 with one layer of overlap and the identity
as id function on the three codimensions. -/
theorem global_id_round_trip_witness :
    let D := distributeGlobalGrid twoCellGrid [0, 1] [[1], [0]] 0 id id id
    (∀ e ∈ D.cell_indexset_,
        vecAt D.map2GlobalCellId e.local_ = id e.global_
        ∧ vecAt D.global2local e.global_ = e.local_
        ∧ (Function.Injective (id : Int → Int) → ∀ g : Int,
            id g = vecAt D.map2GlobalCellId e.local_ → vecAt D.global2local g = e.local_))
      ∧ (D.map2GlobalFaceId.length : Int) = D.noExistingFaces
      ∧ (∀ f : Int, 0 ≤ f → f < (twoCellGrid.geomVector1.length : Int) →
          vecAt D.face_indicator f < INT_MAX →
          vecAt D.map2GlobalFaceId (vecAt D.face_indicator f) = id f)
      ∧ (∀ l : Int, 0 ≤ l → l < D.noExistingFaces →
          (∃! f : Int, 0 ≤ f ∧ f < (twoCellGrid.geomVector1.length : Int)
            ∧ vecAt D.face_indicator f < INT_MAX ∧ vecAt D.face_indicator f = l)
          ∧ (Function.Injective (id : Int → Int) → ∀ f : Int,
              0 ≤ f → f < (twoCellGrid.geomVector1.length : Int) →
              id f = vecAt D.map2GlobalFaceId l → vecAt D.face_indicator f = l))
      ∧ (D.map2GlobalPointId.length : Int) = D.noExistingPoints
      ∧ (∀ q : Int, 0 ≤ q → q < (twoCellGrid.geomVector3.length : Int) →
          vecAt D.point_indicator q < INT_MAX →
          vecAt D.map2GlobalPointId (vecAt D.point_indicator q) = id q)
      ∧ (∀ l : Int, 0 ≤ l → l < D.noExistingPoints →
          (∃! q : Int, 0 ≤ q ∧ q < (twoCellGrid.geomVector3.length : Int)
            ∧ vecAt D.point_indicator q < INT_MAX ∧ vecAt D.point_indicator q = l)
          ∧ (Function.Injective (id : Int → Int) → ∀ q : Int,
              0 ≤ q → q < (twoCellGrid.geomVector3.length : Int) →
              id q = vecAt D.map2GlobalPointId l → vecAt D.point_indicator q = l)) :=
  global_id_round_trip twoCellGrid [0, 1] [[1], [0]] 0 id id id (by decide) (by decide)

/-! ## Payload vectors -/

theorem vecSet_append_cons {α : Type} (A B : List α) (b x : α) :
    vecSet (A ++ b :: B) (A.length : Int) x = A ++ x :: B := by
  unfold vecSet
  have h : ¬ ((A.length : Int) < 0) := by omega
  simp only [h, if_false, Int.toNat_ofNat]
  rw [List.set_append_right _ _ (Nat.le_refl _)]
  simp

theorem copyFacePayload_eq [Inhabited G1] [Inhabited Tag] [Inhabited PointType]
    (view_data : CpGridData G1 G3 Tag PointType) (L : List Int) :
    ∀ (pos : Int) (st : FacePayload G1 Tag PointType) (A1 B1 : List Tag)
      (A2 B2 : List PointType),
      st.tmp_face_tag = A1 ++ B1 → st.tmp_face_normals = A2 ++ B2 →
      st.ft = (A1.length : Int) → st.ft = (A2.length : Int) →
      L.countP isExistent ≤ B1.length → L.countP isExistent ≤ B2.length →
      (copyFacePayload view_data pos L st).face_geom
          = st.face_geom ++ appendExisting (fun k => vecAt view_data.geomVector1 k) pos L
        ∧ (copyFacePayload view_data pos L st).tmp_face_tag
          = A1 ++ appendExisting (fun k => vecAt view_data.face_tag_ k) pos L
              ++ B1.drop (L.countP isExistent)
        ∧ (copyFacePayload view_data pos L st).tmp_face_normals
          = A2 ++ appendExisting (fun k => vecAt view_data.face_normals_ k) pos L
              ++ B2.drop (L.countP isExistent) := by
  induction L with
  | nil =>
    intro pos st A1 B1 A2 B2 h1 h2 _ _ _ _
    simp [copyFacePayload, appendExisting, h1, h2]
  | cons v vs ih =>
    intro pos st A1 B1 A2 B2 h1 h2 h3 h4 h5 h6
    unfold copyFacePayload appendExisting
    by_cases hv : v < INT_MAX
    · have hex : isExistent v = true := (isExistent_iff v).mpr hv
      rw [List.countP_cons_of_pos _ _ hex] at h5 h6 ⊢
      simp only [hv, if_true]
      cases B1 with
      | nil => simp at h5
      | cons b1 B1 =>
        cases B2 with
        | nil => simp at h6
        | cons b2 B2 =>
          simp only [List.length_cons] at h5 h6
          have ht : vecSet st.tmp_face_tag st.ft (vecAt view_data.face_tag_ pos)
              = (A1 ++ [vecAt view_data.face_tag_ pos]) ++ B1 := by
            rw [h1, h3, vecSet_append_cons]; simp
          have hn : vecSet st.tmp_face_normals st.ft (vecAt view_data.face_normals_ pos)
              = (A2 ++ [vecAt view_data.face_normals_ pos]) ++ B2 := by
            rw [h2, h4, vecSet_append_cons]; simp
          obtain ⟨r1, r2, r3⟩ := ih (pos + 1)
            { face_geom := st.face_geom ++ [vecAt view_data.geomVector1 pos]
              tmp_face_tag := vecSet st.tmp_face_tag st.ft (vecAt view_data.face_tag_ pos)
              tmp_face_normals :=
                vecSet st.tmp_face_normals st.ft (vecAt view_data.face_normals_ pos)
              ft := st.ft + 1 }
            (A1 ++ [vecAt view_data.face_tag_ pos]) B1
            (A2 ++ [vecAt view_data.face_normals_ pos]) B2 ht hn
            (by simp [h3]) (by simp [h4]) (by omega) (by omega)
          refine ⟨?_, ?_, ?_⟩
          · rw [r1]; simp
          · rw [r2]; simp
          · rw [r3]; simp
    · have hex : ¬ isExistent v = true := fun h => hv ((isExistent_iff v).mp h)
      rw [List.countP_cons_of_neg _ _ hex] at h5 h6 ⊢
      simp only [hv, if_false]
      exact ih (pos + 1) st A1 B1 A2 B2 h1 h2 h3 h4 h5 h6

theorem extractFacePayload_eq [Inhabited G1] [Inhabited Tag] [Inhabited PointType]
    (view_data : CpGridData G1 G3 Tag PointType) (L : List Int) :
    (extractFacePayload view_data L ((L.countP isExistent : Nat) : Int)).face_geom
        = appendExisting (fun k => vecAt view_data.geomVector1 k) 0 L
      ∧ (extractFacePayload view_data L ((L.countP isExistent : Nat) : Int)).tmp_face_tag
        = appendExisting (fun k => vecAt view_data.face_tag_ k) 0 L
      ∧ (extractFacePayload view_data L ((L.countP isExistent : Nat) : Int)).tmp_face_normals
        = appendExisting (fun k => vecAt view_data.face_normals_ k) 0 L := by
  unfold extractFacePayload
  obtain ⟨r1, r2, r3⟩ := copyFacePayload_eq view_data L 0
    { face_geom := []
      tmp_face_tag := List.replicate ((L.countP isExistent : Nat) : Int).toNat default
      tmp_face_normals := List.replicate ((L.countP isExistent : Nat) : Int).toNat default
      ft := 0 }
    [] (List.replicate (L.countP isExistent) default)
    [] (List.replicate (L.countP isExistent) default)
    (by simp) (by simp) (by simp) (by simp) (by simp) (by simp)
  refine ⟨?_, ?_, ?_⟩
  · rw [r1]; simp
  · rw [r2]; simp
  · rw [r3]; simp

theorem extractGlobalCell_length (view_data : CpGridData G1 G3 Tag PointType)
    (ixs : List IndexPair) : (extractGlobalCell view_data ixs).length = ixs.length := by
  unfold extractGlobalCell
  rw [foldl_vecSet_length IndexPair.local_ (fun e => vecAt view_data.global_cell_ e.global_),
    resize_length]

/-! ## Claim on the payload vectors -/

/-- Claim C10.  The payload vectors follow the presence maps.  For every retained face with
global index `g` and local index `l = face_indicator[g]` the local `face_tag_[l]`,
`face_normals_[l]`, the face geometry `l` and, when the global grid has boundary ids,
`unique_boundary_ids_[l]` are the global values at `g`; for every retained point the local
point geometry at its local index is the global one; for every cell of the index set
`global_cell_[l]` is the `global_cell_[g]` of the global grid; and every local payload vector
has as many entries as there are retained entities of its codimension.  The numbers of faces
and points fit an `int`. -/
theorem payload_lock_step [Inhabited G1] [Inhabited G3] [Inhabited Tag] [Inhabited PointType]
    (view_data : CpGridData G1 G3 Tag PointType) (cell_part : List Int)
    (overlap : List (List Int)) (p : Int) (idCell idFace idPoint : Int → Int)
    (hbF : (view_data.geomVector1.length : Int) ≤ INT_MAX)
    (hbP : (view_data.geomVector3.length : Int) ≤ INT_MAX) :
    let D := distributeGlobalGrid view_data cell_part overlap p idCell idFace idPoint
    (∀ g : Int, 0 ≤ g → g < (view_data.geomVector1.length : Int) →
        vecAt D.face_indicator g < INT_MAX →
        vecAt D.face_tag_ (vecAt D.face_indicator g) = vecAt view_data.face_tag_ g
        ∧ vecAt D.face_normals_ (vecAt D.face_indicator g) = vecAt view_data.face_normals_ g
        ∧ vecAt D.face_geom (vecAt D.face_indicator g) = vecAt view_data.geomVector1 g
        ∧ (view_data.unique_boundary_ids_.length ≠ 0 →
            vecAt D.unique_boundary_ids_ (vecAt D.face_indicator g)
              = vecAt view_data.unique_boundary_ids_ g))
      ∧ (∀ q : Int, 0 ≤ q → q < (view_data.geomVector3.length : Int) →
          vecAt D.point_indicator q < INT_MAX →
          vecAt D.point_geom (vecAt D.point_indicator q) = vecAt view_data.geomVector3 q)
      ∧ (∀ e ∈ D.cell_indexset_,
          vecAt D.global_cell_ e.local_ = vecAt view_data.global_cell_ e.global_)
      ∧ (D.face_tag_.length : Int) = D.noExistingFaces
      ∧ (D.face_normals_.length : Int) = D.noExistingFaces
      ∧ (D.face_geom.length : Int) = D.noExistingFaces
      ∧ (view_data.unique_boundary_ids_.length ≠ 0 →
          (D.unique_boundary_ids_.length : Int) = D.noExistingFaces)
      ∧ (D.point_geom.length : Int) = D.noExistingPoints
      ∧ D.global_cell_.length = D.cell_indexset_.length := by
  intro D
  obtain ⟨hgeom, htag, hnormals⟩ := extractFacePayload_eq view_data
    (face_indicator view_data (cell_indexset cell_part overlap p))
  have e1 : D.face_geom = appendExisting (fun k => vecAt view_data.geomVector1 k) 0
      (face_indicator view_data (cell_indexset cell_part overlap p)) := hgeom
  have e2 : D.face_tag_ = appendExisting (fun k => vecAt view_data.face_tag_ k) 0
      (face_indicator view_data (cell_indexset cell_part overlap p)) := htag
  have e3 : D.face_normals_ = appendExisting (fun k => vecAt view_data.face_normals_ k) 0
      (face_indicator view_data (cell_indexset cell_part overlap p)) := hnormals
  have e4 : view_data.unique_boundary_ids_.length ≠ 0 →
      D.unique_boundary_ids_ = appendExisting (fun k => vecAt view_data.unique_boundary_ids_ k) 0
        (face_indicator view_data (cell_indexset cell_part overlap p)) := by
    intro h
    show extractUniqueBoundaryIds view_data _ = _
    unfold extractUniqueBoundaryIds
    rw [if_pos h]
  have e5 : D.point_geom = appendExisting (fun k => vecAt view_data.geomVector3 k) 0
      (point_indicator view_data (cell_indexset cell_part overlap p)) := rfl
  have hF : D.noExistingFaces
      = (((face_indicator view_data (cell_indexset cell_part overlap p)).countP isExistent
          : Nat) : Int) := rfl
  have hP : D.noExistingPoints
      = (((point_indicator view_data (cell_indexset cell_part overlap p)).countP isExistent
          : Nat) : Int) := rfl
  refine ⟨?_, ?_, ?_, ?_, ?_, ?_, ?_, ?_, ?_⟩
  · intro g h0 h1 hr
    refine ⟨?_, ?_, ?_, ?_⟩
    · rw [e2]
      exact face_row_at view_data _ (fun k => vecAt view_data.face_tag_ k) hbF g h0 h1 hr
    · rw [e3]
      exact face_row_at view_data _ (fun k => vecAt view_data.face_normals_ k) hbF g h0 h1 hr
    · rw [e1]
      exact face_row_at view_data _ (fun k => vecAt view_data.geomVector1 k) hbF g h0 h1 hr
    · intro h
      rw [e4 h]
      exact face_row_at view_data _ (fun k => vecAt view_data.unique_boundary_ids_ k)
        hbF g h0 h1 hr
  · intro q h0 h1 hr
    rw [e5]
    exact point_row_at view_data _ (fun k => vecAt view_data.geomVector3 k) hbP q h0 h1 hr
  · intro e he
    have he1 : e ∈ cell_indexset cell_part overlap p := he
    obtain ⟨l0, l1, _⟩ := cell_indexset_at cell_part overlap p e he1
    show vecAt (extractGlobalCell view_data (cell_indexset cell_part overlap p)) e.local_ = _
    unfold extractGlobalCell
    exact foldl_vecSet_hit IndexPair.local_
      (fun e => vecAt view_data.global_cell_ e.global_) _
      (cell_indexset_local_ne cell_part overlap p) _ e he1 l0
      (by rw [resize_length]; exact l1)
  · rw [e2, hF, appendExisting_length]
  · rw [e3, hF, appendExisting_length]
  · rw [e1, hF, appendExisting_length]
  · intro h
    rw [e4 h, hF, appendExisting_length]
  · rw [e5, hP, appendExisting_length]
  · exact extractGlobalCell_length view_data _

/-- Witness of claim C10: the two-cell grid on rank 1 without overlap. -/
theorem payload_lock_step_witness :
    let D := distributeGlobalGrid twoCellGrid [0, 1] [[], []] 1 id id id
    (∀ g : Int, 0 ≤ g → g < (twoCellGrid.geomVector1.length : Int) →
        vecAt D.face_indicator g < INT_MAX →
        vecAt D.face_tag_ (vecAt D.face_indicator g) = vecAt twoCellGrid.face_tag_ g
        ∧ vecAt D.face_normals_ (vecAt D.face_indicator g) = vecAt twoCellGrid.face_normals_ g
        ∧ vecAt D.face_geom (vecAt D.face_indicator g) = vecAt twoCellGrid.geomVector1 g
        ∧ (twoCellGrid.unique_boundary_ids_.length ≠ 0 →
            vecAt D.unique_boundary_ids_ (vecAt D.face_indicator g)
              = vecAt twoCellGrid.unique_boundary_ids_ g))
      ∧ (∀ q : Int, 0 ≤ q → q < (twoCellGrid.geomVector3.length : Int) →
          vecAt D.point_indicator q < INT_MAX →
          vecAt D.point_geom (vecAt D.point_indicator q) = vecAt twoCellGrid.geomVector3 q)
      ∧ (∀ e ∈ D.cell_indexset_,
          vecAt D.global_cell_ e.local_ = vecAt twoCellGrid.global_cell_ e.global_)
      ∧ (D.face_tag_.length : Int) = D.noExistingFaces
      ∧ (D.face_normals_.length : Int) = D.noExistingFaces
      ∧ (D.face_geom.length : Int) = D.noExistingFaces
      ∧ (twoCellGrid.unique_boundary_ids_.length ≠ 0 →
          (D.unique_boundary_ids_.length : Int) = D.noExistingFaces)
      ∧ (D.point_geom.length : Int) = D.noExistingPoints
      ∧ D.global_cell_.length = D.cell_indexset_.length :=
  payload_lock_step twoCellGrid [0, 1] [[], []] 1 id id id (by decide) (by decide)

/-! ## The two-cell grid, evaluated -/

/-- The index set of rank 0 with one layer of overlap: cell 0 is owned, cell 1 is a copy. -/
theorem twoCellGrid_indexset_rank0 :
    cell_indexset [0, 1] [[1], [0]] 0
      = [⟨0, 0, AttributeSet.owner⟩, ⟨1, 1, AttributeSet.copy⟩] := by
  decide

/-- Rank 1 without overlap keeps the faces 1 and 2 and the points 4 to 11. -/
theorem twoCellGrid_indicators_rank1 :
    (distributeGlobalGrid twoCellGrid [0, 1] [[], []] 1 id id id).face_indicator
        = [INT_MAX, 0, 1]
      ∧ (distributeGlobalGrid twoCellGrid [0, 1] [[], []] 1 id id id).point_indicator
        = [INT_MAX, INT_MAX, INT_MAX, INT_MAX, 0, 1, 2, 3, 4, 5, 6, 7] := by
  decide

/-- Rank 1 without overlap: the tables of the local grid. -/
theorem twoCellGrid_tables_rank1 :
    (distributeGlobalGrid twoCellGrid [0, 1] [[], []] 1 id id id).cell_to_face_
        = [[⟨0, false⟩, ⟨1, true⟩]]
      ∧ (distributeGlobalGrid twoCellGrid [0, 1] [[], []] 1 id id id).cell_to_point_
        = [[0, 1, 2, 3, 4, 5, 6, 7]]
      ∧ (distributeGlobalGrid twoCellGrid [0, 1] [[], []] 1 id id id).face_to_cell_
        = [[⟨INT_MAX, true⟩, ⟨0, false⟩], [⟨0, true⟩]]
      ∧ (distributeGlobalGrid twoCellGrid [0, 1] [[], []] 1 id id id).face_to_point_
        = [[0, 1, 2, 3], [4, 5, 6, 7]]
      ∧ (distributeGlobalGrid twoCellGrid [0, 1] [[], []] 1 id id id).map2GlobalFaceId
        = [1, 2]
      ∧ (distributeGlobalGrid twoCellGrid [0, 1] [[], []] 1 id id id).face_tag_ = [1, 0]
      ∧ (distributeGlobalGrid twoCellGrid [0, 1] [[], []] 1 id id id).face_geom = [101, 102]
      ∧ (distributeGlobalGrid twoCellGrid [0, 1] [[], []] 1 id id id).unique_boundary_ids_
        = [0, 2]
      ∧ (distributeGlobalGrid twoCellGrid [0, 1] [[], []] 1 id id id).global_cell_ = [41] := by
  decide

/-! ## Partition types of the cells -/

theorem partitionCellIndicator_entry (cell_part : List Int) (overlap : List (List Int)) (p : Int)
    (e : IndexPair) (he : e ∈ cell_indexset cell_part overlap p) :
    vecAt (partitionCellIndicator (cell_indexset cell_part overlap p)) e.local_
      = if e.attribute_ = AttributeSet.owner then PartitionType.InteriorEntity
        else PartitionType.OverlapEntity := by
  obtain ⟨l0, l1, _⟩ := cell_indexset_at cell_part overlap p e he
  unfold partitionCellIndicator
  exact foldl_vecSet_hit IndexPair.local_
    (fun e => if e.attribute_ = AttributeSet.owner then PartitionType.InteriorEntity
      else PartitionType.OverlapEntity) _
    (cell_indexset_local_ne cell_part overlap p) _ e he l0 (by simpa using l1)

/-- Claim C11.  For every cell of the index set the entry of `cell_indicator_` at its local
index is `InteriorEntity` iff the attribute of the cell is `owner` and `OverlapEntity` iff it
is `copy`; it is never `BorderEntity` or `FrontEntity`. -/
theorem cell_partition_type [Inhabited G1] [Inhabited G3] [Inhabited Tag] [Inhabited PointType]
    (view_data : CpGridData G1 G3 Tag PointType) (cell_part : List Int)
    (overlap : List (List Int)) (p : Int) (idCell idFace idPoint : Int → Int)
    (getFacePartitionType : Int → PartitionType) (e : IndexPair)
    (he : e ∈ (distributeGlobalGrid view_data cell_part overlap p
      idCell idFace idPoint).cell_indexset_) :
    let D := distributeGlobalGrid view_data cell_part overlap p idCell idFace idPoint
    let ci := (computePartitionTypes D getFacePartitionType).cell_indicator_
    (vecAt ci e.local_ = PartitionType.InteriorEntity ↔ e.attribute_ = AttributeSet.owner)
      ∧ (vecAt ci e.local_ = PartitionType.OverlapEntity ↔ e.attribute_ = AttributeSet.copy)
      ∧ vecAt ci e.local_ ≠ PartitionType.BorderEntity
      ∧ vecAt ci e.local_ ≠ PartitionType.FrontEntity := by
  intro D ci
  have he1 : e ∈ cell_indexset cell_part overlap p := he
  have h : vecAt ci e.local_
      = if e.attribute_ = AttributeSet.owner then PartitionType.InteriorEntity
        else PartitionType.OverlapEntity :=
    partitionCellIndicator_entry cell_part overlap p e he1
  rw [h]
  cases hattr : e.attribute_ <;> simp

/-- Witness of claim C11: the two-cell grid on rank 0 with one layer of overlap, read at the
copy of cell 1. -/
theorem cell_partition_type_witness :
    let D := distributeGlobalGrid twoCellGrid [0, 1] [[1], [0]] 0 id id id
    let ci := (computePartitionTypes D (fun _ => PartitionType.InteriorEntity)).cell_indicator_
    let e : IndexPair := ⟨1, 1, AttributeSet.copy⟩
    (vecAt ci e.local_ = PartitionType.InteriorEntity ↔ e.attribute_ = AttributeSet.owner)
      ∧ (vecAt ci e.local_ = PartitionType.OverlapEntity ↔ e.attribute_ = AttributeSet.copy)
      ∧ vecAt ci e.local_ ≠ PartitionType.BorderEntity
      ∧ vecAt ci e.local_ ≠ PartitionType.FrontEntity :=
  cell_partition_type twoCellGrid [0, 1] [[1], [0]] 0 id id id
    (fun _ => PartitionType.InteriorEntity) ⟨1, 1, AttributeSet.copy⟩ (by decide)

/-! ## Partition types of the points -/

theorem vecSet_self {α : Type} [Inhabited α] (v : List α) (p : Int) :
    vecSet v p (vecAt v p) = v := by
  unfold vecSet vecAt
  by_cases hp : p < 0
  · simp [hp]
  · simp only [hp, if_false]
    apply List.ext_getElem?
    intro k
    rw [List.getElem?_set]
    by_cases hk : p.toNat = k
    · subst hk
      by_cases hl : p.toNat < v.length
      · simp [hl, List.getD_eq_getElem?_getD, List.getElem?_eq_getElem hl]
      · simp [hl, List.getElem?_eq_none (Nat.le_of_not_lt hl)]
    · simp [hk]

theorem updatePoint_eq (new_type : PartitionType) (v : List PartitionType) (p : Int) :
    updatePoint new_type v p = vecSet v p (pointRule (vecAt v p) new_type) := by
  have hs := vecSet_self v p
  unfold updatePoint pointRule
  generalize vecAt v p = old at hs ⊢
  cases old <;> cases new_type <;> simp [hs]

theorem updatePoint_length (new_type : PartitionType) (v : List PartitionType) (p : Int) :
    (updatePoint new_type v p).length = v.length := by
  rw [updatePoint_eq, vecSet_length]

theorem vecAt_updatePoint (new_type : PartitionType) (v : List PartitionType) (p j : Int)
    (h0 : 0 ≤ j) (h1 : j < (v.length : Int)) :
    vecAt (updatePoint new_type v p) j
      = if p = j then pointRule (vecAt v j) new_type else vecAt v j := by
  rw [updatePoint_eq, vecAt_vecSet]
  by_cases hpj : p = j
  · subst hpj
    simp [h0, h1]
  · simp [hpj]

theorem pointRule_comm (a b c : PartitionType) :
    pointRule (pointRule a b) c = pointRule (pointRule a c) b := by
  cases a <;> cases b <;> cases c <;> rfl

theorem pointRule_idem (a b : PartitionType) : pointRule (pointRule a b) b = pointRule a b := by
  cases a <;> cases b <;> rfl

theorem foldl_pointRule_comm (L : List PartitionType) :
    ∀ (y a : PartitionType), pointRule (L.foldl pointRule y) a = L.foldl pointRule (pointRule y a) := by
  induction L with
  | nil => intro y a; rfl
  | cons b L ih =>
    intro y a
    rw [List.foldl_cons, List.foldl_cons, ih, pointRule_comm]

theorem foldl_pointRule_twice (L : List PartitionType) :
    ∀ x : PartitionType, L.foldl pointRule (L.foldl pointRule x) = L.foldl pointRule x := by
  induction L with
  | nil => intro x; rfl
  | cons a L ih =>
    intro x
    rw [List.foldl_cons, List.foldl_cons, foldl_pointRule_comm, pointRule_idem, ih]

theorem foldl_updatePoint_length (ft : PartitionType) (row : List Int) :
    ∀ v : List PartitionType, (row.foldl (updatePoint ft) v).length = v.length := by
  induction row with
  | nil => intro v; rfl
  | cons q row ih => intro v; rw [List.foldl_cons, ih, updatePoint_length]

theorem vecAt_foldl_updatePoint (ft : PartitionType) (row : List Int) :
    ∀ (v : List PartitionType) (j : Int), 0 ≤ j → j < (v.length : Int) →
      vecAt (row.foldl (updatePoint ft) v) j
        = (List.replicate (row.count j) ft).foldl pointRule (vecAt v j) := by
  induction row with
  | nil => intro v j _ _; simp
  | cons q row ih =>
    intro v j h0 h1
    rw [List.foldl_cons, ih _ j h0 (by rw [updatePoint_length]; exact h1),
      vecAt_updatePoint ft v q j h0 h1, List.count_cons]
    by_cases hq : q = j
    · subst hq
      simp [List.replicate_succ]
    · simp [hq]

theorem classifyVisits_length (visits : List (PartitionType × List Int)) :
    ∀ v : List PartitionType, (classifyVisits visits v).length = v.length := by
  induction visits with
  | nil => intro v; rfl
  | cons x visits ih =>
    intro v
    unfold classifyVisits at ih ⊢
    rw [List.foldl_cons, ih, foldl_updatePoint_length]

theorem vecAt_classifyVisits (visits : List (PartitionType × List Int)) :
    ∀ (v : List PartitionType) (j : Int), 0 ≤ j → j < (v.length : Int) →
      vecAt (classifyVisits visits v) j = (typesAt visits j).foldl pointRule (vecAt v j) := by
  induction visits with
  | nil => intro v j _ _; rfl
  | cons x visits ih =>
    intro v j h0 h1
    have h := ih (x.2.foldl (updatePoint x.1) v) j h0
      (by rw [foldl_updatePoint_length]; exact h1)
    unfold classifyVisits at h ⊢
    rw [List.foldl_cons, h, vecAt_foldl_updatePoint x.1 x.2 v j h0 h1]
    unfold typesAt
    rw [List.flatMap_cons, List.foldl_append]

theorem classifyPoints_eq (gf : Int → PartitionType) (rows : List (List Int)) :
    ∀ (i : Int) (v : List PartitionType),
      classifyPoints gf i rows v = classifyVisits (faceVisits gf i rows) v := by
  induction rows with
  | nil => intro i v; rfl
  | cons row rows ih =>
    intro i v
    unfold classifyPoints faceVisits classifyVisits
    rw [List.foldl_cons, ih]
    rfl

theorem list_eq_of_vecAt {α : Type} [Inhabited α] (l1 l2 : List α)
    (hlen : l1.length = l2.length)
    (h : ∀ j : Int, 0 ≤ j → j < (l1.length : Int) → vecAt l1 j = vecAt l2 j) : l1 = l2 := by
  apply List.ext_getElem?
  intro k
  by_cases hk : k < l1.length
  · have hk2 : k < l2.length := by omega
    have e1 := List.getElem?_eq_getElem hk
    have e2 := List.getElem?_eq_getElem hk2
    have := h (k : Int) (by omega) (by omega)
    rw [vecAt_of_getElem? e1, vecAt_of_getElem? e2] at this
    rw [e1, e2, this]
  · rw [List.getElem?_eq_none (by omega), List.getElem?_eq_none (by omega)]

theorem typesAt_perm (visits1 visits2 : List (PartitionType × List Int))
    (h : visits1.Perm visits2) (j : Int) : (typesAt visits1 j).Perm (typesAt visits2 j) :=
  List.Perm.flatMap_right _ h

theorem classifyVisits_perm (visits1 visits2 : List (PartitionType × List Int))
    (h : visits1.Perm visits2) (v : List PartitionType) :
    classifyVisits visits1 v = classifyVisits visits2 v := by
  apply list_eq_of_vecAt
  · rw [classifyVisits_length, classifyVisits_length]
  · intro j h0 h1
    rw [classifyVisits_length] at h1
    rw [vecAt_classifyVisits visits1 v j h0 h1, vecAt_classifyVisits visits2 v j h0 h1]
    haveI : RightCommutative pointRule := ⟨pointRule_comm⟩
    exact List.Perm.foldl_eq (typesAt_perm visits1 visits2 h j) _

theorem classifyVisits_twice (visits : List (PartitionType × List Int))
    (v : List PartitionType) :
    classifyVisits visits (classifyVisits visits v) = classifyVisits visits v := by
  apply list_eq_of_vecAt
  · rw [classifyVisits_length]
  · intro j h0 h1
    rw [classifyVisits_length, classifyVisits_length] at h1
    rw [vecAt_classifyVisits visits _ j h0 (by rw [classifyVisits_length]; exact h1),
      vecAt_classifyVisits visits v j h0 h1, foldl_pointRule_twice]

theorem classifyPoints_visits (gf : Int → PartitionType) (rows : List (List Int)) :
    ∀ (i : Int) (v : List PartitionType),
      classifyPoints gf i rows v
        = ((List.range rows.length).flatMap
            (fun k => (rows.getD k []).map (fun q => (i + Int.ofNat k, q)))).foldl
            (fun v x => updatePoint (gf x.1) v x.2) v := by
  induction rows with
  | nil => intro i v; rfl
  | cons row rows ih =>
    intro i v
    unfold classifyPoints
    rw [ih, List.length_cons, List.range_succ_eq_map, List.flatMap_cons, List.foldl_append,
      List.flatMap_map, List.foldl_map]
    simp only [List.getD_cons_zero, Int.ofNat_eq_coe, Nat.cast_zero, add_zero, Function.comp,
      Nat.succ_eq_add_one, List.getD_cons_succ]
    congr 2
    funext k
    congr 1
    funext q
    congr 1
    push_cast
    ring

/-! ## Claims on the point classification -/

/-- Claim C12.  Every local point starts as `OverlapEntity`.  One visit of a point with type
`old` by a face of type `ft` leaves the other points alone and gives the point the type `ft`
when `old` is `InteriorEntity` and `ft` is not `OverlapEntity`, `InteriorEntity` when `old` is
`InteriorEntity` and `ft` is `OverlapEntity`, `ft` when `old` is `OverlapEntity`,
`BorderEntity` when `old` is `FrontEntity` and `ft` is `BorderEntity`, and `old` in every other
case.  The pass applies the visits for the faces in increasing face index and, within a face,
for the points in the order of the face-to-point row. -/
theorem point_classification_step :
    (∀ (D : DistributedGrid G1 G3 Tag PointType) (gf : Int → PartitionType),
        (computePartitionTypes D gf).point_indicator_
          = classifyPoints gf 0 D.face_to_point_
              (List.replicate D.point_geom.length PartitionType.OverlapEntity))
      ∧ (∀ (ft old : PartitionType) (v : List PartitionType) (p : Int),
          0 ≤ p → p < (v.length : Int) → vecAt v p = old →
          (updatePoint ft v p).length = v.length
          ∧ (∀ j : Int, j ≠ p → vecAt (updatePoint ft v p) j = vecAt v j)
          ∧ (old = PartitionType.InteriorEntity → ft ≠ PartitionType.OverlapEntity →
              vecAt (updatePoint ft v p) p = ft)
          ∧ (old = PartitionType.InteriorEntity → ft = PartitionType.OverlapEntity →
              vecAt (updatePoint ft v p) p = PartitionType.InteriorEntity)
          ∧ (old = PartitionType.OverlapEntity → vecAt (updatePoint ft v p) p = ft)
          ∧ (old = PartitionType.FrontEntity → ft = PartitionType.BorderEntity →
              vecAt (updatePoint ft v p) p = PartitionType.BorderEntity)
          ∧ (old = PartitionType.BorderEntity → vecAt (updatePoint ft v p) p = old)
          ∧ (old = PartitionType.FrontEntity → ft ≠ PartitionType.BorderEntity →
              vecAt (updatePoint ft v p) p = old))
      ∧ (∀ (gf : Int → PartitionType) (rows : List (List Int)) (v : List PartitionType),
          classifyPoints gf 0 rows v
            = ((List.range rows.length).flatMap
                (fun k => (rows.getD k []).map (fun q => (Int.ofNat k, q)))).foldl
                (fun v x => updatePoint (gf x.1) v x.2) v) := by
  refine ⟨fun _ _ => rfl, ?_, ?_⟩
  · intro ft old v p h0 h1 hold
    have hp : vecAt (updatePoint ft v p) p = pointRule old ft := by
      rw [vecAt_updatePoint ft v p p h0 h1, hold]
      simp
    refine ⟨updatePoint_length ft v p, ?_, ?_, ?_, ?_, ?_, ?_, ?_⟩
    · intro j hj
      rw [updatePoint_eq, vecAt_vecSet]
      have : ¬ (p = j ∧ 0 ≤ p ∧ p < (v.length : Int)) := fun h => hj h.1.symm
      simp [this]
    · intro ho hft
      rw [hp, ho]
      cases ft <;> simp [pointRule] at hft ⊢
    · intro ho hft
      rw [hp, ho, hft]
      rfl
    · intro ho
      rw [hp, ho]
      cases ft <;> rfl
    · intro ho hft
      rw [hp, ho, hft]
      rfl
    · intro ho
      rw [hp, ho]
      cases ft <;> rfl
    · intro ho hft
      rw [hp, ho]
      cases ft <;> simp [pointRule] at hft ⊢
  · intro gf rows v
    rw [classifyPoints_visits]
    simp

/-- Claim C13.  The point classification is idempotent: for every face-to-point table, every
assignment of face types and every start vector, a second run of the face pass on the point
types that the first run has produced changes no point type. -/
theorem point_classification_idempotent (gf : Int → PartitionType) (rows : List (List Int))
    (v : List PartitionType) :
    classifyPoints gf 0 rows (classifyPoints gf 0 rows v) = classifyPoints gf 0 rows v := by
  rw [classifyPoints_eq, classifyPoints_eq]
  exact classifyVisits_twice _ v

/-- Claim C14 fails: there are no two face tables that hold the same faces, each with its type
and its points, in different orders and for which the passes started from `OverlapEntity` end
with different types at some point. -/
theorem point_classification_order_sensitive_refuted :
    ¬ ∃ (gf1 gf2 : Int → PartitionType) (rows1 rows2 : List (List Int)) (n : Nat) (q : Int),
        (faceVisits gf1 0 rows1).Perm (faceVisits gf2 0 rows2)
        ∧ vecAt (classifyPoints gf1 0 rows1 (List.replicate n PartitionType.OverlapEntity)) q
          ≠ vecAt (classifyPoints gf2 0 rows2 (List.replicate n PartitionType.OverlapEntity)) q := by
  rintro ⟨gf1, gf2, rows1, rows2, n, q, hperm, hne⟩
  apply hne
  rw [classifyPoints_eq, classifyPoints_eq, classifyVisits_perm _ _ hperm]

/-- Claim C14 as amended.  The point classification does not depend on the order of the
visits: two face tables that hold the same faces, each with its type and its points, in
different orders give every point the same type, whatever the start vector. -/
theorem point_classification_order_independent (gf1 gf2 : Int → PartitionType)
    (rows1 rows2 : List (List Int)) (v : List PartitionType)
    (hperm : (faceVisits gf1 0 rows1).Perm (faceVisits gf2 0 rows2)) :
    classifyPoints gf1 0 rows1 v = classifyPoints gf2 0 rows2 v := by
  rw [classifyPoints_eq, classifyPoints_eq, classifyVisits_perm _ _ hperm]

/-- Witness of the amended claim C14: a point met by a face of type `InteriorEntity` and by a
face of type `FrontEntity`, in both orders. -/
theorem point_classification_order_independent_witness :
    classifyPoints
        (fun i => if i = 0 then PartitionType.InteriorEntity else PartitionType.FrontEntity)
        0 [[0], [0]] [PartitionType.OverlapEntity]
      = classifyPoints
        (fun i => if i = 0 then PartitionType.FrontEntity else PartitionType.InteriorEntity)
        0 [[0], [0]] [PartitionType.OverlapEntity] :=
  point_classification_order_independent _ _ [[0], [0]] [[0], [0]] [PartitionType.OverlapEntity]
    (List.Perm.swap _ _ [])

/-! ## Remote indices of the cells -/

theorem mem_setInsert (x y : Int) (s : List Int) : y ∈ setInsert x s ↔ y = x ∨ y ∈ s := by
  induction s with
  | nil => simp [setInsert]
  | cons z s ih =>
    unfold setInsert
    by_cases h1 : x < z
    · simp [h1]
    · by_cases h2 : x = z
      · subst h2
        simp [h1]
      · simp only [h1, h2, if_false, List.mem_cons, ih]
        constructor
        · rintro (h | h | h)
          · right; left; exact h
          · left; exact h
          · right; right; exact h
        · rintro (h | h | h)
          · right; left; exact h
          · left; exact h
          · right; right; exact h

theorem mem_setInsertRange (xs : List Int) :
    ∀ (s : List Int) (y : Int), y ∈ setInsertRange s xs ↔ y ∈ s ∨ y ∈ xs := by
  induction xs with
  | nil => intro s y; simp [setInsertRange]
  | cons x xs ih =>
    intro s y
    unfold setInsertRange at ih ⊢
    rw [List.foldl_cons, ih, mem_setInsert]
    simp only [List.mem_cons]
    constructor
    · rintro ((h | h) | h)
      · right; left; exact h
      · left; exact h
      · right; right; exact h
    · rintro (h | h | h)
      · left; right; exact h
      · left; left; exact h
      · right; exact h

theorem step_neighbors_mono (cc : CellCounter) (i : Int) (ov : List Int) (rank : Int) (y : Int)
    (hy : y ∈ cc.neighbors) :
    y ∈ (if ov.length ≠ 0 then cc.callShared i ov rank else cc.call i rank).neighbors := by
  by_cases hl : ov.length ≠ 0
  · rw [if_pos hl]
    unfold CellCounter.callShared
    by_cases hr : rank = cc.myrank
    · rw [if_pos hr]
      exact (mem_setInsertRange _ _ _).mpr (Or.inl hy)
    · rw [if_neg hr]
      by_cases hm : cc.myrank ∈ ov
      · rw [if_pos hm]
        exact (mem_setInsertRange _ _ _).mpr (Or.inl ((mem_setInsertRange _ _ _).mpr (Or.inl hy)))
      · rw [if_neg hm]
        exact hy
  · rw [if_neg hl]
    unfold CellCounter.call
    by_cases hr : rank = cc.myrank
    · rw [if_pos hr]
      exact hy
    · rw [if_neg hr]
      exact hy

theorem step_neighbors_owner (cc : CellCounter) (i : Int) (ov : List Int) (rank : Int) (y : Int)
    (hr : rank = cc.myrank) (hy : y ∈ ov) :
    y ∈ (if ov.length ≠ 0 then cc.callShared i ov rank else cc.call i rank).neighbors := by
  have hl : ov.length ≠ 0 := by
    intro h0
    rw [List.length_eq_zero.mp h0] at hy
    cases hy
  rw [if_pos hl]
  unfold CellCounter.callShared
  rw [if_pos hr]
  exact (mem_setInsertRange _ _ _).mpr (Or.inr hy)

theorem buildLoop_neighbors_mono (os : List (List Int)) :
    ∀ (cs : List Int) (cc : CellCounter) (i : Int) (y : Int), y ∈ cc.neighbors →
      y ∈ (buildLoop cc i os cs).neighbors := by
  induction os with
  | nil => intro cs cc i y hy; simpa [buildLoop] using hy
  | cons ov os ih =>
    intro cs cc i y hy
    cases cs with
    | nil => simpa [buildLoop] using hy
    | cons rank cs =>
      simp only [buildLoop]
      exact ih cs _ (i + 1) y (step_neighbors_mono cc i ov rank y hy)

theorem buildLoop_neighbors_owner (os : List (List Int)) :
    ∀ (cs : List Int) (cc : CellCounter) (i : Int) (k : Nat) (ov : List Int) (y : Int),
      os[k]? = some ov → cs[k]? = some cc.myrank → y ∈ ov →
      y ∈ (buildLoop cc i os cs).neighbors := by
  induction os with
  | nil => intro cs cc i k ov y h; simp at h
  | cons ov0 os ih =>
    intro cs cc i k ov y h1 h2 hy
    cases cs with
    | nil => simp at h2
    | cons rank cs =>
      simp only [buildLoop]
      cases k with
      | zero =>
        simp only [List.getElem?_cons_zero, Option.some.injEq] at h1 h2
        subst h1
        exact buildLoop_neighbors_mono os cs _ (i + 1) y
          (step_neighbors_owner cc i ov0 rank y h2 hy)
      | succ k =>
        simp only [List.getElem?_cons_succ] at h1 h2
        have hm := step_myrank cc i ov0 rank
        exact ih cs _ (i + 1) k ov y h1 (by rw [hm]; exact h2) hy

theorem neighbors_of_owner (cell_part : List Int) (overlap : List (List Int)) (p : Int)
    (e : IndexPair) (he : e ∈ cell_indexset cell_part overlap p)
    (ha : e.attribute_ = AttributeSet.owner) (y : Int) (hy : y ∈ vecAt overlap e.global_) :
    y ∈ (cell_counter cell_part overlap p).neighbors := by
  obtain ⟨g0, g1, g2, hheld⟩ := cell_indexset_entry cell_part overlap p e he
  rw [ha] at hheld
  have hr := (heldAs_owner _ _ _).mp hheld
  obtain ⟨ov, hov⟩ := getElem?_of_range overlap g0 g2
  obtain ⟨r, hrr⟩ := getElem?_of_range cell_part g0 g1
  have hg : ((e.global_.toNat : Nat) : Int) = e.global_ := by omega
  rw [← hg, vecAt_of_getElem? hrr] at hr
  rw [← hg, vecAt_of_getElem? hov] at hy
  unfold cell_counter
  exact buildLoop_neighbors_owner overlap cell_part ⟨p, 0, [], [], []⟩ 0 e.global_.toNat ov y
    hov (by rw [hrr, hr]) hy

theorem split_at_mine_of_sorted (p : Int) (ov : List Int)
    (h : ov.Pairwise (fun a b => a < b)) :
    ov.takeWhile (fun r => r != p) ++ (ov.dropWhile (fun r => r != p)).drop 1
      = ov.filter (fun r => decide (r < p)) ++ ov.filter (fun r => decide (p < r)) := by
  induction ov with
  | nil => simp
  | cons a ov ih =>
    rw [List.pairwise_cons] at h
    have ih1 := ih h.2
    have hall : ∀ b ∈ ov, a < b := h.1
    rw [List.takeWhile_cons, List.dropWhile_cons, List.filter_cons, List.filter_cons]
    rcases lt_trichotomy a p with hlt | heq | hgt
    · have hne : (a != p) = true := by simp; omega
      have h2 : ¬ p < a := by omega
      simp only [hne, if_true, hlt, h2, decide_True, decide_False, Bool.false_eq_true, if_false,
        List.cons_append]
      rw [ih1]
    · subst heq
      have hne : (a != a) = false := by simp
      have hf1 : ov.filter (fun r => decide (r < a)) = [] := by
        rw [List.filter_eq_nil_iff]
        intro b hb
        have := hall b hb
        simp only [decide_eq_true_eq]
        omega
      have hf2 : ov.filter (fun r => decide (a < r)) = ov := by
        rw [List.filter_eq_self]
        intro b hb
        simpa using hall b hb
      simp only [hne, Bool.false_eq_true, if_false, lt_self_iff_false, decide_False,
        List.drop_succ_cons, List.drop_zero, List.nil_append, hf1, hf2]
    · have hne : (a != p) = true := by simp; omega
      have h2 : ¬ a < p := by omega
      have hf1 : ov.filter (fun r => decide (r < p)) = [] := by
        rw [List.filter_eq_nil_iff]
        intro b hb
        have := hall b hb
        simp only [decide_eq_true_eq]
        omega
      simp only [hne, if_true, hgt, h2, decide_True, decide_False, Bool.false_eq_true, if_false,
        List.cons_append]
      rw [ih1, hf1]
      simp

theorem insertRemotes_eq (xs : List (Int × RemoteIndex)) :
    ∀ m : List (Int × List RemoteIndex), (∀ x ∈ xs, x.1 ∈ m.map Prod.fst) →
      insertRemotes m xs
        = some (m.map (fun kv =>
            (kv.1, kv.2 ++ (xs.filter (fun x => decide (x.1 = kv.1))).map Prod.snd))) := by
  induction xs with
  | nil => intro m _; simp [insertRemotes]
  | cons x xs ih =>
    intro m hm
    have hx : x.1 ∈ m.map Prod.fst := hm x (List.mem_cons_self _ _)
    unfold insertRemotes insertRemote
    rw [if_pos hx]
    simp only []
    have hkeys : (m.map (fun kv => if kv.1 = x.1 then (kv.1, kv.2 ++ [x.2]) else kv)).map Prod.fst
        = m.map Prod.fst := by
      rw [List.map_map]
      apply List.map_congr_left
      intro kv _
      simp only [Function.comp]
      split <;> rfl
    rw [ih _ (by rw [hkeys]; exact fun y hy => hm y (List.mem_cons_of_mem _ hy))]
    rw [List.map_map]
    congr 1
    apply List.map_congr_left
    intro kv _
    simp only [Function.comp, List.filter_cons]
    by_cases hk : kv.1 = x.1
    · simp [hk]
    · have hk2 : ¬ x.1 = kv.1 := fun h => hk h.symm
      simp [hk, hk2]

/-- The remote index lists of rank 0 in the two-cell setting with one layer of overlap: under
rank 1 the owned cell 0 as a copy there and the copy of cell 1 as owned there. -/
theorem twoCell_remote_indices_rank0 :
    setupRemoteIndices [0, 1] [[1], [0]] 0
      = some [(1, [⟨AttributeSet.copy, ⟨0, 0, AttributeSet.owner⟩⟩,
                   ⟨AttributeSet.owner, ⟨1, 1, AttributeSet.copy⟩⟩])] := by
  decide

/-! ## Maps from ranks -/

theorem lookup_cons_eq {V : Type} (k : Int) (kv : Int × V) (m : List (Int × V)) :
    List.lookup k (kv :: m) = if k = kv.1 then some kv.2 else List.lookup k m := by
  obtain ⟨a, b⟩ := kv
  rw [List.lookup_cons]
  by_cases h : k = a
  · simp [h]
  · have : (k == a) = false := by simpa using h
    simp [h, this]

theorem lookup_eq_none_of_not_mem {V : Type} (k : Int) (m : List (Int × V))
    (h : k ∉ m.map Prod.fst) : List.lookup k m = none := by
  induction m with
  | nil => rfl
  | cons kv m ih =>
    rw [lookup_cons_eq]
    simp only [List.map_cons, List.mem_cons, not_or] at h
    rw [if_neg h.1]
    exact ih h.2

theorem lookup_isSome_iff {V : Type} (k : Int) (m : List (Int × V)) :
    (List.lookup k m).isSome = true ↔ k ∈ m.map Prod.fst := by
  induction m with
  | nil => simp
  | cons kv m ih =>
    rw [lookup_cons_eq]
    by_cases h : k = kv.1
    · simp [h]
    · simp only [h, if_false, ih, List.map_cons, List.mem_cons, false_or]

theorem lookup_mapInsertSorted {V : Type} (k r : Int) (v : V) (m : List (Int × V))
    (hr : r ∉ m.map Prod.fst) :
    List.lookup k (mapInsertSorted r v m) = if k = r then some v else List.lookup k m := by
  induction m with
  | nil =>
    unfold mapInsertSorted
    rw [lookup_cons_eq]
  | cons kv m ih =>
    simp only [List.map_cons, List.mem_cons, not_or] at hr
    unfold mapInsertSorted
    by_cases hlt : r < kv.1
    · rw [if_pos hlt, lookup_cons_eq]
    · rw [if_neg hlt, lookup_cons_eq, lookup_cons_eq, ih hr.2]
      by_cases hk : k = kv.1
      · have h2 : ¬ kv.1 = r := fun h => hr.1 h.symm
        subst hk
        simp [h2]
      · simp [hk]

theorem keys_mapInsertSorted {V : Type} (r : Int) (v : V) (m : List (Int × V)) :
    ((mapInsertSorted r v m).map Prod.fst).Perm (r :: m.map Prod.fst) := by
  induction m with
  | nil => exact List.Perm.refl _
  | cons kv m ih =>
    unfold mapInsertSorted
    by_cases hlt : r < kv.1
    · rw [if_pos hlt]
      exact List.Perm.refl _
    · rw [if_neg hlt]
      simp only [List.map_cons]
      exact (List.Perm.cons _ ih).trans (List.Perm.swap _ _ _)

theorem lookup_map_update {V : Type} (f : V → V) (k r : Int) (m : List (Int × V)) :
    List.lookup k (m.map (fun kv => if kv.1 = r then (kv.1, f kv.2) else kv))
      = if k = r then (List.lookup k m).map f else List.lookup k m := by
  induction m with
  | nil => simp
  | cons kv m ih =>
    rw [List.map_cons, lookup_cons_eq, lookup_cons_eq, ih]
    by_cases hkv : kv.1 = r
    · by_cases hk : k = kv.1
      · simp [hkv, hk]
      · have hkr : ¬ k = r := fun h => hk (h.trans hkv.symm)
        simp [hkv, hk, hkr]
    · by_cases hk : k = kv.1
      · subst hk
        simp [hkv]
      · simp [hkv, hk]

theorem keys_map_update {V : Type} (f : V → V) (r : Int) (m : List (Int × V)) :
    (m.map (fun kv => if kv.1 = r then (kv.1, f kv.2) else kv)).map Prod.fst
      = m.map Prod.fst := by
  rw [List.map_map]
  apply List.map_congr_left
  intro kv _
  simp only [Function.comp]
  split <;> rfl

theorem lookup_mapUpdate {V : Type} [Inhabited V] (f : V → V) (k r : Int)
    (m : List (Int × V)) :
    List.lookup k (mapUpdate f r m)
      = if k = r then some (f ((List.lookup r m).getD default)) else List.lookup k m := by
  unfold mapUpdate
  by_cases hr : r ∈ m.map Prod.fst
  · rw [if_pos hr, lookup_map_update]
    by_cases hk : k = r
    · subst hk
      have := (lookup_isSome_iff k m).mpr hr
      obtain ⟨x, hx⟩ := Option.isSome_iff_exists.mp this
      simp [hx]
    · simp [hk]
  · rw [if_neg hr, lookup_mapInsertSorted k r _ m hr, lookup_eq_none_of_not_mem r m hr]
    rfl

theorem keys_mapUpdate_nodup {V : Type} [Inhabited V] (f : V → V) (r : Int)
    (m : List (Int × V)) (h : (m.map Prod.fst).Nodup) :
    ((mapUpdate f r m).map Prod.fst).Nodup := by
  unfold mapUpdate
  by_cases hr : r ∈ m.map Prod.fst
  · rw [if_pos hr, keys_map_update]
    exact h
  · rw [if_neg hr]
    exact (List.Perm.nodup_iff (keys_mapInsertSorted r (f default) m)).mpr
      (List.nodup_cons.mpr ⟨hr, h⟩)

/-! ## One interface functor over a sequence of calls -/

theorem lookup_call {T : Type} [Inhabited T] (func : T → Int → T)
    (F G : PartitionType → Bool) (m : List (Int × (T × T))) (rank index : Int)
    (mine other : PartitionType) (k : Int) :
    List.lookup k (InterfaceFunctor.call func F G m rank index mine other)
      = if k = rank ∧ ((F mine && G other) = true ∨ (F other && G mine) = true) then
          some (if (F mine && G other) = true
                  then func ((List.lookup k m).getD default).1 index
                  else ((List.lookup k m).getD default).1,
                if (F other && G mine) = true
                  then func ((List.lookup k m).getD default).2 index
                  else ((List.lookup k m).getD default).2)
        else List.lookup k m := by
  unfold InterfaceFunctor.call
  by_cases hk : k = rank
  · subst hk
    by_cases hs : (F mine && G other) = true <;> by_cases hr : (F other && G mine) = true
    · simp only [hs, hr, if_true, lookup_mapUpdate, true_and, or_self, Option.getD_some]
    · simp only [hs, hr, if_true, if_false, lookup_mapUpdate, true_and, or_false,
        Bool.false_eq_true]
    · simp only [hs, hr, if_true, if_false, lookup_mapUpdate, true_and, or_true,
        Bool.false_eq_true, false_or]
    · simp only [hs, hr, if_false, Bool.false_eq_true, or_self, and_false]
  · by_cases hs : (F mine && G other) = true <;> by_cases hr : (F other && G mine) = true <;>
      simp [hs, hr, hk, lookup_mapUpdate]

theorem sentIndices_cons (F G : PartitionType → Bool) (r : Int)
    (c : Int × Int × PartitionType × PartitionType)
    (calls : List (Int × Int × PartitionType × PartitionType)) :
    sentIndices F G r (c :: calls)
      = if c.1 = r ∧ (F c.2.2.1 && G c.2.2.2) = true then c.2.1 :: sentIndices F G r calls
        else sentIndices F G r calls := by
  unfold sentIndices
  rw [List.filter_cons]
  by_cases h1 : c.1 = r <;> by_cases h2 : (F c.2.2.1 && G c.2.2.2) = true <;> simp [h1, h2]

theorem receivedIndices_cons (F G : PartitionType → Bool) (r : Int)
    (c : Int × Int × PartitionType × PartitionType)
    (calls : List (Int × Int × PartitionType × PartitionType)) :
    receivedIndices F G r (c :: calls)
      = if c.1 = r ∧ (F c.2.2.2 && G c.2.2.1) = true then c.2.1 :: receivedIndices F G r calls
        else receivedIndices F G r calls := by
  unfold receivedIndices
  rw [List.filter_cons]
  by_cases h1 : c.1 = r <;> by_cases h2 : (F c.2.2.2 && G c.2.2.1) = true <;> simp [h1, h2]

theorem foldl_call_getD {T : Type} [Inhabited T] (func : T → Int → T)
    (F G : PartitionType → Bool) (r : Int)
    (calls : List (Int × Int × PartitionType × PartitionType)) :
    ∀ m : List (Int × (T × T)),
      (List.lookup r
          (calls.foldl (fun m c => InterfaceFunctor.call func F G m c.1 c.2.1 c.2.2.1 c.2.2.2)
            m)).getD default
        = ((sentIndices F G r calls).foldl func ((List.lookup r m).getD default).1,
           (receivedIndices F G r calls).foldl func ((List.lookup r m).getD default).2) := by
  induction calls with
  | nil => intro m; rfl
  | cons c calls ih =>
    intro m
    rw [List.foldl_cons, ih, lookup_call, sentIndices_cons, receivedIndices_cons]
    by_cases hk : c.1 = r
    · subst hk
      by_cases hs : (F c.2.2.1 && G c.2.2.2) = true <;>
        by_cases hr : (F c.2.2.2 && G c.2.2.1) = true <;> simp [hs, hr]
    · have hk2 : ¬ r = c.1 := fun h => hk h.symm
      simp [hk, hk2]

theorem foldl_call_isSome {T : Type} [Inhabited T] (func : T → Int → T)
    (F G : PartitionType → Bool) (r : Int)
    (calls : List (Int × Int × PartitionType × PartitionType)) :
    ∀ m : List (Int × (T × T)),
      (List.lookup r
          (calls.foldl (fun m c => InterfaceFunctor.call func F G m c.1 c.2.1 c.2.2.1 c.2.2.2)
            m)).isSome = true
        ↔ ((List.lookup r m).isSome = true
            ∨ ∃ c ∈ calls, c.1 = r
                ∧ ((F c.2.2.1 && G c.2.2.2) = true ∨ (F c.2.2.2 && G c.2.2.1) = true)) := by
  induction calls with
  | nil => intro m; simp
  | cons c calls ih =>
    intro m
    rw [List.foldl_cons, ih, lookup_call]
    by_cases hc : r = c.1 ∧ ((F c.2.2.1 && G c.2.2.2) = true ∨ (F c.2.2.2 && G c.2.2.1) = true)
    · rw [if_pos hc]
      simp only [Option.isSome_some, true_or, true_iff]
      right
      exact ⟨c, List.mem_cons_self _ _, hc.1.symm, hc.2⟩
    · rw [if_neg hc]
      constructor
      · rintro (h | ⟨c2, hc2, h⟩)
        · left; exact h
        · right; exact ⟨c2, List.mem_cons_of_mem _ hc2, h⟩
      · rintro (h | ⟨c2, hc2, h⟩)
        · left; exact h
        · rcases List.mem_cons.mp hc2 with e | e
          · subst e
            exact absurd ⟨h.1.symm, h.2⟩ hc
          · right; exact ⟨c2, e, h⟩

theorem iterate_over_attributes_eq {S : Type}
    (func : S → Int → Int → PartitionType → PartitionType → S) (types : List PartitionType)
    (attrs : List (List (Int × PartitionType))) :
    ∀ (i : Int) (s : S),
      iterate_over_attributes func types i attrs s
        = (attributeCalls types i attrs).foldl (fun s c => func s c.1 c.2.1 c.2.2.1 c.2.2.2) s := by
  induction attrs with
  | nil => intro i s; rfl
  | cons m attrs ih =>
    intro i s
    unfold iterate_over_attributes attributeCalls
    rw [ih, List.foldl_append, List.foldl_map]

theorem tupleCall_get {T : Type} [Inhabited T] (func : T → Int → T)
    (t : InterfaceTuple (List (Int × (T × T)))) (rank index : Int) (mine other : PartitionType)
    (k : Nat) (hk : k < 5) :
    (InterfaceTupleFunctor.call func t rank index mine other).get k
      = InterfaceFunctor.call func (Converter.SourceTuple k) (Converter.DestinationTuple k)
          (t.get k) rank index mine other := by
  interval_cases k <;> rfl

theorem foldl_tupleCall_get {T : Type} [Inhabited T] (func : T → Int → T)
    (calls : List (Int × Int × PartitionType × PartitionType)) (k : Nat) (hk : k < 5) :
    ∀ t : InterfaceTuple (List (Int × (T × T))),
      (calls.foldl (fun t c => InterfaceTupleFunctor.call func t c.1 c.2.1 c.2.2.1 c.2.2.2)
          t).get k
        = calls.foldl
            (fun m c =>
              InterfaceFunctor.call func (Converter.SourceTuple k) (Converter.DestinationTuple k)
                m c.1 c.2.1 c.2.2.1 c.2.2.2)
            (t.get k) := by
  induction calls with
  | nil => intro t; rfl
  | cons c calls ih =>
    intro t
    rw [List.foldl_cons, List.foldl_cons, ih, tupleCall_get func t _ _ _ _ k hk]

/-! ## The two passes of `createInterfaces` -/

theorem foldl_incrementor (L : List Int) :
    ∀ n : Nat, L.foldl InterfaceIncrementor n = n + L.length := by
  induction L with
  | nil => intro n; rfl
  | cons x L ih =>
    intro n
    rw [List.foldl_cons, ih]
    simp only [InterfaceIncrementor, List.length_cons]
    omega

theorem foldl_adder (L : List Int) :
    ∀ (init : List Int) (cap : Nat), init.length + L.length ≤ cap →
      L.foldl InterfaceAdder ⟨init, cap⟩ = ⟨init ++ L, cap⟩ := by
  induction L with
  | nil => intro init cap _; simp
  | cons x L ih =>
    intro init cap h
    simp only [List.length_cons] at h
    rw [List.foldl_cons]
    have hne : ¬ init.length = cap := by omega
    have hstep : InterfaceAdder ⟨init, cap⟩ x = ⟨init ++ [x], cap⟩ := by
      simp [InterfaceAdder, InterfaceInformation.add, hne]
    rw [hstep, ih (init ++ [x]) cap (by simp; omega)]
    simp

theorem call_keys_nodup {T : Type} [Inhabited T] (func : T → Int → T)
    (F G : PartitionType → Bool) (m : List (Int × (T × T))) (rank index : Int)
    (mine other : PartitionType) (h : (m.map Prod.fst).Nodup) :
    ((InterfaceFunctor.call func F G m rank index mine other).map Prod.fst).Nodup := by
  unfold InterfaceFunctor.call
  by_cases hs : (F mine && G other) = true <;> by_cases hr : (F other && G mine) = true
  · simp only [hs, hr, if_true]
    exact keys_mapUpdate_nodup _ _ _ (keys_mapUpdate_nodup _ _ _ h)
  · simp only [hs, hr, if_true, if_false, Bool.false_eq_true]
    exact keys_mapUpdate_nodup _ _ _ h
  · simp only [hs, hr, if_true, if_false, Bool.false_eq_true]
    exact keys_mapUpdate_nodup _ _ _ h
  · simp only [hs, hr, if_false, Bool.false_eq_true]
    exact h

theorem foldl_call_keys_nodup {T : Type} [Inhabited T] (func : T → Int → T)
    (F G : PartitionType → Bool)
    (calls : List (Int × Int × PartitionType × PartitionType)) :
    ∀ m : List (Int × (T × T)), (m.map Prod.fst).Nodup →
      ((calls.foldl (fun m c => InterfaceFunctor.call func F G m c.1 c.2.1 c.2.2.1 c.2.2.2)
          m).map Prod.fst).Nodup := by
  induction calls with
  | nil => intro m h; exact h
  | cons c calls ih =>
    intro m h
    rw [List.foldl_cons]
    exact ih _ (call_keys_nodup func F G m _ _ _ _ h)

theorem emptyTuple_get {M : Type} (k : Nat) :
    (⟨[], [], [], [], []⟩ : InterfaceTuple (List M)).get k = [] := by
  unfold InterfaceTuple.get
  split <;> rfl

theorem interfaceSizes_get (attrs : List (List (Int × PartitionType)))
    (types : List PartitionType) (k : Nat) (hk : k < 5) :
    (interfaceSizes attrs types).get k
      = (attributeCalls types 0 attrs).foldl
          (fun m c =>
            InterfaceFunctor.call InterfaceIncrementor (Converter.SourceTuple k)
              (Converter.DestinationTuple k) m c.1 c.2.1 c.2.2.1 c.2.2.2)
          [] := by
  unfold interfaceSizes
  rw [iterate_over_attributes_eq, foldl_tupleCall_get InterfaceIncrementor _ k hk, emptyTuple_get]

theorem interfaceSizes_getD (attrs : List (List (Int × PartitionType)))
    (types : List PartitionType) (k : Nat) (hk : k < 5) (r : Int) :
    (List.lookup r ((interfaceSizes attrs types).get k)).getD default
      = ((sentIndices (Converter.SourceTuple k) (Converter.DestinationTuple k) r
            (attributeCalls types 0 attrs)).length,
         (receivedIndices (Converter.SourceTuple k) (Converter.DestinationTuple k) r
            (attributeCalls types 0 attrs)).length) := by
  rw [interfaceSizes_get attrs types k hk, foldl_call_getD, foldl_incrementor,
    foldl_incrementor]
  simp only [List.lookup_nil, Option.getD_none]
  have h0 : (default : Nat × Nat) = (0, 0) := rfl
  rw [h0]
  simp

theorem interfaceSizes_isSome (attrs : List (List (Int × PartitionType)))
    (types : List PartitionType) (k : Nat) (hk : k < 5) (r : Int) :
    (List.lookup r ((interfaceSizes attrs types).get k)).isSome = true
      ↔ ∃ c ∈ attributeCalls types 0 attrs, c.1 = r
          ∧ ((Converter.SourceTuple k c.2.2.1 && Converter.DestinationTuple k c.2.2.2) = true
            ∨ (Converter.SourceTuple k c.2.2.2 && Converter.DestinationTuple k c.2.2.1)
                = true) := by
  rw [interfaceSizes_get attrs types k hk, foldl_call_isSome]
  simp

theorem interfaceSizes_nodup (attrs : List (List (Int × PartitionType)))
    (types : List PartitionType) (k : Nat) (hk : k < 5) :
    (((interfaceSizes attrs types).get k).map Prod.fst).Nodup := by
  rw [interfaceSizes_get attrs types k hk]
  exact foldl_call_keys_nodup _ _ _ _ [] List.nodup_nil

theorem lookup_reserveInterface (sizeMap : List (Int × (Nat × Nat))) (r : Int) :
    ∀ (im : List (Int × (InterfaceInformation × InterfaceInformation))),
      (sizeMap.map Prod.fst).Nodup →
      List.lookup r (reserveInterface sizeMap im)
        = match List.lookup r sizeMap with
          | some s =>
            some (((List.lookup r im).getD default).1.reserve s.1,
                  ((List.lookup r im).getD default).2.reserve s.2)
          | none => List.lookup r im := by
  induction sizeMap with
  | nil => intro im _; rfl
  | cons kv sizeMap ih =>
    intro im hnd
    rw [List.map_cons, List.nodup_cons] at hnd
    unfold reserveInterface at ih ⊢
    rw [List.foldl_cons, ih _ hnd.2, lookup_cons_eq, lookup_mapUpdate]
    by_cases hk : r = kv.1
    · subst hk
      rw [lookup_eq_none_of_not_mem _ _ hnd.1]
      simp
    · simp only [hk, if_false]

theorem reserve_get (sizes : InterfaceTuple (List (Int × (Nat × Nat))))
    (interfaces : InterfaceTuple (List (Int × (InterfaceInformation × InterfaceInformation))))
    (k : Nat) : (reserve sizes interfaces).get k = reserveInterface (sizes.get k) (interfaces.get k) := by
  unfold InterfaceTuple.get reserve
  split <;> rfl

theorem point_interfaces_get (attrs : List (List (Int × PartitionType)))
    (types : List PartitionType) (k : Nat) (hk : k < 5) :
    (point_interfaces attrs types).get k
      = (attributeCalls types 0 attrs).foldl
          (fun m c =>
            InterfaceFunctor.call InterfaceAdder (Converter.SourceTuple k)
              (Converter.DestinationTuple k) m c.1 c.2.1 c.2.2.1 c.2.2.2)
          (reserveInterface ((interfaceSizes attrs types).get k) []) := by
  unfold point_interfaces createInterfaces
  rw [iterate_over_attributes_eq, foldl_tupleCall_get InterfaceAdder _ k hk, reserve_get,
    emptyTuple_get]

theorem reserved_getD (attrs : List (List (Int × PartitionType)))
    (types : List PartitionType) (k : Nat) (hk : k < 5) (r : Int) :
    (List.lookup r (reserveInterface ((interfaceSizes attrs types).get k) [])).getD default
      = (⟨[], (sentIndices (Converter.SourceTuple k) (Converter.DestinationTuple k) r
                (attributeCalls types 0 attrs)).length⟩,
         ⟨[], (receivedIndices (Converter.SourceTuple k) (Converter.DestinationTuple k) r
                (attributeCalls types 0 attrs)).length⟩) := by
  have h1 := interfaceSizes_getD attrs types k hk r
  rw [lookup_reserveInterface _ r [] (interfaceSizes_nodup attrs types k hk)]
  cases hl : List.lookup r ((interfaceSizes attrs types).get k) with
  | none =>
    rw [hl] at h1
    have h0 : (default : Nat × Nat) = (0, 0) := rfl
    simp only [Option.getD_none, h0, Prod.mk.injEq] at h1
    simp only [List.lookup_nil, Option.getD_none]
    rw [← h1.1, ← h1.2]
    rfl
  | some s =>
    rw [hl] at h1
    simp only [Option.getD_some] at h1
    rw [h1]
    rfl

theorem point_interfaces_getD (attrs : List (List (Int × PartitionType)))
    (types : List PartitionType) (k : Nat) (hk : k < 5) (r : Int) :
    (List.lookup r ((point_interfaces attrs types).get k)).getD default
      = (⟨sentIndices (Converter.SourceTuple k) (Converter.DestinationTuple k) r
            (attributeCalls types 0 attrs),
          (sentIndices (Converter.SourceTuple k) (Converter.DestinationTuple k) r
            (attributeCalls types 0 attrs)).length⟩,
         ⟨receivedIndices (Converter.SourceTuple k) (Converter.DestinationTuple k) r
            (attributeCalls types 0 attrs),
          (receivedIndices (Converter.SourceTuple k) (Converter.DestinationTuple k) r
            (attributeCalls types 0 attrs)).length⟩) := by
  rw [point_interfaces_get attrs types k hk, foldl_call_getD, reserved_getD attrs types k hk r,
    foldl_adder _ _ _ (by simp), foldl_adder _ _ _ (by simp)]
  simp

theorem point_interfaces_isSome (attrs : List (List (Int × PartitionType)))
    (types : List PartitionType) (k : Nat) (hk : k < 5) (r : Int) :
    (List.lookup r ((point_interfaces attrs types).get k)).isSome = true
      ↔ (List.lookup r ((interfaceSizes attrs types).get k)).isSome = true := by
  rw [point_interfaces_get attrs types k hk, foldl_call_isSome,
    lookup_reserveInterface _ r [] (interfaceSizes_nodup attrs types k hk),
    interfaceSizes_isSome attrs types k hk]
  cases hl : List.lookup r ((interfaceSizes attrs types).get k) with
  | none => simp
  | some s =>
    have h := (interfaceSizes_isSome attrs types k hk r).mp (by rw [hl]; rfl)
    simp only [Option.isSome_some, true_or, true_iff]
    exact h

theorem sendList_point_interfaces (attrs : List (List (Int × PartitionType)))
    (types : List PartitionType) (k : Nat) (hk : k < 5) (r : Int) :
    sendList ((point_interfaces attrs types).get k) r
        = sentIndices (Converter.SourceTuple k) (Converter.DestinationTuple k) r
            (attributeCalls types 0 attrs)
      ∧ receiveList ((point_interfaces attrs types).get k) r
        = receivedIndices (Converter.SourceTuple k) (Converter.DestinationTuple k) r
            (attributeCalls types 0 attrs) := by
  unfold sendList receiveList
  rw [point_interfaces_getD attrs types k hk r]
  exact ⟨rfl, rfl⟩

/-! ## The calls behind the interface lists -/

theorem mem_attributeCalls (types : List PartitionType)
    (attrs : List (List (Int × PartitionType))) :
    ∀ (i : Int) (c : Int × Int × PartitionType × PartitionType),
      c ∈ attributeCalls types i attrs
        ↔ ∃ (k : Nat) (m : List (Int × PartitionType)), attrs[k]? = some m
            ∧ (c.1, c.2.2.2) ∈ m ∧ c.2.1 = i + k ∧ c.2.2.1 = vecAt types (i + k) := by
  induction attrs with
  | nil => intro i c; simp [attributeCalls]
  | cons m0 attrs ih =>
    intro i c
    unfold attributeCalls
    rw [List.mem_append, ih]
    constructor
    · rintro (h | ⟨k, m, h1, h2, h3, h4⟩)
      · obtain ⟨kv, hkv, he⟩ := List.mem_map.mp h
        refine ⟨0, m0, by simp, ?_, ?_, ?_⟩
        · rw [← he]; exact hkv
        · rw [← he]; simp
        · rw [← he]; simp
      · refine ⟨k + 1, m, by simpa using h1, h2, ?_, ?_⟩
        · rw [h3]; push_cast; ring
        · rw [h4]; congr 1; push_cast; ring
    · rintro ⟨k, m, h1, h2, h3, h4⟩
      cases k with
      | zero =>
        left
        simp only [List.getElem?_cons_zero, Option.some.injEq] at h1
        subst h1
        refine List.mem_map.mpr ⟨(c.1, c.2.2.2), h2, ?_⟩
        simp only [Nat.cast_zero, add_zero] at h3 h4
        obtain ⟨c1, c2, c3, c4⟩ := c
        simp only at h3 h4 ⊢
        rw [h3, h4]
      | succ k =>
        right
        simp only [List.getElem?_cons_succ] at h1
        refine ⟨k, m, h1, h2, ?_, ?_⟩
        · rw [h3]; push_cast; ring
        · rw [h4]; congr 1; push_cast; ring

theorem attributeCalls_lex (types : List PartitionType)
    (attrs : List (List (Int × PartitionType)))
    (hmaps : ∀ m ∈ attrs, m.Pairwise (fun a b => a.1 < b.1)) :
    ∀ i : Int,
      (attributeCalls types i attrs).Pairwise
        (fun a b => a.2.1 < b.2.1 ∨ (a.2.1 = b.2.1 ∧ a.1 < b.1)) := by
  induction attrs with
  | nil => intro i; exact List.Pairwise.nil
  | cons m0 attrs ih =>
    intro i
    unfold attributeCalls
    rw [List.pairwise_append]
    refine ⟨?_, ih (fun m hm => hmaps m (List.mem_cons_of_mem _ hm)) (i + 1), ?_⟩
    · rw [List.pairwise_map]
      exact (hmaps m0 (List.mem_cons_self _ _)).imp (fun h => Or.inr ⟨rfl, h⟩)
    · intro a ha b hb
      left
      obtain ⟨kv, _, he⟩ := List.mem_map.mp ha
      obtain ⟨k, m, _, _, h3, _⟩ := (mem_attributeCalls types attrs (i + 1) b).mp hb
      rw [← he, h3]
      simp only
      omega

theorem sentIndices_increasing (F G : PartitionType → Bool) (r : Int)
    (calls : List (Int × Int × PartitionType × PartitionType))
    (h : calls.Pairwise (fun a b => a.2.1 < b.2.1 ∨ (a.2.1 = b.2.1 ∧ a.1 < b.1))) :
    (sentIndices F G r calls).Pairwise (fun a b => a < b)
      ∧ (receivedIndices F G r calls).Pairwise (fun a b => a < b) := by
  unfold sentIndices receivedIndices
  constructor
  · rw [List.pairwise_map]
    refine List.Pairwise.imp_of_mem ?_ (List.Pairwise.filter _ h)
    intro a b ha hb hab
    have ha1 := (List.mem_filter.mp ha).2
    have hb1 := (List.mem_filter.mp hb).2
    simp only [Bool.and_eq_true, decide_eq_true_eq] at ha1 hb1
    rcases hab with hlt | ⟨_, hlt⟩
    · exact hlt
    · omega
  · rw [List.pairwise_map]
    refine List.Pairwise.imp_of_mem ?_ (List.Pairwise.filter _ h)
    intro a b ha hb hab
    have ha1 := (List.mem_filter.mp ha).2
    have hb1 := (List.mem_filter.mp hb).2
    simp only [Bool.and_eq_true, decide_eq_true_eq] at ha1 hb1
    rcases hab with hlt | ⟨_, hlt⟩
    · exact hlt
    · omega

theorem map_entry_unique (m : List (Int × PartitionType))
    (h : m.Pairwise (fun a b => a.1 < b.1)) (r : Int) (o1 o2 : PartitionType)
    (h1 : (r, o1) ∈ m) (h2 : (r, o2) ∈ m) : o1 = o2 := by
  rcases pairwise_cases h (r, o1) h1 (r, o2) h2 with e | e | e
  · exact (Prod.mk.inj e).2
  · simp at e
  · simp at e

theorem mem_interface_lists (attrs : List (List (Int × PartitionType)))
    (types : List PartitionType)
    (hmaps : ∀ m ∈ attrs, m.Pairwise (fun a b => a.1 < b.1))
    (k : Nat) (hk : k < 5) (i r : Int) (other : PartitionType) (h0 : 0 ≤ i)
    (hentry : (r, other) ∈ vecAt attrs i) :
    (i ∈ sendList ((point_interfaces attrs types).get k) r
        ↔ (Converter.SourceTuple k (vecAt types i) && Converter.DestinationTuple k other) = true)
      ∧ (i ∈ receiveList ((point_interfaces attrs types).get k) r
        ↔ (Converter.SourceTuple k other && Converter.DestinationTuple k (vecAt types i))
            = true) := by
  obtain ⟨e1, e2⟩ := sendList_point_interfaces attrs types k hk r
  rw [e1, e2]
  have hrow : vecAt attrs i ∈ attrs := by
    rcases vecAt_mem_or_default attrs i with h | h
    · exact h
    · rw [h] at hentry; cases hentry
  have hget : attrs[i.toNat]? = some (vecAt attrs i) := by
    rw [vecAt_toNat attrs h0, List.getD_eq_getElem?_getD]
    cases hc : attrs[i.toNat]? with
    | none =>
      rw [vecAt_toNat attrs h0, List.getD_eq_getElem?_getD, hc] at hentry
      cases hentry
    | some m => rfl
  have hi : (0 : Int) + ((i.toNat : Nat) : Int) = i := by omega
  have key : ∀ (c : Int × Int × PartitionType × PartitionType),
      c ∈ attributeCalls types 0 attrs → c.1 = r → c.2.1 = i →
      c.2.2.1 = vecAt types i ∧ c.2.2.2 = other := by
    intro c hc hr hci
    obtain ⟨n, m, h1, h2, h3, h4⟩ := (mem_attributeCalls types attrs 0 c).mp hc
    have hn : n = i.toNat := by omega
    subst hn
    rw [hget] at h1
    have hm : m = vecAt attrs i := (Option.some.inj h1).symm
    rw [hi] at h4
    refine ⟨h4, ?_⟩
    rw [hm, hr] at h2
    exact map_entry_unique _ (hmaps _ hrow) r _ _ h2 hentry
  have hcall : (r, i, vecAt types i, other) ∈ attributeCalls types 0 attrs :=
    (mem_attributeCalls types attrs 0 _).mpr ⟨i.toNat, _, hget, hentry, hi.symm, by rw [hi]⟩
  unfold sentIndices receivedIndices
  constructor
  · constructor
    · intro h
      obtain ⟨c, hc, hci⟩ := List.mem_map.mp h
      obtain ⟨hc1, hc2⟩ := List.mem_filter.mp hc
      simp only [Bool.and_eq_true, decide_eq_true_eq] at hc2
      obtain ⟨k1, k2⟩ := key c hc1 hc2.1 hci
      rw [← k1, ← k2]
      simpa using hc2.2
    · intro h
      refine List.mem_map.mpr ⟨(r, i, vecAt types i, other), List.mem_filter.mpr ⟨hcall, ?_⟩, rfl⟩
      simp only [decide_True, Bool.true_and]
      exact h
  · constructor
    · intro h
      obtain ⟨c, hc, hci⟩ := List.mem_map.mp h
      obtain ⟨hc1, hc2⟩ := List.mem_filter.mp hc
      simp only [Bool.and_eq_true, decide_eq_true_eq] at hc2
      obtain ⟨k1, k2⟩ := key c hc1 hc2.1 hci
      rw [← k1, ← k2]
      simpa using hc2.2
    · intro h
      refine List.mem_map.mpr ⟨(r, i, vecAt types i, other), List.mem_filter.mpr ⟨hcall, ?_⟩, rfl⟩
      simp only [decide_True, Bool.true_and]
      exact h

/-! ## Claims on the point interfaces -/

/-- Claim C16.  For every local point index `i` and every entry `(r, other)` of its attribute
map, with `mine` the type of the point: `i` is in the send list for `r` of the interface
`InteriorBorder -> All` (position 1 of the tuple) iff `mine` is `InteriorEntity` or
`BorderEntity`, and in its receive list iff `other` is one of the two; `i` is in the send list
of the interface `Overlap -> All` (position 3) iff `mine` is `OverlapEntity` and in its receive
list iff `other` is `OverlapEntity`; and `i` is in the send list and in the receive list of
the interface `All -> All` (position 4).  Every attribute map has increasing ranks. -/
theorem point_interface_categories (attrs : List (List (Int × PartitionType)))
    (types : List PartitionType)
    (hmaps : ∀ m ∈ attrs, m.Pairwise (fun a b => a.1 < b.1))
    (i r : Int) (other : PartitionType) (h0 : 0 ≤ i) (hentry : (r, other) ∈ vecAt attrs i) :
    (i ∈ sendList (point_interfaces attrs types).get1 r
        ↔ (vecAt types i = PartitionType.InteriorEntity
            ∨ vecAt types i = PartitionType.BorderEntity))
      ∧ (i ∈ receiveList (point_interfaces attrs types).get1 r
        ↔ (other = PartitionType.InteriorEntity ∨ other = PartitionType.BorderEntity))
      ∧ (i ∈ sendList (point_interfaces attrs types).get3 r
        ↔ vecAt types i = PartitionType.OverlapEntity)
      ∧ (i ∈ receiveList (point_interfaces attrs types).get3 r
        ↔ other = PartitionType.OverlapEntity)
      ∧ i ∈ sendList (point_interfaces attrs types).get4 r
      ∧ i ∈ receiveList (point_interfaces attrs types).get4 r := by
  obtain ⟨a1, b1⟩ := mem_interface_lists attrs types hmaps 1 (by omega) i r other h0 hentry
  obtain ⟨a3, b3⟩ := mem_interface_lists attrs types hmaps 3 (by omega) i r other h0 hentry
  obtain ⟨a4, b4⟩ := mem_interface_lists attrs types hmaps 4 (by omega) i r other h0 hentry
  refine ⟨?_, ?_, ?_, ?_, ?_, ?_⟩
  · rw [show (point_interfaces attrs types).get1 = (point_interfaces attrs types).get 1 from rfl,
      a1]
    simp [Converter.SourceTuple, Converter.DestinationTuple, Converter.InteriorBorder,
      Converter.Interior, Converter.Border, AllSet]
  · rw [show (point_interfaces attrs types).get1 = (point_interfaces attrs types).get 1 from rfl,
      b1]
    simp [Converter.SourceTuple, Converter.DestinationTuple, Converter.InteriorBorder,
      Converter.Interior, Converter.Border, AllSet]
  · rw [show (point_interfaces attrs types).get3 = (point_interfaces attrs types).get 3 from rfl,
      a3]
    simp [Converter.SourceTuple, Converter.DestinationTuple, Converter.Overlap, AllSet]
  · rw [show (point_interfaces attrs types).get3 = (point_interfaces attrs types).get 3 from rfl,
      b3]
    simp [Converter.SourceTuple, Converter.DestinationTuple, Converter.Overlap, AllSet]
  · rw [show (point_interfaces attrs types).get4 = (point_interfaces attrs types).get 4 from rfl,
      a4]
    rfl
  · rw [show (point_interfaces attrs types).get4 = (point_interfaces attrs types).get 4 from rfl,
      b4]
    rfl

/-- Witness of claim C16: three points, the second seen by the ranks 1 and 2; read at point 1
and rank 2. -/
theorem point_interface_categories_witness :
    ((1 : Int) ∈ sendList (point_interfaces
          [[(1, PartitionType.OverlapEntity)],
           [(1, PartitionType.InteriorEntity), (2, PartitionType.BorderEntity)], []]
          [PartitionType.FrontEntity, PartitionType.BorderEntity,
           PartitionType.InteriorEntity]).get1 2
        ↔ (vecAt [PartitionType.FrontEntity, PartitionType.BorderEntity,
              PartitionType.InteriorEntity] (1 : Int) = PartitionType.InteriorEntity
            ∨ vecAt [PartitionType.FrontEntity, PartitionType.BorderEntity,
              PartitionType.InteriorEntity] (1 : Int) = PartitionType.BorderEntity))
      ∧ ((1 : Int) ∈ receiveList (point_interfaces
          [[(1, PartitionType.OverlapEntity)],
           [(1, PartitionType.InteriorEntity), (2, PartitionType.BorderEntity)], []]
          [PartitionType.FrontEntity, PartitionType.BorderEntity,
           PartitionType.InteriorEntity]).get1 2
        ↔ (PartitionType.BorderEntity = PartitionType.InteriorEntity
            ∨ PartitionType.BorderEntity = PartitionType.BorderEntity))
      ∧ ((1 : Int) ∈ sendList (point_interfaces
          [[(1, PartitionType.OverlapEntity)],
           [(1, PartitionType.InteriorEntity), (2, PartitionType.BorderEntity)], []]
          [PartitionType.FrontEntity, PartitionType.BorderEntity,
           PartitionType.InteriorEntity]).get3 2
        ↔ vecAt [PartitionType.FrontEntity, PartitionType.BorderEntity,
              PartitionType.InteriorEntity] (1 : Int) = PartitionType.OverlapEntity)
      ∧ ((1 : Int) ∈ receiveList (point_interfaces
          [[(1, PartitionType.OverlapEntity)],
           [(1, PartitionType.InteriorEntity), (2, PartitionType.BorderEntity)], []]
          [PartitionType.FrontEntity, PartitionType.BorderEntity,
           PartitionType.InteriorEntity]).get3 2
        ↔ PartitionType.BorderEntity = PartitionType.OverlapEntity)
      ∧ (1 : Int) ∈ sendList (point_interfaces
          [[(1, PartitionType.OverlapEntity)],
           [(1, PartitionType.InteriorEntity), (2, PartitionType.BorderEntity)], []]
          [PartitionType.FrontEntity, PartitionType.BorderEntity,
           PartitionType.InteriorEntity]).get4 2
      ∧ (1 : Int) ∈ receiveList (point_interfaces
          [[(1, PartitionType.OverlapEntity)],
           [(1, PartitionType.InteriorEntity), (2, PartitionType.BorderEntity)], []]
          [PartitionType.FrontEntity, PartitionType.BorderEntity,
           PartitionType.InteriorEntity]).get4 2 :=
  point_interface_categories
    [[(1, PartitionType.OverlapEntity)],
     [(1, PartitionType.InteriorEntity), (2, PartitionType.BorderEntity)], []]
    [PartitionType.FrontEntity, PartitionType.BorderEntity, PartitionType.InteriorEntity]
    (by decide) 1 2 PartitionType.BorderEntity (by decide) (by decide)

/-- Claim C17 fails at a point of type `FrontEntity` that rank 1 holds as `OverlapEntity`:
both types are in `{OverlapEntity, FrontEntity}`, but the index is not in the send list of the
interface at position 2 of the tuple, and the send list differs from the receive list. -/
theorem overlap_front_symmetry_refuted :
    ¬ ((0 : Int) ∈ sendList
          (point_interfaces [[(1, PartitionType.OverlapEntity)]]
            [PartitionType.FrontEntity]).get2 1
        ↔ ((PartitionType.FrontEntity = PartitionType.OverlapEntity
              ∨ PartitionType.FrontEntity = PartitionType.FrontEntity)
            ∧ (PartitionType.OverlapEntity = PartitionType.OverlapEntity
              ∨ PartitionType.OverlapEntity = PartitionType.FrontEntity)))
      ∧ sendList
          (point_interfaces [[(1, PartitionType.OverlapEntity)]]
            [PartitionType.FrontEntity]).get2 1
        ≠ receiveList
          (point_interfaces [[(1, PartitionType.OverlapEntity)]]
            [PartitionType.FrontEntity]).get2 1 := by
  decide

/-- Claim C17 as amended.  The interface at position 2 of the tuple goes from `Overlap` to
`Overlap` or `Front`: for every local point index `i` and every entry `(r, other)` of its
attribute map, with `mine` the type of the point, `i` is in the send list for `r` iff `mine`
is `OverlapEntity` and `other` is `OverlapEntity` or `FrontEntity`, and in the receive list iff
`other` is `OverlapEntity` and `mine` is `OverlapEntity` or `FrontEntity`.  Every attribute map
has increasing ranks. -/
theorem overlap_to_overlap_front (attrs : List (List (Int × PartitionType)))
    (types : List PartitionType)
    (hmaps : ∀ m ∈ attrs, m.Pairwise (fun a b => a.1 < b.1))
    (i r : Int) (other : PartitionType) (h0 : 0 ≤ i) (hentry : (r, other) ∈ vecAt attrs i) :
    (i ∈ sendList (point_interfaces attrs types).get2 r
        ↔ (vecAt types i = PartitionType.OverlapEntity
            ∧ (other = PartitionType.OverlapEntity ∨ other = PartitionType.FrontEntity)))
      ∧ (i ∈ receiveList (point_interfaces attrs types).get2 r
        ↔ (other = PartitionType.OverlapEntity
            ∧ (vecAt types i = PartitionType.OverlapEntity
              ∨ vecAt types i = PartitionType.FrontEntity))) := by
  obtain ⟨a2, b2⟩ := mem_interface_lists attrs types hmaps 2 (by omega) i r other h0 hentry
  constructor
  · rw [show (point_interfaces attrs types).get2 = (point_interfaces attrs types).get 2 from rfl,
      a2]
    simp [Converter.SourceTuple, Converter.DestinationTuple, Converter.OverlapFront,
      Converter.Overlap, Converter.Front]
  · rw [show (point_interfaces attrs types).get2 = (point_interfaces attrs types).get 2 from rfl,
      b2]
    simp [Converter.SourceTuple, Converter.DestinationTuple, Converter.OverlapFront,
      Converter.Overlap, Converter.Front]

/-- Witness of the amended claim C17: a point of type `FrontEntity` that rank 1 holds as
`OverlapEntity`. -/
theorem overlap_to_overlap_front_witness :
    ((0 : Int) ∈ sendList
          (point_interfaces [[(1, PartitionType.OverlapEntity)]]
            [PartitionType.FrontEntity]).get2 1
        ↔ (vecAt [PartitionType.FrontEntity] (0 : Int) = PartitionType.OverlapEntity
            ∧ (PartitionType.OverlapEntity = PartitionType.OverlapEntity
              ∨ PartitionType.OverlapEntity = PartitionType.FrontEntity)))
      ∧ ((0 : Int) ∈ receiveList
          (point_interfaces [[(1, PartitionType.OverlapEntity)]]
            [PartitionType.FrontEntity]).get2 1
        ↔ (PartitionType.OverlapEntity = PartitionType.OverlapEntity
            ∧ (vecAt [PartitionType.FrontEntity] (0 : Int) = PartitionType.OverlapEntity
              ∨ vecAt [PartitionType.FrontEntity] (0 : Int) = PartitionType.FrontEntity))) :=
  overlap_to_overlap_front [[(1, PartitionType.OverlapEntity)]] [PartitionType.FrontEntity]
    (by decide) 0 1 PartitionType.OverlapEntity (by decide) (by decide)

/-- Claim C18.  The two passes of `createInterfaces` agree: for every attribute table, every
interface `k` of the five and every rank `r`, the rank has an entry in the size map iff it has
one in the interface map, and the send count and the receive count of the sizing pass are the
lengths of the send list and of the receive list that the fill pass produces; the capacity
reserved is the length of the list, so no list outgrows it. -/
theorem two_pass_consistent (attrs : List (List (Int × PartitionType)))
    (types : List PartitionType) (k : Nat) (hk : k < 5) (r : Int) :
    (r ∈ ((interfaceSizes attrs types).get k).map Prod.fst
        ↔ r ∈ ((point_interfaces attrs types).get k).map Prod.fst)
      ∧ ∀ ns nr : Nat, List.lookup r ((interfaceSizes attrs types).get k) = some (ns, nr) →
          ∃ s rcv : InterfaceInformation,
            List.lookup r ((point_interfaces attrs types).get k) = some (s, rcv)
            ∧ s.indices_.length = ns ∧ rcv.indices_.length = nr
            ∧ s.maxSize_ = ns ∧ rcv.maxSize_ = nr := by
  constructor
  · rw [← lookup_isSome_iff, ← lookup_isSome_iff, point_interfaces_isSome attrs types k hk]
  · intro ns nr hs
    have h1 := interfaceSizes_getD attrs types k hk r
    rw [hs] at h1
    simp only [Option.getD_some, Prod.mk.injEq] at h1
    have h2 := (point_interfaces_isSome attrs types k hk r).mpr (by rw [hs]; rfl)
    obtain ⟨x, hx⟩ := Option.isSome_iff_exists.mp h2
    have h3 := point_interfaces_getD attrs types k hk r
    rw [hx] at h3
    simp only [Option.getD_some] at h3
    refine ⟨x.1, x.2, hx, ?_, ?_, ?_, ?_⟩
    · rw [h3]; exact h1.1.symm
    · rw [h3]; exact h1.2.symm
    · rw [h3]; exact h1.1.symm
    · rw [h3]; exact h1.2.symm

/-- Witness of claim C18: three points, the second seen by the ranks 1 and 2; read at the
interface at position 4 and rank 1. -/
theorem two_pass_consistent_witness :
    ((1 : Int) ∈ ((interfaceSizes
          [[(1, PartitionType.OverlapEntity)],
           [(1, PartitionType.InteriorEntity), (2, PartitionType.BorderEntity)], []]
          [PartitionType.FrontEntity, PartitionType.BorderEntity,
           PartitionType.InteriorEntity]).get 4).map Prod.fst
        ↔ (1 : Int) ∈ ((point_interfaces
          [[(1, PartitionType.OverlapEntity)],
           [(1, PartitionType.InteriorEntity), (2, PartitionType.BorderEntity)], []]
          [PartitionType.FrontEntity, PartitionType.BorderEntity,
           PartitionType.InteriorEntity]).get 4).map Prod.fst)
      ∧ ∀ ns nr : Nat,
          List.lookup (1 : Int) ((interfaceSizes
            [[(1, PartitionType.OverlapEntity)],
             [(1, PartitionType.InteriorEntity), (2, PartitionType.BorderEntity)], []]
            [PartitionType.FrontEntity, PartitionType.BorderEntity,
             PartitionType.InteriorEntity]).get 4) = some (ns, nr) →
          ∃ s rcv : InterfaceInformation,
            List.lookup (1 : Int) ((point_interfaces
              [[(1, PartitionType.OverlapEntity)],
               [(1, PartitionType.InteriorEntity), (2, PartitionType.BorderEntity)], []]
              [PartitionType.FrontEntity, PartitionType.BorderEntity,
               PartitionType.InteriorEntity]).get 4) = some (s, rcv)
            ∧ s.indices_.length = ns ∧ rcv.indices_.length = nr
            ∧ s.maxSize_ = ns ∧ rcv.maxSize_ = nr :=
  two_pass_consistent
    [[(1, PartitionType.OverlapEntity)],
     [(1, PartitionType.InteriorEntity), (2, PartitionType.BorderEntity)], []]
    [PartitionType.FrontEntity, PartitionType.BorderEntity, PartitionType.InteriorEntity]
    4 (by decide) 1

/-- Claim C19.  Every send list and every receive list that `createInterfaces` produces, for
each of the five interfaces and every rank, is strictly increasing: no index occurs twice and
the indices are in ascending order.  Every attribute map has increasing ranks. -/
theorem interface_lists_increasing (attrs : List (List (Int × PartitionType)))
    (types : List PartitionType)
    (hmaps : ∀ m ∈ attrs, m.Pairwise (fun a b => a.1 < b.1))
    (k : Nat) (hk : k < 5) (r : Int) :
    (sendList ((point_interfaces attrs types).get k) r).Pairwise (fun a b => a < b)
      ∧ (receiveList ((point_interfaces attrs types).get k) r).Pairwise (fun a b => a < b) := by
  obtain ⟨e1, e2⟩ := sendList_point_interfaces attrs types k hk r
  rw [e1, e2]
  exact sentIndices_increasing _ _ r _ (attributeCalls_lex types attrs hmaps 0)

/-- Witness of claim C19: three points, the second seen by the ranks 1 and 2; read at the
interface at position 4 and rank 1. -/
theorem interface_lists_increasing_witness :
    (sendList ((point_interfaces
          [[(1, PartitionType.OverlapEntity)],
           [(1, PartitionType.InteriorEntity), (2, PartitionType.BorderEntity)], []]
          [PartitionType.FrontEntity, PartitionType.BorderEntity,
           PartitionType.InteriorEntity]).get 4) 1).Pairwise (fun a b => a < b)
      ∧ (receiveList ((point_interfaces
          [[(1, PartitionType.OverlapEntity)],
           [(1, PartitionType.InteriorEntity), (2, PartitionType.BorderEntity)], []]
          [PartitionType.FrontEntity, PartitionType.BorderEntity,
           PartitionType.InteriorEntity]).get 4) 1).Pairwise (fun a b => a < b) :=
  interface_lists_increasing
    [[(1, PartitionType.OverlapEntity)],
     [(1, PartitionType.InteriorEntity), (2, PartitionType.BorderEntity)], []]
    [PartitionType.FrontEntity, PartitionType.BorderEntity, PartitionType.InteriorEntity]
    (by decide) 4 (by decide) 1

/-- The point interfaces of the example with three points, evaluated at the interface at
position 4. -/
theorem example_point_interfaces_all_all :
    (point_interfaces
        [[(1, PartitionType.OverlapEntity)],
         [(1, PartitionType.InteriorEntity), (2, PartitionType.BorderEntity)], []]
        [PartitionType.FrontEntity, PartitionType.BorderEntity,
         PartitionType.InteriorEntity]).get4
      = [(1, ⟨[0, 1], 2⟩, ⟨[0, 1], 2⟩), (2, ⟨[1], 1⟩, ⟨[1], 1⟩)] := by
  decide

/-! ## Exchange of the attributes -/

theorem lookup_mapInsert {V : Type} (k : Int) (kv : Int × V) (m : List (Int × V)) :
    List.lookup k (mapInsert kv m)
      = (List.lookup k m).orElse (fun _ => if k = kv.1 then some kv.2 else none) := by
  unfold mapInsert
  by_cases hin : kv.1 ∈ m.map Prod.fst
  · rw [if_pos hin]
    cases hl : List.lookup k m with
    | some v => rfl
    | none =>
      have hk : k ≠ kv.1 := by
        intro hk
        subst hk
        have := (lookup_isSome_iff kv.1 m).mpr hin
        rw [hl] at this
        exact absurd this (by simp)
      simp [hk]
  · rw [if_neg hin, lookup_mapInsertSorted k kv.1 kv.2 m hin]
    by_cases hk : k = kv.1
    · subst hk
      rw [lookup_eq_none_of_not_mem _ m hin]
      simp
    · simp only [hk, if_false]
      cases List.lookup k m <;> rfl

theorem mapInsert_increasing {V : Type} (kv : Int × V) (m : List (Int × V))
    (hm : m.Pairwise (fun a b => a.1 < b.1)) :
    (mapInsert kv m).Pairwise (fun a b => a.1 < b.1) := by
  unfold mapInsert
  by_cases hin : kv.1 ∈ m.map Prod.fst
  · rw [if_pos hin]
    exact hm
  · rw [if_neg hin]
    induction m with
    | nil => simp [mapInsertSorted]
    | cons x m ih =>
      simp only [List.map_cons, List.mem_cons, not_or] at hin
      rw [List.pairwise_cons] at hm
      unfold mapInsertSorted
      by_cases hlt : kv.1 < x.1
      · rw [if_pos hlt]
        refine List.pairwise_cons.mpr ⟨?_, List.pairwise_cons.mpr hm⟩
        intro b hb
        rcases List.mem_cons.mp hb with hb | hb
        · rw [hb]; exact hlt
        · exact lt_trans hlt (hm.1 b hb)
      · rw [if_neg hlt]
        refine List.pairwise_cons.mpr ⟨?_, ih hm.2 hin.2⟩
        intro b hb
        have hperm := keys_mapInsertSorted kv.1 kv.2 m
        have hb1 : b.1 ∈ (mapInsertSorted kv.1 kv.2 m).map Prod.fst :=
          List.mem_map_of_mem Prod.fst hb
        rcases List.mem_cons.mp (hperm.mem_iff.mp hb1) with hb2 | hb2
        · rw [hb2]
          have hne : kv.1 ≠ x.1 := hin.1
          omega
        · obtain ⟨c, hc, hc1⟩ := List.mem_map.mp hb2
          rw [← hc1]
          exact hm.1 c hc

theorem gather_eq {E : Type} (h : AttributeDataHandle E) (row : List E) :
    ∀ buffer : List (Int × PartitionType),
      row.foldl (fun b f => b ++ [(h.rank_, h.getPartitionType f)]) buffer
        = buffer ++ row.map (fun f => (h.rank_, h.getPartitionType f)) := by
  induction row with
  | nil => intro buffer; simp
  | cons f row ih => intro buffer; rw [List.foldl_cons, ih]; simp

theorem scatterLoop_eq {E : Type} (h : AttributeDataHandle E)
    (rest : List (Int × PartitionType)) (row : List E) :
    ∀ (items : List (Int × PartitionType)) (s : Nat)
      (vals_ : List (List (Int × PartitionType))), items.length = row.length →
      h.scatterLoop row s vals_ (items ++ rest)
        = some (insertTuples h vals_ (row.zip items), rest) := by
  induction row with
  | nil =>
    intro items s vals_ hlen
    have : items = [] := List.length_eq_zero.mp hlen
    subst this
    rfl
  | cons f row ih =>
    intro items s vals_ hlen
    cases items with
    | nil => simp at hlen
    | cons t items =>
      simp only [List.length_cons, Nat.add_right_cancel_iff] at hlen
      have hstep : h.scatterLoop (f :: row) s vals_ (t :: items ++ rest)
          = h.scatterLoop row ((s + 2 ^ 64 - 1) % 2 ^ 64)
              (vecSet vals_ (h.getIndex f) (mapInsert t (vecAt vals_ (h.getIndex f))))
              (items ++ rest) := rfl
      rw [hstep, ih items _ _ hlen]
      rfl

theorem insertTuples_length {E : Type} (h : AttributeDataHandle E)
    (pairs : List (E × (Int × PartitionType))) :
    ∀ vals_ : List (List (Int × PartitionType)),
      (insertTuples h vals_ pairs).length = vals_.length := by
  induction pairs with
  | nil => intro vals_; rfl
  | cons p pairs ih =>
    intro vals_
    unfold insertTuples at ih ⊢
    rw [List.foldl_cons, ih, vecSet_length]

theorem lookup_insertTuples {E : Type} (h : AttributeDataHandle E)
    (pairs : List (E × (Int × PartitionType))) (e r : Int) (h0 : 0 ≤ e) :
    ∀ vals_ : List (List (Int × PartitionType)), e < (vals_.length : Int) →
      List.lookup r (vecAt (insertTuples h vals_ pairs) e)
        = (List.lookup r (vecAt vals_ e)).orElse
            (fun _ => List.lookup r (receivedFor h pairs e)) := by
  induction pairs with
  | nil =>
    intro vals_ _
    simp only [insertTuples, receivedFor, List.foldl_nil, List.filter_nil, List.map_nil,
      List.lookup_nil]
    cases List.lookup r (vecAt vals_ e) <;> rfl
  | cons p pairs ih =>
    intro vals_ h1
    unfold insertTuples at ih ⊢
    rw [List.foldl_cons, ih _ (by rw [vecSet_length]; exact h1), vecAt_vecSet]
    unfold receivedFor
    by_cases hp : h.getIndex p.1 = e
    · have hc : h.getIndex p.1 = e ∧ 0 ≤ h.getIndex p.1
          ∧ h.getIndex p.1 < (vals_.length : Int) := ⟨hp, by omega, by omega⟩
      rw [if_pos hc, lookup_mapInsert, hp]
      simp only [List.filter_cons, hp, decide_True, if_true, List.map_cons]
      rw [lookup_cons_eq]
      cases List.lookup r (vecAt vals_ e) with
      | some v => rfl
      | none =>
        by_cases hr : r = p.2.1
        · simp [hr]
        · simp [hr]
    · have hc : ¬ (h.getIndex p.1 = e ∧ 0 ≤ h.getIndex p.1
          ∧ h.getIndex p.1 < (vals_.length : Int)) := fun hh => hp hh.1
      rw [if_neg hc]
      simp only [List.filter_cons, hp, decide_False, Bool.false_eq_true, if_false]

theorem insertTuples_increasing {E : Type} (h : AttributeDataHandle E)
    (pairs : List (E × (Int × PartitionType))) :
    ∀ vals_ : List (List (Int × PartitionType)),
      (∀ m ∈ vals_, m.Pairwise (fun a b => a.1 < b.1)) →
      ∀ m ∈ insertTuples h vals_ pairs, m.Pairwise (fun a b => a.1 < b.1) := by
  induction pairs with
  | nil => intro vals_ hv; exact hv
  | cons p pairs ih =>
    intro vals_ hv
    unfold insertTuples at ih ⊢
    rw [List.foldl_cons]
    apply ih
    intro m hm
    unfold vecSet at hm
    by_cases hneg : h.getIndex p.1 < 0
    · rw [if_pos hneg] at hm
      exact hv m hm
    · rw [if_neg hneg] at hm
      rcases List.mem_or_eq_of_mem_set hm with hm | hm
      · exact hv m hm
      · rw [hm]
        apply mapInsert_increasing
        rcases vecAt_mem_or_default vals_ (h.getIndex p.1) with hx | hx
        · exact hv _ hx
        · rw [hx]; exact List.Pairwise.nil

theorem rows_of_extractCellTables (view_data : CpGridData G1 G3 Tag PointType)
    (fi pi : List Int) (ixs : List IndexPair) :
    ∀ row ∈ (extractCellTables view_data fi pi ixs).2, row.length = 8 := by
  rw [extractCellTables_eq]
  simp only
  generalize hinit : List.replicate ixs.length (List.replicate 8 (0 : Int)) = init
  have hi : ∀ row ∈ init, row.length = 8 := by
    intro row hrow
    rw [← hinit] at hrow
    rw [(List.mem_replicate.mp hrow).2]
    rfl
  clear hinit
  induction ixs generalizing init with
  | nil => exact hi
  | cons e ixs ih =>
    rw [List.foldl_cons]
    apply ih
    intro row hrow
    unfold vecSet at hrow
    by_cases hneg : e.local_ < 0
    · rw [if_pos hneg] at hrow
      exact hi row hrow
    · rw [if_neg hneg] at hrow
      rcases List.mem_or_eq_of_mem_set hrow with hrow | hrow
      · exact hi row hrow
      · rw [hrow]
        simp [newCellToPointRow]

theorem point_handle_size [Inhabited G1] [Inhabited G3] [Inhabited Tag] [Inhabited PointType]
    (view_data : CpGridData G1 G3 Tag PointType) (cell_part : List Int)
    (overlap : List (List Int)) (my_rank : Int) (idCell idFace idPoint : Int → Int)
    (rank : Int) (getPointPartitionType : Int → PartitionType) (c : Nat)
    (hc : c < (distributeGlobalGrid view_data cell_part overlap my_rank
      idCell idFace idPoint).cell_to_point_.length) :
    (point_handle rank getPointPartitionType
      (distributeGlobalGrid view_data cell_part overlap my_rank idCell idFace idPoint)).size c
      = 8 := by
  unfold AttributeDataHandle.size point_handle
  simp only [Int.ofNat_eq_coe]
  rw [vecAt_natCast, List.getD_eq_getElem?_getD, List.getElem?_eq_getElem hc]
  simp only [Option.getD_some]
  apply rows_of_extractCellTables view_data
    (face_indicator view_data (cell_indexset cell_part overlap my_rank))
    (point_indicator view_data (cell_indexset cell_part overlap my_rank))
    (cell_indexset cell_part overlap my_rank)
  exact List.getElem_mem hc

theorem key_of_insertTuples {E : Type} (h : AttributeDataHandle E)
    (pairs : List (E × (Int × PartitionType))) (vals_ : List (List (Int × PartitionType)))
    (p : E × (Int × PartitionType)) (hp : p ∈ pairs) (h0 : 0 ≤ h.getIndex p.1)
    (h1 : h.getIndex p.1 < (vals_.length : Int)) :
    p.2.1 ∈ (vecAt (insertTuples h vals_ pairs) (h.getIndex p.1)).map Prod.fst := by
  rw [← lookup_isSome_iff, lookup_insertTuples h pairs _ _ h0 vals_ h1]
  cases List.lookup p.2.1 (vecAt vals_ (h.getIndex p.1)) with
  | some v => rfl
  | none =>
    simp only [Option.orElse]
    rw [lookup_isSome_iff]
    unfold receivedFor
    refine List.mem_map_of_mem Prod.fst (List.mem_map_of_mem Prod.snd ?_)
    exact List.mem_filter.mpr ⟨hp, by simp⟩

/-- Claim C20.  For a handle `h` and a cell `i`: `size i` is the length of row `i` of the
table `c2e_`; `gather` appends to the buffer exactly `size i` tuples, the `j`-th being the rank
of the handle with the partition type of the `j`-th entity of the row; `scatter`, on a buffer
that starts with `size i` tuples `items`, takes exactly these from the buffer whatever `s` is,
and inserts the `j`-th one into the map of the `j`-th entity of the row: afterwards the rank of
that tuple is a key of the map of that entity, and the map of every entity holds for each rank
what it held before, or else the first tuple with that rank read for the entity.  The point
handle of the distributed grid declares `fixedsize()` and has `size c = 8` for every cell
`c`. -/
theorem attribute_handle_gather_scatter {E : Type} (h : AttributeDataHandle E) (i : Nat)
    (buffer : List (Int × PartitionType)) (vals_ : List (List (Int × PartitionType)))
    (items rest : List (Int × PartitionType)) (s : Nat)
    [Inhabited G1] [Inhabited G3] [Inhabited Tag] [Inhabited PointType]
    (view_data : CpGridData G1 G3 Tag PointType) (cell_part : List Int)
    (overlap : List (List Int)) (my_rank : Int) (idCell idFace idPoint : Int → Int)
    (rank : Int) (getPointPartitionType : Int → PartitionType) (c : Nat)
    (hitems : items.length = h.size i)
    (hc : c < (distributeGlobalGrid view_data cell_part overlap my_rank
      idCell idFace idPoint).cell_to_point_.length) :
    h.size i = (vecAt h.c2e_ (Int.ofNat i)).length
      ∧ h.gather buffer i
          = buffer ++ (vecAt h.c2e_ (Int.ofNat i)).map
              (fun f => (h.rank_, h.getPartitionType f))
      ∧ (h.gather buffer i).length = buffer.length + h.size i
      ∧ h.scatter vals_ (items ++ rest) i s
          = some (insertTuples h vals_ ((vecAt h.c2e_ (Int.ofNat i)).zip items), rest)
      ∧ (∀ p ∈ (vecAt h.c2e_ (Int.ofNat i)).zip items,
          0 ≤ h.getIndex p.1 → h.getIndex p.1 < (vals_.length : Int) →
          p.2.1 ∈ (vecAt (insertTuples h vals_ ((vecAt h.c2e_ (Int.ofNat i)).zip items))
            (h.getIndex p.1)).map Prod.fst)
      ∧ (∀ e r : Int, 0 ≤ e → e < (vals_.length : Int) →
          List.lookup r
              (vecAt (insertTuples h vals_ ((vecAt h.c2e_ (Int.ofNat i)).zip items)) e)
            = (List.lookup r (vecAt vals_ e)).orElse
                (fun _ => List.lookup r
                  (receivedFor h ((vecAt h.c2e_ (Int.ofNat i)).zip items) e)))
      ∧ (point_handle rank getPointPartitionType
          (distributeGlobalGrid view_data cell_part overlap my_rank
            idCell idFace idPoint)).fixedsize = true
      ∧ (point_handle rank getPointPartitionType
          (distributeGlobalGrid view_data cell_part overlap my_rank
            idCell idFace idPoint)).size c = 8 := by
  have hg : h.gather buffer i
      = buffer ++ (vecAt h.c2e_ (Int.ofNat i)).map
          (fun f => (h.rank_, h.getPartitionType f)) := gather_eq h _ buffer
  refine ⟨rfl, hg, ?_, ?_, ?_, ?_, rfl, ?_⟩
  · rw [hg, List.length_append, List.length_map]
    rfl
  · exact scatterLoop_eq h rest _ items s vals_ hitems
  · intro p hp h0 h1
    exact key_of_insertTuples h _ vals_ p hp h0 h1
  · intro e r h0 h1
    exact lookup_insertTuples h _ e r h0 vals_ h1
  · exact point_handle_size view_data cell_part overlap my_rank idCell idFace idPoint rank
      getPointPartitionType c hc

/-- Witness of claim C20: the example handle at its cell 1, with maps for three points of
which point 1 holds an entry of rank 0 already; the point handle is that of rank 1 in the
grid of two cells, at cell 0. -/
theorem attribute_handle_gather_scatter_witness :
    examplePointHandle.size 1 = (vecAt examplePointHandle.c2e_ (Int.ofNat 1)).length
      ∧ examplePointHandle.gather [] 1
          = [] ++ (vecAt examplePointHandle.c2e_ (Int.ofNat 1)).map
              (fun f => (examplePointHandle.rank_, examplePointHandle.getPartitionType f))
      ∧ (examplePointHandle.gather [] 1).length
          = ([] : List (Int × PartitionType)).length + examplePointHandle.size 1
      ∧ examplePointHandle.scatter [[], [(0, PartitionType.BorderEntity)], []]
            ([(0, PartitionType.InteriorEntity), (0, PartitionType.OverlapEntity)]
              ++ [(0, PartitionType.FrontEntity)]) 1 0
          = some (insertTuples examplePointHandle [[], [(0, PartitionType.BorderEntity)], []]
              ((vecAt examplePointHandle.c2e_ (Int.ofNat 1)).zip
                [(0, PartitionType.InteriorEntity), (0, PartitionType.OverlapEntity)]),
              [(0, PartitionType.FrontEntity)])
      ∧ (∀ p ∈ (vecAt examplePointHandle.c2e_ (Int.ofNat 1)).zip
            [(0, PartitionType.InteriorEntity), (0, PartitionType.OverlapEntity)],
          0 ≤ examplePointHandle.getIndex p.1 →
          examplePointHandle.getIndex p.1
            < (([[], [(0, PartitionType.BorderEntity)], []] :
                List (List (Int × PartitionType))).length : Int) →
          p.2.1 ∈ (vecAt (insertTuples examplePointHandle
              [[], [(0, PartitionType.BorderEntity)], []]
              ((vecAt examplePointHandle.c2e_ (Int.ofNat 1)).zip
                [(0, PartitionType.InteriorEntity), (0, PartitionType.OverlapEntity)]))
            (examplePointHandle.getIndex p.1)).map Prod.fst)
      ∧ (∀ e r : Int, 0 ≤ e →
          e < (([[], [(0, PartitionType.BorderEntity)], []] :
                List (List (Int × PartitionType))).length : Int) →
          List.lookup r
              (vecAt (insertTuples examplePointHandle
                [[], [(0, PartitionType.BorderEntity)], []]
                ((vecAt examplePointHandle.c2e_ (Int.ofNat 1)).zip
                  [(0, PartitionType.InteriorEntity), (0, PartitionType.OverlapEntity)])) e)
            = (List.lookup r
                (vecAt ([[], [(0, PartitionType.BorderEntity)], []] :
                  List (List (Int × PartitionType))) e)).orElse
                (fun _ => List.lookup r
                  (receivedFor examplePointHandle
                    ((vecAt examplePointHandle.c2e_ (Int.ofNat 1)).zip
                      [(0, PartitionType.InteriorEntity), (0, PartitionType.OverlapEntity)])
                    e)))
      ∧ (point_handle 1 (fun _ => PartitionType.BorderEntity)
          (distributeGlobalGrid twoCellGrid [0, 1] [[], []] 1 id id id)).fixedsize = true
      ∧ (point_handle 1 (fun _ => PartitionType.BorderEntity)
          (distributeGlobalGrid twoCellGrid [0, 1] [[], []] 1 id id id)).size 0 = 8 :=
  attribute_handle_gather_scatter examplePointHandle 1 []
    [[], [(0, PartitionType.BorderEntity)], []]
    [(0, PartitionType.InteriorEntity), (0, PartitionType.OverlapEntity)]
    [(0, PartitionType.FrontEntity)] 0 twoCellGrid [0, 1] [[], []] 1 id id id 1
    (fun _ => PartitionType.BorderEntity) 0 (by decide) (by decide)

/-- The example handle evaluated at its cell 1: the two tuples written, and the maps after the
two tuples of rank 0 are read; the entry that point 1 held for rank 0 is kept. -/
theorem examplePointHandle_evaluated :
    examplePointHandle.gather [] 1
        = [(1, PartitionType.BorderEntity), (1, PartitionType.OverlapEntity)]
      ∧ examplePointHandle.scatter [[], [(0, PartitionType.BorderEntity)], []]
            [(0, PartitionType.InteriorEntity), (0, PartitionType.OverlapEntity),
             (0, PartitionType.FrontEntity)] 1 0
          = some ([[], [(0, PartitionType.BorderEntity)], [(0, PartitionType.OverlapEntity)]],
              [(0, PartitionType.FrontEntity)]) := by
  decide

/-! ## Size of the cell index set and the table `global2local` -/

theorem entriesFrom_length (p : Int) (os : List (List Int)) :
    ∀ (cs : List Int) (i c : Int),
      (entriesFrom p i c os cs).length
        = (cs.zip os).countP (fun x => decide (x.1 = p))
          + (cs.zip os).countP (fun x => decide (x.1 ≠ p) && decide (p ∈ x.2)) := by
  induction os with
  | nil => intro cs i c; cases cs <;> simp [entriesFrom]
  | cons ov os ih =>
    intro cs i c
    cases cs with
    | nil => simp [entriesFrom]
    | cons rank cs =>
      simp only [entriesFrom, List.zip_cons_cons, List.countP_cons]
      by_cases h1 : rank = p
      · have hh : heldAs p ov rank = some AttributeSet.owner := (heldAs_owner p ov rank).mpr h1
        rw [hh]
        simp only [List.length_cons, ih cs (i + 1) (c + 1)]
        simp [h1]
        omega
      · by_cases h2 : p ∈ ov
        · have hh : heldAs p ov rank = some AttributeSet.copy :=
            (heldAs_copy p ov rank).mpr ⟨h1, h2⟩
          rw [hh]
          simp only [List.length_cons, ih cs (i + 1) (c + 1)]
          simp [h1, h2]
          omega
        · have hh : heldAs p ov rank = none := by
            unfold heldAs
            rw [if_neg h1, if_neg h2]
          rw [hh]
          simp only [ih cs (i + 1) c]
          simp [h1, h2]

theorem countP_fst_zip (p : Int) (cs : List Int) :
    ∀ os : List (List Int), os.length = cs.length →
      (cs.zip os).countP (fun x => decide (x.1 = p)) = cs.countP (fun r => decide (r = p)) := by
  induction cs with
  | nil => intro os _; simp
  | cons r cs ih =>
    intro os hlen
    cases os with
    | nil => simp at hlen
    | cons ov os =>
      simp only [List.length_cons, Nat.add_right_cancel_iff] at hlen
      simp only [List.zip_cons_cons, List.countP_cons, ih os hlen]

theorem g2lFrom_length (p : Int) (os : List (List Int)) :
    ∀ (cs : List Int) (c : Int), os.length = cs.length →
      (g2lFrom p c os cs).length = cs.length := by
  induction os with
  | nil =>
    intro cs c hlen
    cases cs with
    | nil => rfl
    | cons r cs => simp at hlen
  | cons ov os ih =>
    intro cs c hlen
    cases cs with
    | nil => simp at hlen
    | cons rank cs =>
      simp only [List.length_cons, Nat.add_right_cancel_iff] at hlen
      simp only [g2lFrom]
      cases heldAs p ov rank with
      | none => simp [ih cs c hlen]
      | some a => simp [ih cs (c + 1) hlen]

theorem g2lFrom_absent (p : Int) (os : List (List Int)) :
    ∀ (cs : List Int) (c : Int) (k : Nat) (ov : List Int) (r : Int),
      os[k]? = some ov → cs[k]? = some r → heldAs p ov r = none →
      (g2lFrom p c os cs)[k]? = some INT_MAX := by
  induction os with
  | nil => intro cs c k ov r h; simp at h
  | cons ov0 os ih =>
    intro cs c k ov r h1 h2 h3
    cases cs with
    | nil => simp at h2
    | cons rank cs =>
      simp only [g2lFrom]
      cases k with
      | zero =>
        simp only [List.getElem?_cons_zero, Option.some.injEq] at h1 h2
        subst h1; subst h2
        rw [h3]
        simp
      | succ k =>
        simp only [List.getElem?_cons_succ] at h1 h2
        cases heldAs p ov0 rank with
        | none => simpa using ih cs c k ov r h1 h2 h3
        | some a => simpa using ih cs (c + 1) k ov r h1 h2 h3

theorem global2local_absent (cell_part : List Int) (overlap : List (List Int)) (p g : Int)
    (h0 : 0 ≤ g) (hc : g < (cell_part.length : Int)) (ho : g < (overlap.length : Int))
    (habs : ∀ e ∈ cell_indexset cell_part overlap p, e.global_ ≠ g) :
    vecAt (cell_counter cell_part overlap p).global2local g = INT_MAX := by
  have hnone : heldAs p (vecAt overlap g) (vecAt cell_part g) = none := by
    cases hh : heldAs p (vecAt overlap g) (vecAt cell_part g) with
    | none => rfl
    | some a =>
      obtain ⟨e, he, hg, _⟩ := cell_indexset_has cell_part overlap p g a h0 hc ho hh
      exact absurd hg (habs e he)
  obtain ⟨ov, hov⟩ := getElem?_of_range overlap h0 ho
  obtain ⟨r, hr⟩ := getElem?_of_range cell_part h0 hc
  have hg : g = ((g.toNat : Nat) : Int) := by omega
  have e1 : vecAt overlap g = ov := by rw [hg]; exact vecAt_of_getElem? hov
  have e2 : vecAt cell_part g = r := by rw [hg]; exact vecAt_of_getElem? hr
  rw [e1, e2] at hnone
  rw [global2local_eq, hg]
  exact vecAt_of_getElem? (g2lFrom_absent p overlap cell_part 0 g.toNat ov r hov hr hnone)

theorem cell_indexset_globals_nodup (cell_part : List Int) (overlap : List (List Int)) (p : Int) :
    ((cell_indexset cell_part overlap p).map IndexPair.global_).Nodup := by
  rw [List.Nodup, List.pairwise_map]
  exact (cell_indexset_global_ne cell_part overlap p)

/-! ## Claims on the size of the index set, on depth 0 and on `global2local` -/

/-- Claim C22.  With an overlap map of depth 0, in which the set of every cell is empty, the
cell index set that rank `p` builds holds every entry with the attribute `owner`, none with
`copy`; a global cell is in it exactly if `cell_part` assigns it to `p`; and the index sets of
two different ranks have no global cell in common. -/
theorem overlap_depth_zero (cell_part : List Int) (overlap : List (List Int))
    (hlen : overlap.length = cell_part.length) (hempty : ∀ ov ∈ overlap, ov = []) :
    (∀ p : Int, ∀ e ∈ cell_indexset cell_part overlap p,
        e.attribute_ = AttributeSet.owner ∧ e.attribute_ ≠ AttributeSet.copy
        ∧ 0 ≤ e.global_ ∧ e.global_ < (cell_part.length : Int)
        ∧ vecAt cell_part e.global_ = p)
      ∧ (∀ p g : Int, 0 ≤ g → g < (cell_part.length : Int) →
          ((∃ e ∈ cell_indexset cell_part overlap p, e.global_ = g) ↔ vecAt cell_part g = p))
      ∧ (∀ p q : Int, p ≠ q → ∀ e ∈ cell_indexset cell_part overlap p,
          ∀ e2 ∈ cell_indexset cell_part overlap q, e.global_ ≠ e2.global_) := by
  have hov : ∀ g : Int, vecAt overlap g = [] := by
    intro g
    rcases vecAt_mem_or_default overlap g with h | h
    · exact hempty _ h
    · exact h
  have hentry : ∀ p : Int, ∀ e ∈ cell_indexset cell_part overlap p,
      e.attribute_ = AttributeSet.owner ∧ 0 ≤ e.global_ ∧ e.global_ < (cell_part.length : Int)
        ∧ vecAt cell_part e.global_ = p := by
    intro p e he
    obtain ⟨h0, h1, _, h3⟩ := cell_indexset_entry cell_part overlap p e he
    rw [hov] at h3
    unfold heldAs at h3
    by_cases hr : vecAt cell_part e.global_ = p
    · rw [if_pos hr] at h3
      exact ⟨(Option.some.inj h3).symm, h0, h1, hr⟩
    · rw [if_neg hr] at h3
      simp at h3
  refine ⟨?_, ?_, ?_⟩
  · intro p e he
    obtain ⟨h1, h2, h3, h4⟩ := hentry p e he
    exact ⟨h1, by rw [h1]; decide, h2, h3, h4⟩
  · intro p g h0 h1
    constructor
    · rintro ⟨e, he, hg⟩
      rw [← hg]
      exact (hentry p e he).2.2.2
    · intro hp
      have hh : heldAs p (vecAt overlap g) (vecAt cell_part g) = some AttributeSet.owner :=
        (heldAs_owner p _ _).mpr hp
      obtain ⟨e, he, hg, _⟩ := cell_indexset_has cell_part overlap p g _ h0 h1
        (by rw [hlen]; exact h1) hh
      exact ⟨e, he, hg⟩
  · intro p q hpq e he e2 he2 hg
    have h1 := (hentry p e he).2.2.2
    have h2 := (hentry q e2 he2).2.2.2
    rw [hg] at h1
    exact hpq (h1.symm.trans h2)

/-- Witness of claim C22: three cells on two ranks, no overlap. -/
theorem overlap_depth_zero_witness :
    (∀ p : Int, ∀ e ∈ cell_indexset [0, 1, 0] [[], [], []] p,
        e.attribute_ = AttributeSet.owner ∧ e.attribute_ ≠ AttributeSet.copy
        ∧ 0 ≤ e.global_ ∧ e.global_ < (([0, 1, 0] : List Int).length : Int)
        ∧ vecAt [0, 1, 0] e.global_ = p)
      ∧ (∀ p g : Int, 0 ≤ g → g < (([0, 1, 0] : List Int).length : Int) →
          ((∃ e ∈ cell_indexset [0, 1, 0] [[], [], []] p, e.global_ = g)
            ↔ vecAt [0, 1, 0] g = p))
      ∧ (∀ p q : Int, p ≠ q → ∀ e ∈ cell_indexset [0, 1, 0] [[], [], []] p,
          ∀ e2 ∈ cell_indexset [0, 1, 0] [[], [], []] q, e.global_ ≠ e2.global_) :=
  overlap_depth_zero [0, 1, 0] [[], [], []] (by decide) (by decide)

/-- Claim C23.  The cell index set of rank `p` has as many entries as there are cells that
`cell_part` assigns to `p` plus cells of another rank whose overlap set holds `p` (the cells
are paired with their overlap sets by position), and no global index occurs in it twice. -/
theorem cell_indexset_size (cell_part : List Int) (overlap : List (List Int)) (p : Int)
    (hlen : overlap.length = cell_part.length) :
    (cell_indexset cell_part overlap p).length
        = cell_part.countP (fun r => decide (r = p))
          + (cell_part.zip overlap).countP (fun x => decide (x.1 ≠ p) && decide (p ∈ x.2))
      ∧ ((cell_indexset cell_part overlap p).map IndexPair.global_).Nodup
      ∧ ((cell_indexset cell_part overlap p).map IndexPair.global_).Pairwise
          (fun a b => a < b) := by
  refine ⟨?_, cell_indexset_globals_nodup cell_part overlap p, ?_⟩
  · rw [cell_indexset_eq, entriesFrom_length, countP_fst_zip p cell_part overlap hlen]
  · rw [List.pairwise_map]
    exact (cell_indexset_pairwise cell_part overlap p).imp (fun h => h.1)

/-- Witness of claim C23: three cells, rank 0 owns two of them and holds the third as a copy. -/
theorem cell_indexset_size_witness :
    (cell_indexset [0, 1, 0] [[1], [0], []] 0).length
        = ([0, 1, 0] : List Int).countP (fun r => decide (r = (0 : Int)))
          + (([0, 1, 0] : List Int).zip [[1], [0], []]).countP
              (fun x => decide (x.1 ≠ (0 : Int)) && decide ((0 : Int) ∈ x.2))
      ∧ ((cell_indexset [0, 1, 0] [[1], [0], []] 0).map IndexPair.global_).Nodup
      ∧ ((cell_indexset [0, 1, 0] [[1], [0], []] 0).map IndexPair.global_).Pairwise
          (fun a b => a < b) :=
  cell_indexset_size [0, 1, 0] [[1], [0], []] 0 (by decide)

/-- Claim C24.  After the build loop the vector `global2local` has one entry per global cell;
the entry of a cell that was added to the index set is the local index given to it, which is
not negative and below `INT_MAX`; the entry of a cell that was not added is `INT_MAX`.  The
number of cells fits an `int`. -/
theorem global2local_table (cell_part : List Int) (overlap : List (List Int)) (p : Int)
    (hlen : overlap.length = cell_part.length)
    (hb : (cell_part.length : Int) ≤ INT_MAX) :
    (cell_counter cell_part overlap p).global2local.length = cell_part.length
      ∧ (∀ e ∈ cell_indexset cell_part overlap p,
          vecAt (cell_counter cell_part overlap p).global2local e.global_ = e.local_
          ∧ 0 ≤ e.local_ ∧ e.local_ < INT_MAX ∧ e.local_ ≠ INT_MAX)
      ∧ (∀ g : Int, 0 ≤ g → g < (cell_part.length : Int) →
          (∀ e ∈ cell_indexset cell_part overlap p, e.global_ ≠ g) →
          vecAt (cell_counter cell_part overlap p).global2local g = INT_MAX) := by
  refine ⟨?_, ?_, ?_⟩
  · rw [global2local_eq]
    exact g2lFrom_length p overlap cell_part 0 hlen
  · intro e he
    obtain ⟨h0, h1, _⟩ := cell_indexset_at cell_part overlap p e he
    have h2 : ((cell_indexset cell_part overlap p).length : Int) ≤ (cell_part.length : Int) := by
      exact_mod_cast cell_indexset_length_le cell_part overlap p
    have h3 : e.local_ < INT_MAX := lt_of_lt_of_le h1 (le_trans h2 hb)
    exact ⟨global2local_entry cell_part overlap p e he, h0, h3, ne_of_lt h3⟩
  · intro g h0 h1 habs
    exact global2local_absent cell_part overlap p g h0 h1 (by rw [hlen]; exact h1) habs

/-- Witness of claim C24: three cells, rank 0 owns two of them and holds the third as a
copy. -/
theorem global2local_table_witness :
    (cell_counter [0, 1, 1] [[1], [0], []] 0).global2local.length
        = ([0, 1, 1] : List Int).length
      ∧ (∀ e ∈ cell_indexset [0, 1, 1] [[1], [0], []] 0,
          vecAt (cell_counter [0, 1, 1] [[1], [0], []] 0).global2local e.global_ = e.local_
          ∧ 0 ≤ e.local_ ∧ e.local_ < INT_MAX ∧ e.local_ ≠ INT_MAX)
      ∧ (∀ g : Int, 0 ≤ g → g < (([0, 1, 1] : List Int).length : Int) →
          (∀ e ∈ cell_indexset [0, 1, 1] [[1], [0], []] 0, e.global_ ≠ g) →
          vecAt (cell_counter [0, 1, 1] [[1], [0], []] 0).global2local g = INT_MAX) :=
  global2local_table [0, 1, 1] [[1], [0], []] 0 (by decide) (by decide)

/-- The table `global2local` of rank 0 for three cells of which it owns the first and holds the
second as a copy. -/
theorem global2local_evaluated :
    (cell_counter [0, 1, 1] [[1], [0], []] 0).global2local = [0, 1, INT_MAX] := by
  decide

/-! ## Counts of the retained faces and points -/

theorem mem_appendExisting {β : Type} (g : Int → β) (L : List Int) :
    ∀ (pos : Int) (x : β), x ∈ appendExisting g pos L →
      ∃ (k : Nat) (v : Int), L[k]? = some v ∧ v < INT_MAX ∧ x = g (pos + k) := by
  induction L with
  | nil => intro pos x h; simp [appendExisting] at h
  | cons v vs ih =>
    intro pos x h
    unfold appendExisting at h
    by_cases hv : v < INT_MAX
    · rw [if_pos hv] at h
      rcases List.mem_cons.mp h with h | h
      · exact ⟨0, v, by simp, hv, by simp [h]⟩
      · obtain ⟨k, w, h1, h2, h3⟩ := ih (pos + 1) x h
        refine ⟨k + 1, w, by simpa using h1, h2, ?_⟩
        rw [h3]
        congr 1
        push_cast
        ring
    · rw [if_neg hv] at h
      obtain ⟨k, w, h1, h2, h3⟩ := ih (pos + 1) x h
      refine ⟨k + 1, w, by simpa using h1, h2, ?_⟩
      rw [h3]
      congr 1
      push_cast
      ring

theorem face_indicator_countP (view_data : CpGridData G1 G3 Tag PointType)
    (ixs : List IndexPair) (hb : (view_data.geomVector1.length : Int) ≤ INT_MAX) :
    (face_indicator view_data ixs).countP isExistent
      = (markExistent view_data ixs).1.countP isExistent := by
  unfold face_indicator
  exact countP_renumber _ (by rw [(markExistent_length view_data ixs).1]; exact hb)

theorem point_indicator_countP (view_data : CpGridData G1 G3 Tag PointType)
    (ixs : List IndexPair) (hb : (view_data.geomVector3.length : Int) ≤ INT_MAX) :
    (point_indicator view_data ixs).countP isExistent
      = (markExistent view_data ixs).2.countP isExistent := by
  unfold point_indicator
  exact countP_renumber _ (by rw [(markExistent_length view_data ixs).2]; exact hb)

/-- Claim C25.  The value that `setupAndCountGlobalIds` returns for the faces is the number of
global faces that the decrement pass has marked, the length of the table of global face ids,
and the number of rows of the local `face_to_cell_` and of the local `face_to_point_`; the
value returned for the points is the number of global points that the pass has marked and the
length of the table of global point ids.  The numbers of global faces and points fit an
`int`. -/
theorem counts_agree_with_presence [Inhabited G1] [Inhabited G3] [Inhabited Tag]
    [Inhabited PointType]
    (view_data : CpGridData G1 G3 Tag PointType) (cell_part : List Int)
    (overlap : List (List Int)) (p : Int) (idCell idFace idPoint : Int → Int)
    (hbF : (view_data.geomVector1.length : Int) ≤ INT_MAX)
    (hbP : (view_data.geomVector3.length : Int) ≤ INT_MAX) :
    let D := distributeGlobalGrid view_data cell_part overlap p idCell idFace idPoint
    let seen := markExistent view_data (cell_indexset cell_part overlap p)
    D.noExistingFaces = (setupAndCountGlobalIds D.face_indicator [] idFace).1
      ∧ D.noExistingFaces = ((seen.1.countP isExistent : Nat) : Int)
      ∧ (D.map2GlobalFaceId.length : Int) = D.noExistingFaces
      ∧ (D.face_to_cell_.length : Int) = D.noExistingFaces
      ∧ (D.face_to_point_.length : Int) = D.noExistingFaces
      ∧ D.noExistingPoints = (setupAndCountGlobalIds D.point_indicator [] idPoint).1
      ∧ D.noExistingPoints = ((seen.2.countP isExistent : Nat) : Int)
      ∧ (D.map2GlobalPointId.length : Int) = D.noExistingPoints := by
  intro D seen
  have hF : ((markExistent view_data (cell_indexset cell_part overlap p)).1.length : Int)
      ≤ INT_MAX := by rw [(markExistent_length view_data _).1]; exact hbF
  have hP : ((markExistent view_data (cell_indexset cell_part overlap p)).2.length : Int)
      ≤ INT_MAX := by rw [(markExistent_length view_data _).2]; exact hbP
  refine ⟨rfl, ?_, ?_, ?_, ?_, rfl, ?_, ?_⟩
  · rw [noExistingFaces_eq, face_indicator_countP view_data _ hbF]
  · rw [noExistingFaces_eq]
    have h := (setupAndCountGlobalIds_renumber
      (markExistent view_data (cell_indexset cell_part overlap p)).1 [] idFace hF).2.1
    exact_mod_cast h
  · rw [noExistingFaces_eq]
    have h : D.face_to_cell_.length
        = (face_indicator view_data (cell_indexset cell_part overlap p)).countP isExistent :=
      appendExisting_length _ _ 0
    exact_mod_cast h
  · rw [noExistingFaces_eq]
    have h : D.face_to_point_.length
        = (face_indicator view_data (cell_indexset cell_part overlap p)).countP isExistent :=
      appendExisting_length _ _ 0
    exact_mod_cast h
  · rw [noExistingPoints_eq, point_indicator_countP view_data _ hbP]
  · rw [noExistingPoints_eq]
    have h := (setupAndCountGlobalIds_renumber
      (markExistent view_data (cell_indexset cell_part overlap p)).2 [] idPoint hP).2.1
    exact_mod_cast h

/-- Witness of claim C25: the two-cell grid on rank 1 without overlap. -/
theorem counts_agree_with_presence_witness :
    let D := distributeGlobalGrid twoCellGrid [0, 1] [[], []] 1 id id id
    let seen := markExistent twoCellGrid (cell_indexset [0, 1] [[], []] 1)
    D.noExistingFaces = (setupAndCountGlobalIds D.face_indicator [] id).1
      ∧ D.noExistingFaces = ((seen.1.countP isExistent : Nat) : Int)
      ∧ (D.map2GlobalFaceId.length : Int) = D.noExistingFaces
      ∧ (D.face_to_cell_.length : Int) = D.noExistingFaces
      ∧ (D.face_to_point_.length : Int) = D.noExistingFaces
      ∧ D.noExistingPoints = (setupAndCountGlobalIds D.point_indicator [] id).1
      ∧ D.noExistingPoints = ((seen.2.countP isExistent : Nat) : Int)
      ∧ (D.map2GlobalPointId.length : Int) = D.noExistingPoints :=
  counts_agree_with_presence twoCellGrid [0, 1] [[], []] 1 id id id (by decide) (by decide)

/-! ## Points of the retained faces and of the local cells -/

theorem mem_of_mem_vecAt {α : Type} (table : List (List α)) (i : Int) (x : α)
    (h : x ∈ vecAt table i) : vecAt table i ∈ table := by
  rcases vecAt_mem_or_default table i with h1 | h1
  · exact h1
  · rw [h1] at h
    exact absurd h (List.not_mem_nil x)

theorem point_of_touched (view_data : CpGridData G1 G3 Tag PointType) (ixs : List IndexPair)
    (hbP : (view_data.geomVector3.length : Int) ≤ INT_MAX) (q : Int) (h0 : 0 ≤ q)
    (h1 : q < (view_data.geomVector3.length : Int))
    (hq : ∃ e ∈ ixs, ∃ fe ∈ vecAt view_data.cell_to_face_ e.global_,
      q ∈ vecAt view_data.face_to_point_ fe.index) :
    0 ≤ vecAt (point_indicator view_data ixs) q
      ∧ vecAt (point_indicator view_data ixs) q
          < (((point_indicator view_data ixs).countP isExistent : Nat) : Int)
      ∧ vecAt (point_indicator view_data ixs) q < INT_MAX := by
  have hlen := (markExistent_length view_data ixs).2
  have hm := (point_marked_iff view_data ixs q h0 h1).mpr hq
  have hr : vecAt (point_indicator view_data ixs) q < INT_MAX :=
    renumbered_of_marked _ (by rw [hlen]; exact hbP) q h0 (by rw [hlen]; exact h1) hm
  obtain ⟨_, h3, h4, _⟩ := renumbered_entry (markExistent view_data ixs).2
    (by rw [hlen]; exact hbP) q h0 (by rw [hlen]; exact h1) hr
  exact ⟨h3, h4, hr⟩

theorem face_retained_iff (view_data : CpGridData G1 G3 Tag PointType) (ixs : List IndexPair)
    (hbF : (view_data.geomVector1.length : Int) ≤ INT_MAX) (f : Int) (h0 : 0 ≤ f)
    (h1 : f < (view_data.geomVector1.length : Int)) :
    vecAt (face_indicator view_data ixs) f < INT_MAX
      ↔ ∃ e ∈ ixs, ∃ fe ∈ vecAt view_data.cell_to_face_ e.global_, fe.index = f := by
  have hlen := (markExistent_length view_data ixs).1
  rw [← face_marked_iff view_data ixs f h0 h1]
  constructor
  · intro hr
    exact (renumbered_entry (markExistent view_data ixs).1 (by rw [hlen]; exact hbF) f h0
      (by rw [hlen]; exact h1) hr).2.2.2
  · intro hm
    exact renumbered_of_marked _ (by rw [hlen]; exact hbF) f h0 (by rw [hlen]; exact h1) hm

theorem cell_to_point_row [Inhabited G1] [Inhabited G3] [Inhabited Tag] [Inhabited PointType]
    (view_data : CpGridData G1 G3 Tag PointType) (cell_part : List Int)
    (overlap : List (List Int)) (p : Int) (idCell idFace idPoint : Int → Int)
    (e : IndexPair) (he : e ∈ cell_indexset cell_part overlap p) :
    vecAt (distributeGlobalGrid view_data cell_part overlap p idCell idFace idPoint).cell_to_point_
        e.local_
      = newCellToPointRow (point_indicator view_data (cell_indexset cell_part overlap p))
          (vecAt view_data.cell_to_point_ e.global_) := by
  obtain ⟨hl0, hl1, _⟩ := cell_indexset_at cell_part overlap p e he
  show vecAt (extractCellTables view_data _ _ (cell_indexset cell_part overlap p)).2 e.local_
    = _
  rw [extractCellTables_eq]
  exact foldl_vecSet_hit IndexPair.local_
    (fun e => newCellToPointRow (point_indicator view_data (cell_indexset cell_part overlap p))
      (vecAt view_data.cell_to_point_ e.global_))
    _ (cell_indexset_local_ne cell_part overlap p) _ e he hl0 (by simpa using hl1)

/-- Claim C26.  The assertion of line 808 holds whenever it is evaluated: for every retained
face, every point of its row in the global `face_to_point_` has an entry of `point_indicator`
below `INT_MAX`, which is not negative and smaller than the number of retained points; the
local row of the face holds these entries, and every entry of every row of the local
`face_to_point_` is such a local point index.  The points in the global table are indices of
points, and the numbers of global faces and points fit an `int`. -/
theorem face_to_point_sentinel_free [Inhabited G1] [Inhabited G3] [Inhabited Tag]
    [Inhabited PointType]
    (view_data : CpGridData G1 G3 Tag PointType) (cell_part : List Int)
    (overlap : List (List Int)) (p : Int) (idCell idFace idPoint : Int → Int)
    (hbF : (view_data.geomVector1.length : Int) ≤ INT_MAX)
    (hbP : (view_data.geomVector3.length : Int) ≤ INT_MAX)
    (hpoints : ∀ row ∈ view_data.face_to_point_, ∀ q ∈ row,
      0 ≤ q ∧ q < (view_data.geomVector3.length : Int)) :
    let D := distributeGlobalGrid view_data cell_part overlap p idCell idFace idPoint
    (∀ f : Int, 0 ≤ f → f < (view_data.geomVector1.length : Int) →
        vecAt D.face_indicator f < INT_MAX →
        (∀ point ∈ vecAt view_data.face_to_point_ f,
          vecAt D.point_indicator point < INT_MAX
          ∧ 0 ≤ vecAt D.point_indicator point
          ∧ vecAt D.point_indicator point < D.noExistingPoints)
        ∧ vecAt D.face_to_point_ (vecAt D.face_indicator f)
          = (vecAt view_data.face_to_point_ f).map (fun point => vecAt D.point_indicator point))
      ∧ (∀ row ∈ D.face_to_point_, ∀ x ∈ row,
          0 ≤ x ∧ x < D.noExistingPoints ∧ x < INT_MAX) := by
  intro D
  have hface : ∀ f : Int, 0 ≤ f → f < (view_data.geomVector1.length : Int) →
      vecAt D.face_indicator f < INT_MAX →
      ∀ point ∈ vecAt view_data.face_to_point_ f,
        vecAt D.point_indicator point < INT_MAX
        ∧ 0 ≤ vecAt D.point_indicator point
        ∧ vecAt D.point_indicator point < D.noExistingPoints := by
    intro f h0 h1 hr point hpt
    obtain ⟨e, he, fe, hfe, hidx⟩ :=
      (face_retained_iff view_data (cell_indexset cell_part overlap p) hbF f h0 h1).mp hr
    obtain ⟨hq0, hq1⟩ := hpoints _ (mem_of_mem_vecAt _ f point hpt) point hpt
    obtain ⟨a, b, c⟩ := point_of_touched view_data (cell_indexset cell_part overlap p) hbP
      point hq0 hq1 ⟨e, he, fe, hfe, by rw [hidx]; exact hpt⟩
    refine ⟨c, a, ?_⟩
    rw [noExistingPoints_eq]
    exact b
  refine ⟨?_, ?_⟩
  · intro f h0 h1 hr
    refine ⟨hface f h0 h1 hr, ?_⟩
    exact face_row_at view_data (cell_indexset cell_part overlap p)
      (fun pos => (vecAt view_data.face_to_point_ pos).map
        (fun point => vecAt D.point_indicator point)) hbF f h0 h1 hr
  · intro row hrow x hx
    obtain ⟨k, v, hk, hv, hrow2⟩ := mem_appendExisting _ _ 0 row hrow
    have hklen : k < (face_indicator view_data (cell_indexset cell_part overlap p)).length := by
      by_contra hcon
      rw [List.getElem?_eq_none (by omega)] at hk
      exact absurd hk (by simp)
    rw [face_indicator_length] at hklen
    have hkv : vecAt D.face_indicator (k : Int) = v := vecAt_of_getElem? hk
    rw [hrow2] at hx
    simp only [zero_add] at hx
    obtain ⟨point, hpt, hxp⟩ := List.mem_map.mp hx
    obtain ⟨a, b, c⟩ := hface (k : Int) (by omega) (by exact_mod_cast hklen)
      (by rw [hkv]; exact hv) point hpt
    rw [← hxp]
    exact ⟨b, c, a⟩

/-- Witness of claim C26: the two-cell grid on rank 1 without overlap. -/
theorem face_to_point_sentinel_free_witness :
    let D := distributeGlobalGrid twoCellGrid [0, 1] [[], []] 1 id id id
    (∀ f : Int, 0 ≤ f → f < (twoCellGrid.geomVector1.length : Int) →
        vecAt D.face_indicator f < INT_MAX →
        (∀ point ∈ vecAt twoCellGrid.face_to_point_ f,
          vecAt D.point_indicator point < INT_MAX
          ∧ 0 ≤ vecAt D.point_indicator point
          ∧ vecAt D.point_indicator point < D.noExistingPoints)
        ∧ vecAt D.face_to_point_ (vecAt D.face_indicator f)
          = (vecAt twoCellGrid.face_to_point_ f).map
              (fun point => vecAt D.point_indicator point))
      ∧ (∀ row ∈ D.face_to_point_, ∀ x ∈ row,
          0 ≤ x ∧ x < D.noExistingPoints ∧ x < INT_MAX) :=
  face_to_point_sentinel_free twoCellGrid [0, 1] [[], []] 1 id id id (by decide) (by decide)
    (by decide)

/-- Claim C27 fails on a mesh of one cell whose points 4 to 7 are on none of its faces: the
local row of the cell holds `INT_MAX` at these four places, while four points are retained. -/
theorem cell_to_point_sentinel_free_refuted :
    (distributeGlobalGrid oneFaceGrid [0] [[]] 0 id id id).cell_to_point_
        = [[0, 1, 2, 3, INT_MAX, INT_MAX, INT_MAX, INT_MAX]]
      ∧ (distributeGlobalGrid oneFaceGrid [0] [[]] 0 id id id).noExistingPoints = 4
      ∧ ¬ (∀ row ∈ (distributeGlobalGrid oneFaceGrid [0] [[]] 0 id id id).cell_to_point_,
            ∀ x ∈ row,
              0 ≤ x ∧ x < (distributeGlobalGrid oneFaceGrid [0] [[]] 0 id id id).noExistingPoints
                ∧ x ≠ INT_MAX) := by
  decide

/-- Claim C27 as amended.  When every one of the 8 points of every cell is an index of a point
and lies on one of the faces of that cell, every one of the 8 entries of the row of every local
cell in the local `cell_to_point_` is a local point index: not negative, smaller than the
number of retained points, and not `INT_MAX`; the table has one row of 8 entries per local
cell.  The number of global points fits an `int`. -/
theorem cell_to_point_sentinel_free [Inhabited G1] [Inhabited G3] [Inhabited Tag]
    [Inhabited PointType]
    (view_data : CpGridData G1 G3 Tag PointType) (cell_part : List Int)
    (overlap : List (List Int)) (p : Int) (idCell idFace idPoint : Int → Int)
    (hbP : (view_data.geomVector3.length : Int) ≤ INT_MAX)
    (hcons : ∀ c : Int, 0 ≤ c → c < (cell_part.length : Int) → ∀ j : Int, 0 ≤ j → j < 8 →
      (0 ≤ vecAt (vecAt view_data.cell_to_point_ c) j
        ∧ vecAt (vecAt view_data.cell_to_point_ c) j < (view_data.geomVector3.length : Int))
      ∧ ∃ fe ∈ vecAt view_data.cell_to_face_ c,
          vecAt (vecAt view_data.cell_to_point_ c) j ∈ vecAt view_data.face_to_point_ fe.index) :
    let D := distributeGlobalGrid view_data cell_part overlap p idCell idFace idPoint
    D.cell_to_point_.length = D.cell_indexset_.length
      ∧ (∀ row ∈ D.cell_to_point_, row.length = 8)
      ∧ (∀ e ∈ D.cell_indexset_, ∀ j : Int, 0 ≤ j → j < 8 →
          0 ≤ vecAt (vecAt D.cell_to_point_ e.local_) j
          ∧ vecAt (vecAt D.cell_to_point_ e.local_) j < D.noExistingPoints
          ∧ vecAt (vecAt D.cell_to_point_ e.local_) j ≠ INT_MAX) := by
  intro D
  refine ⟨?_, ?_, ?_⟩
  · show (extractCellTables view_data _ _ (cell_indexset cell_part overlap p)).2.length = _
    rw [extractCellTables_eq]
    simp only
    rw [foldl_vecSet_length, List.length_replicate]
    rfl
  · exact rows_of_extractCellTables view_data _ _ _
  · intro e he j h0 h1
    have he1 : e ∈ cell_indexset cell_part overlap p := he
    obtain ⟨hg0, hg1, _, _⟩ := cell_indexset_entry cell_part overlap p e he1
    obtain ⟨⟨hq0, hq1⟩, fe, hfe, hq⟩ := hcons e.global_ hg0 hg1 j h0 h1
    obtain ⟨a, b, c⟩ := point_of_touched view_data (cell_indexset cell_part overlap p) hbP
      _ hq0 hq1 ⟨e, he1, fe, hfe, hq⟩
    rw [cell_to_point_row view_data cell_part overlap p idCell idFace idPoint e he1,
      vecAt_newCellToPointRow _ _ j h0 h1, noExistingPoints_eq]
    exact ⟨a, b, ne_of_lt c⟩

/-- Witness of the amended claim C27: the two-cell grid on rank 0 with one layer of overlap. -/
theorem cell_to_point_sentinel_free_witness :
    let D := distributeGlobalGrid twoCellGrid [0, 1] [[1], [0]] 0 id id id
    D.cell_to_point_.length = D.cell_indexset_.length
      ∧ (∀ row ∈ D.cell_to_point_, row.length = 8)
      ∧ (∀ e ∈ D.cell_indexset_, ∀ j : Int, 0 ≤ j → j < 8 →
          0 ≤ vecAt (vecAt D.cell_to_point_ e.local_) j
          ∧ vecAt (vecAt D.cell_to_point_ e.local_) j < D.noExistingPoints
          ∧ vecAt (vecAt D.cell_to_point_ e.local_) j ≠ INT_MAX) :=
  cell_to_point_sentinel_free twoCellGrid [0, 1] [[1], [0]] 0 id id id (by decide)
    (by
      intro c hc0 hc1 j hj0 hj1
      have hc : c = 0 ∨ c = 1 := by
        have : c < 2 := hc1
        omega
      have hj : j = 0 ∨ j = 1 ∨ j = 2 ∨ j = 3 ∨ j = 4 ∨ j = 5 ∨ j = 6 ∨ j = 7 := by omega
      rcases hc with rfl | rfl <;> rcases hj with rfl | rfl | rfl | rfl | rfl | rfl | rfl | rfl
        <;> decide)

/-- Claim C30 fails in its second half: in the two-cell grid without overlap the index set of
rank 0 holds cell 0 alone, yet the entry of the shared face 1 in the `face_indicator` of rank 0
is not `INT_MAX`. -/
theorem shared_face_absent_refuted :
    ¬ (cell_indexset [0, 1] [[], []] 0 = [⟨0, 0, AttributeSet.owner⟩]
        ∧ vecAt (distributeGlobalGrid twoCellGrid [0, 1] [[], []] 0 id id id).face_indicator
            (1 : Int) = INT_MAX) := by
  decide

/-- Claim C30 as amended.  In the two-cell grid without overlap the index set of rank 0 holds
cell 0 alone, as owner with local index 0.  The shared face 1 is a face of cell 0 and is
retained on rank 0 with local index 1 and its global id; its local row of `face_to_cell_`
holds cell 0 and, for the absent cell 1, `INT_MAX` with the orientation of the global row.
The face absent on rank 0 is face 2, which bounds cell 1 alone. -/
theorem shared_face_retained :
    cell_indexset [0, 1] [[], []] 0 = [⟨0, 0, AttributeSet.owner⟩]
      ∧ (distributeGlobalGrid twoCellGrid [0, 1] [[], []] 0 id id id).face_indicator
          = [0, 1, INT_MAX]
      ∧ (distributeGlobalGrid twoCellGrid [0, 1] [[], []] 0 id id id).noExistingFaces = 2
      ∧ (distributeGlobalGrid twoCellGrid [0, 1] [[], []] 0 id id id).map2GlobalFaceId = [0, 1]
      ∧ (distributeGlobalGrid twoCellGrid [0, 1] [[], []] 0 id id id).cell_to_face_
          = [[⟨0, false⟩, ⟨1, true⟩]]
      ∧ (distributeGlobalGrid twoCellGrid [0, 1] [[], []] 0 id id id).face_to_cell_
          = [[⟨0, true⟩], [⟨0, true⟩, ⟨INT_MAX, false⟩]] := by
  decide

/-! ## Size of the message buffer -/

theorem foldl_max_entries (interfaces : List (Int × (InterfaceInformation × InterfaceInformation))) :
    ∀ m0 : Nat,
      m0 ≤ interfaces.foldl (fun m pair => max (max m pair.2.1.size) pair.2.2.size) m0
      ∧ (∀ kv ∈ interfaces,
          kv.2.1.size ≤ interfaces.foldl (fun m pair => max (max m pair.2.1.size) pair.2.2.size) m0
          ∧ kv.2.2.size
            ≤ interfaces.foldl (fun m pair => max (max m pair.2.1.size) pair.2.2.size) m0)
      ∧ (interfaces.foldl (fun m pair => max (max m pair.2.1.size) pair.2.2.size) m0 = m0
          ∨ ∃ kv ∈ interfaces,
              interfaces.foldl (fun m pair => max (max m pair.2.1.size) pair.2.2.size) m0
                = kv.2.1.size
              ∨ interfaces.foldl (fun m pair => max (max m pair.2.1.size) pair.2.2.size) m0
                = kv.2.2.size) := by
  induction interfaces with
  | nil => intro m0; simp
  | cons x xs ih =>
    intro m0
    simp only [List.foldl_cons]
    obtain ⟨h1, h2, h3⟩ := ih (max (max m0 x.2.1.size) x.2.2.size)
    refine ⟨by omega, ?_, ?_⟩
    · intro kv hkv
      rcases List.mem_cons.mp hkv with hkv | hkv
      · subst hkv
        constructor <;> omega
      · exact h2 kv hkv
    · rcases h3 with h3 | ⟨kv, hkv, h3⟩
      · rw [h3]
        by_cases ha : max (max m0 x.2.1.size) x.2.2.size = m0
        · exact Or.inl ha
        · refine Or.inr ⟨x, List.mem_cons_self _ _, ?_⟩
          omega
      · exact Or.inr ⟨kv, List.mem_cons_of_mem _ hkv, h3⟩

theorem foldl_gather_length {E : Type} (h : AttributeDataHandle E) (indices : List Int)
    (hsize : ∀ i ∈ indices, h.size i.toNat = 8) :
    ∀ buffer : List (Int × PartitionType),
      (indices.foldl (fun buffer i => h.gather buffer i.toNat) buffer).length
        = buffer.length + 8 * indices.length := by
  induction indices with
  | nil => intro buffer; simp
  | cons i indices ih =>
    intro buffer
    rw [List.foldl_cons, ih (fun j hj => hsize j (List.mem_cons_of_mem _ hj))]
    have hg : h.gather buffer i.toNat
        = buffer ++ (vecAt h.c2e_ (Int.ofNat i.toNat)).map
            (fun f => (h.rank_, h.getPartitionType f)) := gather_eq h _ buffer
    have hs : (vecAt h.c2e_ (Int.ofNat i.toNat)).length = 8 := hsize i (List.mem_cons_self _ _)
    rw [hg, List.length_append, List.length_map, hs, List.length_cons]
    omega

/-- Claim C28.  The buffer size handed to the communicator is `max_entries * 8 * sizeof(int)`,
where `max_entries` is at least the length of every send list and of every receive list of
the interface map and is the length of one of them when the map has an entry.  For every peer
the calls of `gather` for the cells of its send list write 8 tuples per cell, and the buffer
size is at least 8 times the length of the send list and 8 times the length of the receive
list.  The interface map is the one that Dune has built; its send lists hold local cells,
`sizeof(int)` is at least 1 and the product fits a `std::size_t`. -/
theorem buffer_size_sufficient [Inhabited G1] [Inhabited G3] [Inhabited Tag]
    [Inhabited PointType]
    (view_data : CpGridData G1 G3 Tag PointType) (cell_part : List Int)
    (overlap : List (List Int)) (my_rank : Int) (idCell idFace idPoint : Int → Int)
    (getPointPartitionType : Int → PartitionType)
    (interfaces : List (Int × (InterfaceInformation × InterfaceInformation)))
    (sizeofInt : Nat) (hsizeof : 1 ≤ sizeofInt)
    (hfit : max_entries interfaces * 8 * sizeofInt < 2 ^ 64)
    (hcells : ∀ kv ∈ interfaces, ∀ i ∈ kv.2.1.indices_,
      0 ≤ i ∧ i < ((distributeGlobalGrid view_data cell_part overlap my_rank
        idCell idFace idPoint).cell_to_point_.length : Int)) :
    let h := point_handle my_rank getPointPartitionType
      (distributeGlobalGrid view_data cell_part overlap my_rank idCell idFace idPoint)
    max_buffer_size interfaces sizeofInt = max_entries interfaces * 8 * sizeofInt
      ∧ (∀ kv ∈ interfaces,
          kv.2.1.size ≤ max_entries interfaces ∧ kv.2.2.size ≤ max_entries interfaces)
      ∧ (interfaces ≠ [] → ∃ kv ∈ interfaces,
          max_entries interfaces = kv.2.1.size ∨ max_entries interfaces = kv.2.2.size)
      ∧ (∀ kv ∈ interfaces,
          (kv.2.1.indices_.foldl (fun buffer i => h.gather buffer i.toNat) []).length
              = 8 * kv.2.1.size
          ∧ 8 * kv.2.1.size ≤ max_buffer_size interfaces sizeofInt
          ∧ 8 * kv.2.2.size ≤ max_buffer_size interfaces sizeofInt) := by
  intro h
  obtain ⟨_, hge, hatt⟩ := foldl_max_entries interfaces 0
  have hbuf : max_buffer_size interfaces sizeofInt = max_entries interfaces * 8 * sizeofInt :=
    Nat.mod_eq_of_lt hfit
  have hmul : ∀ n : Nat, n ≤ max_entries interfaces →
      8 * n ≤ max_entries interfaces * 8 * sizeofInt := by
    intro n hn
    calc 8 * n ≤ 8 * max_entries interfaces := Nat.mul_le_mul_left 8 hn
      _ = max_entries interfaces * 8 * 1 := by ring
      _ ≤ max_entries interfaces * 8 * sizeofInt := Nat.mul_le_mul_left _ hsizeof
  refine ⟨hbuf, hge, ?_, ?_⟩
  · intro hne
    rcases hatt with h0 | h1
    · cases interfaces with
      | nil => exact absurd rfl hne
      | cons x xs =>
        refine ⟨x, List.mem_cons_self _ _, Or.inl ?_⟩
        have hx := (hge x (List.mem_cons_self _ _)).1
        unfold max_entries at hx ⊢
        omega
    · exact h1
  · intro kv hkv
    refine ⟨?_, ?_, ?_⟩
    · have hsz : ∀ i ∈ kv.2.1.indices_, h.size i.toNat = 8 := by
        intro i hi
        obtain ⟨hi0, hi1⟩ := hcells kv hkv i hi
        exact point_handle_size view_data cell_part overlap my_rank idCell idFace idPoint
          my_rank getPointPartitionType i.toNat (by omega)
      rw [foldl_gather_length h _ hsz []]
      simp [InterfaceInformation.size]
    · rw [hbuf]
      exact hmul _ (hge kv hkv).1
    · rw [hbuf]
      exact hmul _ (hge kv hkv).2

/-- Witness of claim C28: the two-cell grid on rank 0 with one layer of overlap; the interface
map has the entry of rank 1 with the two local cells on each side, and an `int` has 4
bytes. -/
theorem buffer_size_sufficient_witness :
    let h := point_handle 0 (fun _ => PartitionType.InteriorEntity)
      (distributeGlobalGrid twoCellGrid [0, 1] [[1], [0]] 0 id id id)
    max_buffer_size [(1, ⟨[0, 1], 2⟩, ⟨[0, 1], 2⟩)] 4
        = max_entries [(1, ⟨[0, 1], 2⟩, ⟨[0, 1], 2⟩)] * 8 * 4
      ∧ (∀ kv ∈ ([(1, ⟨[0, 1], 2⟩, ⟨[0, 1], 2⟩)] :
            List (Int × (InterfaceInformation × InterfaceInformation))),
          kv.2.1.size ≤ max_entries [(1, ⟨[0, 1], 2⟩, ⟨[0, 1], 2⟩)]
          ∧ kv.2.2.size ≤ max_entries [(1, ⟨[0, 1], 2⟩, ⟨[0, 1], 2⟩)])
      ∧ (([(1, ⟨[0, 1], 2⟩, ⟨[0, 1], 2⟩)] :
            List (Int × (InterfaceInformation × InterfaceInformation))) ≠ [] →
          ∃ kv ∈ ([(1, ⟨[0, 1], 2⟩, ⟨[0, 1], 2⟩)] :
            List (Int × (InterfaceInformation × InterfaceInformation))),
          max_entries [(1, ⟨[0, 1], 2⟩, ⟨[0, 1], 2⟩)] = kv.2.1.size
          ∨ max_entries [(1, ⟨[0, 1], 2⟩, ⟨[0, 1], 2⟩)] = kv.2.2.size)
      ∧ (∀ kv ∈ ([(1, ⟨[0, 1], 2⟩, ⟨[0, 1], 2⟩)] :
            List (Int × (InterfaceInformation × InterfaceInformation))),
          (kv.2.1.indices_.foldl (fun buffer i => h.gather buffer i.toNat) []).length
              = 8 * kv.2.1.size
          ∧ 8 * kv.2.1.size ≤ max_buffer_size [(1, ⟨[0, 1], 2⟩, ⟨[0, 1], 2⟩)] 4
          ∧ 8 * kv.2.2.size ≤ max_buffer_size [(1, ⟨[0, 1], 2⟩, ⟨[0, 1], 2⟩)] 4) :=
  buffer_size_sufficient twoCellGrid [0, 1] [[1], [0]] 0 id id id
    (fun _ => PartitionType.InteriorEntity) [(1, ⟨[0, 1], 2⟩, ⟨[0, 1], 2⟩)] 4
    (by decide) (by decide) (by decide)

/-- The buffer size of the witness of claim C28, evaluated: 2 cells, 8 tuples each, 4 bytes. -/
theorem buffer_size_evaluated :
    max_buffer_size [(1, ⟨[0, 1], 2⟩, ⟨[0, 1], 2⟩)] 4 = 64 := by
  decide

/-! ## The two-cell scenario with one layer of overlap -/

/-- Claim C29.  In the two-cell grid with `cell_part = [0, 1]` and the overlap sets `{1}` of
cell 0 and `{0}` of cell 1: the index set of rank 0 is cell 0 as owner with local index 0 and
cell 1 as copy with local index 1; the shared face 1 is retained on rank 0 and on rank 1; the
send list for rank 1 in the interface from owner to all of rank 0 holds the local index 0 of
cell 0; and the receive list for rank 0 in that interface of rank 1 holds the local index 0
that rank 1 gives to its copy of cell 0. -/
theorem two_cell_scenario_depth_one :
    cell_indexset [0, 1] [[1], [0]] 0
        = [⟨0, 0, AttributeSet.owner⟩, ⟨1, 1, AttributeSet.copy⟩]
      ∧ cell_indexset [0, 1] [[1], [0]] 1
        = [⟨0, 0, AttributeSet.copy⟩, ⟨1, 1, AttributeSet.owner⟩]
      ∧ vecAt (distributeGlobalGrid twoCellGrid [0, 1] [[1], [0]] 0 id id id).face_indicator
          (1 : Int) < INT_MAX
      ∧ vecAt (distributeGlobalGrid twoCellGrid [0, 1] [[1], [0]] 1 id id id).face_indicator
          (1 : Int) < INT_MAX
      ∧ (setupRemoteIndices [0, 1] [[1], [0]] 0).map
          (fun remote => sendList (cell_interfaces remote).get1 1) = some [0]
      ∧ (setupRemoteIndices [0, 1] [[1], [0]] 1).map
          (fun remote => receiveList (cell_interfaces remote).get1 0) = some [0] := by
  decide

/-! ## The exchange of the point attributes -/

/-- Claim C21 fails in two settings.  In the two-cell grid without overlap the global point 4
of the shared face is retained on the ranks 0 and 1, and in the line of three cells on three
ranks with one layer of overlap the global point 8 is retained on the ranks 0 and 2; in both
the attribute map of the point on rank 0 has no entry for the other rank after the
exchange. -/
theorem attribute_exchange_refuted :
    (vecAt (distributeGlobalGrid twoCellGrid [0, 1] [[], []] 0 id id id).point_indicator
          (4 : Int) < INT_MAX
        ∧ vecAt (distributeGlobalGrid twoCellGrid [0, 1] [[], []] 1 id id id).point_indicator
          (4 : Int) < INT_MAX
        ∧ (point_attributes twoCellGrid [0, 1] [[], []] id id id examplePointTypes 0).map
            (fun attrs => List.lookup (1 : Int)
              (vecAt attrs
                (vecAt (distributeGlobalGrid twoCellGrid [0, 1] [[], []] 0
                  id id id).point_indicator (4 : Int))))
          = some none)
      ∧ (vecAt (distributeGlobalGrid threeCellGrid [0, 1, 2] [[1], [0, 2], [1]] 0
            id id id).point_indicator (8 : Int) < INT_MAX
        ∧ vecAt (distributeGlobalGrid threeCellGrid [0, 1, 2] [[1], [0, 2], [1]] 2
            id id id).point_indicator (8 : Int) < INT_MAX
        ∧ (point_attributes threeCellGrid [0, 1, 2] [[1], [0, 2], [1]] id id id
              examplePointTypes 0).map
            (fun attrs => List.lookup (2 : Int)
              (vecAt attrs
                (vecAt (distributeGlobalGrid threeCellGrid [0, 1, 2] [[1], [0, 2], [1]] 0
                  id id id).point_indicator (8 : Int))))
          = some none) := by
  decide

/-! ## The remote indices of a rank under one key -/

theorem filter_key_of_nodup {β : Type} (x : β) (s : Int) (L : List Int) (hL : L.Nodup) :
    ((L.map (fun r => (r, x))).filter (fun y => decide (y.1 = s))).map Prod.snd
      = if s ∈ L then [x] else [] := by
  induction L with
  | nil => simp
  | cons a L ih =>
    rw [List.nodup_cons] at hL
    simp only [List.map_cons, List.filter_cons]
    by_cases ha : a = s
    · subst ha
      have h2 := ih hL.2
      rw [if_neg hL.1] at h2
      simp [h2]
    · have hs : ¬ s = a := fun h => ha h.symm
      simp only [ha, decide_False, Bool.false_eq_true, if_false, List.mem_cons, hs, false_or]
      exact ih hL.2

theorem split_nodup (p : Int) (ov : List Int) (h : ov.Pairwise (fun a b => a < b)) :
    (ov.filter (fun r => decide (r < p)) ++ ov.filter (fun r => decide (p < r))).Nodup := by
  have hn : ov.Nodup := h.imp (fun hab => ne_of_lt hab)
  apply List.Nodup.append (hn.filter _) (hn.filter _)
  intro x h1 h2
  have a1 := (List.mem_filter.mp h1).2
  have a2 := (List.mem_filter.mp h2).2
  simp only [decide_eq_true_eq] at a1 a2
  omega

theorem mem_split (p s : Int) (ov : List Int) :
    s ∈ ov.filter (fun r => decide (r < p)) ++ ov.filter (fun r => decide (p < r))
      ↔ s ∈ ov ∧ s ≠ p := by
  simp only [List.mem_append, List.mem_filter, decide_eq_true_eq]
  constructor
  · rintro (⟨h1, h2⟩ | ⟨h1, h2⟩)
    · exact ⟨h1, by omega⟩
    · exact ⟨h1, by omega⟩
  · rintro ⟨h1, h2⟩
    rcases lt_or_gt_of_ne h2 with h | h
    · exact Or.inl ⟨h1, h⟩
    · exact Or.inr ⟨h1, h⟩

theorem overlap_row_sorted (overlap : List (List Int))
    (hsorted : ∀ ov ∈ overlap, ov.Pairwise (fun a b => a < b)) (g : Int) :
    (vecAt overlap g).Pairwise (fun a b => a < b) := by
  rcases vecAt_mem_or_default overlap g with h | h
  · exact hsorted _ h
  · rw [h]; exact List.Pairwise.nil

theorem entryInserts_owner (cell_part : List Int) (overlap : List (List Int)) (r : Int)
    (hsorted : ∀ ov ∈ overlap, ov.Pairwise (fun a b => a < b)) (e : IndexPair)
    (ha : e.attribute_ = AttributeSet.owner) :
    entryInserts cell_part overlap r e
      = ((vecAt overlap e.global_).filter (fun x => decide (x < r))
          ++ (vecAt overlap e.global_).filter (fun x => decide (r < x))).map
          (fun x => (x, ⟨AttributeSet.copy, e⟩)) := by
  unfold entryInserts
  rw [if_neg (by rw [ha]; simp),
    split_at_mine_of_sorted r _ (overlap_row_sorted overlap hsorted e.global_)]

theorem inserts_under_key (cell_part : List Int) (overlap : List (List Int)) (r s : Int)
    (hsorted : ∀ ov ∈ overlap, ov.Pairwise (fun a b => a < b)) (e : IndexPair) :
    (((entryInserts cell_part overlap r e).filter (fun x => decide (x.1 = s))).map
        Prod.snd).map (fun ri => ri.localIndexPair.local_)
      = if sharedWith cell_part overlap r s e = true then [e.local_] else [] := by
  by_cases ha : e.attribute_ = AttributeSet.owner
  · have hins := entryInserts_owner cell_part overlap r hsorted e ha
    have hkey := filter_key_of_nodup (⟨AttributeSet.copy, e⟩ : RemoteIndex) s _
      (split_nodup r _ (overlap_row_sorted overlap hsorted e.global_))
    rw [hins, hkey]
    have hsh : sharedWith cell_part overlap r s e
        = (decide (s ∈ vecAt overlap e.global_) && decide (s ≠ r)) := by
      unfold sharedWith
      rw [if_neg (fun h => h ha)]
    rw [hsh]
    by_cases hm : s ∈ vecAt overlap e.global_ ∧ s ≠ r
    · rw [if_pos ((mem_split r s _).mpr hm)]
      simp [hm.1, hm.2]
    · rw [if_neg (fun h => hm ((mem_split r s _).mp h))]
      have hf : (decide (s ∈ vecAt overlap e.global_) && decide (s ≠ r)) = false := by
        rw [Bool.and_eq_false_iff]
        by_cases h1 : s ∈ vecAt overlap e.global_
        · right
          simp only [decide_eq_false_iff_not]
          exact fun h2 => hm ⟨h1, h2⟩
        · left
          simp [h1]
      rw [hf]
      simp
  · have hins : entryInserts cell_part overlap r e
        = [(vecAt cell_part e.global_, ⟨AttributeSet.owner, e⟩)] := by
      unfold entryInserts
      rw [if_pos ha]
    have hsh : sharedWith cell_part overlap r s e = decide (vecAt cell_part e.global_ = s) := by
      unfold sharedWith
      rw [if_pos ha]
    rw [hins, hsh, List.filter_cons]
    by_cases hs : vecAt cell_part e.global_ = s
    · simp [hs]
    · simp [hs]

theorem remote_locals (cell_part : List Int) (overlap : List (List Int)) (r s : Int)
    (hsorted : ∀ ov ∈ overlap, ov.Pairwise (fun a b => a < b)) :
    (((((cell_indexset cell_part overlap r).flatMap (entryInserts cell_part overlap r)).filter
        (fun x => decide (x.1 = s))).map Prod.snd).map (fun ri => ri.localIndexPair.local_))
      = sharedLocals cell_part overlap r s := by
  unfold sharedLocals
  rw [List.filter_flatMap, List.map_flatMap, List.map_flatMap]
  induction cell_indexset cell_part overlap r with
  | nil => rfl
  | cons e l ih =>
    rw [List.flatMap_cons, ih, inserts_under_key cell_part overlap r s hsorted e,
      List.filter_cons]
    by_cases h : sharedWith cell_part overlap r s e = true
    · simp [h]
    · simp [h]

theorem shared_key_is_neighbor (cell_part : List Int) (overlap : List (List Int)) (r s : Int)
    (hassert : ∀ e ∈ cell_indexset cell_part overlap r, e.attribute_ = AttributeSet.copy →
      vecAt cell_part e.global_ ∈ (cell_counter cell_part overlap r).neighbors)
    (e : IndexPair) (he : e ∈ cell_indexset cell_part overlap r)
    (hs : sharedWith cell_part overlap r s e = true) :
    s ∈ (cell_counter cell_part overlap r).neighbors := by
  unfold sharedWith at hs
  cases ha : e.attribute_ with
  | copy =>
    rw [if_pos (by rw [ha]; simp)] at hs
    simp only [decide_eq_true_eq] at hs
    rw [← hs]
    exact hassert e he ha
  | owner =>
    rw [if_neg (by rw [ha]; simp)] at hs
    simp only [Bool.and_eq_true, decide_eq_true_eq] at hs
    exact neighbors_of_owner cell_part overlap r e he ha s hs.1

theorem sharedLocals_of_not_neighbor (cell_part : List Int) (overlap : List (List Int))
    (r s : Int)
    (hassert : ∀ e ∈ cell_indexset cell_part overlap r, e.attribute_ = AttributeSet.copy →
      vecAt cell_part e.global_ ∈ (cell_counter cell_part overlap r).neighbors)
    (hs : s ∉ (cell_counter cell_part overlap r).neighbors) :
    sharedLocals cell_part overlap r s = [] := by
  unfold sharedLocals
  rw [List.map_eq_nil_iff, List.filter_eq_nil_iff]
  intro e he hsh
  exact hs (shared_key_is_neighbor cell_part overlap r s hassert e he hsh)

theorem setupRemoteIndices_eq (cell_part : List Int) (overlap : List (List Int)) (r : Int)
    (hne : (cell_counter cell_part overlap r).neighbors ≠ [])
    (hsorted : ∀ ov ∈ overlap, ov.Pairwise (fun a b => a < b))
    (hassert : ∀ e ∈ cell_indexset cell_part overlap r, e.attribute_ = AttributeSet.copy →
      vecAt cell_part e.global_ ∈ (cell_counter cell_part overlap r).neighbors) :
    setupRemoteIndices cell_part overlap r
      = some ((cell_counter cell_part overlap r).neighbors.map (fun n =>
          (n, (((cell_indexset cell_part overlap r).flatMap
                (entryInserts cell_part overlap r)).filter
                (fun x => decide (x.1 = n))).map Prod.snd))) := by
  unfold setupRemoteIndices
  have hl : (cell_counter cell_part overlap r).neighbors.length ≠ 0 := by
    intro h0
    exact hne (List.length_eq_zero.mp h0)
  rw [if_pos hl, insertRemotes_eq]
  · rw [List.map_map]
    congr 1
  · intro x hx
    rw [List.map_map]
    have hid : (Prod.fst ∘ fun n : Int => (n, ([] : List RemoteIndex))) = id := rfl
    rw [hid, List.map_id]
    obtain ⟨e, he, hxe⟩ := List.mem_flatMap.mp hx
    cases hattr : e.attribute_ with
    | copy =>
      unfold entryInserts at hxe
      rw [if_pos (by rw [hattr]; simp)] at hxe
      rw [List.mem_singleton] at hxe
      rw [hxe]
      exact hassert e he hattr
    | owner =>
      rw [entryInserts_owner cell_part overlap r hsorted e hattr] at hxe
      obtain ⟨y, hy, hyx⟩ := List.mem_map.mp hxe
      rw [← hyx]
      exact neighbors_of_owner cell_part overlap r e he hattr y ((mem_split r y _).mp hy).1

theorem all_all_cell_interface_eq (cell_part : List Int) (overlap : List (List Int)) (r : Int)
    (hsorted : ∀ ov ∈ overlap, ov.Pairwise (fun a b => a < b))
    (hassert : ∀ e ∈ cell_indexset cell_part overlap r, e.attribute_ = AttributeSet.copy →
      vecAt cell_part e.global_ ∈ (cell_counter cell_part overlap r).neighbors) :
    all_all_cell_interface cell_part overlap r = some (interfaceOf cell_part overlap r) := by
  unfold all_all_cell_interface interfaceOf
  by_cases hne : (cell_counter cell_part overlap r).neighbors = []
  · have h0 : setupRemoteIndices cell_part overlap r = some [(0, [])] := by
      unfold setupRemoteIndices
      rw [if_neg (by rw [hne]; simp)]
    rw [h0, hne]
    rfl
  · rw [setupRemoteIndices_eq cell_part overlap r hne hsorted hassert]
    simp only [Option.map_some', cell_interfaces, buildInterface, List.map_map]
    congr 2
    apply List.map_congr_left
    intro n _
    simp only [Function.comp, AllSetAttribute, Bool.and_self, List.filter_true]
    rw [remote_locals cell_part overlap r n hsorted]
/-! ## The interface of all remote indices -/

theorem lookup_map_filter {V : Type} (F : Int → V) (Q : Int × V → Bool) (s : Int)
    (ns : List Int) :
    List.lookup s ((ns.map (fun n => (n, F n))).filter Q)
      = if s ∈ ns ∧ Q (s, F s) = true then some (F s) else none := by
  induction ns with
  | nil => simp
  | cons n ns ih =>
    simp only [List.map_cons, List.filter_cons]
    by_cases hq : Q (n, F n) = true
    · rw [if_pos hq, lookup_cons_eq, ih]
      by_cases hs : s = n
      · subst hs
        simp [hq]
      · simp [hs]
    · rw [if_neg hq, ih]
      by_cases hs : s = n
      · subst hs
        simp [hq]
      · simp [hs]

theorem lookup_interfaceOf (cell_part : List Int) (overlap : List (List Int)) (r s : Int)
    (hassert : ∀ e ∈ cell_indexset cell_part overlap r, e.attribute_ = AttributeSet.copy →
      vecAt cell_part e.global_ ∈ (cell_counter cell_part overlap r).neighbors) :
    ((List.lookup s (interfaceOf cell_part overlap r)).getD default).1.indices_
      = sharedLocals cell_part overlap r s := by
  unfold interfaceOf
  rw [lookup_map_filter]
  by_cases hs : s ∈ (cell_counter cell_part overlap r).neighbors
  · by_cases hq : sharedLocals cell_part overlap r s = []
    · simp [hs, hq, InterfaceInformation.size]
      rfl
    · have hl : (sharedLocals cell_part overlap r s).length ≠ 0 :=
        fun h => hq (List.length_eq_zero.mp h)
      simp [hs, hl, InterfaceInformation.size]
  · rw [sharedLocals_of_not_neighbor cell_part overlap r s hassert hs]
    simp [hs]
    rfl

theorem mem_interfaceOf (cell_part : List Int) (overlap : List (List Int)) (r : Int)
    (kv : Int × (InterfaceInformation × InterfaceInformation))
    (hkv : kv ∈ interfaceOf cell_part overlap r) :
    kv.2.2.indices_ = sharedLocals cell_part overlap r kv.1
      ∧ sharedLocals cell_part overlap r kv.1 ≠ [] := by
  unfold interfaceOf at hkv
  obtain ⟨h1, h2⟩ := List.mem_filter.mp hkv
  obtain ⟨n, _, hn⟩ := List.mem_map.mp h1
  subst hn
  refine ⟨rfl, ?_⟩
  intro h0
  simp [InterfaceInformation.size, h0] at h2

theorem interfaceOf_has (cell_part : List Int) (overlap : List (List Int)) (r s : Int)
    (hs : s ∈ (cell_counter cell_part overlap r).neighbors)
    (hne : sharedLocals cell_part overlap r s ≠ []) :
    ∃ kv ∈ interfaceOf cell_part overlap r, kv.1 = s := by
  unfold interfaceOf
  refine ⟨_, List.mem_filter.mpr ⟨List.mem_map.mpr ⟨s, hs, rfl⟩, ?_⟩, rfl⟩
  have hl : (sharedLocals cell_part overlap r s).length ≠ 0 :=
    fun h => hne (List.length_eq_zero.mp h)
  simp [InterfaceInformation.size, hl]

/-! ## The cells that two ranks share -/

theorem mem_sharedGlobals (cell_part : List Int) (overlap : List (List Int)) (r s g : Int) :
    g ∈ sharedGlobals cell_part overlap r s
      ↔ (0 ≤ g ∧ g < (cell_part.length : Int) ∧ g < (overlap.length : Int))
        ∧ ((vecAt cell_part g = r ∧ s ∈ vecAt overlap g ∧ s ≠ r)
          ∨ (vecAt cell_part g ≠ r ∧ r ∈ vecAt overlap g ∧ vecAt cell_part g = s)) := by
  unfold sharedGlobals
  simp only [List.mem_map, List.mem_filter]
  constructor
  · rintro ⟨e, ⟨he, hsh⟩, hg⟩
    obtain ⟨h0, h1, h2, h3⟩ := cell_indexset_entry cell_part overlap r e he
    rw [hg] at h0 h1 h2 h3
    refine ⟨⟨h0, h1, h2⟩, ?_⟩
    unfold sharedWith at hsh
    by_cases ha : e.attribute_ = AttributeSet.owner
    · rw [if_neg (fun h => h ha)] at hsh
      simp only [Bool.and_eq_true, decide_eq_true_eq] at hsh
      rw [ha] at h3
      rw [hg] at hsh
      exact Or.inl ⟨(heldAs_owner r _ _).mp h3, hsh.1, hsh.2⟩
    · rw [if_pos ha] at hsh
      simp only [decide_eq_true_eq] at hsh
      have hc : e.attribute_ = AttributeSet.copy := by
        cases hh : e.attribute_ with
        | owner => exact absurd hh ha
        | copy => rfl
      rw [hc] at h3
      rw [hg] at hsh
      obtain ⟨a1, a2⟩ := (heldAs_copy r _ _).mp h3
      exact Or.inr ⟨a1, a2, hsh⟩
  · rintro ⟨⟨h0, h1, h2⟩, h | h⟩
    · obtain ⟨e, he, hg, ha⟩ := cell_indexset_has cell_part overlap r g AttributeSet.owner
        h0 h1 h2 ((heldAs_owner r _ _).mpr h.1)
      refine ⟨e, ⟨he, ?_⟩, hg⟩
      unfold sharedWith
      rw [if_neg (fun hh => hh ha), hg]
      simp [h.2.1, h.2.2]
    · obtain ⟨e, he, hg, ha⟩ := cell_indexset_has cell_part overlap r g AttributeSet.copy
        h0 h1 h2 ((heldAs_copy r _ _).mpr ⟨h.1, h.2.1⟩)
      refine ⟨e, ⟨he, ?_⟩, hg⟩
      unfold sharedWith
      rw [if_pos (by rw [ha]; decide), hg]
      simp [h.2.2]

theorem sharedGlobals_sorted (cell_part : List Int) (overlap : List (List Int)) (r s : Int) :
    (sharedGlobals cell_part overlap r s).Pairwise (fun a b => a < b) := by
  unfold sharedGlobals
  rw [List.pairwise_map]
  exact ((cell_indexset_pairwise cell_part overlap r).imp (fun h => h.1)).filter _

theorem sharedGlobals_symm (cell_part : List Int) (overlap : List (List Int)) (r s : Int)
    (hrs : r ≠ s) :
    sharedGlobals cell_part overlap r s = sharedGlobals cell_part overlap s r := by
  have h1 := sharedGlobals_sorted cell_part overlap r s
  have h2 := sharedGlobals_sorted cell_part overlap s r
  apply List.eq_of_perm_of_sorted _ h1 h2
  rw [List.perm_ext_iff_of_nodup (h1.imp (fun h => ne_of_lt h)) (h2.imp (fun h => ne_of_lt h))]
  intro g
  rw [mem_sharedGlobals, mem_sharedGlobals]
  constructor
  · rintro ⟨hr, h | h⟩
    · exact ⟨hr, Or.inr ⟨by rw [h.1]; exact hrs, h.2.1, h.1⟩⟩
    · exact ⟨hr, Or.inl ⟨h.2.2, h.2.1, hrs⟩⟩
  · rintro ⟨hr, h | h⟩
    · exact ⟨hr, Or.inr ⟨by rw [h.1]; exact fun hh => hrs hh.symm, h.2.1, h.1⟩⟩
    · exact ⟨hr, Or.inl ⟨h.2.2, h.2.1, fun hh => hrs hh.symm⟩⟩

theorem sharedLocals_eq (cell_part : List Int) (overlap : List (List Int)) (r s : Int) :
    sharedLocals cell_part overlap r s
      = (sharedGlobals cell_part overlap r s).map
          (fun g => vecAt (cell_counter cell_part overlap r).global2local g) := by
  unfold sharedLocals sharedGlobals
  rw [List.map_map]
  apply List.map_congr_left
  intro e he
  exact (global2local_entry cell_part overlap r e (List.mem_filter.mp he).1).symm

theorem sharedLocals_self (cell_part : List Int) (overlap : List (List Int)) (r : Int) :
    sharedLocals cell_part overlap r r = [] := by
  rw [sharedLocals_eq]
  have h : sharedGlobals cell_part overlap r r = [] := by
    rw [List.eq_nil_iff_forall_not_mem]
    intro g hg
    rcases ((mem_sharedGlobals cell_part overlap r r g).mp hg).2 with h | h
    · exact h.2.2 rfl
    · exact h.1 h.2.2
  rw [h]
  rfl

theorem local_cell_of_shared [Inhabited G1] [Inhabited G3] [Inhabited Tag] [Inhabited PointType]
    (view_data : CpGridData G1 G3 Tag PointType) (cell_part : List Int)
    (overlap : List (List Int)) (r s : Int) (idCell idFace idPoint : Int → Int) (g : Int)
    (hg : g ∈ sharedGlobals cell_part overlap r s) :
    0 ≤ vecAt (cell_counter cell_part overlap r).global2local g
      ∧ (vecAt (cell_counter cell_part overlap r).global2local g).toNat
          < (distributeGlobalGrid view_data cell_part overlap r
              idCell idFace idPoint).cell_to_point_.length
      ∧ vecAt (distributeGlobalGrid view_data cell_part overlap r
            idCell idFace idPoint).cell_to_point_
          (Int.ofNat (vecAt (cell_counter cell_part overlap r).global2local g).toNat)
        = newCellToPointRow (point_indicator view_data (cell_indexset cell_part overlap r))
            (vecAt view_data.cell_to_point_ g) := by
  unfold sharedGlobals at hg
  obtain ⟨e, he, heg⟩ := List.mem_map.mp hg
  have he1 := (List.mem_filter.mp he).1
  obtain ⟨hl0, hl1, _⟩ := cell_indexset_at cell_part overlap r e he1
  have hloc := global2local_entry cell_part overlap r e he1
  rw [heg] at hloc
  have hlen : (distributeGlobalGrid view_data cell_part overlap r
      idCell idFace idPoint).cell_to_point_.length
        = (cell_indexset cell_part overlap r).length := by
    show (extractCellTables view_data _ _ (cell_indexset cell_part overlap r)).2.length = _
    rw [extractCellTables_eq]
    simp only
    rw [foldl_vecSet_length, List.length_replicate]
  have hcast : Int.ofNat (vecAt (cell_counter cell_part overlap r).global2local g).toNat
      = e.local_ := by
    rw [hloc]
    simp only [Int.ofNat_eq_coe]
    omega
  refine ⟨by rw [hloc]; exact hl0, by rw [hloc, hlen]; omega, ?_⟩
  rw [hcast, cell_to_point_row view_data cell_part overlap r idCell idFace idPoint e he1, heg]

/-! ## One round of the exchange -/

theorem insertTuples_append {E : Type} (h : AttributeDataHandle E)
    (vals_ : List (List (Int × PartitionType))) (p1 p2 : List (E × (Int × PartitionType))) :
    insertTuples h vals_ (p1 ++ p2) = insertTuples h (insertTuples h vals_ p1) p2 := by
  unfold insertTuples
  rw [List.foldl_append]

theorem foldl_gather_eq {E : Type} (h : AttributeDataHandle E) (indices : List Int) :
    ∀ buffer : List (Int × PartitionType),
      indices.foldl (fun buffer i => h.gather buffer i.toNat) buffer
        = buffer ++ indices.flatMap (fun i =>
            (vecAt h.c2e_ (Int.ofNat i.toNat)).map (fun f => (h.rank_, h.getPartitionType f))) := by
  induction indices with
  | nil => intro buffer; simp
  | cons i indices ih =>
    intro buffer
    rw [List.foldl_cons, ih, List.flatMap_cons]
    have hg : h.gather buffer i.toNat
        = buffer ++ (vecAt h.c2e_ (Int.ofNat i.toNat)).map
            (fun f => (h.rank_, h.getPartitionType f)) := gather_eq h _ buffer
    rw [hg, List.append_assoc]

theorem gatherAll_eq {E : Type} (h : AttributeDataHandle E) (indices : List Int) :
    gatherAll h indices
      = indices.flatMap (fun i =>
          (vecAt h.c2e_ (Int.ofNat i.toNat)).map (fun f => (h.rank_, h.getPartitionType f))) := by
  unfold gatherAll
  rw [foldl_gather_eq]
  rfl

theorem scatterAll_eq {E : Type} (h : AttributeDataHandle E)
    (ics : List (Int × List (Int × PartitionType))) :
    (∀ x ∈ ics, x.2.length = h.size x.1.toNat) →
    ∀ (vals_ : List (List (Int × PartitionType))) (rest : List (Int × PartitionType)),
      scatterAll h (ics.map Prod.fst) vals_ (ics.flatMap Prod.snd ++ rest)
        = some (insertTuples h vals_
            (ics.flatMap (fun x => (vecAt h.c2e_ (Int.ofNat x.1.toNat)).zip x.2)), rest) := by
  induction ics with
  | nil => intro _ vals_ rest; rfl
  | cons x ics ih =>
    intro hlen vals_ rest
    have hx := hlen x (List.mem_cons_self _ _)
    have hstep : h.scatter vals_ (x.2 ++ (ics.flatMap Prod.snd ++ rest)) x.1.toNat
        (h.size x.1.toNat)
        = some (insertTuples h vals_ ((vecAt h.c2e_ (Int.ofNat x.1.toNat)).zip x.2),
            ics.flatMap Prod.snd ++ rest) :=
      scatterLoop_eq h _ _ x.2 _ vals_ hx
    simp only [List.map_cons, List.flatMap_cons, List.append_assoc]
    unfold scatterAll
    rw [hstep]
    simp only []
    rw [ih (fun y hy => hlen y (List.mem_cons_of_mem _ hy)), insertTuples_append]

theorem forward_eq {E : Type} (h : AttributeDataHandle E)
    (received : Int → Option (List (Int × PartitionType)))
    (P : Int × (InterfaceInformation × InterfaceInformation) → List (E × (Int × PartitionType)))
    (interfaces : List (Int × (InterfaceInformation × InterfaceInformation))) :
    (∀ kv ∈ interfaces, ∃ m, received kv.1 = some m
      ∧ ∀ v : List (List (Int × PartitionType)),
          scatterAll h kv.2.2.indices_ v m = some (insertTuples h v (P kv), [])) →
    ∀ vals_ : List (List (Int × PartitionType)),
      forward h received interfaces vals_
        = some (insertTuples h vals_ (interfaces.flatMap P)) := by
  induction interfaces with
  | nil => intro _ vals_; rfl
  | cons kv interfaces ih =>
    intro hall vals_
    obtain ⟨m, hm, hsc⟩ := hall kv (List.mem_cons_self _ _)
    unfold forward
    rw [hm]
    simp only []
    rw [hsc vals_]
    simp only []
    rw [ih (fun y hy => hall y (List.mem_cons_of_mem _ hy)), List.flatMap_cons,
      insertTuples_append]
theorem cellPairs_eq (view_data : CpGridData G1 G3 Tag PointType) (pa pb : List Int)
    (gpb : Int → PartitionType) (b g : Int) :
    cellPairs view_data pa pb gpb b g
      = (List.range 8).map (fun j : Nat =>
          (vecAt pa (vecAt (vecAt view_data.cell_to_point_ g) (Int.ofNat j)),
           (b, gpb (vecAt pb (vecAt (vecAt view_data.cell_to_point_ g) (Int.ofNat j)))))) := by
  unfold cellPairs newCellToPointRow
  rw [List.map_map, List.zip_map, List.zip_eq_zipWith]
  simp only [List.zipWith_same, List.map_map]
  rfl

theorem newCellToPointRow_length (pi row : List Int) : (newCellToPointRow pi row).length = 8 := by
  simp [newCellToPointRow]

theorem receive_eq [Inhabited G1] [Inhabited G3] [Inhabited Tag] [Inhabited PointType]
    (view_data : CpGridData G1 G3 Tag PointType) (cell_part : List Int)
    (overlap : List (List Int)) (idCell idFace idPoint : Int → Int)
    (getPointPartitionType : Int → Int → PartitionType) (a b : Int) (hab : a ≠ b)
    (v : List (List (Int × PartitionType))) :
    scatterAll
        (point_handle a (getPointPartitionType a)
          (distributeGlobalGrid view_data cell_part overlap a idCell idFace idPoint))
        (sharedLocals cell_part overlap a b) v
        (gatherAll
          (point_handle b (getPointPartitionType b)
            (distributeGlobalGrid view_data cell_part overlap b idCell idFace idPoint))
          (sharedLocals cell_part overlap b a))
      = some (insertTuples
          (point_handle a (getPointPartitionType a)
            (distributeGlobalGrid view_data cell_part overlap a idCell idFace idPoint)) v
          ((sharedGlobals cell_part overlap a b).flatMap
            (cellPairs view_data
              (point_indicator view_data (cell_indexset cell_part overlap a))
              (point_indicator view_data (cell_indexset cell_part overlap b))
              (getPointPartitionType b) b)), []) := by
  have hsym := sharedGlobals_symm cell_part overlap a b hab
  have hmsg : gatherAll
        (point_handle b (getPointPartitionType b)
          (distributeGlobalGrid view_data cell_part overlap b idCell idFace idPoint))
        (sharedLocals cell_part overlap b a)
      = (sharedGlobals cell_part overlap a b).flatMap (fun g =>
          (newCellToPointRow (point_indicator view_data (cell_indexset cell_part overlap b))
            (vecAt view_data.cell_to_point_ g)).map
            (fun f => (b, getPointPartitionType b f))) := by
    rw [gatherAll_eq, sharedLocals_eq, ← hsym, List.flatMap_map]
    apply List.flatMap_congr
    intro g hg
    rw [hsym] at hg
    have h3 := (local_cell_of_shared view_data cell_part overlap b a idCell idFace idPoint
      g hg).2.2
    show (vecAt (distributeGlobalGrid view_data cell_part overlap b
        idCell idFace idPoint).cell_to_point_ _).map _ = _
    rw [h3]
    rfl
  have hics := scatterAll_eq
    (point_handle a (getPointPartitionType a)
      (distributeGlobalGrid view_data cell_part overlap a idCell idFace idPoint))
    ((sharedGlobals cell_part overlap a b).map (fun g =>
      (vecAt (cell_counter cell_part overlap a).global2local g,
       (newCellToPointRow (point_indicator view_data (cell_indexset cell_part overlap b))
          (vecAt view_data.cell_to_point_ g)).map
          (fun f => (b, getPointPartitionType b f)))))
    (by
      intro x hx
      obtain ⟨g, hg, hxg⟩ := List.mem_map.mp hx
      subst hxg
      simp only [List.length_map, newCellToPointRow_length]
      exact (point_handle_size view_data cell_part overlap a idCell idFace idPoint a
        (getPointPartitionType a) _
        (local_cell_of_shared view_data cell_part overlap a b idCell idFace idPoint
          g hg).2.1).symm)
    v []
  rw [List.map_map, List.flatMap_map, List.flatMap_map, List.append_nil] at hics
  rw [hmsg, sharedLocals_eq]
  have hfst : (Prod.fst ∘ fun g : Int =>
      (vecAt (cell_counter cell_part overlap a).global2local g,
       (newCellToPointRow (point_indicator view_data (cell_indexset cell_part overlap b))
          (vecAt view_data.cell_to_point_ g)).map
          (fun f => (b, getPointPartitionType b f))))
      = fun g => vecAt (cell_counter cell_part overlap a).global2local g := rfl
  rw [hfst] at hics
  rw [hics]
  congr 3
  apply List.flatMap_congr
  intro g hg
  have h3 := (local_cell_of_shared view_data cell_part overlap a b idCell idFace idPoint
    g hg).2.2
  show (vecAt (distributeGlobalGrid view_data cell_part overlap a
      idCell idFace idPoint).cell_to_point_ _).zip _ = _
  rw [h3]
  rfl

theorem point_attributes_eq [Inhabited G1] [Inhabited G3] [Inhabited Tag] [Inhabited PointType]
    (view_data : CpGridData G1 G3 Tag PointType) (cell_part : List Int)
    (overlap : List (List Int)) (idCell idFace idPoint : Int → Int)
    (getPointPartitionType : Int → Int → PartitionType) (a : Int)
    (hsorted : ∀ ov ∈ overlap, ov.Pairwise (fun x y => x < y))
    (hassert : ∀ e ∈ cell_indexset cell_part overlap a, e.attribute_ = AttributeSet.copy →
      vecAt cell_part e.global_ ∈ (cell_counter cell_part overlap a).neighbors)
    (hpeers : ∀ r ∈ (cell_counter cell_part overlap a).neighbors,
      ∀ e ∈ cell_indexset cell_part overlap r, e.attribute_ = AttributeSet.copy →
        vecAt cell_part e.global_ ∈ (cell_counter cell_part overlap r).neighbors)
    (hrange : ∀ r s : Int,
      rowsInRange (distributeGlobalGrid view_data cell_part overlap r idCell idFace idPoint)
        (sharedLocals cell_part overlap r s) = true) :
    point_attributes view_data cell_part overlap idCell idFace idPoint getPointPartitionType a
      = some (insertTuples
          (point_handle a (getPointPartitionType a)
            (distributeGlobalGrid view_data cell_part overlap a idCell idFace idPoint))
          (List.replicate
            (distributeGlobalGrid view_data cell_part overlap a
              idCell idFace idPoint).noExistingPoints.toNat [])
          ((interfaceOf cell_part overlap a).flatMap (fun kv =>
            (sharedGlobals cell_part overlap a kv.1).flatMap
              (cellPairs view_data
                (point_indicator view_data (cell_indexset cell_part overlap a))
                (point_indicator view_data (cell_indexset cell_part overlap kv.1))
                (getPointPartitionType kv.1) kv.1)))) := by
  unfold point_attributes
  rw [all_all_cell_interface_eq cell_part overlap a hsorted hassert]
  simp only []
  by_cases hI : (interfaceOf cell_part overlap a).length ≠ 0
  · have hall : (interfaceOf cell_part overlap a).all (fun kv =>
        rowsInRange (distributeGlobalGrid view_data cell_part overlap a idCell idFace idPoint)
          kv.2.2.indices_) = true := by
      rw [List.all_eq_true]
      intro kv hkv
      rw [(mem_interfaceOf cell_part overlap a kv hkv).1]
      exact hrange a kv.1
    rw [if_pos hI, if_pos hall]
    apply forward_eq
    intro kv hkv
    obtain ⟨hidx, hne⟩ := mem_interfaceOf cell_part overlap a kv hkv
    have hnb : kv.1 ∈ (cell_counter cell_part overlap a).neighbors := by
      by_contra hcon
      exact hne (sharedLocals_of_not_neighbor cell_part overlap a kv.1 hassert hcon)
    have hka : a ≠ kv.1 := by
      intro h
      rw [← h] at hne
      exact hne (sharedLocals_self cell_part overlap a)
    refine ⟨gatherAll
        (point_handle kv.1 (getPointPartitionType kv.1)
          (distributeGlobalGrid view_data cell_part overlap kv.1 idCell idFace idPoint))
        (sharedLocals cell_part overlap kv.1 a), ?_, ?_⟩
    · unfold messageFor
      rw [all_all_cell_interface_eq cell_part overlap kv.1 hsorted (hpeers kv.1 hnb)]
      simp only []
      rw [lookup_interfaceOf cell_part overlap kv.1 a (hpeers kv.1 hnb), if_pos (hrange kv.1 a)]
    · intro v
      rw [hidx]
      exact receive_eq view_data cell_part overlap idCell idFace idPoint
        getPointPartitionType a kv.1 hka v
  · have h0 : interfaceOf cell_part overlap a = [] := by
      apply List.length_eq_zero.mp
      by_contra hcon
      exact hI hcon
    rw [if_neg hI, h0]
    rfl

theorem point_indicator_injective (view_data : CpGridData G1 G3 Tag PointType)
    (ixs : List IndexPair) (hbP : (view_data.geomVector3.length : Int) ≤ INT_MAX)
    (q1 q2 : Int) (h10 : 0 ≤ q1) (h11 : q1 < (view_data.geomVector3.length : Int))
    (h20 : 0 ≤ q2) (h21 : q2 < (view_data.geomVector3.length : Int))
    (heq : vecAt (point_indicator view_data ixs) q1 = vecAt (point_indicator view_data ixs) q2)
    (hret : vecAt (point_indicator view_data ixs) q1 < INT_MAX) : q1 = q2 := by
  have hlen := point_indicator_length view_data ixs
  have hb : ((markExistent view_data ixs).2.length : Int) ≤ INT_MAX := by
    rw [(markExistent_length view_data ixs).2]; exact hbP
  obtain ⟨x1, hx1⟩ := getElem?_of_range (point_indicator view_data ixs) h10
    (by rw [hlen]; exact h11)
  obtain ⟨x2, hx2⟩ := getElem?_of_range (point_indicator view_data ixs) h20
    (by rw [hlen]; exact h21)
  have e1 : vecAt (point_indicator view_data ixs) q1 = x1 := by
    have hc : ((q1.toNat : Nat) : Int) = q1 := by omega
    rw [← hc]; exact vecAt_of_getElem? hx1
  have e2 : vecAt (point_indicator view_data ixs) q2 = x2 := by
    have hc : ((q2.toNat : Nat) : Int) = q2 := by omega
    rw [← hc]; exact vecAt_of_getElem? hx2
  rw [e1, e2] at heq
  rw [e1] at hret
  have hinj := renumber_injective (markExistent view_data ixs).2 hb
  rcases lt_trichotomy q1 q2 with h | h | h
  · have := hinj q1.toNat q2.toNat x1 x2 (by omega) hx1 hx2 hret (by rw [← heq]; exact hret)
    omega
  · exact h
  · have := hinj q2.toNat q1.toNat x2 x1 (by omega) hx2 hx1 (by rw [← heq]; exact hret) hret
    omega

theorem lookup_of_unique {V : Type} (k : Int) (v : V) (L : List (Int × V))
    (hex : ∃ x ∈ L, x.1 = k) (hall : ∀ x ∈ L, x.1 = k → x.2 = v) :
    List.lookup k L = some v := by
  induction L with
  | nil =>
    obtain ⟨x, hx, _⟩ := hex
    exact absurd hx (List.not_mem_nil x)
  | cons y L ih =>
    rw [lookup_cons_eq]
    by_cases hy : k = y.1
    · rw [if_pos hy, hall y (List.mem_cons_self _ _) hy.symm]
    · rw [if_neg hy]
      apply ih
      · obtain ⟨x, hx, hxk⟩ := hex
        rcases List.mem_cons.mp hx with h | h
        · rw [h] at hxk
          exact absurd hxk.symm hy
        · exact ⟨x, h, hxk⟩
      · intro x hx
        exact hall x (List.mem_cons_of_mem _ hx)

theorem mem_cellPairs (view_data : CpGridData G1 G3 Tag PointType) (pa pb : List Int)
    (gpb : Int → PartitionType) (b g : Int) (x : Int × (Int × PartitionType)) :
    x ∈ cellPairs view_data pa pb gpb b g
      ↔ ∃ j : Nat, j < 8
          ∧ x = (vecAt pa (vecAt (vecAt view_data.cell_to_point_ g) (Int.ofNat j)),
                 (b, gpb (vecAt pb (vecAt (vecAt view_data.cell_to_point_ g) (Int.ofNat j))))) := by
  rw [cellPairs_eq, List.mem_map]
  constructor
  · rintro ⟨j, hj, hx⟩
    exact ⟨j, List.mem_range.mp hj, hx.symm⟩
  · rintro ⟨j, hj, hx⟩
    exact ⟨j, List.mem_range.mpr hj, hx.symm⟩

theorem point_of_cell_in_range (view_data : CpGridData G1 G3 Tag PointType) (n : Nat)
    (hlenp : view_data.cell_to_point_.length = n)
    (hrows : ∀ row ∈ view_data.cell_to_point_, row.length = 8
      ∧ ∀ q ∈ row, 0 ≤ q ∧ q < (view_data.geomVector3.length : Int))
    (g : Int) (hg0 : 0 ≤ g) (hg1 : g < (n : Int)) (j : Nat) (hj : j < 8) :
    0 ≤ vecAt (vecAt view_data.cell_to_point_ g) (Int.ofNat j)
      ∧ vecAt (vecAt view_data.cell_to_point_ g) (Int.ofNat j)
          < (view_data.geomVector3.length : Int) := by
  obtain ⟨row, hrow⟩ := getElem?_of_range view_data.cell_to_point_ hg0 (by rw [hlenp]; exact hg1)
  have hc : ((g.toNat : Nat) : Int) = g := by omega
  have e1 : vecAt view_data.cell_to_point_ g = row := by
    rw [← hc]; exact vecAt_of_getElem? hrow
  have hmem : row ∈ view_data.cell_to_point_ := List.getElem?_mem hrow
  obtain ⟨h8, hq⟩ := hrows row hmem
  have hj2 : j < row.length := by omega
  have e2 : vecAt row (Int.ofNat j) = row[j] :=
    vecAt_of_getElem? (List.getElem?_eq_getElem hj2)
  rw [e1, e2]
  exact hq _ (List.getElem_mem hj2)

theorem rowsInRange_shared [Inhabited G1] [Inhabited G3] [Inhabited Tag] [Inhabited PointType]
    (view_data : CpGridData G1 G3 Tag PointType) (cell_part : List Int)
    (overlap : List (List Int)) (idCell idFace idPoint : Int → Int)
    (hbP : (view_data.geomVector3.length : Int) ≤ INT_MAX)
    (hcons : ∀ c : Int, 0 ≤ c → c < (cell_part.length : Int) → ∀ j : Int, 0 ≤ j → j < 8 →
      (0 ≤ vecAt (vecAt view_data.cell_to_point_ c) j
        ∧ vecAt (vecAt view_data.cell_to_point_ c) j < (view_data.geomVector3.length : Int))
      ∧ ∃ fe ∈ vecAt view_data.cell_to_face_ c,
          vecAt (vecAt view_data.cell_to_point_ c) j ∈ vecAt view_data.face_to_point_ fe.index)
    (r s : Int) :
    rowsInRange (distributeGlobalGrid view_data cell_part overlap r idCell idFace idPoint)
      (sharedLocals cell_part overlap r s) = true := by
  unfold rowsInRange
  rw [List.all_eq_true]
  intro i hi
  rw [sharedLocals_eq] at hi
  obtain ⟨g, hg, rfl⟩ := List.mem_map.mp hi
  rw [(local_cell_of_shared view_data cell_part overlap r s idCell idFace idPoint g hg).2.2,
    List.all_eq_true]
  intro x hx
  unfold newCellToPointRow at hx
  obtain ⟨j, hj, rfl⟩ := List.mem_map.mp hx
  have hj8 : j < 8 := List.mem_range.mp hj
  obtain ⟨⟨hg0, hg1, hg2⟩, hcase⟩ := (mem_sharedGlobals cell_part overlap r s g).mp hg
  have hheld : ∃ a, heldAs r (vecAt overlap g) (vecAt cell_part g) = some a := by
    rw [heldAs_isSome]
    rcases hcase with h | h
    · exact Or.inl h.1
    · exact Or.inr h.2.1
  obtain ⟨a, ha⟩ := hheld
  obtain ⟨e, he, heg, _⟩ := cell_indexset_has cell_part overlap r g a hg0 hg1 hg2 ha
  obtain ⟨⟨hq0, hq1⟩, fe, hfe, hq⟩ := hcons g hg0 hg1 (Int.ofNat j)
    (by simp only [Int.ofNat_eq_coe]; omega) (by simp only [Int.ofNat_eq_coe]; omega)
  obtain ⟨h1, h2, _⟩ := point_of_touched view_data (cell_indexset cell_part overlap r) hbP
    _ hq0 hq1 ⟨e, he, fe, by rw [heg]; exact hfe, hq⟩
  rw [noExistingPoints_eq]
  simp only [Bool.and_eq_true, decide_eq_true_eq]
  exact ⟨h1, h2⟩

/-- Claim C21 as amended.  Every rank runs `distributeGlobalGrid` on the same global grid,
partition and overlap map, and every one of the 8 points of every cell lies on a face of that
cell.  The exchange on rank `a` completes, and the vector of attribute maps has one map per
retained point.  For a rank `b` other than `a`, every global cell `c` that one of the two owns
and the other holds in its overlap, and every one of the 8 points of `c`, the map of the local
index of the point on rank `a` has an entry with key `b` whose value is the partition type that
rank `b` reports for its local index of the point.  The map of a local point `x` of rank `a`
has an entry for a rank `s` exactly when `x` is one of the 8 points of a cell that one of `a`
and `s` owns and the other holds in its overlap.  The overlap sets are increasing, the
assertions of the remote index set-up hold on rank `a` and on its neighbours, the points of the
cells are indices of points, and the number of global points fits an `int`. -/
theorem attribute_exchange_over_shared_cells [Inhabited G1] [Inhabited G3] [Inhabited Tag]
    [Inhabited PointType]
    (view_data : CpGridData G1 G3 Tag PointType) (cell_part : List Int)
    (overlap : List (List Int)) (idCell idFace idPoint : Int → Int)
    (getPointPartitionType : Int → Int → PartitionType) (a : Int)
    (hsorted : ∀ ov ∈ overlap, ov.Pairwise (fun x y => x < y))
    (hassert : ∀ e ∈ cell_indexset cell_part overlap a, e.attribute_ = AttributeSet.copy →
      vecAt cell_part e.global_ ∈ (cell_counter cell_part overlap a).neighbors)
    (hpeers : ∀ r ∈ (cell_counter cell_part overlap a).neighbors,
      ∀ e ∈ cell_indexset cell_part overlap r, e.attribute_ = AttributeSet.copy →
        vecAt cell_part e.global_ ∈ (cell_counter cell_part overlap r).neighbors)
    (hbP : (view_data.geomVector3.length : Int) ≤ INT_MAX)
    (hlenp : view_data.cell_to_point_.length = cell_part.length)
    (hrows : ∀ row ∈ view_data.cell_to_point_, row.length = 8
      ∧ ∀ q ∈ row, 0 ≤ q ∧ q < (view_data.geomVector3.length : Int))
    (hcons : ∀ c : Int, 0 ≤ c → c < (cell_part.length : Int) → ∀ j : Int, 0 ≤ j → j < 8 →
      (0 ≤ vecAt (vecAt view_data.cell_to_point_ c) j
        ∧ vecAt (vecAt view_data.cell_to_point_ c) j < (view_data.geomVector3.length : Int))
      ∧ ∃ fe ∈ vecAt view_data.cell_to_face_ c,
          vecAt (vecAt view_data.cell_to_point_ c) j
            ∈ vecAt view_data.face_to_point_ fe.index) :
    ∃ attrs : List (List (Int × PartitionType)),
      point_attributes view_data cell_part overlap idCell idFace idPoint
          getPointPartitionType a = some attrs
      ∧ (attrs.length : Int)
          = (distributeGlobalGrid view_data cell_part overlap a
              idCell idFace idPoint).noExistingPoints
      ∧ (∀ b c j : Int, a ≠ b →
          0 ≤ c → c < (cell_part.length : Int) → c < (overlap.length : Int) →
          ((vecAt cell_part c = a ∧ b ∈ vecAt overlap c)
            ∨ (vecAt cell_part c = b ∧ a ∈ vecAt overlap c)) →
          0 ≤ j → j < 8 →
          vecAt (distributeGlobalGrid view_data cell_part overlap a
              idCell idFace idPoint).point_indicator
            (vecAt (vecAt view_data.cell_to_point_ c) j) < INT_MAX
          ∧ List.lookup b
              (vecAt attrs
                (vecAt (distributeGlobalGrid view_data cell_part overlap a
                    idCell idFace idPoint).point_indicator
                  (vecAt (vecAt view_data.cell_to_point_ c) j)))
            = some (getPointPartitionType b
                (vecAt (distributeGlobalGrid view_data cell_part overlap b
                    idCell idFace idPoint).point_indicator
                  (vecAt (vecAt view_data.cell_to_point_ c) j))))
      ∧ (∀ s x : Int, 0 ≤ x → x < (attrs.length : Int) →
          ((List.lookup s (vecAt attrs x)).isSome = true
            ↔ ∃ g : Int, (0 ≤ g ∧ g < (cell_part.length : Int) ∧ g < (overlap.length : Int))
                ∧ ((vecAt cell_part g = a ∧ s ∈ vecAt overlap g ∧ s ≠ a)
                  ∨ (vecAt cell_part g ≠ a ∧ a ∈ vecAt overlap g ∧ vecAt cell_part g = s))
                ∧ ∃ j : Nat, j < 8
                    ∧ vecAt (distributeGlobalGrid view_data cell_part overlap a
                          idCell idFace idPoint).point_indicator
                        (vecAt (vecAt view_data.cell_to_point_ g) (Int.ofNat j)) = x)) := by
  have hnp := noExistingPoints_eq view_data cell_part overlap a idCell idFace idPoint
  have hrange := rowsInRange_shared view_data cell_part overlap idCell idFace idPoint hbP hcons
  have hlenA : ∀ x : Int,
      x < ((insertTuples
          (point_handle a (getPointPartitionType a)
            (distributeGlobalGrid view_data cell_part overlap a idCell idFace idPoint))
          (List.replicate
            (distributeGlobalGrid view_data cell_part overlap a
              idCell idFace idPoint).noExistingPoints.toNat ([] : List (Int × PartitionType)))
          ((interfaceOf cell_part overlap a).flatMap (fun kv =>
            (sharedGlobals cell_part overlap a kv.1).flatMap
              (cellPairs view_data
                (point_indicator view_data (cell_indexset cell_part overlap a))
                (point_indicator view_data (cell_indexset cell_part overlap kv.1))
                (getPointPartitionType kv.1) kv.1)))).length : Int) →
      x < ((List.replicate
          (distributeGlobalGrid view_data cell_part overlap a
            idCell idFace idPoint).noExistingPoints.toNat
          ([] : List (Int × PartitionType))).length : Int) := by
    intro x hx
    rw [insertTuples_length] at hx
    exact hx
  have hkey : ∀ s g : Int, g ∈ sharedGlobals cell_part overlap a s →
      ∃ kv ∈ interfaceOf cell_part overlap a, kv.1 = s := by
    intro s g hg
    have hLne : sharedLocals cell_part overlap a s ≠ [] := by
      rw [sharedLocals_eq]
      intro h0
      rw [List.map_eq_nil_iff] at h0
      rw [h0] at hg
      exact absurd hg (List.not_mem_nil g)
    have hbn : s ∈ (cell_counter cell_part overlap a).neighbors := by
      by_contra hcon
      exact hLne (sharedLocals_of_not_neighbor cell_part overlap a s hassert hcon)
    exact interfaceOf_has cell_part overlap a s hbn hLne
  have hlook : ∀ s x : Int, 0 ≤ x →
      x < ((List.replicate
          (distributeGlobalGrid view_data cell_part overlap a
            idCell idFace idPoint).noExistingPoints.toNat
          ([] : List (Int × PartitionType))).length : Int) →
      List.lookup s (vecAt (insertTuples
          (point_handle a (getPointPartitionType a)
            (distributeGlobalGrid view_data cell_part overlap a idCell idFace idPoint))
          (List.replicate
            (distributeGlobalGrid view_data cell_part overlap a
              idCell idFace idPoint).noExistingPoints.toNat [])
          ((interfaceOf cell_part overlap a).flatMap (fun kv =>
            (sharedGlobals cell_part overlap a kv.1).flatMap
              (cellPairs view_data
                (point_indicator view_data (cell_indexset cell_part overlap a))
                (point_indicator view_data (cell_indexset cell_part overlap kv.1))
                (getPointPartitionType kv.1) kv.1)))) x)
        = List.lookup s (receivedFor
            (point_handle a (getPointPartitionType a)
              (distributeGlobalGrid view_data cell_part overlap a idCell idFace idPoint))
            ((interfaceOf cell_part overlap a).flatMap (fun kv =>
              (sharedGlobals cell_part overlap a kv.1).flatMap
                (cellPairs view_data
                  (point_indicator view_data (cell_indexset cell_part overlap a))
                  (point_indicator view_data (cell_indexset cell_part overlap kv.1))
                  (getPointPartitionType kv.1) kv.1))) x) := by
    intro s x hx0 hx1
    rw [lookup_insertTuples _ _ _ s hx0 _ hx1, vecAt_replicate _ _ hx0 (by simpa using hx1)]
    simp only [List.lookup_nil, Option.orElse]
  refine ⟨_, point_attributes_eq view_data cell_part overlap idCell idFace idPoint
    getPointPartitionType a hsorted hassert hpeers hrange, ?_, ?_, ?_⟩
  · rw [insertTuples_length, List.length_replicate, hnp]
    simp
  · intro b c j hab hc0 hc1 hc2 hshared hj0 hj1
    have hjc : Int.ofNat j.toNat = j := by
      simp only [Int.ofNat_eq_coe]
      omega
    have hjn : j.toNat < 8 := by omega
    obtain ⟨⟨hq0, hq1⟩, fe, hfe, hqf⟩ := hcons c hc0 hc1 j hj0 hj1
    have hcG : c ∈ sharedGlobals cell_part overlap a b := by
      rw [mem_sharedGlobals]
      refine ⟨⟨hc0, hc1, hc2⟩, ?_⟩
      rcases hshared with h | h
      · exact Or.inl ⟨h.1, h.2, fun hh => hab hh.symm⟩
      · exact Or.inr ⟨by rw [h.1]; exact fun hh => hab hh.symm, h.2, h.1⟩
    have hheld : ∃ at_, heldAs a (vecAt overlap c) (vecAt cell_part c) = some at_ := by
      rw [heldAs_isSome]
      rcases hshared with h | h
      · exact Or.inl h.1
      · exact Or.inr h.2
    obtain ⟨at_, hat⟩ := hheld
    obtain ⟨e, he, heg, _⟩ := cell_indexset_has cell_part overlap a c at_ hc0 hc1 hc2 hat
    obtain ⟨he0, he1, hret2⟩ := point_of_touched view_data (cell_indexset cell_part overlap a)
      hbP _ hq0 hq1 ⟨e, he, fe, by rw [heg]; exact hfe, hqf⟩
    refine ⟨hret2, ?_⟩
    obtain ⟨kvb, hkvb, hkvb1⟩ := hkey b c hcG
    show List.lookup b (vecAt _
      (vecAt (point_indicator view_data (cell_indexset cell_part overlap a))
        (vecAt (vecAt view_data.cell_to_point_ c) j)))
      = some (getPointPartitionType b
          (vecAt (point_indicator view_data (cell_indexset cell_part overlap b))
            (vecAt (vecAt view_data.cell_to_point_ c) j)))
    have hin : vecAt (point_indicator view_data (cell_indexset cell_part overlap a))
        (vecAt (vecAt view_data.cell_to_point_ c) j)
        < ((List.replicate
            (distributeGlobalGrid view_data cell_part overlap a
              idCell idFace idPoint).noExistingPoints.toNat
            ([] : List (Int × PartitionType))).length : Int) := by
      rw [List.length_replicate, hnp]
      simpa using he1
    rw [hlook b _ he0 hin]
    apply lookup_of_unique
    · refine ⟨(b, getPointPartitionType b
          (vecAt (point_indicator view_data (cell_indexset cell_part overlap b))
            (vecAt (vecAt view_data.cell_to_point_ c) j))), ?_, rfl⟩
      unfold receivedFor
      refine List.mem_map.mpr ⟨(vecAt (point_indicator view_data
          (cell_indexset cell_part overlap a)) (vecAt (vecAt view_data.cell_to_point_ c) j),
        (b, getPointPartitionType b
          (vecAt (point_indicator view_data (cell_indexset cell_part overlap b))
            (vecAt (vecAt view_data.cell_to_point_ c) j)))), ?_, rfl⟩
      refine List.mem_filter.mpr ⟨?_, by simp [point_handle, getIndex]⟩
      refine List.mem_flatMap.mpr ⟨kvb, hkvb, ?_⟩
      rw [hkvb1]
      refine List.mem_flatMap.mpr ⟨c, hcG, ?_⟩
      rw [mem_cellPairs]
      exact ⟨j.toNat, hjn, by rw [hjc]⟩
    · intro y hy hyb
      unfold receivedFor at hy
      obtain ⟨x, hx, hxy⟩ := List.mem_map.mp hy
      obtain ⟨hxt, hxi⟩ := List.mem_filter.mp hx
      simp only [point_handle, getIndex, decide_eq_true_eq] at hxi
      obtain ⟨kv, hkv, hxkv⟩ := List.mem_flatMap.mp hxt
      obtain ⟨g, hg, hxg⟩ := List.mem_flatMap.mp hxkv
      rw [mem_cellPairs] at hxg
      obtain ⟨j2, hj2, hxeq⟩ := hxg
      obtain ⟨⟨hg0, hg1, _⟩, _⟩ := (mem_sharedGlobals cell_part overlap a kv.1 g).mp hg
      obtain ⟨hp0, hp1⟩ := point_of_cell_in_range view_data cell_part.length hlenp hrows
        g hg0 hg1 j2 hj2
      rw [← hxy, hxeq] at hyb
      simp only at hyb
      rw [hxeq] at hxi
      simp only at hxi
      have hqq := point_indicator_injective view_data (cell_indexset cell_part overlap a) hbP
        _ _ hq0 hq1 hp0 hp1 hxi.symm hret2
      rw [← hxy, hxeq]
      simp only
      rw [hyb, ← hqq]
  · intro s x hx0 hx1
    rw [hlook s x hx0 (hlenA x hx1), lookup_isSome_iff]
    unfold receivedFor
    constructor
    · intro hmem
      obtain ⟨y, hy, hys⟩ := List.mem_map.mp hmem
      obtain ⟨pr, hpr, hpry⟩ := List.mem_map.mp hy
      obtain ⟨hprt, hpri⟩ := List.mem_filter.mp hpr
      simp only [point_handle, getIndex, decide_eq_true_eq] at hpri
      obtain ⟨kv, hkv, hxkv⟩ := List.mem_flatMap.mp hprt
      obtain ⟨g, hg, hxg⟩ := List.mem_flatMap.mp hxkv
      rw [mem_cellPairs] at hxg
      obtain ⟨j2, hj2, hxeq⟩ := hxg
      have hks : kv.1 = s := by
        rw [← hys, ← hpry, hxeq]
      rw [hks] at hg
      refine ⟨g, ((mem_sharedGlobals cell_part overlap a s g).mp hg).1,
        ((mem_sharedGlobals cell_part overlap a s g).mp hg).2, j2, hj2, ?_⟩
      rw [hxeq] at hpri
      exact hpri
    · rintro ⟨g, hgr, hgc, j2, hj2, hx⟩
      have hg : g ∈ sharedGlobals cell_part overlap a s :=
        (mem_sharedGlobals cell_part overlap a s g).mpr ⟨hgr, hgc⟩
      obtain ⟨kv, hkv, hkv1⟩ := hkey s g hg
      refine List.mem_map.mpr ⟨(s, getPointPartitionType s
          (vecAt (point_indicator view_data (cell_indexset cell_part overlap s))
            (vecAt (vecAt view_data.cell_to_point_ g) (Int.ofNat j2)))), ?_, rfl⟩
      refine List.mem_map.mpr ⟨(x, (s, getPointPartitionType s
          (vecAt (point_indicator view_data (cell_indexset cell_part overlap s))
            (vecAt (vecAt view_data.cell_to_point_ g) (Int.ofNat j2))))), ?_, rfl⟩
      refine List.mem_filter.mpr ⟨?_, by simp [point_handle, getIndex]⟩
      refine List.mem_flatMap.mpr ⟨kv, hkv, ?_⟩
      rw [hkv1]
      refine List.mem_flatMap.mpr ⟨g, hg, ?_⟩
      rw [mem_cellPairs]
      exact ⟨j2, hj2, by rw [← hx]; rfl⟩

/-- Witness of the amended claim C21: the line of three cells on three ranks with one layer of
overlap, on rank 0. -/
theorem attribute_exchange_over_shared_cells_witness :
    ∃ attrs : List (List (Int × PartitionType)),
      point_attributes threeCellGrid [0, 1, 2] [[1], [0, 2], [1]] id id id
          examplePointTypes 0 = some attrs
      ∧ (attrs.length : Int)
          = (distributeGlobalGrid threeCellGrid [0, 1, 2] [[1], [0, 2], [1]] 0
              id id id).noExistingPoints :=
  have hw := attribute_exchange_over_shared_cells threeCellGrid [0, 1, 2] [[1], [0, 2], [1]]
    id id id examplePointTypes 0 (by decide) (by decide) (by decide) (by decide) (by decide)
    (by decide)
    (by
      intro c hc0 hc1 j hj0 hj1
      have hc : c = 0 ∨ c = 1 ∨ c = 2 := by
        have : c < 3 := hc1
        omega
      have hj : j = 0 ∨ j = 1 ∨ j = 2 ∨ j = 3 ∨ j = 4 ∨ j = 5 ∨ j = 6 ∨ j = 7 := by omega
      rcases hc with rfl | rfl | rfl
        <;> rcases hj with rfl | rfl | rfl | rfl | rfl | rfl | rfl | rfl
        <;> decide)
  ⟨hw.choose, hw.choose_spec.1, hw.choose_spec.2.1⟩

/-- The attribute maps of rank 1 in the line of three cells on three ranks with one layer of
overlap, after the exchange: the points of cell 0 carry the types of rank 0, the points of
cell 2 those of rank 2, and the four points between the faces 1 and 2 those of both. -/
theorem threeCell_point_attributes_rank1 :
    point_attributes threeCellGrid [0, 1, 2] [[1], [0, 2], [1]] id id id examplePointTypes 1
      = some [[(0, PartitionType.OverlapEntity)], [(0, PartitionType.InteriorEntity)],
          [(0, PartitionType.InteriorEntity)], [(0, PartitionType.InteriorEntity)],
          [(0, PartitionType.InteriorEntity), (2, PartitionType.OverlapEntity)],
          [(0, PartitionType.InteriorEntity), (2, PartitionType.InteriorEntity)],
          [(0, PartitionType.InteriorEntity), (2, PartitionType.InteriorEntity)],
          [(0, PartitionType.InteriorEntity), (2, PartitionType.InteriorEntity)],
          [(0, PartitionType.InteriorEntity), (2, PartitionType.InteriorEntity)],
          [(0, PartitionType.InteriorEntity), (2, PartitionType.InteriorEntity)],
          [(0, PartitionType.InteriorEntity), (2, PartitionType.InteriorEntity)],
          [(0, PartitionType.InteriorEntity), (2, PartitionType.InteriorEntity)],
          [(2, PartitionType.InteriorEntity)], [(2, PartitionType.InteriorEntity)],
          [(2, PartitionType.InteriorEntity)], [(2, PartitionType.InteriorEntity)]] := by
  decide

/-! ## The point rule as a maximum -/

theorem pointRule_eq_maxType (a b : PartitionType) : pointRule a b = maxType a b := by
  cases a <;> cases b <;> rfl

theorem typeOrder_maxType (a b : PartitionType) :
    typeOrder (maxType a b) = max (typeOrder a) (typeOrder b) := by
  cases a <;> cases b <;> rfl

theorem typeOrder_foldl_maxType (L : List PartitionType) :
    ∀ x : PartitionType,
      typeOrder (L.foldl maxType x) = (L.map typeOrder).foldl max (typeOrder x) := by
  induction L with
  | nil => intro x; rfl
  | cons a L ih =>
    intro x
    rw [List.foldl_cons, ih, typeOrder_maxType, List.map_cons, List.foldl_cons]

theorem foldl_pointRule_eq_maxType (L : List PartitionType) (x : PartitionType) :
    L.foldl pointRule x = L.foldl maxType x := by
  have h : pointRule = maxType := by
    funext a b
    exact pointRule_eq_maxType a b
  rw [h]

theorem foldl_pointRule_perm (L1 L2 : List PartitionType) (h : L1.Perm L2)
    (x : PartitionType) : L1.foldl pointRule x = L2.foldl pointRule x := by
  haveI : RightCommutative pointRule := ⟨pointRule_comm⟩
  exact List.Perm.foldl_eq h x

/-- Claim C33.  One visit of a face replaces the type of a point by the greater of the type of
the point and the type of the face in the order Overlap < Interior < Front < Border.  A point
starts as `OverlapEntity`; after the loop over the faces its type is the fold of that maximum
over the types of the faces visited for it, its position in the order is the greatest position
among `OverlapEntity` and those types, and every other order of the same visits gives the same
type. -/
theorem point_type_closed_form (gf : Int → PartitionType) (rows : List (List Int)) (n : Nat)
    (j : Int) (h0 : 0 ≤ j) (h1 : j < (n : Int)) :
    (∀ old_type new_type : PartitionType, pointRule old_type new_type = maxType old_type new_type)
      ∧ vecAt (classifyPoints gf 0 rows (List.replicate n PartitionType.OverlapEntity)) j
          = (typesAt (faceVisits gf 0 rows) j).foldl maxType PartitionType.OverlapEntity
      ∧ typeOrder
            (vecAt (classifyPoints gf 0 rows (List.replicate n PartitionType.OverlapEntity)) j)
          = ((typesAt (faceVisits gf 0 rows) j).map typeOrder).foldl max 0
      ∧ (∀ L : List PartitionType, (typesAt (faceVisits gf 0 rows) j).Perm L →
          L.foldl pointRule PartitionType.OverlapEntity
            = vecAt (classifyPoints gf 0 rows (List.replicate n PartitionType.OverlapEntity)) j)
      ∧ ∀ visits : List (PartitionType × List Int), (faceVisits gf 0 rows).Perm visits →
          vecAt (classifyVisits visits (List.replicate n PartitionType.OverlapEntity)) j
            = vecAt (classifyPoints gf 0 rows (List.replicate n PartitionType.OverlapEntity))
                j := by
  have hlen : j < ((List.replicate n PartitionType.OverlapEntity).length : Int) := by
    rw [List.length_replicate]; exact h1
  have hval : vecAt (classifyPoints gf 0 rows (List.replicate n PartitionType.OverlapEntity)) j
      = (typesAt (faceVisits gf 0 rows) j).foldl pointRule PartitionType.OverlapEntity := by
    rw [classifyPoints_eq, vecAt_classifyVisits _ _ j h0 hlen, vecAt_replicate n _ h0 h1]
  refine ⟨pointRule_eq_maxType, ?_, ?_, ?_, ?_⟩
  · rw [hval, foldl_pointRule_eq_maxType]
  · rw [hval, foldl_pointRule_eq_maxType, typeOrder_foldl_maxType]
    rfl
  · intro L hL
    rw [hval]
    exact (foldl_pointRule_perm _ _ hL _).symm
  · intro visits hv
    rw [classifyPoints_eq, classifyVisits_perm _ _ hv]

theorem point_type_closed_form_witness :
    vecAt (classifyPoints (fun i => if i = 0 then PartitionType.BorderEntity
        else PartitionType.InteriorEntity) 0 [[0, 1], [1, 2]]
        (List.replicate 3 PartitionType.OverlapEntity)) 1
      = (typesAt (faceVisits (fun i => if i = 0 then PartitionType.BorderEntity
          else PartitionType.InteriorEntity) 0 [[0, 1], [1, 2]]) 1).foldl maxType
          PartitionType.OverlapEntity :=
  (point_type_closed_form (fun i => if i = 0 then PartitionType.BorderEntity
      else PartitionType.InteriorEntity) [[0, 1], [1, 2]] 3 1 (by decide) (by decide)).2.1

/-! ## The point rule and the comment of lines 899-903 -/

/-- Claim C34, evaluated where the code departs from the comment of lines 899-903.  Two faces
share the points 2 and 3; the first is of type `FrontEntity` (or `InteriorEntity`), the second
of type `OverlapEntity`.  When the second face is visited the points 2 and 3 are not of type
`BorderEntity` and neither is the face, yet the points keep their type instead of taking the
type of the face: a point of type `InteriorEntity` on a face of type `OverlapEntity` stays,
and a point of type `FrontEntity` on a face of type `InteriorEntity` or `OverlapEntity`
stays. -/
theorem point_update_contradicts_comment :
    classifyPoints
        (fun i => if i = 0 then PartitionType.FrontEntity else PartitionType.OverlapEntity) 0
        [[0, 1, 2, 3], [2, 3, 4, 5]] (List.replicate 6 PartitionType.OverlapEntity)
        = [PartitionType.FrontEntity, PartitionType.FrontEntity, PartitionType.FrontEntity,
            PartitionType.FrontEntity, PartitionType.OverlapEntity, PartitionType.OverlapEntity]
      ∧ classifyPoints
          (fun i => if i = 0 then PartitionType.InteriorEntity else PartitionType.OverlapEntity)
          0 [[0, 1, 2, 3], [2, 3, 4, 5]] (List.replicate 6 PartitionType.OverlapEntity)
        = [PartitionType.InteriorEntity, PartitionType.InteriorEntity,
            PartitionType.InteriorEntity, PartitionType.InteriorEntity,
            PartitionType.OverlapEntity, PartitionType.OverlapEntity]
      ∧ updatePoint PartitionType.OverlapEntity [PartitionType.InteriorEntity] 0
        = [PartitionType.InteriorEntity]
      ∧ updatePoint PartitionType.InteriorEntity [PartitionType.FrontEntity] 0
        = [PartitionType.FrontEntity]
      ∧ updatePoint PartitionType.OverlapEntity [PartitionType.FrontEntity] 0
        = [PartitionType.FrontEntity]
      ∧ ¬ (∀ (new_type : PartitionType) (v : List PartitionType) (p : Int), 0 ≤ p →
            p < (v.length : Int) → vecAt v p ≠ PartitionType.BorderEntity →
            new_type ≠ PartitionType.BorderEntity →
            vecAt (updatePoint new_type v p) p = new_type) := by
  refine ⟨by decide, by decide, by decide, by decide, by decide, ?_⟩
  intro h
  exact absurd
    (h PartitionType.OverlapEntity [PartitionType.InteriorEntity] 0 (by decide) (by decide)
      (by decide) (by decide))
    (by decide)

/-- The rule of lines 913-921 on the entry of the point: a face of type `BorderEntity` makes
the point `BorderEntity`, and a point of type `BorderEntity` keeps its type.  When neither is
of type `BorderEntity` the point takes the type of the face, except that a point of type
`InteriorEntity` on a face of type `OverlapEntity` and a point of type `FrontEntity` keep
their type.  No other entry of the vector changes. -/
theorem point_update_rule (new_type : PartitionType) (v : List PartitionType) (p : Int)
    (h0 : 0 ≤ p) (h1 : p < (v.length : Int)) :
    (new_type = PartitionType.BorderEntity →
        vecAt (updatePoint new_type v p) p = PartitionType.BorderEntity)
      ∧ (vecAt v p = PartitionType.BorderEntity →
          vecAt (updatePoint new_type v p) p = PartitionType.BorderEntity)
      ∧ (vecAt v p ≠ PartitionType.BorderEntity → new_type ≠ PartitionType.BorderEntity →
          vecAt (updatePoint new_type v p) p
            = if (vecAt v p = PartitionType.InteriorEntity
                  ∧ new_type = PartitionType.OverlapEntity)
                ∨ vecAt v p = PartitionType.FrontEntity
              then vecAt v p else new_type)
      ∧ (∀ j : Int, 0 ≤ j → j < (v.length : Int) → j ≠ p →
          vecAt (updatePoint new_type v p) j = vecAt v j)
      ∧ (updatePoint new_type v p).length = v.length := by
  have hp := vecAt_updatePoint new_type v p p h0 h1
  rw [if_pos rfl] at hp
  refine ⟨?_, ?_, ?_, ?_, updatePoint_length new_type v p⟩
  · intro hn
    rw [hp, hn]
    cases vecAt v p <;> rfl
  · intro ho
    rw [hp, ho]
    cases new_type <;> rfl
  · intro ho hn
    rw [hp]
    revert ho hn
    cases vecAt v p <;> cases new_type <;> simp [pointRule]
  · intro j hj0 hj1 hne
    rw [vecAt_updatePoint new_type v p j hj0 hj1, if_neg (fun h => hne h.symm)]

theorem point_update_rule_witness :
    vecAt (updatePoint PartitionType.BorderEntity
        [PartitionType.InteriorEntity, PartitionType.FrontEntity] 1) 1
      = PartitionType.BorderEntity :=
  (point_update_rule PartitionType.BorderEntity
    [PartitionType.InteriorEntity, PartitionType.FrontEntity] 1 (by decide) (by decide)).1 rfl

/-! ## Duality of the send and the receive condition -/

theorem call_eq_conditions {T : Type} [Inhabited T] (func : T → Int → T)
    (fromSet toSet : PartitionType → Bool) (map_ : List (Int × (T × T))) (rank index : Int)
    (mine other : PartitionType) :
    InterfaceFunctor.call func fromSet toSet map_ rank index mine other
      = (fun m1 =>
          if receiveCondition fromSet toSet mine other
          then mapUpdate (fun pr => (pr.1, func pr.2 index)) rank m1 else m1)
          (if sendCondition fromSet toSet mine other
           then mapUpdate (fun pr => (func pr.1 index, pr.2)) rank map_ else map_) := rfl

/-- Claim C35.  For each of the five categories the send condition of `InterfaceFunctor` at the
pair (own type `x`, recorded type `y`) is the receive condition at the pair (own type `y`,
recorded type `x`).  When rank `a` holds an entity under the index `iA` and rank `b` under the
index `iB`, and each of the two has recorded the type that the entity has on the other, the
index `iA` is in the send list of `a` for `b` exactly when `iB` is in the receive list of `b`
for `a`, and the same with send and receive exchanged. -/
theorem send_receive_duality (attrsA attrsB : List (List (Int × PartitionType)))
    (typesA typesB : List PartitionType)
    (hA : ∀ m ∈ attrsA, m.Pairwise (fun a b => a.1 < b.1))
    (hB : ∀ m ∈ attrsB, m.Pairwise (fun a b => a.1 < b.1))
    (k : Nat) (hk : k < 5) (a b iA iB : Int) (h0A : 0 ≤ iA) (h0B : 0 ≤ iB)
    (hAB : (b, vecAt typesB iB) ∈ vecAt attrsA iA)
    (hBA : (a, vecAt typesA iA) ∈ vecAt attrsB iB) :
    (∀ x y : PartitionType,
        sendCondition (Converter.SourceTuple k) (Converter.DestinationTuple k) x y
          = receiveCondition (Converter.SourceTuple k) (Converter.DestinationTuple k) y x)
      ∧ (iA ∈ sendList ((point_interfaces attrsA typesA).get k) b
          ↔ sendCondition (Converter.SourceTuple k) (Converter.DestinationTuple k)
              (vecAt typesA iA) (vecAt typesB iB) = true)
      ∧ (iA ∈ sendList ((point_interfaces attrsA typesA).get k) b
          ↔ iB ∈ receiveList ((point_interfaces attrsB typesB).get k) a)
      ∧ (iA ∈ receiveList ((point_interfaces attrsA typesA).get k) b
          ↔ iB ∈ sendList ((point_interfaces attrsB typesB).get k) a) := by
  have h1 := mem_interface_lists attrsA typesA hA k hk iA b (vecAt typesB iB) h0A hAB
  have h2 := mem_interface_lists attrsB typesB hB k hk iB a (vecAt typesA iA) h0B hBA
  refine ⟨fun _ _ => rfl, h1.1, ?_, ?_⟩
  · rw [h1.1, h2.2]
  · rw [h1.2, h2.1]

theorem send_receive_duality_witness :
    (0 : Int) ∈ sendList ((point_interfaces [[(1, PartitionType.OverlapEntity)]]
        [PartitionType.InteriorEntity]).get 1) 1
      ↔ (0 : Int) ∈ receiveList ((point_interfaces [[(0, PartitionType.InteriorEntity)]]
        [PartitionType.OverlapEntity]).get 1) 0 :=
  (send_receive_duality [[(1, PartitionType.OverlapEntity)]]
    [[(0, PartitionType.InteriorEntity)]] [PartitionType.InteriorEntity]
    [PartitionType.OverlapEntity] (by decide) (by decide) 1 (by decide) 0 1 0 0 (by decide)
    (by decide) (by decide) (by decide)).2.2.1

/-! ## An isolated rank -/

theorem attributeCalls_of_empty (types : List PartitionType)
    (attrs : List (List (Int × PartitionType))) :
    ∀ i : Int, (∀ m ∈ attrs, m = []) → attributeCalls types i attrs = [] := by
  induction attrs with
  | nil => intro i _; rfl
  | cons m attrs ih =>
    intro i h
    unfold attributeCalls
    rw [h m (List.mem_cons_self _ _), ih (i + 1) (fun m2 h2 => h m2 (List.mem_cons_of_mem _ h2))]
    rfl

/-- Claim C31.  When every attribute map of the points is empty, `createInterfaces` returns
with the five interface maps of the points empty, the All-All map among them.  In general a
rank has an entry in the map of a category exactly when some point has an attribute entry for
that rank whose pair of types meets the send condition or the receive condition of the
category; without such a point the rank has no entry. -/
theorem isolated_rank (attrs : List (List (Int × PartitionType)))
    (types : List PartitionType) :
    ((∀ m ∈ attrs, m = []) → point_interfaces attrs types = ⟨[], [], [], [], []⟩)
      ∧ ∀ k : Nat, k < 5 → ∀ r : Int,
          (r ∈ ((point_interfaces attrs types).get k).map Prod.fst
            ↔ ∃ (i : Nat) (m : List (Int × PartitionType)) (other : PartitionType),
                attrs[i]? = some m ∧ (r, other) ∈ m
                  ∧ (sendCondition (Converter.SourceTuple k) (Converter.DestinationTuple k)
                        (vecAt types (Int.ofNat i)) other = true
                      ∨ receiveCondition (Converter.SourceTuple k)
                          (Converter.DestinationTuple k) (vecAt types (Int.ofNat i)) other
                          = true)) := by
  constructor
  · intro h
    unfold point_interfaces createInterfaces interfaceSizes
    rw [iterate_over_attributes_eq, iterate_over_attributes_eq,
      attributeCalls_of_empty types attrs 0 h]
    rfl
  · intro k hk r
    rw [← lookup_isSome_iff, point_interfaces_isSome attrs types k hk r,
      interfaceSizes_isSome attrs types k hk r]
    constructor
    · rintro ⟨c, hc, hr, hcond⟩
      obtain ⟨i, m, hm, hmem, _, ht⟩ := (mem_attributeCalls types attrs 0 c).mp hc
      refine ⟨i, m, c.2.2.2, hm, by rw [← hr]; exact hmem, ?_⟩
      have ht2 : c.2.2.1 = vecAt types (Int.ofNat i) := by
        rw [ht]
        congr 1
        simp
      unfold sendCondition receiveCondition
      rw [← ht2]
      exact hcond
    · rintro ⟨i, m, other, hm, hmem, hcond⟩
      refine ⟨(r, (i : Int), vecAt types (Int.ofNat i), other), ?_, rfl, hcond⟩
      exact (mem_attributeCalls types attrs 0 _).mpr
        ⟨i, m, hm, hmem, by simp, by simp⟩

/-! ## Unique boundary ids -/

theorem boundaryCount_zero (face_to_cell_ : List (List EntityRep)) :
    boundaryCount face_to_cell_ 0 = 0 := by
  simp [boundaryCount]

theorem boundaryCount_cons_succ (row : List EntityRep) (rows : List (List EntityRep))
    (k : Nat) :
    boundaryCount (row :: rows) (k + 1)
      = boundaryCount rows k + if row.length = 1 then 1 else 0 := by
  unfold boundaryCount
  rw [List.take_succ_cons, List.countP_cons]
  simp

theorem boundaryCount_le (rows : List (List EntityRep)) (k : Nat) :
    boundaryCount rows k ≤ rows.countP (fun row => decide (row.length = 1)) :=
  List.Sublist.countP_le _ (List.take_sublist k rows)

theorem boundaryCount_mono (rows : List (List EntityRep)) {m n : Nat} (h : m ≤ n) :
    boundaryCount rows m ≤ boundaryCount rows n :=
  List.Sublist.countP_le _ (List.take_sublist_take_left rows h)

theorem boundaryCount_succ (rows : List (List EntityRep)) (k : Nat) (row : List EntityRep)
    (h : rows[k]? = some row) :
    boundaryCount rows (k + 1) = boundaryCount rows k + if row.length = 1 then 1 else 0 := by
  unfold boundaryCount
  rw [List.take_succ, h, List.countP_append]
  by_cases hv : row.length = 1
  · simp [hv, List.countP_cons]
  · simp [hv, List.countP_cons]

theorem vecSet_natCast {α : Type} (v : List α) (n : Nat) (x : α) :
    vecSet v (Int.ofNat n) x = v.set n x := by
  unfold vecSet
  simp

theorem boundaryIds_loop (face_to_cell_ : List (List EntityRep)) :
    ∀ n : Nat, n ≤ face_to_cell_.length →
      (List.range n).foldl
          (fun (st : Int × List Int) (i : Nat) =>
            if (vecAt face_to_cell_ (Int.ofNat i)).length = 1 then
              (st.1 + 1, vecSet st.2 (Int.ofNat i) (st.1 + 1))
            else st)
          (0, List.replicate face_to_cell_.length 0)
        = ((boundaryCount face_to_cell_ n : Int),
           (List.range face_to_cell_.length).map (fun j : Nat =>
              if j < n ∧ (vecAt face_to_cell_ (Int.ofNat j)).length = 1
              then ((boundaryCount face_to_cell_ (j + 1) : Nat) : Int) else 0)) := by
  intro n
  induction n with
  | zero =>
    intro _
    rw [List.range_zero, List.foldl_nil, boundaryCount_zero]
    refine Prod.ext rfl ?_
    apply List.ext_getElem?
    intro k
    by_cases hk : k < face_to_cell_.length
    · simp [hk, List.getElem?_replicate]
    · simp [hk, List.getElem?_replicate]
  | succ n ih =>
    intro hn
    have hlt : n < face_to_cell_.length := by omega
    obtain ⟨row, hrow⟩ : ∃ row, face_to_cell_[n]? = some row :=
      ⟨_, List.getElem?_eq_getElem hlt⟩
    have hat : vecAt face_to_cell_ (Int.ofNat n) = row := vecAt_of_getElem? hrow
    have hcases : ∀ k : Nat, (k < n + 1 ∧ (vecAt face_to_cell_ (Int.ofNat k)).length = 1)
        ↔ ((k < n ∧ (vecAt face_to_cell_ (Int.ofNat k)).length = 1)
            ∨ (k = n ∧ row.length = 1)) := by
      intro k
      constructor
      · rintro ⟨a, b⟩
        by_cases hkn : k = n
        · subst hkn
          rw [hat] at b
          exact Or.inr ⟨rfl, b⟩
        · exact Or.inl ⟨by omega, b⟩
      · rintro (⟨a, b⟩ | ⟨a, b⟩)
        · exact ⟨by omega, b⟩
        · subst a
          rw [hat]
          exact ⟨by omega, b⟩
    rw [List.range_succ, List.foldl_append, ih (by omega), List.foldl_cons, List.foldl_nil,
      hat, boundaryCount_succ face_to_cell_ n row hrow]
    by_cases h1 : row.length = 1
    · rw [if_pos h1, if_pos h1]
      refine Prod.ext (by push_cast; rfl) ?_
      show vecSet _ (Int.ofNat n) _ = _
      rw [vecSet_natCast]
      apply List.ext_getElem?
      intro k
      rw [List.getElem?_set, List.getElem?_map, List.getElem?_map, List.length_map,
        List.length_range]
      by_cases hkl : k < face_to_cell_.length
      · rw [List.getElem?_range hkl]
        simp only [Option.map_some']
        by_cases hk : n = k
        · subst hk
          rw [if_pos rfl, if_pos hlt, if_pos ((hcases n).mpr (Or.inr ⟨rfl, h1⟩)),
            boundaryCount_succ face_to_cell_ n row hrow, if_pos h1]
          push_cast
          rfl
        · rw [if_neg hk]
          congr 1
          by_cases hc : k < n ∧ (vecAt face_to_cell_ (Int.ofNat k)).length = 1
          · rw [if_pos hc, if_pos ((hcases k).mpr (Or.inl hc))]
          · have hc2 : ¬ (k < n + 1 ∧ (vecAt face_to_cell_ (Int.ofNat k)).length = 1) := by
              intro hh
              rcases (hcases k).mp hh with h2 | h2
              · exact hc h2
              · exact hk h2.1.symm
            rw [if_neg hc, if_neg hc2]
      · have hnone : (List.range face_to_cell_.length)[k]? = none :=
          List.getElem?_eq_none (by rw [List.length_range]; omega)
        rw [hnone]
        by_cases hk : n = k
        · omega
        · rw [if_neg hk]
          rfl
    · rw [if_neg h1, if_neg h1]
      refine Prod.ext (by push_cast; rfl) ?_
      show List.map _ _ = List.map _ _
      apply List.map_congr_left
      intro k _
      by_cases hc : k < n ∧ (vecAt face_to_cell_ (Int.ofNat k)).length = 1
      · rw [if_pos hc, if_pos ((hcases k).mpr (Or.inl hc))]
      · have hc2 : ¬ (k < n + 1 ∧ (vecAt face_to_cell_ (Int.ofNat k)).length = 1) := by
          intro hh
          rcases (hcases k).mp hh with h2 | h2
          · exact hc h2
          · exact h1 h2.2
        rw [if_neg hc, if_neg hc2]

theorem computeUniqueBoundaryIds_eq (face_to_cell_ : List (List EntityRep)) :
    computeUniqueBoundaryIds face_to_cell_
      = (List.range face_to_cell_.length).map (fun j : Nat =>
          if (vecAt face_to_cell_ (Int.ofNat j)).length = 1
          then ((boundaryCount face_to_cell_ (j + 1) : Nat) : Int) else 0) := by
  unfold computeUniqueBoundaryIds
  simp only []
  rw [boundaryIds_loop face_to_cell_ _ (le_refl _)]
  apply List.map_congr_left
  intro k hk
  have hk2 : k < face_to_cell_.length := List.mem_range.mp hk
  by_cases hc : (vecAt face_to_cell_ (Int.ofNat k)).length = 1
  · rw [if_pos hc, if_pos ⟨hk2, hc⟩]
  · rw [if_neg hc, if_neg (fun hh => hc hh.2)]

theorem vecAt_cons_succ {α : Type} [Inhabited α] (x : α) (xs : List α) (k : Nat) :
    vecAt (x :: xs) (Int.ofNat (k + 1)) = vecAt xs (Int.ofNat k) := by
  have e1 : Int.ofNat (k + 1) = ((k + 1 : Nat) : Int) := rfl
  have e2 : Int.ofNat k = (k : Int) := rfl
  rw [e1, e2, vecAt_natCast, vecAt_natCast]
  rfl

theorem boundaryIdsFrom_eq (rows : List (List EntityRep)) :
    ∀ count : Int,
      boundaryIdsFrom count rows
        = (List.range rows.length).map (fun j : Nat =>
            if (vecAt rows (Int.ofNat j)).length = 1
            then count + ((boundaryCount rows (j + 1) : Nat) : Int) else 0) := by
  induction rows with
  | nil => intro count; rfl
  | cons row rows ih =>
    intro count
    rw [List.length_cons, List.range_succ_eq_map, List.map_cons, List.map_map]
    have h0 : vecAt (row :: rows) (Int.ofNat 0) = row := rfl
    have hc0 : boundaryCount (row :: rows) (0 + 1) = if row.length = 1 then 1 else 0 := by
      rw [boundaryCount_cons_succ, boundaryCount_zero, Nat.zero_add]
    unfold boundaryIdsFrom
    by_cases h1 : row.length = 1
    · rw [if_pos h1, h0, if_pos h1, hc0, if_pos h1, ih]
      congr 1
      apply List.map_congr_left
      intro k _
      simp only [Function.comp, Nat.succ_eq_add_one]
      rw [vecAt_cons_succ, boundaryCount_cons_succ, if_pos h1]
      split
      · push_cast; ring
      · rfl
    · rw [if_neg h1, h0, if_neg h1, ih]
      congr 1
      apply List.map_congr_left
      intro k _
      simp only [Function.comp, Nat.succ_eq_add_one]
      rw [vecAt_cons_succ, boundaryCount_cons_succ, if_neg h1]
      rfl

theorem computeUniqueBoundaryIds_eq_from (face_to_cell_ : List (List EntityRep)) :
    computeUniqueBoundaryIds face_to_cell_ = boundaryIdsFrom 0 face_to_cell_ := by
  rw [computeUniqueBoundaryIds_eq, boundaryIdsFrom_eq]
  apply List.map_congr_left
  intro k _
  simp

theorem boundaryIdsFrom_filter (rows : List (List EntityRep)) :
    ∀ count : Int, 0 ≤ count →
      (boundaryIdsFrom count rows).filter (fun x => decide (x ≠ 0))
        = (List.range (rows.countP (fun row => decide (row.length = 1)))).map
            (fun k : Nat => count + (k : Int) + 1) := by
  induction rows with
  | nil => intro count _; rfl
  | cons row rows ih =>
    intro count hc
    unfold boundaryIdsFrom
    rw [List.countP_cons]
    by_cases h1 : row.length = 1
    · have hne : count + 1 ≠ 0 := by omega
      simp only [h1, decide_True, if_true, List.filter_cons, hne, ne_eq, not_false_eq_true]
      rw [List.range_succ_eq_map, List.map_cons, List.map_map, ih (count + 1) (by omega)]
      congr 1
      · simp
      · apply List.map_congr_left
        intro k _
        simp only [Function.comp, Nat.succ_eq_add_one]
        push_cast
        ring
    · simp only [h1, decide_False, Bool.false_eq_true, if_false, List.filter_cons, ne_eq,
        not_true_eq_false, Nat.add_zero]
      exact ih count hc

/-- Claim C32.  The vector that `computeUniqueBoundaryIds` returns has one id per face.  A face
whose row of the face-to-cell table has exactly one entry gets the number of such faces up to
and including itself, so with `n` such faces their ids are 1, 2, ..., n in the order of the
faces: the ids that are not 0, read in the order of the faces, are the list 1, ..., n; they
increase with the face, and they lie between 1 and n.  Every other face gets the id 0. -/
theorem unique_boundary_ids (face_to_cell_ : List (List EntityRep)) :
    (computeUniqueBoundaryIds face_to_cell_).length = face_to_cell_.length
      ∧ (∀ (i : Nat) (row : List EntityRep), face_to_cell_[i]? = some row →
          (computeUniqueBoundaryIds face_to_cell_)[i]?
              = some (if row.length = 1 then ((boundaryCount face_to_cell_ (i + 1) : Nat) : Int)
                  else 0)
            ∧ (row.length = 1 → 1 ≤ boundaryCount face_to_cell_ (i + 1)
                ∧ boundaryCount face_to_cell_ (i + 1)
                    ≤ face_to_cell_.countP (fun row => decide (row.length = 1))))
      ∧ (computeUniqueBoundaryIds face_to_cell_).filter (fun x => decide (x ≠ 0))
          = (List.range (face_to_cell_.countP (fun row => decide (row.length = 1)))).map
              (fun k : Nat => (k : Int) + 1)
      ∧ (∀ (i j : Nat) (rowi rowj : List EntityRep), i < j → face_to_cell_[i]? = some rowi →
          face_to_cell_[j]? = some rowj → rowi.length = 1 → rowj.length = 1 →
          vecAt (computeUniqueBoundaryIds face_to_cell_) (Int.ofNat i)
            < vecAt (computeUniqueBoundaryIds face_to_cell_) (Int.ofNat j)) := by
  have hpt : ∀ (i : Nat) (row : List EntityRep), face_to_cell_[i]? = some row →
      (computeUniqueBoundaryIds face_to_cell_)[i]?
        = some (if row.length = 1 then ((boundaryCount face_to_cell_ (i + 1) : Nat) : Int)
            else 0) := by
    intro i row hrow
    have hi : i < face_to_cell_.length := (List.getElem?_eq_some.mp hrow).1
    rw [computeUniqueBoundaryIds_eq, List.getElem?_map, List.getElem?_range hi]
    simp only [Option.map_some']
    have hat : vecAt face_to_cell_ (Int.ofNat i) = row := vecAt_of_getElem? hrow
    rw [hat]
  refine ⟨?_, ?_, ?_, ?_⟩
  · rw [computeUniqueBoundaryIds_eq, List.length_map, List.length_range]
  · intro i row hrow
    refine ⟨hpt i row hrow, ?_⟩
    intro h1
    have hs := boundaryCount_succ face_to_cell_ i row hrow
    rw [if_pos h1] at hs
    exact ⟨by omega, boundaryCount_le face_to_cell_ (i + 1)⟩
  · rw [computeUniqueBoundaryIds_eq_from, boundaryIdsFrom_filter face_to_cell_ 0 (le_refl _)]
    apply List.map_congr_left
    intro k _
    ring
  · intro i j rowi rowj hij hi hj h1 h2
    have e1 : Int.ofNat i = (i : Int) := rfl
    have e2 : Int.ofNat j = (j : Int) := rfl
    rw [e1, e2, vecAt_of_getElem? (hpt i rowi hi), vecAt_of_getElem? (hpt j rowj hj), if_pos h1,
      if_pos h2]
    have hs := boundaryCount_succ face_to_cell_ j rowj hj
    rw [if_pos h2] at hs
    have hm := boundaryCount_mono face_to_cell_ (show i + 1 ≤ j by omega)
    omega

/-! ## A sequence of calls of `scatter` -/

theorem scatterLoop_of_le {E : Type} (h : AttributeDataHandle E) (row : List E) :
    ∀ (buffer : List (Int × PartitionType)) (s : Nat)
      (vals_ : List (List (Int × PartitionType))), row.length ≤ buffer.length →
      h.scatterLoop row s vals_ buffer
        = some (insertTuples h vals_ (row.zip buffer), buffer.drop row.length) := by
  induction row with
  | nil => intro buffer s vals_ _; rfl
  | cons f row ih =>
    intro buffer s vals_ hlen
    cases buffer with
    | nil => simp at hlen
    | cons t buffer =>
      simp only [List.length_cons, Nat.add_le_add_iff_right] at hlen
      have hstep : h.scatterLoop (f :: row) s vals_ (t :: buffer)
          = h.scatterLoop row ((s + 2 ^ 64 - 1) % 2 ^ 64)
              (vecSet vals_ (h.getIndex f) (mapInsert t (vecAt vals_ (h.getIndex f))))
              buffer := rfl
      rw [hstep, ih buffer _ _ hlen]
      rfl

theorem scatterCalls_eq {E : Type} (h : AttributeDataHandle E)
    (calls : List (Nat × Nat × List (Int × PartitionType))) :
    (∀ c ∈ calls, h.size c.1 ≤ c.2.2.length) →
    ∀ vals_ : List (List (Int × PartitionType)),
      scatterCalls h calls vals_
        = some (insertTuples h vals_
            (calls.flatMap (fun c => (vecAt h.c2e_ (Int.ofNat c.1)).zip c.2.2))) := by
  induction calls with
  | nil => intro _ vals_; rfl
  | cons c calls ih =>
    intro hlen vals_
    have hc := hlen c (List.mem_cons_self _ _)
    have hstep : h.scatter vals_ c.2.2 c.1 c.2.1
        = some (insertTuples h vals_ ((vecAt h.c2e_ (Int.ofNat c.1)).zip c.2.2),
            c.2.2.drop (vecAt h.c2e_ (Int.ofNat c.1)).length) :=
      scatterLoop_of_le h _ _ _ vals_ hc
    unfold scatterCalls
    rw [hstep]
    simp only []
    rw [ih (fun y hy => hlen y (List.mem_cons_of_mem _ hy)), List.flatMap_cons,
      insertTuples_append]

theorem count_key_le_one {V : Type} (m : List (Int × V))
    (hm : m.Pairwise (fun a b => a.1 < b.1)) (r : Int) : (m.map Prod.fst).count r ≤ 1 := by
  have hnd : (m.map Prod.fst).Nodup := by
    unfold List.Nodup
    rw [List.pairwise_map]
    exact hm.imp (fun h => ne_of_lt h)
  exact List.nodup_iff_count_le_one.mp hnd r

/-- Claim C37.  A sequence of calls of `scatter`, each on a buffer that holds at least the
tuples of its row, returns, and the maps it leaves hold at most one entry per rank.  The
entry that the map of an entity holds for a rank is the entry it held before the calls, or
else the first tuple with that rank that was read for the entity.  A single tuple whose rank
is already in the map of its entity leaves `vals_` as it was. -/
theorem scatter_never_overwrites {E : Type} (h : AttributeDataHandle E)
    (calls : List (Nat × Nat × List (Int × PartitionType)))
    (vals_ : List (List (Int × PartitionType)))
    (hvals : ∀ m ∈ vals_, m.Pairwise (fun a b => a.1 < b.1))
    (hbuf : ∀ c ∈ calls, h.size c.1 ≤ c.2.2.length) :
    ∃ result : List (List (Int × PartitionType)),
      scatterCalls h calls vals_ = some result
        ∧ result.length = vals_.length
        ∧ (∀ m ∈ result, ∀ r : Int, (m.map Prod.fst).count r ≤ 1)
        ∧ (∀ e r : Int, 0 ≤ e → e < (vals_.length : Int) →
            List.lookup r (vecAt result e)
              = (List.lookup r (vecAt vals_ e)).orElse
                  (fun _ => List.lookup r
                    (receivedFor h
                      (calls.flatMap (fun c => (vecAt h.c2e_ (Int.ofNat c.1)).zip c.2.2)) e)))
        ∧ (∀ (f : E) (rank_attr : Int × PartitionType) (s : Nat),
            rank_attr.1 ∈ (vecAt result (h.getIndex f)).map Prod.fst →
            h.scatterLoop [f] s result [rank_attr] = some (result, [])) := by
  refine ⟨_, scatterCalls_eq h calls hbuf vals_, insertTuples_length h _ vals_, ?_, ?_, ?_⟩
  · intro m hm r
    exact count_key_le_one m (insertTuples_increasing h _ vals_ hvals m hm) r
  · intro e r h0 h1
    exact lookup_insertTuples h _ e r h0 vals_ h1
  · intro f rank_attr s hin
    have hstep : h.scatterLoop [f] s
          (insertTuples h vals_
            (calls.flatMap (fun c => (vecAt h.c2e_ (Int.ofNat c.1)).zip c.2.2))) [rank_attr]
        = some (vecSet _ (h.getIndex f) (mapInsert rank_attr (vecAt _ (h.getIndex f))), []) :=
      rfl
    rw [hstep]
    unfold mapInsert
    rw [if_pos hin, vecSet_self]

theorem scatter_never_overwrites_witness :
    ∃ result : List (List (Int × PartitionType)),
      scatterCalls examplePointHandle
          [(0, 2, [((0 : Int), PartitionType.InteriorEntity), (0, PartitionType.BorderEntity)]),
           (1, 2, [((0 : Int), PartitionType.FrontEntity), (2, PartitionType.OverlapEntity)])]
          [[], [], []] = some result
        ∧ result.length = 3 :=
  have hw := scatter_never_overwrites examplePointHandle
    [(0, 2, [((0 : Int), PartitionType.InteriorEntity), (0, PartitionType.BorderEntity)]),
     (1, 2, [((0 : Int), PartitionType.FrontEntity), (2, PartitionType.OverlapEntity)])]
    [[], [], []] (by decide) (by decide)
  ⟨hw.choose, hw.choose_spec.1, hw.choose_spec.2.1⟩

/-! ## The neighbour set of a rank -/

theorem owner_of_copy_ne (cell_part : List Int) (overlap : List (List Int)) (p : Int)
    (e : IndexPair) (he : e ∈ cell_indexset cell_part overlap p)
    (ha : e.attribute_ = AttributeSet.copy) : vecAt cell_part e.global_ ≠ p := by
  obtain ⟨_, _, _, hheld⟩ := cell_indexset_entry cell_part overlap p e he
  rw [ha] at hheld
  exact ((heldAs_copy _ _ _).mp hheld).1

theorem buildMatrix_views (dim : Int) (sz : List Int) (ci : Nat) (nf : Int)
    (h : sz[ci]? = some nf) (hpos : 0 < nf) :
    (MimeticIPAnisoRelpermEvaluator.buildMatrix_second_term nf).numEntries
        = vecAt (MimeticIPAnisoRelpermEvaluator.reserveMatrices dim sz).second_term_ (ci : Int)
      ∧ ((MimeticIPAnisoRelpermEvaluator.buildMatrix_n nf).numEntries
            ≤ vecAt (MimeticIPAnisoRelpermEvaluator.reserveMatrices dim sz).n_ (ci : Int)
          ↔ nf ≤ dim)
      ∧ (MimeticIPAnisoRelpermEvaluator.getInverseMatrix_n dim nf).numEntries
          = vecAt (MimeticIPAnisoRelpermEvaluator.reserveMatrices dim sz).n_ (ci : Int) := by
  have h1 : (sz.map (fun x => x * x))[ci]? = some (nf * nf) := by
    rw [List.getElem?_map, h]; rfl
  have h2 : (sz.map (fun x => x * dim))[ci]? = some (nf * dim) := by
    rw [List.getElem?_map, h]; rfl
  unfold MimeticIPAnisoRelpermEvaluator.reserveMatrices
    MimeticIPAnisoRelpermEvaluator.buildMatrix_second_term
    MimeticIPAnisoRelpermEvaluator.buildMatrix_n
    MimeticIPAnisoRelpermEvaluator.getInverseMatrix_n FortranMatrixView.numEntries
  simp only []
  rw [vecAt_of_getElem? h1, vecAt_of_getElem? h2]
  refine ⟨rfl, ?_, rfl⟩
  constructor
  · intro hle
    exact le_of_mul_le_mul_left hle hpos
  · intro hle
    exact mul_le_mul_of_nonneg_left hle (le_of_lt hpos)

/-- Claim C38, evaluated on a cell with six faces in three dimensions.  `reserveMatrices`
gives the row of the cell in `n_` 18 entries, and the view `n` of `buildMatrix`, which `zero`
clears in full, covers 36 entries: more than the row holds.  The view `n` of
`getInverseMatrix` covers the 18 entries of the row.  The row of `second_term_` has 36 entries,
as many as the view over it covers. -/
theorem buildMatrix_n_view_exceeds_row :
    vecAt (MimeticIPAnisoRelpermEvaluator.reserveMatrices 3 [6]).n_ 0 = 18
      ∧ (MimeticIPAnisoRelpermEvaluator.buildMatrix_n 6).numEntries = 36
      ∧ ¬ ((MimeticIPAnisoRelpermEvaluator.buildMatrix_n 6).numEntries
            ≤ vecAt (MimeticIPAnisoRelpermEvaluator.reserveMatrices 3 [6]).n_ 0)
      ∧ (MimeticIPAnisoRelpermEvaluator.getInverseMatrix_n 3 6).numEntries = 18
      ∧ vecAt (MimeticIPAnisoRelpermEvaluator.reserveMatrices 3 [6]).second_term_ 0 = 36
      ∧ (MimeticIPAnisoRelpermEvaluator.buildMatrix_second_term 6).numEntries = 36 := by
  decide

/-! ## Capacity of the local face-to-cell table -/

theorem dataSize_forEachAssign (face_to_cell_ : List (List EntityRep)) (ind : List Int) :
    ∀ (a : AssignAndIncrement) (acc : Int),
      a.i_ + (ind.countP isExistent : Int) ≤ INT_MAX →
      (forEachAssign a ind).foldl
          (fun data_size f =>
            if f < INT_MAX then data_size + ((vecAt face_to_cell_ f).length : Int)
            else data_size)
          acc
        = acc + ((List.range (ind.countP isExistent)).map
            (fun k : Nat => ((vecAt face_to_cell_ (a.i_ + (k : Int))).length : Int))).sum := by
  induction ind with
  | nil => intro a acc _; simp [forEachAssign]
  | cons v vs ih =>
    intro a acc hb
    unfold forEachAssign AssignAndIncrement.call
    rw [List.countP_cons] at hb ⊢
    by_cases hv : v < INT_MAX
    · have hex : isExistent v = true := (isExistent_iff v).mpr hv
      simp only [hv, hex, if_true, List.foldl_cons] at hb ⊢
      have hlt : a.i_ < INT_MAX := by push_cast at hb; omega
      rw [if_pos hlt, ih ⟨a.i_ + 1⟩ _ (by push_cast at hb ⊢; omega), List.range_succ_eq_map,
        List.map_cons, List.map_map, List.sum_cons]
      have hmap : (List.range (List.countP isExistent vs)).map
            ((fun k : Nat => ((vecAt face_to_cell_ (a.i_ + (k : Int))).length : Int)) ∘ Nat.succ)
          = (List.range (List.countP isExistent vs)).map
            (fun k : Nat => ((vecAt face_to_cell_ (a.i_ + 1 + (k : Int))).length : Int)) := by
        apply List.map_congr_left
        intro k _
        simp only [Function.comp, Nat.succ_eq_add_one]
        congr 3
        push_cast
        ring
      rw [hmap]
      simp only [Nat.cast_zero, add_zero]
      ring
    · have hex : isExistent v = false := by
        rw [← Bool.not_eq_true, isExistent_iff]; exact hv
      simp only [hv, hex, if_false, List.foldl_cons, Bool.false_eq_true, Nat.add_zero] at hb ⊢
      exact ih a acc hb

theorem faceToCellDataSize_eq (view_data : CpGridData G1 G3 Tag PointType)
    (ixs : List IndexPair) (hb : (view_data.geomVector1.length : Int) ≤ INT_MAX) :
    faceToCellDataSize view_data (face_indicator view_data ixs)
      = ((List.range ((face_indicator view_data ixs).countP isExistent)).map
          (fun k : Nat => ((vecAt view_data.face_to_cell_ (k : Int)).length : Int))).sum := by
  have hlen := (markExistent_length view_data ixs).1
  have hb2 : ((markExistent view_data ixs).1.length : Int) ≤ INT_MAX := by rw [hlen]; exact hb
  have hc := List.countP_le_length isExistent (l := (markExistent view_data ixs).1)
  unfold faceToCellDataSize face_indicator
  rw [countP_renumber _ hb2]
  unfold renumber
  rw [dataSize_forEachAssign view_data.face_to_cell_ _ ⟨0⟩ 0 (by simp only []; omega)]
  simp

/-- Claim C39, evaluated on the line of three cells with one cell per rank and no overlap, on
rank 1.  The rank keeps the faces 1 and 2, which get the local numbers 0 and 1; the loop of
lines 750-754 adds the sizes of the rows 0 and 1 of the global face-to-cell table, which is
3, and lines 764-787 append the rows 1 and 2, which hold 4 entries: `data_size` is smaller
than the number of entries appended.  The capacity of the cell-to-face table, which lines
717-723 sum over `i->global()`, is the number of entries appended there. -/
theorem face_to_cell_capacity_short :
    face_indicator threeCellGrid (cell_indexset [0, 1, 2] [[], [], []] 1)
        = [INT_MAX, 0, 1, INT_MAX]
      ∧ faceToCellDataSize threeCellGrid
          (face_indicator threeCellGrid (cell_indexset [0, 1, 2] [[], [], []] 1)) = 3
      ∧ (((distributeGlobalGrid threeCellGrid [0, 1, 2] [[], [], []] 1 (fun i => i)
            (fun i => i) (fun i => i)).face_to_cell_.map List.length).sum) = 4
      ∧ cellToFaceDataSize threeCellGrid (cell_indexset [0, 1, 2] [[], [], []] 1) = 2
      ∧ (((distributeGlobalGrid threeCellGrid [0, 1, 2] [[], [], []] 1 (fun i => i)
            (fun i => i) (fun i => i)).cell_to_face_.map List.length).sum) = 2 := by
  decide

/-! ## The overlap map of the overlap growth -/

/-- The overlap maps of the line of three cells on three ranks: without a layer no cell has a
copy, with one layer every cell is copied to the ranks of its face-neighbours, with two layers
to every other rank. -/
theorem threeCell_overlap_maps :
    addOverlapLayer threeCellGrid [0, 1, 2] 0 = [[], [], []]
      ∧ addOverlapLayer threeCellGrid [0, 1, 2] 1 = [[1], [0, 2], [1]]
      ∧ addOverlapLayer threeCellGrid [0, 1, 2] 2 = [[1, 2], [0, 2], [0, 1]] := by
  decide

/-- Two cells whose points 4 to 7 lie on no face, with one layer of overlap: the rows of the
local `cell_to_point_` of rank 0 hold `INT_MAX`, with which `gather` and `scatter` would index
out of range, so the exchange has no defined result. -/
theorem exchange_undefined_off_face :
    (distributeGlobalGrid twoOneFaceGrid [0, 1] [[1], [0]] 0 id id id).cell_to_point_
        = [[0, 1, 2, 3, INT_MAX, INT_MAX, INT_MAX, INT_MAX],
           [0, 1, 2, 3, INT_MAX, INT_MAX, INT_MAX, INT_MAX]]
      ∧ point_attributes twoOneFaceGrid [0, 1] [[1], [0]] id id id examplePointTypes 0
          = none := by
  decide

end Dune.cpgrid
